import Mathlib

/-!
# libsoup-pipelining: dispatcher pool and per-connection I/O dispatcher

A shallow embedding of `soup-io-dispatcher.c`, `soup-io-dispatcher-client.c`,
`soup-io-dispatcher-misc.c` and `soup-io-dispatcher-pool.c`.

Conventions of the embedding

* GObject instances are records; a pointer to an instance is the record's `id`.
* `guint` counters are naturals below `2 ^ 32`; every update reduces modulo `2 ^ 32`.
* A `GQueue` of `SoupMessageIOData` is the list of the identities of its elements, head
  first.  The `GList *` link that an item keeps for a queue (`read_queue`, `write_queue`,
  `paused_queue`) is non-null exactly when the item's identity is in that list.
* A `GHashTable` is an association list; `g_hash_table_lookup` returns the first entry.
* Signals and callbacks leaving the dispatcher are appended to the dispatcher's `trace`.
* Locks (`priv->lock`, `priv->unlock`) and reference counts have no counterpart.
-/

namespace Soup

/-! ## Machine integers -/

/-- The number of values of a `guint`. -/
def GUINT_MOD : Nat := 4294967296

/-- `g_atomic_int_inc` on a `guint`. -/
def guint_inc (x : Nat) : Nat := (x + 1) % GUINT_MOD

/-- `g_atomic_int_add (&x, -1)` on a `guint`: the predecessor modulo `2 ^ 32`, so that 0
wraps to `2 ^ 32 - 1`. -/
def guint_dec (x : Nat) : Nat :=
  if x % GUINT_MOD = 0 then GUINT_MOD - 1 else x % GUINT_MOD - 1

/-- `g_atomic_int_get` reads a `guint` counter as a `gint`. -/
def as_gint (x : Nat) : Int :=
  if x % GUINT_MOD < 2147483648 then (x % GUINT_MOD : Nat) else ((x % GUINT_MOD : Nat) : Int) - 4294967296

/-- Conversion of a `gint` expression to `guint`. -/
def to_guint (x : Int) : Nat := (x % 4294967296).toNat

/-! ## Enumerations -/

/-- `SoupMessageIOState` of `soup-io-dispatcher-misc.h`, in declaration order. -/
inductive SoupMessageIOState
  | NOT_STARTED | HEADERS | BLOCKING | BODY | CHUNK_SIZE | CHUNK | CHUNK_END | TRAILERS
  | FINISHING | DONE
  deriving DecidableEq, Repr

/-- The integer value of the enumerator. -/
def SoupMessageIOState.ord : SoupMessageIOState → Nat
  | .NOT_STARTED => 0 | .HEADERS => 1 | .BLOCKING => 2 | .BODY => 3 | .CHUNK_SIZE => 4
  | .CHUNK => 5 | .CHUNK_END => 6 | .TRAILERS => 7 | .FINISHING => 8 | .DONE => 9

/-- `SOUP_MESSAGE_IO_STATE_ACTIVE`. -/
def SOUP_MESSAGE_IO_STATE_ACTIVE (state : SoupMessageIOState) : Bool :=
  state != .NOT_STARTED && state != .BLOCKING && state != .DONE

/-- `SoupEncoding` of libsoup's `soup-message-headers.h`. -/
inductive SoupEncoding
  | UNRECOGNIZED | NONE | CONTENT_LENGTH | EOF | CHUNKED | BYTERANGES
  deriving DecidableEq, Repr

/-- The request methods the dispatcher distinguishes (`SOUP_METHOD_*` are interned strings). -/
inductive SoupMethod
  | GET | HEAD | CONNECT | POST | PUT | OTHER
  deriving DecidableEq, Repr

/-- What the dispatcher inspects of a `GError`: its domain and code. -/
inductive GErrorKind
  | TLS          -- `error->domain == G_TLS_ERROR`
  | TIMED_OUT    -- `G_IO_ERROR`, `G_IO_ERROR_TIMED_OUT`
  | OTHER
  deriving DecidableEq, Repr

/-- Host part of a `SoupURI` as kept by `soup_uri_copy_host`. -/
structure SoupURI where
  scheme : String
  host : String
  port : Nat
  deriving DecidableEq, Repr

/-- Bytes on the wire. -/
abbrev Byte := Nat

/-! ## Status codes (libsoup `soup-status.h`) -/

def SOUP_STATUS_NONE : Nat := 0
def SOUP_STATUS_SSL_FAILED : Nat := 6
def SOUP_STATUS_IO_ERROR : Nat := 7
def SOUP_STATUS_MALFORMED : Nat := 8
def SOUP_STATUS_CONTINUE : Nat := 100
def SOUP_STATUS_OK : Nat := 200
def SOUP_STATUS_NO_CONTENT : Nat := 204
def SOUP_STATUS_NOT_MODIFIED : Nat := 304

/-- `SOUP_STATUS_IS_TRANSPORT_ERROR`. -/
def SOUP_STATUS_IS_TRANSPORT_ERROR (status : Nat) : Bool := 0 < status && status < 100

/-- `SOUP_STATUS_IS_INFORMATIONAL`. -/
def SOUP_STATUS_IS_INFORMATIONAL (status : Nat) : Bool := 100 ≤ status && status < 200

/-- `SOUP_STATUS_IS_SUCCESSFUL`. -/
def SOUP_STATUS_IS_SUCCESSFUL (status : Nat) : Bool := 200 ≤ status && status < 300

/-! ## Messages -/

/-- The part of a `SoupMessage` (and its `SoupMessagePrivate`) that the dispatcher and the
pool read or write.  Header lists are represented by the answers of the header accessors
the code calls on them. -/
structure SoupMessage where
  /-- Identity of the message object. -/
  id : Nat
  uri : SoupURI
  method : SoupMethod
  status_code : Nat
  /-- `priv->http_version == SOUP_HTTP_1_0`. -/
  http_1_0 : Bool
  /-- `soup_header_contains (Connection of request_headers, "close")`. -/
  request_connection_close : Bool
  /-- `soup_message_headers_get_expectations (request_headers) & SOUP_EXPECTATION_CONTINUE`. -/
  request_expect_continue : Bool
  /-- `soup_message_headers_get_encoding (request_headers)`. -/
  request_encoding : SoupEncoding
  /-- `soup_message_headers_get_content_length (request_headers)`. -/
  request_content_length : Nat
  /-- `soup_message_headers_get_one (request_headers, "Content-Type")` is non-null. -/
  request_has_content_type : Bool
  /-- The chunks of `request_body`, in the order in which they were appended;
  `soup_message_body_complete` appends a chunk of length 0. -/
  request_body : List (List Byte)
  /-- The request line and header lines that `get_headers` prints, final blank line included. -/
  request_header_bytes : List Byte
  /-- `soup_message_headers_get_encoding (response_headers)`. -/
  response_encoding : SoupEncoding
  /-- `soup_message_headers_get_content_length (response_headers)`. -/
  response_content_length : Nat
  /-- `soup_header_contains (Connection of response_headers, "close")`. -/
  response_connection_close : Bool
  /-- `soup_header_contains (Connection of response_headers, "Keep-Alive")`. -/
  response_keep_alive : Bool
  /-- `priv->msg_flags & SOUP_MESSAGE_CAN_REBUILD`. -/
  can_rebuild : Bool
  /-- `priv->sniffer` is set. -/
  sniffer : Bool
  /-- `priv->bytes_for_sniffing`. -/
  bytes_for_sniffing : Nat
  /-- `priv->chunk_allocator` is set. -/
  chunk_allocator : Bool
  /-- `priv->orig_http_version == SOUP_HTTP_1_0`. -/
  orig_http_1_0 : Bool
  /-- The bytes of `response_body`. -/
  response_body : List Byte
  deriving DecidableEq, Repr

/-- Modelled from the spec: `soup_message_is_keepalive` lives in `soup-message.c`, which is
not part of the sources.  Section 4.2.5: a message is keep-alive when it is HTTP/1.1 with no
`Connection: close`, or HTTP/1.0 with an explicit `Keep-Alive`. -/
def soup_message_is_keepalive (msg : SoupMessage) : Bool :=
  if msg.http_1_0 then msg.response_keep_alive
  else !msg.request_connection_close && !msg.response_connection_close

/-! ## Work items -/

/-- `SoupMessageIOData` of `soup-io-dispatcher-misc.h`.  The three `GList *` links are
represented by membership in the dispatcher's queues. -/
structure SoupMessageIOData where
  /-- Identity of the allocation (`g_slice_new0`). -/
  id : Nat
  msg : SoupMessage
  error : Option GErrorKind
  read_state : SoupMessageIOState
  read_blocked : Bool
  write_state : SoupMessageIOState
  write_blocked : Bool
  read_encoding : SoupEncoding
  read_meta_buf : List Byte
  read_length : Int
  read_eof_ok : Bool
  /-- `sniff_data`: `none` is the null pointer, otherwise the bytes appended so far. -/
  sniff_data : Option (List Byte)
  write_encoding : SoupEncoding
  write_buf : List Byte
  write_chunk : Option (List Byte)
  write_body_offset : Int
  write_length : Int
  written : Nat
  unpause_source : Bool
  /-- `completion_cb` is non-null. -/
  completion_cb : Bool
  need_content_sniffed : Bool
  need_got_chunk : Bool
  io_error : Bool
  paused : Bool
  cancelled : Bool
  deriving DecidableEq, Repr

/-- `is_io_data_finished` of `soup-io-dispatcher-misc.c`. -/
def is_io_data_finished (io : SoupMessageIOData) : Bool :=
  io.read_state == .DONE && io.write_state == .DONE

/-- `io_body_state` of `soup-io-dispatcher-misc.c`. -/
def io_body_state (encoding : SoupEncoding) : SoupMessageIOState :=
  if encoding == .CHUNKED then .CHUNK_SIZE else .BODY

/-! ## Observable events -/

/-- Properties of the dispatcher on which `g_object_notify` is called. -/
inductive DispProp
  | SOCKET | IS_QUEUE_EMPTY | IS_QUEUE_FULL | IS_PIPELINING_SUPPORTED | IS_VIA_PROXY
  | MAX_PIPELINED_REQ | RESPONSE_BLOCK_SIZE
  deriving DecidableEq, Repr

/-- Signals of `SoupMessage` that the client dispatcher emits. -/
inductive MsgSignal
  | wrote_informational | wrote_headers | wrote_body_data (data : List Byte) | wrote_chunk
  | wrote_body | got_informational | got_headers | got_chunk (data : List Byte) | got_body
  | content_sniffed | cleanup_response
  deriving DecidableEq, Repr

/-- What leaves the dispatcher: its own signals, the completion callback, calls on the socket
and signals emitted on a message. -/
inductive Event
  /-- `g_signal_emit (io_disp, signals[IO_MSG_RESTART], 0, msg)`, emitted on behalf of the
  work item `io_data`. -/
  | io_msg_restart (io_data : Nat) (msg : Nat)
  /-- `completion_cb (msg, completion_data)` of the work item `io_data`. -/
  | completion (io_data : Nat) (msg : Nat)
  /-- `soup_message_set_status (msg, status)`. -/
  | set_status (msg : Nat) (status : Nat)
  /-- `soup_socket_disconnect (socket)`. -/
  | socket_disconnect (socket : Nat)
  /-- `soup_socket_write` accepted these bytes. -/
  | socket_wrote (data : List Byte)
  /-- `g_signal_emit (io_disp, signals[IDLE_TIMEOUT], 0)`. -/
  | idle_timeout
  /-- `g_object_notify (io_disp, prop)`. -/
  | notify (prop : DispProp)
  /-- A signal emitted on the message. -/
  | msg_signal (msg : Nat) (signal : MsgSignal)
  deriving DecidableEq, Repr

/-! ## The dispatcher -/

/-- `SoupIODispatcher` with its `SoupIODispatcherPrivate`.  `items` holds the live
`SoupMessageIOData` allocations; `pool_notify_handlers` and `conn` are the instance data the
pool attaches with `g_signal_connect` and `g_object_set_data`. -/
structure SoupIODispatcher where
  /-- Identity of the object. -/
  id : Nat
  socket : Option Nat
  async_context : Option Nat
  host : Option SoupURI
  /-- `idle_timeout_src` is non-null: the idle timer is armed. -/
  idle_timeout_src : Bool
  read_io_queue : List Nat
  write_io_queue : List Nat
  paused_io_queue : List Nat
  input_msg_queue : List Nat
  max_pipelined_requests : Nat
  response_block_size : Nat
  finished_requests : Nat
  idle_timeout : Nat
  read_io_queue_length : Nat
  write_io_queue_length : Nat
  paused_io_queue_length : Nat
  input_msg_queue_length : Nat
  is_pipelining_supported : Bool
  idle : Bool
  is_queue_full : Bool
  disconnect_if_empty : Bool
  is_thread_safe : Bool
  is_via_proxy : Bool
  /-- Live work items. -/
  items : List SoupMessageIOData
  /-- Identity given to the next `SoupMessageIOData`. -/
  next_io_data : Nat
  /-- Number of `pipelining_is_not_supported` handlers connected to
  `notify::is-pipelining-supported`. -/
  pool_notify_handlers : Nat
  /-- `g_object_get_data (io_disp, "conn")`. -/
  conn : Option Nat
  trace : List Event
  deriving DecidableEq, Repr

def SOUP_MAX_PIPELINED_REQ_CONSTRAINT : Nat := 20
def SOUP_IO_DISPATCHER_RESPONSE_BLOCK_SIZE_CONSTRAINT : Nat := 65536
def SOUP_IO_DISPATCHER_MAX_PIPELINED_REQ_DEFAULT : Nat := 1
def SOUP_IO_DISPATCHER_IS_PIPELINING_SUPPORTED_DEFAULT : Bool := true
def SOUP_IO_DISPATCHER_IS_VIA_PROXY_DEFAULT : Bool := false
def SOUP_IO_DISPATCHER_RESPONSE_BLOCK_SIZE_DEFAULT : Nat := 8192

/-- Appends an event to the trace. -/
def emit (io_disp : SoupIODispatcher) (e : Event) : SoupIODispatcher :=
  { io_disp with trace := io_disp.trace ++ [e] }

/-- `soup_io_dispatcher_get_queue_length`: the three `g_atomic_int_get` results are `gint`s,
their sum is returned as a `guint`. -/
def soup_io_dispatcher_get_queue_length (io_disp : SoupIODispatcher) : Nat :=
  to_guint (as_gint io_disp.input_msg_queue_length + as_gint io_disp.paused_io_queue_length +
    max (as_gint io_disp.read_io_queue_length) (as_gint io_disp.write_io_queue_length))

/-- `soup_io_dispatcher_is_queue_empty`. -/
def soup_io_dispatcher_is_queue_empty (io_disp : SoupIODispatcher) : Bool :=
  if soup_io_dispatcher_get_queue_length io_disp != 0 then false else true

/-- `soup_io_dispatcher_is_queue_full` for the client dispatcher, whose class leaves the
`is_queue_full` hook null. -/
def soup_io_dispatcher_is_queue_full (io_disp : SoupIODispatcher) : Bool :=
  io_disp.max_pipelined_requests != 0 &&
    (decide (soup_io_dispatcher_get_queue_length io_disp ≥ io_disp.max_pipelined_requests) || false)

/-- `soup_io_dispatcher_get_socket`. -/
def soup_io_dispatcher_get_socket (io_disp : SoupIODispatcher) : Option Nat := io_disp.socket

/-- `soup_io_dispatcher_is_pipelining_supported`. -/
def soup_io_dispatcher_is_pipelining_supported (io_disp : SoupIODispatcher) : Bool :=
  io_disp.is_pipelining_supported

/-- `soup_io_dispatcher_get_max_pipelined_requests`. -/
def soup_io_dispatcher_get_max_pipelined_requests (io_disp : SoupIODispatcher) : Nat :=
  io_disp.max_pipelined_requests

/-- `soup_io_dispatcher_set_max_pipelined_requests`. -/
def soup_io_dispatcher_set_max_pipelined_requests (io_disp : SoupIODispatcher) (value : Nat) :
    SoupIODispatcher :=
  if io_disp.is_pipelining_supported && decide (value ≤ SOUP_MAX_PIPELINED_REQ_CONSTRAINT) &&
      value != io_disp.max_pipelined_requests then
    emit { io_disp with max_pipelined_requests := value } (.notify .MAX_PIPELINED_REQ)
  else io_disp

/-- The condition under which `soup_io_dispatcher_set_pipelining_support` changes the flag and
calls `g_object_notify`. -/
def set_pipelining_support_changes (io_disp : SoupIODispatcher) (value : Bool) : Bool :=
  (!value && io_disp.is_pipelining_supported) || (value && !io_disp.is_pipelining_supported)

/-- `soup_io_dispatcher_set_pipelining_support`. -/
def soup_io_dispatcher_set_pipelining_support (io_disp : SoupIODispatcher) (value : Bool) :
    SoupIODispatcher :=
  if set_pipelining_support_changes io_disp value then
    let d1 := { io_disp with is_pipelining_supported := value }
    let d2 := if !value then soup_io_dispatcher_set_max_pipelined_requests d1 1 else d1
    emit d2 (.notify .IS_PIPELINING_SUPPORTED)
  else io_disp

/-- `soup_io_dispatcher_set_response_block_size`. -/
def soup_io_dispatcher_set_response_block_size (io_disp : SoupIODispatcher) (value : Nat) :
    SoupIODispatcher :=
  if decide (value ≤ SOUP_IO_DISPATCHER_RESPONSE_BLOCK_SIZE_CONSTRAINT) &&
      io_disp.response_block_size != value then
    emit { io_disp with response_block_size := value } (.notify .RESPONSE_BLOCK_SIZE)
  else io_disp

/-! ## Queue bookkeeping of the dispatcher -/

/-- The three item queues of a dispatcher. -/
inductive QueueSel
  | read | write | paused
  deriving DecidableEq, Repr

/-- The queue selected by `q`. -/
def get_queue (io_disp : SoupIODispatcher) : QueueSel → List Nat
  | .read => io_disp.read_io_queue
  | .write => io_disp.write_io_queue
  | .paused => io_disp.paused_io_queue

/-- Replaces the queue selected by `q`. -/
def set_queue (io_disp : SoupIODispatcher) (q : QueueSel) (l : List Nat) : SoupIODispatcher :=
  match q with
  | .read => { io_disp with read_io_queue := l }
  | .write => { io_disp with write_io_queue := l }
  | .paused => { io_disp with paused_io_queue := l }

/-- The item's link for queue `q` is non-null. -/
def linked (io_disp : SoupIODispatcher) (q : QueueSel) (io_data : Nat) : Bool :=
  (get_queue io_disp q).contains io_data

/-- Dereferences a pointer to a work item. -/
def find_io_data (io_disp : SoupIODispatcher) (io_data : Nat) : Option SoupMessageIOData :=
  io_disp.items.find? (fun x => x.id == io_data)

/-- Writes a work item back to its allocation. -/
def store_io_data (io_disp : SoupIODispatcher) (io : SoupMessageIOData) : SoupIODispatcher :=
  { io_disp with items := io_disp.items.map (fun x => if x.id == io.id then io else x) }

/-- `g_slice_free (SoupMessageIOData, io_data)`. -/
def free_io_data (io_disp : SoupIODispatcher) (io_data : Nat) : SoupIODispatcher :=
  { io_disp with items := io_disp.items.filter (fun x => x.id != io_data) }

/-- `start_idle_timer`. -/
def start_idle_timer (io_disp : SoupIODispatcher) : SoupIODispatcher :=
  if io_disp.idle_timeout_src || io_disp.idle_timeout == 0 then io_disp
  else { io_disp with idle_timeout_src := true }

/-- `stop_idle_timer`. -/
def stop_idle_timer (io_disp : SoupIODispatcher) : SoupIODispatcher :=
  if !io_disp.idle_timeout_src then io_disp
  else { io_disp with idle_timeout_src := false }

/-- `idle_timeout`, the callback of the timer source. -/
def idle_timeout (io_disp : SoupIODispatcher) : SoupIODispatcher :=
  emit (stop_idle_timer io_disp) .idle_timeout

/-- The `XOR` helper of `soup-io-dispatcher.c`. -/
def XOR (a b : Bool) : Bool := (a && !b) || (!a && b)

/-- First half of `properties_changed`: the `idle` flag, the idle timer and the
`is-queue-empty` notification. -/
def properties_changed_idle (io_disp : SoupIODispatcher) : SoupIODispatcher :=
  let idle := soup_io_dispatcher_is_queue_empty io_disp
  if XOR io_disp.idle idle then
    let d := { io_disp with idle := idle }
    emit (if idle then start_idle_timer d else stop_idle_timer d) (.notify .IS_QUEUE_EMPTY)
  else io_disp

/-- Second half of `properties_changed`: the `is_queue_full` flag and its notification. -/
def properties_changed_is_queue_full (io_disp : SoupIODispatcher) : SoupIODispatcher :=
  let is_queue_full := soup_io_dispatcher_is_queue_full io_disp
  if XOR io_disp.is_queue_full (soup_io_dispatcher_is_queue_full io_disp) then
    emit { io_disp with is_queue_full := is_queue_full } (.notify .IS_QUEUE_FULL)
  else io_disp

/-- `properties_changed`. -/
def properties_changed (io_disp : SoupIODispatcher) : SoupIODispatcher :=
  properties_changed_is_queue_full (properties_changed_idle io_disp)

/-- `push_link`: appends the item to the queue and records the link. -/
def push_link (io_disp : SoupIODispatcher) (q : QueueSel) (io_data : Nat) : SoupIODispatcher :=
  properties_changed (set_queue io_disp q (get_queue io_disp q ++ [io_data]))

/-- `delete_link`: unlinks the item from the queue and clears the link. -/
def delete_link (io_disp : SoupIODispatcher) (q : QueueSel) (io_data : Nat) : SoupIODispatcher :=
  properties_changed (set_queue io_disp q ((get_queue io_disp q).erase io_data))

/-- `reset`. -/
def reset (priv : SoupIODispatcher) : SoupIODispatcher :=
  { priv with
    idle_timeout_src := false
    async_context := none
    max_pipelined_requests := SOUP_IO_DISPATCHER_MAX_PIPELINED_REQ_DEFAULT
    response_block_size := SOUP_IO_DISPATCHER_RESPONSE_BLOCK_SIZE_DEFAULT
    finished_requests := 0
    read_io_queue_length := 0
    write_io_queue_length := 0
    paused_io_queue_length := 0
    input_msg_queue_length := 0
    is_pipelining_supported := SOUP_IO_DISPATCHER_IS_PIPELINING_SUPPORTED_DEFAULT
    idle := true
    is_queue_full := false
    disconnect_if_empty := false
    is_via_proxy := SOUP_IO_DISPATCHER_IS_VIA_PROXY_DEFAULT }

/-- `g_atomic_int_add (&priv->..._queue_length, -1)` for the counter of queue `q`. -/
def dec_queue_length (io_disp : SoupIODispatcher) : QueueSel → SoupIODispatcher
  | .read => { io_disp with read_io_queue_length := guint_dec io_disp.read_io_queue_length }
  | .write => { io_disp with write_io_queue_length := guint_dec io_disp.write_io_queue_length }
  | .paused => { io_disp with paused_io_queue_length := guint_dec io_disp.paused_io_queue_length }

/-- `g_atomic_int_inc (&priv->..._queue_length)` for the counter of queue `q`. -/
def inc_queue_length (io_disp : SoupIODispatcher) : QueueSel → SoupIODispatcher
  | .read => { io_disp with read_io_queue_length := guint_inc io_disp.read_io_queue_length }
  | .write => { io_disp with write_io_queue_length := guint_inc io_disp.write_io_queue_length }
  | .paused => { io_disp with paused_io_queue_length := guint_inc io_disp.paused_io_queue_length }

/-- One of the three `if (io_data->..._queue) { g_atomic_int_add (...); delete_link (...); }`
blocks of `io_data_cleanup`. -/
def cleanup_unlink (io_disp : SoupIODispatcher) (q : QueueSel) (io_data : Nat) :
    SoupIODispatcher :=
  if linked io_disp q io_data then delete_link (dec_queue_length io_disp q) q io_data
  else io_disp

/-- The `io-msg-restart` emission of `io_data_cleanup`. -/
def cleanup_restart (io_disp : SoupIODispatcher) (io_data : SoupMessageIOData) :
    SoupIODispatcher :=
  let done := io_data.read_state == .DONE && io_data.write_state == .DONE
  if !done && !io_data.io_error && !io_data.cancelled then
    emit io_disp (.io_msg_restart io_data.id io_data.msg.id)
  else io_disp

/-- The `soup_socket_disconnect` call of `io_data_cleanup`. -/
def cleanup_disconnect (io_disp : SoupIODispatcher) (io_data : SoupMessageIOData) :
    SoupIODispatcher :=
  if (io_data.read_state != .NOT_STARTED || io_data.write_state != .NOT_STARTED) &&
      decide (io_data.read_state.ord < SoupMessageIOState.FINISHING.ord) then
    match soup_io_dispatcher_get_socket io_disp with
    | some socket => emit io_disp (.socket_disconnect socket)
    | none => io_disp
  else io_disp

/-- The completion callback of `io_data_cleanup`. -/
def cleanup_completion (io_disp : SoupIODispatcher) (io_data : SoupMessageIOData) :
    SoupIODispatcher :=
  if io_data.completion_cb then emit io_disp (.completion io_data.id io_data.msg.id)
  else io_disp

/-- `io_data_cleanup`: unlink from the three queues, emit `io-msg-restart`, disconnect the
socket, call the completion callback, free the item. -/
def io_data_cleanup (io_disp : SoupIODispatcher) (io_data : SoupMessageIOData) :
    SoupIODispatcher :=
  let d := cleanup_unlink io_disp .read io_data.id
  let d := cleanup_unlink d .write io_data.id
  let d := cleanup_unlink d .paused io_data.id
  let d := cleanup_restart d io_data
  let d := cleanup_disconnect d io_data
  let d := cleanup_completion d io_data
  free_io_data d io_data.id

/-- The loops `while (!g_queue_is_empty (queue)) io_data_cleanup (io_disp, g_queue_peek_head
(queue))` of `soup_io_dispatcher_set_socket`, run for at most `fuel` rounds. -/
def drain_queue (q : QueueSel) : Nat → SoupIODispatcher → SoupIODispatcher
  | 0, io_disp => io_disp
  | fuel + 1, io_disp =>
    match get_queue io_disp q with
    | [] => io_disp
    | head :: _ =>
      match find_io_data io_disp head with
      | some io_data => drain_queue q fuel (io_data_cleanup io_disp io_data)
      | none => io_disp

/-- First block of `soup_io_dispatcher_set_socket`: with a socket bound, the readiness
handlers are disconnected, the idle timer is stopped and `reset` is called. -/
def set_socket_unbind (io_disp : SoupIODispatcher) : SoupIODispatcher :=
  if io_disp.socket.isSome then reset (stop_idle_timer io_disp) else io_disp

/-- The drain loops of `soup_io_dispatcher_set_socket`: the read queue, the write queue and,
when the new socket is null, the paused queue.  Each loop gets as many rounds as its queue
has elements when the loop is entered. -/
def set_socket_drain (io_disp : SoupIODispatcher) (socket : Option Nat) : SoupIODispatcher :=
  let d := drain_queue .read io_disp.read_io_queue.length io_disp
  let d := drain_queue .write d.write_io_queue.length d
  if socket.isNone then drain_queue .paused d.paused_io_queue.length d else d

/-- Last block of `soup_io_dispatcher_set_socket`: with a socket bound, the readiness
handlers are connected and the idle timer is started; the `socket` property is notified. -/
def set_socket_bind (io_disp : SoupIODispatcher) : SoupIODispatcher :=
  emit (if io_disp.socket.isSome then start_idle_timer io_disp else io_disp) (.notify .SOCKET)

/-- `soup_io_dispatcher_set_socket`. -/
def soup_io_dispatcher_set_socket (io_disp : SoupIODispatcher) (socket : Option Nat) :
    SoupIODispatcher :=
  if socket.isNone || io_disp.socket != socket then
    set_socket_bind (set_socket_drain { set_socket_unbind io_disp with socket := socket } socket)
  else io_disp

/-- `soup_io_dispatcher_init` on a zero-filled instance: the state of a dispatcher returned
by `g_object_new`. -/
def soup_io_dispatcher_init (id : Nat) : SoupIODispatcher :=
  reset
    { id := id, socket := none, async_context := none, host := none, idle_timeout_src := false
      read_io_queue := [], write_io_queue := [], paused_io_queue := [], input_msg_queue := []
      max_pipelined_requests := 0, response_block_size := 0, finished_requests := 0
      idle_timeout := 0, read_io_queue_length := 0, write_io_queue_length := 0
      paused_io_queue_length := 0, input_msg_queue_length := 0
      is_pipelining_supported := false, idle := false, is_queue_full := false
      disconnect_if_empty := false, is_thread_safe := false, is_via_proxy := false
      items := [], next_io_data := 0, pool_notify_handlers := 0, conn := none, trace := [] }

/-- The `g_object_set` call of `soup_io_dispatcher_pool_alloc_io_dispatcher`: the dispatcher's
`set_property` for is-via-proxy, host, max-pipelined-requests, response-block-size,
is-thread-safe, async-context and idle-timeout, in this order. -/
def io_dispatcher_set_properties (io_disp : SoupIODispatcher) (via_proxy : Bool) (uri : SoupURI)
    (max_pipelined_req response_block_size : Nat) (is_thread_safe : Bool)
    (async_context : Option Nat) (idle_timeout : Nat) : SoupIODispatcher :=
  let d := if (io_disp.is_via_proxy && via_proxy) || (!io_disp.is_via_proxy && !via_proxy) then
      io_disp
    else emit { io_disp with is_via_proxy := !io_disp.is_via_proxy } (.notify .IS_VIA_PROXY)
  let d := { d with host := some uri }
  let d := soup_io_dispatcher_set_max_pipelined_requests d max_pipelined_req
  let d := soup_io_dispatcher_set_response_block_size d response_block_size
  let d := if !is_thread_safe then d else { d with is_thread_safe := true }
  let d := { d with async_context := async_context }
  { d with idle_timeout := idle_timeout }

/-! ## The dispatcher pool -/

/-- `HostInfo` of `soup-io-dispatcher-pool.c`.  The queue holds the dispatcher objects
themselves; `spdy_io_dispatcher` is a pointer. -/
structure HostInfo where
  spdy_supported_version : Int
  max_pipelined_msgs : Int
  supports_http_pipelining : Bool
  io_dispatchers : List SoupIODispatcher
  spdy_io_dispatcher : Option Nat
  deriving DecidableEq, Repr

/-- `SoupIODispatcherPoolPrivate`.  `hosts_io_dispatchers` maps a host name to the table that
maps a port to the Host Record. -/
structure SoupIODispatcherPool where
  hosts_io_dispatchers : List (String × List (Nat × HostInfo))
  idle_io_dispatchers : List SoupIODispatcher
  idle_timeout : Nat
  max_io_disps : Nat
  max_io_disps_per_host : Nat
  max_pipelined_msgs : Nat
  response_block_size : Nat
  make_all_conns_firstly : Bool
  use_first_avail_conn : Bool
  pipeline_via_proxy : Bool
  pipeline_via_https : Bool
  is_thread_safe : Bool
  /-- Identity given to the next dispatcher built by `g_object_new`. -/
  next_io_disp : Nat
  deriving DecidableEq, Repr

def SOUP_IO_DISPATCHER_POOL_MAX_IO_DISPS_DEFAULT : Nat := 10
def SOUP_IO_DISPATCHER_POOL_MAX_IO_DISPS_PER_HOST_DEFAULT : Nat := 2
def SOUP_IO_DISPATCHER_POOL_MAX_PIPELINED_MSGS_DEFAULT : Nat := 4
def SOUP_IO_DISPATCHER_POOL_MAX_PIPELINED_MSGS_CONSTRAINT : Nat := 20
def SOUP_IO_DISPATCHER_POOL_RESPONSE_BLOCK_SIZE_DEFAULT : Nat := 8192
def SOUP_IO_DISPATCHER_POOL_RESPONSE_BLOCK_SIZE_CONSTRAINT : Nat := 65536
def SOUP_IO_DISPATCHER_POOL_IDLE_TIMEOUT_DEFAULT : Nat := 3

/-- `soup_io_dispatcher_pool_init`. -/
def soup_io_dispatcher_pool_init : SoupIODispatcherPool :=
  { hosts_io_dispatchers := [], idle_io_dispatchers := []
    idle_timeout := SOUP_IO_DISPATCHER_POOL_IDLE_TIMEOUT_DEFAULT
    max_io_disps := SOUP_IO_DISPATCHER_POOL_MAX_IO_DISPS_DEFAULT
    max_io_disps_per_host := SOUP_IO_DISPATCHER_POOL_MAX_IO_DISPS_PER_HOST_DEFAULT
    max_pipelined_msgs := SOUP_IO_DISPATCHER_POOL_MAX_PIPELINED_MSGS_DEFAULT
    response_block_size := SOUP_IO_DISPATCHER_POOL_RESPONSE_BLOCK_SIZE_DEFAULT
    make_all_conns_firstly := false, use_first_avail_conn := false
    pipeline_via_proxy := false, pipeline_via_https := false, is_thread_safe := false
    next_io_disp := 0 }

/-- `g_hash_table_lookup`. -/
def g_hash_table_lookup {κ α : Type} [DecidableEq κ] (table : List (κ × α)) (key : κ) :
    Option α :=
  match table with
  | [] => none
  | (k, v) :: rest => if k = key then some v else g_hash_table_lookup rest key

/-- `g_hash_table_insert`: replaces the value of an existing key, else adds the entry. -/
def g_hash_table_insert {κ α : Type} [DecidableEq κ] (table : List (κ × α)) (key : κ)
    (value : α) : List (κ × α) :=
  match table with
  | [] => [(key, value)]
  | (k, v) :: rest =>
    if k = key then (k, value) :: rest else (k, v) :: g_hash_table_insert rest key value

/-- The Host Record of `(host, port)`, when the pool has one. -/
def lookup_host_info (pool : SoupIODispatcherPool) (host : String) (port : Nat) :
    Option HostInfo :=
  match g_hash_table_lookup pool.hosts_io_dispatchers host with
  | none => none
  | some hosts => g_hash_table_lookup hosts port

/-- Writes through the `HostInfo *` of `(host, port)`. -/
def store_host_info (pool : SoupIODispatcherPool) (host : String) (port : Nat)
    (host_info : HostInfo) : SoupIODispatcherPool :=
  match g_hash_table_lookup pool.hosts_io_dispatchers host with
  | none => pool
  | some hosts =>
    match g_hash_table_lookup hosts port with
    | none => pool
    | some _ =>
      let hosts1 := g_hash_table_insert hosts port host_info
      { pool with hosts_io_dispatchers := g_hash_table_insert pool.hosts_io_dispatchers host hosts1 }

/-- The Host Record that `get_host_info` allocates with `g_malloc0`. -/
def new_host_info (pool : SoupIODispatcherPool) : HostInfo :=
  { spdy_supported_version := 0, max_pipelined_msgs := pool.max_pipelined_msgs
    supports_http_pipelining := true, io_dispatchers := [], spdy_io_dispatcher := none }

/-- `get_host_info`: lazy allocation of the Host Record.  Returns the pool with the record
in place, and the record. -/
def get_host_info (pool : SoupIODispatcherPool) (host : String) (port : Nat) :
    SoupIODispatcherPool × HostInfo :=
  let pool1 :=
    match g_hash_table_lookup pool.hosts_io_dispatchers host with
    | some _ => pool
    | none =>
      { pool with hosts_io_dispatchers :=
          g_hash_table_insert pool.hosts_io_dispatchers host [] }
  let hosts := (g_hash_table_lookup pool1.hosts_io_dispatchers host).getD []
  match g_hash_table_lookup hosts port with
  | some host_info => (pool1, host_info)
  | none =>
    let host_info := new_host_info pool
    let hosts1 := g_hash_table_insert hosts port host_info
    ({ pool1 with hosts_io_dispatchers :=
         g_hash_table_insert pool1.hosts_io_dispatchers host hosts1 }, host_info)

/-- What `get_io_dispatcher` returns when it is not null: the alternate-protocol dispatcher
of the Host Record, or the element at a position of the record's live list. -/
inductive DispRef
  | spdy (io_disp : Option Nat)
  | live (index : Nat)
  deriving DecidableEq, Repr

/-- `dont_use_http_pipelining` of `get_io_dispatcher`. -/
def dont_use_http_pipelining (pool : SoupIODispatcherPool) (host_info : HostInfo)
    (msg : SoupMessage) (via_https via_proxy : Bool) : Bool :=
  (via_proxy && !pool.pipeline_via_proxy) || (via_https && !pool.pipeline_via_https) ||
    !host_info.supports_http_pipelining || msg.request_connection_close

/-- The condition under which the loop of `get_io_dispatcher` considers a dispatcher. -/
def is_candidate (dont_use_http_pipelining : Bool) (io_disp : SoupIODispatcher) : Bool :=
  (soup_io_dispatcher_get_socket io_disp).isSome &&
    ((dont_use_http_pipelining && soup_io_dispatcher_is_queue_empty io_disp) ||
     (!dont_use_http_pipelining && !soup_io_dispatcher_is_queue_full io_disp))

/-- The `for` loop of `get_io_dispatcher` over the links of the live list, starting at
position `index` with the current `result_link` and `io_disp_queue_length`. -/
def scan_io_dispatchers (use_first_avail_conn dont_use_http_pipelining : Bool) :
    List SoupIODispatcher → Nat → Option Nat → Nat → Option Nat
  | [], _, result_link, _ => result_link
  | io_disp :: rest, index, result_link, io_disp_queue_length =>
    if is_candidate dont_use_http_pipelining io_disp then
      let queue_length := soup_io_dispatcher_get_queue_length io_disp
      if result_link.isNone || decide (queue_length < io_disp_queue_length) then
        if use_first_avail_conn || queue_length == 0 then some index
        else scan_io_dispatchers use_first_avail_conn dont_use_http_pipelining rest (index + 1)
          (some index) queue_length
      else scan_io_dispatchers use_first_avail_conn dont_use_http_pipelining rest (index + 1)
        result_link io_disp_queue_length
    else scan_io_dispatchers use_first_avail_conn dont_use_http_pipelining rest (index + 1)
      result_link io_disp_queue_length

/-- `pipelining_is_not_supported`, the pool's handler of `notify::is-pipelining-supported`,
for the dispatcher at position `index` of the live list of `(host, port)`.  The result is
`none` when the handler dereferences a null host. -/
def pipelining_is_not_supported (pool : SoupIODispatcherPool) (host : String) (port : Nat)
    (index : Nat) : Option SoupIODispatcherPool :=
  match lookup_host_info pool host port with
  | none => some pool
  | some record =>
    match record.io_dispatchers[index]? with
    | none => some pool
    | some io_disp =>
      if !soup_io_dispatcher_is_pipelining_supported io_disp then
        match io_disp.host with
        | none => none
        | some uri =>
          let (pool1, host_info) := get_host_info pool uri.host uri.port
          let pool2 := store_host_info pool1 uri.host uri.port
            { host_info with supports_http_pipelining := false }
          match lookup_host_info pool2 host port with
          | none => some pool2
          | some record2 =>
            some (store_host_info pool2 host port
              { record2 with io_dispatchers :=
                  record2.io_dispatchers.set index { io_disp with pool_notify_handlers := 0 } })
      else some pool

/-- `get_io_dispatcher`.  The result is `none` when a signal handler run by the call
dereferences a null pointer; otherwise the returned pointer (`none` is null) and the pool
after the call. -/
def get_io_dispatcher (pool : SoupIODispatcherPool) (msg : SoupMessage)
    (via_https via_proxy : Bool) : Option (Option DispRef × SoupIODispatcherPool) :=
  let uri := msg.uri
  let (pool1, host_info) := get_host_info pool uri.host uri.port
  if host_info.spdy_supported_version != 0 then
    some (some (.spdy host_info.spdy_io_dispatcher), pool1)
  else if pool1.make_all_conns_firstly &&
      decide (host_info.io_dispatchers.length < pool1.max_io_disps_per_host) then
    some (none, pool1)
  else
    let dont := dont_use_http_pipelining pool1 host_info msg via_https via_proxy
    match scan_io_dispatchers pool1.use_first_avail_conn dont host_info.io_dispatchers 0 none 0
    with
    | none => some (none, pool1)
    | some index =>
      match host_info.io_dispatchers[index]? with
      | none => some (none, pool1)
      | some io_disp =>
        let changes := set_pipelining_support_changes io_disp (!dont)
        let io_disp1 := soup_io_dispatcher_set_pipelining_support io_disp (!dont)
        let pool2 := store_host_info pool1 uri.host uri.port
          { host_info with io_dispatchers := host_info.io_dispatchers.set index io_disp1 }
        if changes && decide (0 < io_disp1.pool_notify_handlers) then
          match pipelining_is_not_supported pool2 uri.host uri.port index with
          | none => none
          | some pool3 => some (some (.live index), pool3)
        else some (some (.live index), pool2)

/-- Applies `f` to every Host Record of the pool. -/
def map_host_infos (pool : SoupIODispatcherPool) (f : HostInfo → HostInfo) :
    SoupIODispatcherPool :=
  { pool with hosts_io_dispatchers :=
      pool.hosts_io_dispatchers.map (fun entry =>
        (entry.1, entry.2.map (fun port_entry => (port_entry.1, f port_entry.2)))) }

/-- Applies `g` to every dispatcher of the live list of a Host Record. -/
def map_io_dispatchers (g : SoupIODispatcher → SoupIODispatcher) (host_info : HostInfo) :
    HostInfo :=
  { host_info with io_dispatchers := host_info.io_dispatchers.map g }

/-- `iterate_over_dispatchers`: calls `io_disp_func` on every dispatcher of every live list. -/
def iterate_over_dispatchers (pool : SoupIODispatcherPool)
    (io_disp_func : SoupIODispatcher → Nat → SoupIODispatcher) (new_value : Nat) :
    SoupIODispatcherPool :=
  map_host_infos pool (map_io_dispatchers (fun io_disp => io_disp_func io_disp new_value))

/-- A mutation of the dispatcher object with identity `id`, seen through every pointer the
pool holds to it (live lists and idle FIFO). -/
def update_io_dispatcher (pool : SoupIODispatcherPool) (id : Nat)
    (f : SoupIODispatcher → SoupIODispatcher) : SoupIODispatcherPool :=
  let upd := fun (io_disp : SoupIODispatcher) => if io_disp.id = id then f io_disp else io_disp
  let pool1 := map_host_infos pool (map_io_dispatchers upd)
  { pool1 with idle_io_dispatchers := pool1.idle_io_dispatchers.map upd }

/-- All live lists of the pool, concatenated. -/
def live_io_dispatchers (pool : SoupIODispatcherPool) : List SoupIODispatcher :=
  (pool.hosts_io_dispatchers.map (fun entry =>
    (entry.2.map (fun port_entry => port_entry.2.io_dispatchers)).flatten)).flatten

/-- Dereferences a pointer to a dispatcher held by the pool. -/
def find_io_dispatcher (pool : SoupIODispatcherPool) (id : Nat) : Option SoupIODispatcher :=
  (live_io_dispatchers pool ++ pool.idle_io_dispatchers).find? (fun io_disp => io_disp.id == id)

/-- Values accepted by the pool's `set_property`, one constructor per property. -/
inductive PoolSetting
  | MAX_IO_DISPS (value : Nat)
  | MAX_IO_DISPS_PER_HOST (value : Nat)
  | MAX_PIPELINED_MSGS (value : Nat)
  | MAKE_ALL_CONNS_FIRSTLY (value : Bool)
  | USE_FIRST_AVAIL_CONN (value : Bool)
  | PIPELINE_VIA_PROXY (value : Bool)
  | PIPELINE_VIA_HTTPS (value : Bool)
  | RESPONSE_BLOCK_SIZE (value : Nat)
  | IDLE_TIMEOUT (value : Nat)
  | IS_THREAD_SAFE (value : Bool)
  deriving DecidableEq, Repr

/-- The range that the `GParamSpec` of the property admits; `g_object_set` hands only such
values to `set_property`. -/
def PoolSetting.valid : PoolSetting → Bool
  | .MAX_IO_DISPS value => 1 ≤ value
  | .MAX_IO_DISPS_PER_HOST value => 1 ≤ value
  | .MAX_PIPELINED_MSGS value =>
    1 ≤ value && value ≤ SOUP_IO_DISPATCHER_POOL_MAX_PIPELINED_MSGS_CONSTRAINT
  | .RESPONSE_BLOCK_SIZE value =>
    1 ≤ value && value ≤ SOUP_IO_DISPATCHER_POOL_RESPONSE_BLOCK_SIZE_CONSTRAINT
  | _ => true

/-- `set_property` of the pool. -/
def pool_set_property (pool : SoupIODispatcherPool) : PoolSetting → SoupIODispatcherPool
  | .MAX_IO_DISPS value => { pool with max_io_disps := value }
  | .MAX_IO_DISPS_PER_HOST value => { pool with max_io_disps_per_host := value }
  | .MAX_PIPELINED_MSGS new_value =>
    if pool.max_pipelined_msgs == new_value then pool
    else
      let pool1 := { pool with max_pipelined_msgs := new_value }
      let pool2 := iterate_over_dispatchers pool1 soup_io_dispatcher_set_max_pipelined_requests
        pool1.max_pipelined_msgs
      { pool2 with idle_io_dispatchers := pool2.idle_io_dispatchers.map (fun io_disp =>
          soup_io_dispatcher_set_max_pipelined_requests io_disp pool2.max_pipelined_msgs) }
  | .MAKE_ALL_CONNS_FIRSTLY value => { pool with make_all_conns_firstly := value }
  | .USE_FIRST_AVAIL_CONN value => { pool with use_first_avail_conn := value }
  | .PIPELINE_VIA_PROXY value => { pool with pipeline_via_proxy := value }
  | .PIPELINE_VIA_HTTPS value => { pool with pipeline_via_https := value }
  | .RESPONSE_BLOCK_SIZE new_value =>
    if pool.response_block_size == new_value then pool
    else
      let pool1 := { pool with response_block_size := new_value }
      let pool2 := iterate_over_dispatchers pool1 soup_io_dispatcher_set_response_block_size
        pool1.response_block_size
      { pool2 with idle_io_dispatchers := pool2.idle_io_dispatchers.map (fun io_disp =>
          soup_io_dispatcher_set_response_block_size io_disp pool2.response_block_size) }
  | .IDLE_TIMEOUT value => { pool with idle_timeout := value }
  | .IS_THREAD_SAFE value => { pool with is_thread_safe := value }

/-- `soup_io_dispatcher_pool_alloc_io_dispatcher`: returns the identity of the dispatcher and
the pool after the call. -/
def soup_io_dispatcher_pool_alloc_io_dispatcher (pool : SoupIODispatcherPool) (uri : SoupURI)
    (async_context : Option Nat) (conn : Nat) (via_proxy : Bool) :
    Nat × SoupIODispatcherPool :=
  let (pool1, host_info) := get_host_info pool uri.host uri.port
  let (io_disp, pool2) :=
    match pool1.idle_io_dispatchers with
    | head :: rest => (head, { pool1 with idle_io_dispatchers := rest })
    | [] => (soup_io_dispatcher_init pool1.next_io_disp,
        { pool1 with next_io_disp := pool1.next_io_disp + 1 })
  let io_disp := io_dispatcher_set_properties io_disp via_proxy uri pool2.max_pipelined_msgs
    pool2.response_block_size pool2.is_thread_safe async_context pool2.idle_timeout
  let io_disp := { io_disp with
    pool_notify_handlers := io_disp.pool_notify_handlers + 1, conn := some conn }
  (io_disp.id, store_host_info pool2 uri.host uri.port
    { host_info with io_dispatchers := host_info.io_dispatchers ++ [io_disp] })

/-- `connection_established`, the handler of the connection's `connected` signal, bound to
the dispatcher `io_disp`; `socket` is `soup_connection_get_socket (conn)`. -/
def connection_established (pool : SoupIODispatcherPool) (io_disp : Nat) (socket : Option Nat) :
    SoupIODispatcherPool :=
  update_io_dispatcher pool io_disp (fun d => soup_io_dispatcher_set_socket d socket)

/-- `g_queue_remove`: removes the first element that is the object `id`. -/
def g_queue_remove (queue : List SoupIODispatcher) (id : Nat) : List SoupIODispatcher :=
  match queue with
  | [] => []
  | head :: rest => if head.id = id then rest else head :: g_queue_remove rest id

/-- `connection_disconnected`, the handler of the connection's `disconnected` signal, bound
to the dispatcher `io_disp`.  The result is `none` when the handler dereferences a null
pointer (no such object, no host, or no Host Record for the host). -/
def connection_disconnected (pool : SoupIODispatcherPool) (io_disp : Nat) :
    Option SoupIODispatcherPool :=
  match find_io_dispatcher pool io_disp with
  | none => none
  | some d =>
    match d.host with
    | none => none
    | some uri =>
      match lookup_host_info pool uri.host uri.port with
      | none => none
      | some host_info =>
        let pool1 := store_host_info pool uri.host uri.port
          { host_info with io_dispatchers := g_queue_remove host_info.io_dispatchers io_disp }
        let pool2 := { pool1 with idle_io_dispatchers := pool1.idle_io_dispatchers ++ [d] }
        some (update_io_dispatcher pool2 io_disp
          (fun d => soup_io_dispatcher_set_socket d none))

/-- `soup_io_dispatcher_queue_message`. -/
def soup_io_dispatcher_queue_message (io_disp : SoupIODispatcher) (msg : Nat) :
    SoupIODispatcher :=
  { io_disp with
    input_msg_queue_length := guint_inc io_disp.input_msg_queue_length
    input_msg_queue := io_disp.input_msg_queue ++ [msg] }

/-! ## Sample states, built with the operations above -/

/-- The origin used by the samples. -/
def sample_uri : SoupURI := { scheme := "http", host := "example.com", port := 80 }

/-- A `GET` request for `sample_uri` with identity `id`. -/
def sample_msg (id : Nat) : SoupMessage :=
  { id := id, uri := sample_uri, method := .GET, status_code := 0, http_1_0 := false
    request_connection_close := false, request_expect_continue := false
    request_encoding := .NONE, request_content_length := 0, request_has_content_type := false
    request_body := [[]], request_header_bytes := [71, 69, 84, 13, 10, 13, 10]
    response_encoding := .NONE, response_content_length := 0
    response_connection_close := false, response_keep_alive := false, can_rebuild := false
    sniffer := false, bytes_for_sniffing := 0, chunk_allocator := false
    orig_http_1_0 := false, response_body := [] }

/-- A pool with four dispatchers for `sample_uri`: dispatcher 0 has no socket, dispatchers 1,
2 and 3 are connected and have 2, 1 and 1 queued messages. -/
def sample_pool : SoupIODispatcherPool :=
  let p := soup_io_dispatcher_pool_init
  let p := (soup_io_dispatcher_pool_alloc_io_dispatcher p sample_uri none 100 false).2
  let p := (soup_io_dispatcher_pool_alloc_io_dispatcher p sample_uri none 101 false).2
  let p := (soup_io_dispatcher_pool_alloc_io_dispatcher p sample_uri none 102 false).2
  let p := (soup_io_dispatcher_pool_alloc_io_dispatcher p sample_uri none 103 false).2
  let p := connection_established p 1 (some 11)
  let p := connection_established p 2 (some 12)
  let p := connection_established p 3 (some 13)
  let p := update_io_dispatcher p 1 (fun d => soup_io_dispatcher_queue_message d 1)
  let p := update_io_dispatcher p 1 (fun d => soup_io_dispatcher_queue_message d 2)
  let p := update_io_dispatcher p 2 (fun d => soup_io_dispatcher_queue_message d 3)
  update_io_dispatcher p 3 (fun d => soup_io_dispatcher_queue_message d 4)


/-- A pool with one connected dispatcher for `sample_uri`. -/
def sample_pool_connected : SoupIODispatcherPool :=
  let p := soup_io_dispatcher_pool_init
  let p := (soup_io_dispatcher_pool_alloc_io_dispatcher p sample_uri none 100 false).2
  connection_established p 0 (some 10)

/-- A request for `sample_uri` that carries `Connection: close`. -/
def sample_msg_close : SoupMessage :=
  { sample_msg 1 with request_connection_close := true }

/-- The pool `sample_pool_connected` after `get_io_dispatcher` has selected its dispatcher
for `sample_msg_close`. -/
def sample_pool_close : SoupIODispatcherPool :=
  match get_io_dispatcher sample_pool_connected sample_msg_close false false with
  | some (_, p) => p
  | none => sample_pool_connected

/-! ## Sequences of pool operations -/

/-- `soup_io_dispatcher_pool_enable_spdy_support`.  `host` is looked up in the outer table,
whose values are port tables, and the result is used as a `HostInfo *`: with an entry for
`host` the store goes through a pointer of the wrong type and the embedding gives no result;
without one nothing happens. -/
def soup_io_dispatcher_pool_enable_spdy_support (pool : SoupIODispatcherPool) (host : String)
    (_version : Int) : Option SoupIODispatcherPool :=
  match g_hash_table_lookup pool.hosts_io_dispatchers host with
  | none => some pool
  | some _ => none

/-- The `do ... while (1)` loop of `soup_io_dispatcher_pool_set_max_pipelined_msgs_for_host`,
run for at most `rounds` rounds; `none` when the loop is still running after them.  `host` is
looked up in the outer table, as in `soup_io_dispatcher_pool_enable_spdy_support`; the only
`break` is the one taken when the lookup fails.  The stores of the body go through the
mis-typed pointer and leave the entry of `host` in the table. -/
def set_max_pipelined_msgs_for_host_rounds (pool : SoupIODispatcherPool) (host : String)
    (max_queue_length : Int) : Nat → Option SoupIODispatcherPool
  | 0 => none
  | rounds + 1 =>
    match g_hash_table_lookup pool.hosts_io_dispatchers host with
    | none => some pool
    | some _ => set_max_pipelined_msgs_for_host_rounds pool host max_queue_length rounds

/-- `soup_io_dispatcher_pool_set_max_pipelined_msgs_for_host`: the pool on return, `none`
when the function does not return. -/
def soup_io_dispatcher_pool_set_max_pipelined_msgs_for_host (pool : SoupIODispatcherPool)
    (host : String) (_max_queue_length : Int) : Option SoupIODispatcherPool :=
  match g_hash_table_lookup pool.hosts_io_dispatchers host with
  | none => some pool
  | some _ => none

/-- The entry points of the pool: its public functions, its signal handlers, and the
activity of a pooled dispatcher. -/
inductive PoolOp
  | get_io_dispatcher (msg : SoupMessage) (via_https via_proxy : Bool)
  | alloc_io_dispatcher (uri : SoupURI) (async_context : Option Nat) (conn : Nat)
      (via_proxy : Bool)
  | set_property (setting : PoolSetting)
  | enable_spdy_support (host : String) (version : Int)
  | set_max_pipelined_msgs_for_host (host : String) (max_queue_length : Int)
  /-- The connection bound to dispatcher `io_disp` emits `connected`. -/
  | connection_established (io_disp : Nat) (socket : Option Nat)
  /-- The connection bound to dispatcher `io_disp` emits `disconnected`. -/
  | connection_disconnected (io_disp : Nat)
  /-- The dispatcher at position `index` of the live list of `(host, port)` emits
  `notify::is-pipelining-supported` to the pool's handler. -/
  | pipelining_notify (host : String) (port : Nat) (index : Nat)
  /-- Dispatcher `io_disp` changes its own state in any way. -/
  | io_dispatcher_activity (io_disp : Nat) (f : SoupIODispatcher → SoupIODispatcher)

/-- One pool operation; `none` when the operation has no result. -/
def pool_step (pool : SoupIODispatcherPool) : PoolOp → Option SoupIODispatcherPool
  | .get_io_dispatcher msg via_https via_proxy =>
    (get_io_dispatcher pool msg via_https via_proxy).map Prod.snd
  | .alloc_io_dispatcher uri async_context conn via_proxy =>
    some (soup_io_dispatcher_pool_alloc_io_dispatcher pool uri async_context conn via_proxy).2
  | .set_property setting => if setting.valid then some (pool_set_property pool setting) else none
  | .enable_spdy_support host version =>
    soup_io_dispatcher_pool_enable_spdy_support pool host version
  | .set_max_pipelined_msgs_for_host host max_queue_length =>
    soup_io_dispatcher_pool_set_max_pipelined_msgs_for_host pool host max_queue_length
  | .connection_established io_disp socket => some (connection_established pool io_disp socket)
  | .connection_disconnected io_disp => connection_disconnected pool io_disp
  | .pipelining_notify host port index => pipelining_is_not_supported pool host port index
  | .io_dispatcher_activity io_disp f => some (update_io_dispatcher pool io_disp f)

/-- A sequence of pool operations, left to right. -/
def pool_run (pool : SoupIODispatcherPool) : List PoolOp → Option SoupIODispatcherPool
  | [] => some pool
  | op :: ops =>
    match pool_step pool op with
    | none => none
    | some pool1 => pool_run pool1 ops

/-- A sequence of pool operations run on `sample_pool_close`: another selection for the same
host, a second connection, a change of `max_pipelined_msgs`, a queued message on dispatcher 0
and the disconnection of dispatcher 0. -/
def sample_ops : List PoolOp :=
  [ .get_io_dispatcher (sample_msg 2) false false
  , .alloc_io_dispatcher sample_uri none 101 false
  , .set_property (.MAX_PIPELINED_MSGS 8)
  , .io_dispatcher_activity 0 (fun d => soup_io_dispatcher_queue_message d 2)
  , .connection_established 1 (some 11)
  , .connection_disconnected 0 ]

/-! ## Admission of a message to a dispatcher -/

/-- The `SoupMessageIOData` that `io_data_new` builds with `g_slice_new0`, after the client's
`io_data_new` hook has attached the header and body objects of the message. -/
def new_io_data (id : Nat) (msg : SoupMessage) (completion_cb : Bool) : SoupMessageIOData :=
  { id := id, msg := msg, error := none
    read_state := .NOT_STARTED, read_blocked := false
    write_state := .NOT_STARTED, write_blocked := false
    read_encoding := .UNRECOGNIZED, read_meta_buf := [], read_length := 0, read_eof_ok := false
    sniff_data := none, write_encoding := .UNRECOGNIZED, write_buf := [], write_chunk := none
    write_body_offset := 0, write_length := 0, written := 0, unpause_source := false
    completion_cb := completion_cb, need_content_sniffed := false, need_got_chunk := false
    io_error := false, paused := false, cancelled := false }

/-- `io_data_new` of `soup-io-dispatcher.c`: allocates the item and appends it to the read
queue and to the write queue.  Returns the dispatcher and the identity of the item. -/
def io_data_new (io_disp : SoupIODispatcher) (msg : SoupMessage) (completion_cb : Bool) :
    SoupIODispatcher × Nat :=
  let id := io_disp.next_io_data
  let d := { io_disp with
    next_io_data := io_disp.next_io_data + 1
    items := io_disp.items ++ [new_io_data id msg completion_cb] }
  let d := push_link (inc_queue_length d .read) .read id
  let d := push_link (inc_queue_length d .write) .write id
  (d, id)

/-! ## Cancellation, errors and pausing -/

/-- `cancel_message`, for the message whose `io_data` is the item `io_data`. -/
def cancel_message (io_disp : SoupIODispatcher) (io_data : Nat) : SoupIODispatcher :=
  match find_io_data io_disp io_data with
  | none => io_disp
  | some io =>
    if !(linked io_disp .read io_data || linked io_disp .write io_data ||
        linked io_disp .paused io_data) then io_disp
    else if io.cancelled then io_disp
    else
      let io := { io with cancelled := true }
      io_data_cleanup (store_io_data io_disp io) io

/-- The three outcomes of the `if` chain of `io_data_error`, and the case where the chain
leaves the message as it is. -/
inductive ErrorPolicy
  | SSL_FAILED | RESTART | IO_ERROR | KEEP_STATUS
  deriving DecidableEq, Repr

/-- The `if` chain of `io_data_error`. -/
def io_data_error_policy (finished_requests : Nat) (io_data : SoupMessageIOData) : ErrorPolicy :=
  if io_data.error == some .TLS then .SSL_FAILED
  else if decide (io_data.read_state.ord ≤ SoupMessageIOState.HEADERS.ord) &&
      io_data.read_meta_buf.length == 0 && finished_requests != 0 &&
      !(io_data.error == some .TIMED_OUT) && io_data.msg.method == .GET then .RESTART
  else if !SOUP_STATUS_IS_TRANSPORT_ERROR io_data.msg.status_code then .IO_ERROR
  else .KEEP_STATUS

/-- The effect of the branch of `io_data_error` selected by the policy. -/
def apply_error_policy (io_disp : SoupIODispatcher) (io_data : SoupMessageIOData) :
    ErrorPolicy → SoupIODispatcher
  | .SSL_FAILED => emit io_disp (.set_status io_data.msg.id SOUP_STATUS_SSL_FAILED)
  | .RESTART => emit io_disp (.io_msg_restart io_data.id io_data.msg.id)
  | .IO_ERROR => emit io_disp (.set_status io_data.msg.id SOUP_STATUS_IO_ERROR)
  | .KEEP_STATUS => io_disp

/-- `io_data_error`. -/
def io_data_error (io_disp : SoupIODispatcher) (io_data : SoupMessageIOData) :
    SoupIODispatcher :=
  let d := apply_error_policy io_disp io_data
    (io_data_error_policy io_disp.finished_requests io_data)
  io_data_cleanup d io_data

/-- `soup_io_dispatcher_pause_io_data`. -/
def soup_io_dispatcher_pause_io_data (io_disp : SoupIODispatcher) (io_data : Nat) :
    SoupIODispatcher :=
  match find_io_data io_disp io_data with
  | none => io_disp
  | some io =>
    let io := { io with unpause_source := false }
    let d := store_io_data io_disp io
    let d :=
      if io.read_state == .NOT_STARTED && io.write_state == .NOT_STARTED then
        if !linked d .paused io_data then
          let d := delete_link (dec_queue_length d .read) .read io_data
          let d := delete_link (dec_queue_length d .write) .write io_data
          push_link (inc_queue_length d .paused) .paused io_data
        else d
      else d
    store_io_data d { io with paused := true }

/-- A client dispatcher with an idle timeout of 3 seconds, bound to socket 1. -/
def sample_io_disp : SoupIODispatcher :=
  soup_io_dispatcher_set_socket { soup_io_dispatcher_init 0 with idle_timeout := 3 } (some 1)

/-- `sample_io_disp` after `io_data_new` for one `GET` request with a completion callback. -/
def sample_io_disp_one_item : SoupIODispatcher :=
  (io_data_new sample_io_disp (sample_msg 7) true).1

/-! ## The socket and the application, as seen from the dispatcher

The socket and the handlers that the application connects to the signals of a message are
not part of the dispatcher.  Their answers are scripted in an `Env`: every call consumes the
next entry of the script it belongs to. -/

/-- `SoupSocketIOStatus`. -/
inductive SoupSocketIOStatus
  | OK | WOULD_BLOCK | EOF | ERROR
  deriving DecidableEq, Repr

/-- What the socket has for the next `soup_socket_read` or `soup_socket_read_until`. -/
inductive NetEvent
  /-- These bytes have arrived. -/
  | data (bytes : List Byte)
  | would_block
  | eof
  | error (e : GErrorKind)
  deriving DecidableEq, Repr

/-- What the socket does with the next `soup_socket_write`. -/
inductive WriteEvent
  /-- The socket takes at most `n` bytes, and at least one. -/
  | accept (n : Nat)
  | would_block
  | eof
  | error (e : GErrorKind)
  deriving DecidableEq, Repr

/-- What the application's handlers of one signal emission do to the message: nothing,
`soup_session_pause_message`, or `soup_session_cancel_message`. -/
inductive CallbackOutcome
  | proceed | pause | cancel
  deriving DecidableEq, Repr

/-- What `soup_headers_parse_response` stores for a header block, and what the accessors of
`response_headers` return afterwards. -/
structure ParsedResponse where
  status_code : Nat
  http_1_0 : Bool
  encoding : SoupEncoding
  content_length : Nat
  connection_close : Bool
  keep_alive : Bool
  deriving DecidableEq, Repr

/-- The collaborators of the dispatcher during one call into it. -/
structure Env where
  /-- Script of the receiving side of the socket. -/
  incoming : List NetEvent
  /-- Script of the sending side of the socket; when it is used up the socket takes
  everything it is given. -/
  outgoing : List WriteEvent
  /-- Script of the application's signal handlers; when it is used up they do nothing. -/
  callbacks : List CallbackOutcome
  /-- Script of `priv->chunk_allocator`: the length of the buffer it returns, or `none` for
  a null buffer; when it is used up the allocator returns null. -/
  allocator : List (Option Nat)
  /-- `soup_headers_parse_response` together with the header accessors; `none` is a parse
  failure. -/
  headers : List Byte → Option ParsedResponse
  /-- The chain of `priv->decoders` applied to one buffer by `content_decode`; `none` is the
  null buffer of a chain that has produced no output yet. -/
  decoders : List Byte → Option (List Byte)
  /-- `soup_socket_is_connected`. -/
  connected : Bool
  /-- Script of the memory behind the bytes of `read_meta_buf`.  A `GByteArray` does not
  terminate its data, so `strtoul`, which the reader calls on the size line of a chunk, goes on
  into that memory when the line gives it no character to stop at.  An entry is what it finds
  there in one such call: remains of what the array held earlier, or memory that was never
  written; the dispatcher does not control either.  The end of an entry is the first null
  byte; when the script is used up, the null byte comes at once. -/
  behind : List (List Byte)

/-- Result of a socket call: status, bytes transferred, `GError`. -/
structure SocketResult where
  status : SoupSocketIOStatus
  data : List Byte
  error : Option GErrorKind
  got_boundary : Bool
  env : Env

/-- `soup_socket_write (sock, data, len, &nwrote, ...)`: on `OK` between 1 and `len` bytes
are taken from the front of `data`. -/
def soup_socket_write (env : Env) (data : List Byte) : SocketResult :=
  match env.outgoing with
  | [] => { status := .OK, data := data, error := none, got_boundary := false, env := env }
  | .accept n :: rest =>
    { status := .OK, data := data.take (max n 1), error := none, got_boundary := false
      env := { env with outgoing := rest } }
  | .would_block :: rest =>
    { status := .WOULD_BLOCK, data := [], error := none, got_boundary := false
      env := { env with outgoing := rest } }
  | .eof :: rest =>
    { status := .EOF, data := [], error := none, got_boundary := false
      env := { env with outgoing := rest } }
  | .error e :: rest =>
    { status := .ERROR, data := [], error := some e, got_boundary := false
      env := { env with outgoing := rest } }

/-- Puts the unread rest of a `data` entry back at the front of the script. -/
def unread (rest_bytes : List Byte) (rest : List NetEvent) : List NetEvent :=
  if rest_bytes.isEmpty then rest else .data rest_bytes :: rest

/-- `soup_socket_read (sock, buffer, len, &nread, ...)`: on `OK` at most `len` of the
arrived bytes are returned. -/
def soup_socket_read (env : Env) (len : Nat) : SocketResult :=
  match env.incoming with
  | [] => { status := .WOULD_BLOCK, data := [], error := none, got_boundary := false, env := env }
  | .data bytes :: rest =>
    { status := .OK, data := bytes.take len, error := none, got_boundary := false
      env := { env with incoming := unread (bytes.drop len) rest } }
  | .would_block :: rest =>
    { status := .WOULD_BLOCK, data := [], error := none, got_boundary := false
      env := { env with incoming := rest } }
  | .eof :: _ => { status := .EOF, data := [], error := none, got_boundary := false, env := env }
  | .error e :: rest =>
    { status := .ERROR, data := [], error := some e, got_boundary := false
      env := { env with incoming := rest } }

/-- The line feed, the boundary that `soup_io_dispatcher_read_metadata` reads up to. -/
def LF : Byte := 10

/-- The carriage return. -/
def CR : Byte := 13

/-- Length of the prefix of `bytes` that ends with the first line feed, or the length of
`bytes` when there is none. -/
def through_boundary : List Byte → Nat
  | [] => 0
  | b :: rest => if b == LF then 1 else through_boundary rest + 1

/-- `soup_socket_read_until (sock, buffer, len, "\n", 1, &nread, &got_lf, ...)`: on `OK` the
arrived bytes up to and including the first line feed are returned, at most `len` of them;
`got_boundary` tells whether the line feed was reached. -/
def soup_socket_read_until (env : Env) (len : Nat) : SocketResult :=
  match env.incoming with
  | [] => { status := .WOULD_BLOCK, data := [], error := none, got_boundary := false, env := env }
  | .data bytes :: rest =>
    let n := min len (through_boundary bytes)
    { status := .OK, data := bytes.take n, error := none
      got_boundary := (bytes.take n).getLast? == some LF
      env := { env with incoming := unread (bytes.drop n) rest } }
  | .would_block :: rest =>
    { status := .WOULD_BLOCK, data := [], error := none, got_boundary := false
      env := { env with incoming := rest } }
  | .eof :: _ => { status := .EOF, data := [], error := none, got_boundary := false, env := env }
  | .error e :: rest =>
    { status := .ERROR, data := [], error := some e, got_boundary := false
      env := { env with incoming := rest } }

/-- One emission of a message signal: the handlers of the application run. -/
def run_callback (env : Env) : CallbackOutcome × Env :=
  match env.callbacks with
  | [] => (.proceed, env)
  | outcome :: rest => (outcome, { env with callbacks := rest })

/-! ## Item-level I/O -/

/-- What the application did to the message inside the signal handler after which an I/O
function returned, or the pause that the function requested itself.  The dispatcher applies it
(`soup_io_dispatcher_pause_io_data`, `cancel_message`) when the function has returned, which
in the source it does directly after the call that is recorded here. -/
inductive Control
  | none | pause | cancel
  deriving DecidableEq, Repr

/-- The state that the item-level I/O functions work on: the item, the collaborators and the
events produced so far. -/
structure IOCtx where
  io : SoupMessageIOData
  env : Env
  events : List Event

/-- Return of an item-level I/O function: its `gboolean` result, and the state it leaves. -/
structure IOResult where
  ret : Bool
  control : Control
  ctx : IOCtx

/-- A loop whose body either goes round again with a new state or leaves the loop with a
result, run for at most `fuel` rounds. -/
def iterate {σ ρ : Type} (step : σ → Option (σ ⊕ ρ)) : Nat → σ → Option ρ
  | 0, _ => none
  | fuel + 1, s =>
    match step s with
    | none => none
    | some (.inl s') => iterate step fuel s'
    | some (.inr r) => some r

/-- `return val` without any action of the application. -/
def IOCtx.returns (ctx : IOCtx) (ret : Bool) : IOResult :=
  { ret := ret, control := .none, ctx := ctx }

/-- Emission of a signal of the message: the event is recorded and the handlers of the
application run. -/
def signal (ctx : IOCtx) (sig : MsgSignal) : CallbackOutcome × IOCtx :=
  let (outcome, env) := run_callback ctx.env
  (outcome, { ctx with env := env, events := ctx.events ++ [Event.msg_signal ctx.io.msg.id sig] })

/-- `SOUP_MESSAGE_IO_RETURN_VAL_IF_CANCELLED_OR_PAUSED (FALSE)` after handlers with the given
outcome: the state to go on with, or the return that the macro makes. -/
def return_if_cancelled_or_paused (outcome : CallbackOutcome) (ctx : IOCtx) :
    IOCtx ⊕ IOResult :=
  match outcome with
  | .proceed => .inl ctx
  | .pause => .inr { ret := false, control := .pause, ctx := ctx }
  | .cancel => .inr { ret := false, control := .cancel, ctx := ctx }

/-- `SOUP_MESSAGE_IO_PREPARE_FOR_CALLBACK; <emit signal>;
SOUP_MESSAGE_IO_RETURN_VAL_IF_CANCELLED_OR_PAUSED (FALSE)`. -/
def emit_signal (ctx : IOCtx) (sig : MsgSignal) : IOCtx ⊕ IOResult :=
  return_if_cancelled_or_paused (signal ctx sig).1 (signal ctx sig).2

/-- `io->io_error = TRUE; if (error) io->error = g_error_copy (error); return FALSE;`. -/
def IOCtx.fail (ctx : IOCtx) (error : Option GErrorKind) : IOResult :=
  let io := { ctx.io with io_error := true }
  let io := if error.isSome then { io with error := error } else io
  { ctx with io := io }.returns false

/-- `soup_io_dispatcher_pause_io_data (io_disp, io); return FALSE;` and
`soup_io_dispatcher_pause_message (io_disp, msg); return FALSE;`. -/
def IOCtx.pause (ctx : IOCtx) : IOResult := { ret := false, control := .pause, ctx := ctx }

/-- `if (io->write_length) io->write_length -= nwrote;`. -/
def write_data_account (ctx : IOCtx) (nwrote : Nat) : IOCtx :=
  if ctx.io.write_length != 0 then
    { ctx with io := { ctx.io with write_length := ctx.io.write_length - nwrote } }
  else ctx

/-- Case `SOUP_SOCKET_OK` of `soup_io_dispatcher_write_data`: the socket has accepted the
bytes `accepted`. -/
def write_data_ok (body : Bool) (ctx : IOCtx) (accepted : List Byte) : IOCtx ⊕ IOResult :=
  let ctx := { ctx with
    io := { ctx.io with written := ctx.io.written + accepted.length }
    events := ctx.events ++ [Event.socket_wrote accepted] }
  if body then emit_signal (write_data_account ctx accepted.length) (.wrote_body_data accepted)
  else .inl ctx

/-- Case `SOUP_SOCKET_WOULD_BLOCK` of `soup_io_dispatcher_write_data`. -/
def write_data_would_block (ctx : IOCtx) : IOResult :=
  { ctx with io := { ctx.io with write_blocked := true } }.returns false

/-- The exit of the loop of `soup_io_dispatcher_write_data`. -/
def write_data_done (ctx : IOCtx) : IOResult :=
  { ctx with io := { ctx.io with written := 0 } }.returns true

/-- One round of the loop of `soup_io_dispatcher_write_data`, exit of the loop included. -/
def write_data_step (data : List Byte) (body : Bool) (ctx : IOCtx) : IOCtx ⊕ IOResult :=
  if data.length > ctx.io.written then
    let r := soup_socket_write ctx.env (data.drop ctx.io.written)
    match r.status with
    | .EOF => .inr ({ ctx with env := r.env }.fail r.error)
    | .ERROR => .inr ({ ctx with env := r.env }.fail r.error)
    | .WOULD_BLOCK => .inr (write_data_would_block { ctx with env := r.env })
    | .OK => write_data_ok body { ctx with env := r.env } r.data
  else .inr (write_data_done ctx)

/-- `soup_io_dispatcher_write_data (io_disp, io, data, len, body)`.  Every round of the loop
but the last has the socket take at least one byte, so `len - io->written + 1` rounds are
enough. -/
def soup_io_dispatcher_write_data (ctx : IOCtx) (data : List Byte) (body : Bool) :
    Option IOResult :=
  iterate (fun s => some (write_data_step data body s)) (data.length - ctx.io.written + 1) ctx

/-- `if (!io->sniff_data) { io->sniff_data = soup_message_body_new ();
io->need_content_sniffed = TRUE; }`. -/
def sniff_alloc (ctx : IOCtx) : IOCtx :=
  if ctx.io.sniff_data.isNone then
    { ctx with io := { ctx.io with sniff_data := some [], need_content_sniffed := true } }
  else ctx

/-- `io->need_content_sniffed = FALSE;`. -/
def sniff_content_clear (ctx : IOCtx) : IOCtx :=
  { ctx with io := { ctx.io with need_content_sniffed := false } }

/-- `io->need_got_chunk = FALSE;`. -/
def sniff_got_chunk_clear (ctx : IOCtx) : IOCtx :=
  { ctx with io := { ctx.io with need_got_chunk := false } }

/-- The block `if (io->need_content_sniffed) { ... }` of `io_handle_sniffing`. -/
def sniff_content (ctx : IOCtx) (done_reading : Bool) : IOCtx ⊕ IOResult :=
  if ctx.io.need_content_sniffed then
    if decide ((ctx.io.sniff_data.getD []).length < ctx.io.msg.bytes_for_sniffing) &&
        !done_reading then .inr (ctx.returns true)
    else emit_signal (sniff_content_clear ctx) .content_sniffed
  else .inl ctx

/-- The block `if (io->need_got_chunk) { ... }` of `io_handle_sniffing` and the final
`return TRUE`. -/
def sniff_got_chunk (ctx : IOCtx) : IOResult :=
  if ctx.io.need_got_chunk then
    match emit_signal (sniff_got_chunk_clear ctx) (.got_chunk (ctx.io.sniff_data.getD [])) with
    | .inr r => r
    | .inl ctx => ctx.returns true
  else ctx.returns true

/-- `io_handle_sniffing (io, done_reading)`. -/
def io_handle_sniffing (ctx : IOCtx) (done_reading : Bool) : IOResult :=
  if !ctx.io.msg.sniffer then ctx.returns true
  else
    match sniff_content (sniff_alloc ctx) done_reading with
    | .inr r => r
    | .inl ctx => sniff_got_chunk ctx

/-- Lifts the return of a call to the caller's loop: `if (!call (...)) return FALSE;`. -/
def or_return (r : IOResult) (k : IOCtx → IOCtx ⊕ IOResult) : IOCtx ⊕ IOResult :=
  if r.ret then k r.ctx else .inr r

/-- The number of rounds that surely use up a receiving script: one for every entry and one
for every byte. -/
def incoming_size : List NetEvent → Nat
  | [] => 0
  | .data bytes :: rest => bytes.length + 1 + incoming_size rest
  | _ :: rest => 1 + incoming_size rest

/-- `priv->chunk_allocator (msg, io->read_length, ...)` when an allocator is set, and
`soup_buffer_new (SOUP_MEMORY_TEMPORARY, read_buf, response_block_size)` otherwise: the
length of the buffer, or `none` for the null buffer. -/
def allocate_buffer (response_block_size : Nat) (ctx : IOCtx) : Option Nat × IOCtx :=
  if ctx.io.msg.chunk_allocator then
    match ctx.env.allocator with
    | [] => (none, ctx)
    | b :: rest => (b, { ctx with env := { ctx.env with allocator := rest } })
  else (some response_block_size, ctx)

/-- Modelled from the spec: `soup_message_body_got_chunk` lives in `soup-message-body.c`,
which is not part of the sources.  Section 4.2.3: the reader delivers every chunk it has read
to the response body; here the body accumulates them. -/
def soup_message_body_got_chunk (msg : SoupMessage) (buffer : List Byte) : SoupMessage :=
  { msg with response_body := msg.response_body ++ buffer }

/-- `io->read_length -= nread;`. -/
def read_body_chunk_account (ctx : IOCtx) (nread : Nat) : IOCtx :=
  { ctx with io := { ctx.io with read_length := ctx.io.read_length - nread } }

/-- `soup_message_body_got_chunk (io->read_body, buffer);`. -/
def read_body_got_chunk (ctx : IOCtx) (buffer : List Byte) : IOCtx :=
  { ctx with io := { ctx.io with msg := soup_message_body_got_chunk ctx.io.msg buffer } }

/-- `soup_message_body_append_buffer (io->sniff_data, buffer); io->need_got_chunk = TRUE;`.
`need_content_sniffed` is set only when `sniff_data` has been allocated. -/
def sniff_append (ctx : IOCtx) (buffer : List Byte) : IOCtx :=
  { ctx with io := { ctx.io with
    sniff_data := some (ctx.io.sniff_data.getD [] ++ buffer)
    need_got_chunk := true } }

/-- What `soup_io_dispatcher_read_body_chunk` does with a decoded buffer. -/
def read_body_chunk_deliver (ctx : IOCtx) (buffer : List Byte) : IOCtx ⊕ IOResult :=
  if ctx.io.need_content_sniffed then
    or_return (io_handle_sniffing (sniff_append (read_body_got_chunk ctx buffer) buffer) false)
      .inl
  else emit_signal (read_body_got_chunk ctx buffer) (.got_chunk buffer)

/-- What `soup_io_dispatcher_read_body_chunk` does with a buffer that the socket has filled
with `data`. -/
def read_body_chunk_got_data (ctx : IOCtx) (data : List Byte) : IOCtx ⊕ IOResult :=
  match ctx.env.decoders data with
  | none => .inl (read_body_chunk_account ctx data.length)
  | some buffer => read_body_chunk_deliver (read_body_chunk_account ctx data.length) buffer

/-- Case `SOUP_SOCKET_EOF` of `soup_io_dispatcher_read_body_chunk`. -/
def read_body_chunk_eof (ctx : IOCtx) (error : Option GErrorKind) : IOResult :=
  if ctx.io.read_eof_ok then
    { ctx with io := { ctx.io with read_length := 0 } }.returns true
  else ctx.fail error

/-- Case `SOUP_SOCKET_WOULD_BLOCK` of the reading functions. -/
def read_would_block (ctx : IOCtx) : IOResult :=
  { ctx with io := { ctx.io with read_blocked := true } }.returns false

/-- The number of bytes that `soup_io_dispatcher_read_body_chunk` asks the socket for. -/
def read_body_chunk_len (ctx : IOCtx) (buffer_length : Nat) : Nat :=
  if ctx.io.read_encoding == .EOF then buffer_length
  else min buffer_length ctx.io.read_length.toNat

/-- The part of a round of `soup_io_dispatcher_read_body_chunk` that follows the call of
`soup_socket_read`. -/
def read_body_chunk_result (ctx : IOCtx) (r : SocketResult) : IOCtx ⊕ IOResult :=
  if r.status == .OK && r.data.length != 0 then
    read_body_chunk_got_data { ctx with env := r.env } r.data
  else
    match r.status with
    | .OK => .inl { ctx with env := r.env }
    | .EOF => .inr (read_body_chunk_eof { ctx with env := r.env } r.error)
    | .ERROR => .inr ({ ctx with env := r.env }.fail r.error)
    | .WOULD_BLOCK => .inr (read_would_block { ctx with env := r.env })

/-- One round of the loop of `soup_io_dispatcher_read_body_chunk`, exit of the loop
included. -/
def read_body_chunk_step (response_block_size : Nat) (ctx : IOCtx) : IOCtx ⊕ IOResult :=
  if ctx.io.read_encoding == .EOF || decide (ctx.io.read_length > 0) then
    match allocate_buffer response_block_size ctx with
    | (none, ctx) => .inr ctx.pause
    | (some buffer_length, ctx) =>
      read_body_chunk_result ctx
        (soup_socket_read ctx.env (read_body_chunk_len ctx buffer_length))
  else .inr (ctx.returns true)

/-- `soup_io_dispatcher_read_body_chunk (io_disp, io)`.  Every round of the loop that does
not leave it uses up an entry of the allocator script, an entry of the receiving script or a
byte of it, unless it reads into a buffer of length 0. -/
def soup_io_dispatcher_read_body_chunk (response_block_size : Nat) (ctx : IOCtx) :
    Option IOResult :=
  let r := io_handle_sniffing ctx false
  if !r.ret then some r
  else
    iterate (fun s => some (read_body_chunk_step response_block_size s))
      (incoming_size r.ctx.env.incoming + r.ctx.env.allocator.length + 2) r.ctx

/-- The part of the loop of `soup_io_dispatcher_read_metadata` after the `switch`: whether
the loop is left. -/
def read_metadata_done (to_blank : Bool) (got_lf : Bool) (nread : Nat) (buf : List Byte) :
    Bool :=
  got_lf &&
    (!to_blank ||
      (nread == 1 && decide (buf.length ≥ 2) && buf.drop (buf.length - 2) == [LF, LF]) ||
      (nread == 2 && decide (buf.length ≥ 3) && buf.drop (buf.length - 3) == [LF, CR, LF]))

/-- `g_byte_array_append (io->read_meta_buf, bytes, n);`. -/
def read_metadata_append (ctx : IOCtx) (bytes : List Byte) : IOCtx :=
  { ctx with io := { ctx.io with read_meta_buf := ctx.io.read_meta_buf ++ bytes } }

/-- The part of a round of `soup_io_dispatcher_read_metadata` after the `switch`. -/
def read_metadata_after (to_blank : Bool) (nread : Nat) (ctx : IOCtx) (got_lf : Bool) :
    IOCtx ⊕ IOResult :=
  if read_metadata_done to_blank got_lf nread ctx.io.read_meta_buf then .inr (ctx.returns true)
  else .inl ctx

/-- Case `SOUP_SOCKET_EOF` of `soup_io_dispatcher_read_metadata`. -/
def read_metadata_eof (to_blank : Bool) (ctx : IOCtx) (error : Option GErrorKind) :
    IOCtx ⊕ IOResult :=
  if ctx.io.read_state == .CHUNK_SIZE && ctx.io.read_meta_buf.length == 0 then
    read_metadata_after to_blank 0 (read_metadata_append ctx [48, CR, LF]) true
  else if ctx.io.read_state == .TRAILERS && ctx.io.read_meta_buf.length == 0 then
    read_metadata_after to_blank 0 (read_metadata_append ctx [CR, LF]) true
  else .inr (ctx.fail error)

/-- One round of the loop of `soup_io_dispatcher_read_metadata`. -/
def read_metadata_step (response_block_size : Nat) (to_blank : Bool) (ctx : IOCtx) :
    IOCtx ⊕ IOResult :=
  let r := soup_socket_read_until ctx.env response_block_size
  match r.status with
  | .OK =>
    read_metadata_after to_blank r.data.length
      (read_metadata_append { ctx with env := r.env } r.data) r.got_boundary
  | .EOF => read_metadata_eof to_blank { ctx with env := r.env } r.error
  | .ERROR => .inr ({ ctx with env := r.env }.fail r.error)
  | .WOULD_BLOCK => .inr (read_would_block { ctx with env := r.env })

/-- `soup_io_dispatcher_read_metadata (io_disp, io, to_blank)`.  Every round of the loop that
does not leave it uses up an entry of the receiving script or a byte of it, unless
`response_block_size` is 0. -/
def soup_io_dispatcher_read_metadata (response_block_size : Nat) (ctx : IOCtx)
    (to_blank : Bool) : Option IOResult :=
  iterate (fun s => some (read_metadata_step response_block_size to_blank s))
    (incoming_size ctx.env.incoming + 2) ctx

/-! ## The client's header codec -/

/-- `get_headers` of `soup-io-dispatcher-client.c`: the header text, the encoding, and the
message, whose request headers get a `Content-Length` when the body or a `Content-Type` asks
for one.  The text itself is `request_header_bytes`. -/
def get_headers (req : SoupMessage) : SoupMessage × List Byte × SoupEncoding :=
  let encoding := req.request_encoding
  if (encoding == .CONTENT_LENGTH || encoding == .NONE) &&
      (decide ((req.request_body.map List.length).sum > 0) || req.request_has_content_type) &&
      req.request_content_length == 0 then
    ({ req with request_encoding := .CONTENT_LENGTH
                request_content_length := (req.request_body.map List.length).sum },
      req.request_header_bytes, .CONTENT_LENGTH)
  else (req, req.request_header_bytes, encoding)

/-- `parse_headers` of `soup-io-dispatcher-client.c`: the status it returns, the message and
the encoding it stores (`none` when it stores none). -/
def parse_headers (env : Env) (req : SoupMessage) (headers : List Byte) :
    Nat × SoupMessage × Option SoupEncoding :=
  match env.headers headers with
  | none => (SOUP_STATUS_MALFORMED, req, none)
  | some p =>
    let req := { req with
      status_code := p.status_code
      response_encoding := p.encoding
      response_content_length := p.content_length
      response_connection_close := p.connection_close
      response_keep_alive := p.keep_alive }
    let req := if p.http_1_0 && !req.http_1_0 then { req with http_1_0 := true } else req
    let encoding :=
      if (req.method == .HEAD || req.status_code == SOUP_STATUS_NO_CONTENT ||
          req.status_code == SOUP_STATUS_NOT_MODIFIED ||
          SOUP_STATUS_IS_INFORMATIONAL req.status_code) ||
          (req.method == .CONNECT && SOUP_STATUS_IS_SUCCESSFUL req.status_code) then
        SoupEncoding.NONE
      else req.response_encoding
    if encoding == .UNRECOGNIZED then (SOUP_STATUS_MALFORMED, req, some encoding)
    else (SOUP_STATUS_OK, req, some encoding)

/-- Modelled from the spec: `soup_message_cleanup_response` lives in `soup-message.c`, which
is not part of the sources.  Section 6 lists `cleanup_response` among the callbacks that the
dispatcher fires on the message; here it also resets the status code and the HTTP version and
empties the response body. -/
def soup_message_cleanup_response (ctx : IOCtx) : IOCtx :=
  { ctx with
    io := { ctx.io with msg := { ctx.io.msg with
      status_code := SOUP_STATUS_NONE, http_1_0 := ctx.io.msg.orig_http_1_0
      response_body := [] } }
    events := ctx.events ++ [Event.msg_signal ctx.io.msg.id .cleanup_response] }

/-- Modelled from the spec: `soup_message_body_get_chunk` lives in `soup-message-body.c`,
which is not part of the sources.  Section 4.2.2: the writer pulls the next chunk from the
body stream; the chunk that holds `offset` is returned from `offset` on, the chunk of length
0 marks the end of the body, and there is no chunk when the body has not got that far. -/
def soup_message_body_get_chunk : List (List Byte) → Nat → Option (List Byte)
  | [], _ => none
  | chunk :: rest, offset =>
    if offset < chunk.length || offset == 0 then some (chunk.drop offset)
    else soup_message_body_get_chunk rest (offset - chunk.length)

/-- A `goffset` read as a `gsize`. -/
def as_gsize (x : Int) : Nat := (x % 18446744073709551616).toNat

/-- The character of a hexadecimal digit, lower case. -/
def hex_char (d : Nat) : Byte := if d < 10 then 48 + d else 87 + d

/-- The digits of `printf ("%lx", n)` for at most `fuel` digits, most significant first,
in front of `acc`. -/
def hex_digits_aux : Nat → Nat → List Byte → List Byte
  | 0, _, acc => acc
  | fuel + 1, n, acc =>
    if n < 16 then hex_char n :: acc
    else hex_digits_aux fuel (n / 16) (hex_char (n % 16) :: acc)

/-- `printf ("%lx", n)`. -/
def hex_digits (n : Nat) : List Byte := hex_digits_aux (n + 1) n []

/-- `SOUP_MESSAGE_IO_EOL`. -/
def SOUP_MESSAGE_IO_EOL : List Byte := [CR, LF]

/-! ## `io_data_write` of the client -/

/-- Binds the result of a call that can run out of fuel. -/
def with_call (r : Option IOResult) (k : IOCtx → IOCtx ⊕ IOResult) :
    Option (IOCtx ⊕ IOResult) :=
  r.map (fun r => or_return r k)

/-- Assignments to fields of the item. -/
def IOCtx.update (ctx : IOCtx) (f : SoupMessageIOData → SoupMessageIOData) : IOCtx :=
  { ctx with io := f ctx.io }

/-- `io->write_state = state;`. -/
def set_write_state (state : SoupMessageIOState) (io : SoupMessageIOData) : SoupMessageIOData :=
  { io with write_state := state }

/-- `io->read_state = state;`. -/
def set_read_state (state : SoupMessageIOState) (io : SoupMessageIOData) : SoupMessageIOData :=
  { io with read_state := state }

/-- `io->write_chunk = chunk;`. -/
def set_write_chunk (chunk : Option (List Byte)) (io : SoupMessageIOData) : SoupMessageIOData :=
  { io with write_chunk := chunk }

/-- The label `wrote_body` in the `BODY` case of `io_data_write`. -/
def write_wrote_body (ctx : IOCtx) : IOCtx ⊕ IOResult :=
  emit_signal (ctx.update (set_write_state .FINISHING)) .wrote_body

/-- `if (!io->write_buf->len) get_headers (io_disp, msg, io->write_buf,
&io->write_encoding);`. -/
def write_headers_fetch (io : SoupMessageIOData) : SoupMessageIOData :=
  if io.write_buf.isEmpty then
    { io with
      msg := (get_headers io.msg).1
      write_buf := (get_headers io.msg).2.1
      write_encoding := (get_headers io.msg).2.2 }
  else io

/-- The assignments of case `HEADERS` of `io_data_write` once the header text is written. -/
def write_headers_written (io : SoupMessageIOData) : SoupMessageIOData :=
  let io := { io with write_buf := [] }
  let io :=
    if io.write_encoding == .CONTENT_LENGTH then
      { io with write_length := io.msg.request_content_length }
    else io
  if io.msg.request_expect_continue then
    { io with write_state := .BLOCKING, read_state := .HEADERS }
  else { io with write_state := io_body_state io.write_encoding }

/-- The signal at the end of case `HEADERS` of `io_data_write`. -/
def write_headers_signal (ctx : IOCtx) : IOCtx ⊕ IOResult :=
  if SOUP_STATUS_IS_INFORMATIONAL ctx.io.msg.status_code then
    return_if_cancelled_or_paused (signal ctx .wrote_informational).1
      (soup_message_cleanup_response (signal ctx .wrote_informational).2)
  else emit_signal ctx .wrote_headers

/-- Case `SOUP_MESSAGE_IO_STATE_HEADERS` of `io_data_write`. -/
def write_case_HEADERS (ctx : IOCtx) : Option (IOCtx ⊕ IOResult) :=
  if (write_headers_fetch ctx.io).write_buf.isEmpty then
    some (.inr (ctx.update write_headers_fetch).pause)
  else
    with_call
      (soup_io_dispatcher_write_data (ctx.update write_headers_fetch)
        (write_headers_fetch ctx.io).write_buf false)
      (fun ctx => write_headers_signal (ctx.update write_headers_written))

/-- Modelled from the spec: `soup_message_body_wrote_chunk` lives in `soup-message-body.c`,
which is not part of the sources.  It lets a body that does not accumulate forget a chunk
that has been written; the request body here accumulates, as a new body does, and keeps its
chunks. -/
def soup_message_body_wrote_chunk (msg : SoupMessage) (_chunk : List Byte) : SoupMessage := msg

/-- `if (priv->msg_flags & SOUP_MESSAGE_CAN_REBUILD) soup_message_body_wrote_chunk (...)`. -/
def wrote_chunk_if_can_rebuild (chunk : List Byte) (io : SoupMessageIOData) :
    SoupMessageIOData :=
  if io.msg.can_rebuild then { io with msg := soup_message_body_wrote_chunk io.msg chunk }
  else io

/-- The assignments of case `BODY` of `io_data_write` once the chunk is written. -/
def write_body_written (chunk : List Byte) (io : SoupMessageIOData) : SoupMessageIOData :=
  { wrote_chunk_if_can_rebuild chunk io with
    write_body_offset := io.write_body_offset + chunk.length
    write_chunk := none }

/-- The rest of case `SOUP_MESSAGE_IO_STATE_BODY` of `io_data_write` once `io->write_chunk`
is set. -/
def write_body_chunk (ctx : IOCtx) (chunk : List Byte) : Option (IOCtx ⊕ IOResult) :=
  with_call (soup_io_dispatcher_write_data ctx chunk true) (fun ctx =>
    emit_signal (ctx.update (write_body_written chunk)) .wrote_chunk)

/-- The part of case `BODY` of `io_data_write` that follows a successful
`soup_message_body_get_chunk`. -/
def write_body_fetched (ctx : IOCtx) (chunk : List Byte) : Option (IOCtx ⊕ IOResult) :=
  if decide (chunk.length > as_gsize ctx.io.write_length) && ctx.io.write_encoding != .EOF then
    write_body_chunk
      (ctx.update (set_write_chunk (some (chunk.take (as_gsize ctx.io.write_length)))))
      (chunk.take (as_gsize ctx.io.write_length))
  else if ctx.io.write_encoding == .EOF && chunk.length == 0 then
    some (write_wrote_body (ctx.update (set_write_chunk (some chunk))))
  else write_body_chunk (ctx.update (set_write_chunk (some chunk))) chunk

/-- Case `SOUP_MESSAGE_IO_STATE_BODY` of `io_data_write`. -/
def write_case_BODY (ctx : IOCtx) : Option (IOCtx ⊕ IOResult) :=
  if ctx.io.write_length == 0 && ctx.io.write_encoding != .EOF then some (write_wrote_body ctx)
  else
    match ctx.io.write_chunk with
    | some chunk => write_body_chunk ctx chunk
    | none =>
      match soup_message_body_get_chunk ctx.io.msg.request_body ctx.io.write_body_offset.toNat with
      | none => some (.inr ctx.pause)
      | some chunk => write_body_fetched ctx chunk

/-- The assignments of case `CHUNK_SIZE` of `io_data_write` after a successful
`soup_message_body_get_chunk`. -/
def write_chunk_size_fetched (chunk : List Byte) (io : SoupMessageIOData) : SoupMessageIOData :=
  { io with
    write_chunk := some chunk
    write_buf := io.write_buf ++ hex_digits chunk.length ++ [CR, LF]
    write_body_offset := io.write_body_offset + chunk.length }

/-- The assignments of case `CHUNK_SIZE` of `io_data_write` once the size line is written:
the last chunk has no `CHUNK_END`. -/
def write_chunk_size_written (io : SoupMessageIOData) : SoupMessageIOData :=
  if (io.write_chunk.getD []).length == 0 then { io with write_buf := [], write_state := .TRAILERS }
  else { io with write_buf := [], write_state := .CHUNK }

/-- The part of case `CHUNK_SIZE` of `io_data_write` from the call of
`soup_io_dispatcher_write_data` on. -/
def write_chunk_size_line (ctx : IOCtx) : Option (IOCtx ⊕ IOResult) :=
  with_call (soup_io_dispatcher_write_data ctx ctx.io.write_buf false) (fun ctx =>
    .inl (ctx.update write_chunk_size_written))

/-- Case `SOUP_MESSAGE_IO_STATE_CHUNK_SIZE` of `io_data_write`, up to the point where it
breaks or falls through to `CHUNK`. -/
def write_case_CHUNK_SIZE (ctx : IOCtx) : Option (IOCtx ⊕ IOResult) :=
  match ctx.io.write_chunk with
  | some _ => write_chunk_size_line ctx
  | none =>
    match soup_message_body_get_chunk ctx.io.msg.request_body ctx.io.write_body_offset.toNat with
    | none => some (.inr ctx.pause)
    | some chunk => write_chunk_size_line (ctx.update (write_chunk_size_fetched chunk))

/-- The assignments of case `CHUNK` of `io_data_write` once the chunk is written. -/
def write_chunk_written (io : SoupMessageIOData) : SoupMessageIOData :=
  { wrote_chunk_if_can_rebuild (io.write_chunk.getD []) io with
    write_chunk := none
    write_state := .CHUNK_END }

/-- Case `SOUP_MESSAGE_IO_STATE_CHUNK` of `io_data_write`, up to the point where it falls
through to `CHUNK_END`.  `io->write_chunk` is set in this state. -/
def write_case_CHUNK (ctx : IOCtx) : Option (IOCtx ⊕ IOResult) :=
  with_call (soup_io_dispatcher_write_data ctx (ctx.io.write_chunk.getD []) true) (fun ctx =>
    emit_signal (ctx.update write_chunk_written) .wrote_chunk)

/-- Case `SOUP_MESSAGE_IO_STATE_CHUNK_END` of `io_data_write`. -/
def write_case_CHUNK_END (ctx : IOCtx) : Option (IOCtx ⊕ IOResult) :=
  with_call (soup_io_dispatcher_write_data ctx SOUP_MESSAGE_IO_EOL false) (fun ctx =>
    .inl (ctx.update (set_write_state .CHUNK_SIZE)))

/-- Case `SOUP_MESSAGE_IO_STATE_TRAILERS` of `io_data_write`, up to the point where it falls
through to `FINISHING`. -/
def write_case_TRAILERS (ctx : IOCtx) : Option (IOCtx ⊕ IOResult) :=
  with_call (soup_io_dispatcher_write_data ctx SOUP_MESSAGE_IO_EOL false) (fun ctx =>
    emit_signal (ctx.update (set_write_state .FINISHING)) .wrote_body)

/-- The assignments of case `FINISHING` of `io_data_write`. -/
def write_finishing (io : SoupMessageIOData) : SoupMessageIOData :=
  { io with write_state := .DONE, read_state := .HEADERS }

/-- One pass through the `switch` of `io_data_write`: the state with which `goto write_more`
enters the switch again, or the return of the function.  Where a case falls through to the
next one it has just set `io->write_state` to the label of that case, so that the next pass
enters there. -/
def io_data_write_step (ctx : IOCtx) : Option (IOCtx ⊕ IOResult) :=
  match ctx.io.write_state with
  | .NOT_STARTED => some (.inr (ctx.returns false))
  | .HEADERS => write_case_HEADERS ctx
  | .BLOCKING => some (.inr (ctx.returns false))
  | .BODY => write_case_BODY ctx
  | .CHUNK_SIZE => write_case_CHUNK_SIZE ctx
  | .CHUNK => write_case_CHUNK ctx
  | .CHUNK_END => write_case_CHUNK_END ctx
  | .TRAILERS => write_case_TRAILERS ctx
  | .FINISHING => some (.inr ((ctx.update write_finishing).returns true))
  | .DONE => some (.inr (ctx.returns true))

/-- `if (io->write_state == SOUP_MESSAGE_IO_STATE_NOT_STARTED) io->write_state =
SOUP_MESSAGE_IO_STATE_HEADERS;`. -/
def write_start (io : SoupMessageIOData) : SoupMessageIOData :=
  if io.write_state == .NOT_STARTED then { io with write_state := .HEADERS } else io

/-- `io_data_write` of `soup-io-dispatcher-client.c`, for at most `fuel` passes through the
`switch`; `none` when the passes are used up before the function returns. -/
def io_data_write (fuel : Nat) (ctx : IOCtx) : Option IOResult :=
  iterate io_data_write_step fuel (ctx.update write_start)

/-! ## `io_data_read` of the client -/

/-- The C library's `isspace` in the "C" locale. -/
def isspace (c : Byte) : Bool := c == 32 || (decide (9 ≤ c) && decide (c ≤ 13))

/-- The value of a hexadecimal digit, if the character is one. -/
def hex_value (c : Byte) : Option Nat :=
  if 48 ≤ c ∧ c ≤ 57 then some (c - 48)
  else if 97 ≤ c ∧ c ≤ 102 then some (c - 87)
  else if 65 ≤ c ∧ c ≤ 70 then some (c - 55)
  else none

/-- The longest run of hexadecimal digits at the front of the text, as a number: the value
read so far is `acc`. -/
def hex_run : List Byte → Nat → Nat
  | [], acc => acc
  | c :: rest, acc =>
    match hex_value c with
    | some v => hex_run rest (acc * 16 + v)
    | none => acc

/-- The text without its leading white space. -/
def skip_spaces : List Byte → List Byte
  | [] => []
  | c :: rest => if isspace c then skip_spaces rest else c :: rest

/-- `ULONG_MAX` of the platforms on which `unsigned long` has 64 bits (LP64: Linux, the BSDs
and macOS on 64-bit processors).  The reader is modelled for these platforms; where
`unsigned long` has 32 bits `strtoul` saturates at `2 ^ 32 - 1` instead. -/
def ULONG_MAX : Nat := 18446744073709551615

/-- The subject sequence of `strtoul` in base 16 without its sign: an optional `0x` or `0X`
that is followed by a digit, then the digits. -/
def strtoul_digits (s : List Byte) : List Byte :=
  match s with
  | 48 :: x :: c :: rest =>
    if (x == 120 || x == 88) && (hex_value c).isSome then c :: rest else s
  | _ => s

/-- The text behind an optional sign, and whether the sign is a minus. -/
def strtoul_sign (s : List Byte) : Bool × List Byte :=
  match s with
  | 45 :: rest => (true, rest)
  | 43 :: rest => (false, rest)
  | _ => (false, s)

/-- The C library's `strtoul (s, NULL, 16)` on a text that a null byte ends, where
`unsigned long` has 64 bits: white space is skipped, a sign and a `0x` prefix are accepted, the
digits are read as far as they go, a value that does not fit gives `ULONG_MAX`, and a minus
sign negates the value modulo `2 ^ 64`.  The list holds the characters before the null
byte. -/
def strtoul16 (s : List Byte) : Nat :=
  let value := hex_run (strtoul_digits (strtoul_sign (skip_spaces s)).2) 0
  if value > ULONG_MAX then ULONG_MAX
  else if (strtoul_sign (skip_spaces s)).1 then
    (18446744073709551616 - value) % 18446744073709551616
  else value

/-- Whether the digits of `strtoul` in base 16, with their optional `0x` or `0X`, go on to
the end of the text; the text without digits counts as well. -/
def strtoul_digits_to_end (s : List Byte) : Bool :=
  match s with
  | 48 :: x :: rest =>
    if x == 120 || x == 88 then rest.all (fun c => (hex_value c).isSome)
    else s.all (fun c => (hex_value c).isSome)
  | _ => s.all (fun c => (hex_value c).isSome)

/-- Whether `strtoul (s, NULL, 16)` gets to the end of these characters without meeting one
that stops it, so that it reads the character behind them too: they are white space, then an
optional sign, then an optional `0x` or `0X`, then hexadecimal digits, and any of these parts
may be missing. -/
def strtoul_runs_past (s : List Byte) : Bool :=
  strtoul_digits_to_end (strtoul_sign (skip_spaces s)).2

/-- An `unsigned long` stored into a `goffset`. -/
def as_goffset (x : Nat) : Int :=
  if x % 18446744073709551616 < 9223372036854775808 then ((x % 18446744073709551616 : Nat) : Int)
  else ((x % 18446744073709551616 : Nat) : Int) - 18446744073709551616

/-- Modelled from the spec: `soup_message_set_status` lives in `soup-message.c`, which is not
part of the sources.  It stores the status code in the message. -/
def soup_message_set_status (ctx : IOCtx) (status : Nat) : IOCtx :=
  { ctx with
    io := { ctx.io with msg := { ctx.io.msg with status_code := status } }
    events := ctx.events ++ [Event.set_status ctx.io.msg.id status] }

/-- The assignments that `io_data_read` makes at the label `got_body` when
`io_handle_sniffing` has returned FALSE and the item is still the one of the message. -/
def read_got_body_paused (io : SoupMessageIOData) : SoupMessageIOData :=
  { io with read_state := .BODY, read_encoding := .CONTENT_LENGTH, read_length := 0 }

/-- The label `got_body` in the `BODY` case of `io_data_read`, after the call of
`io_handle_sniffing (io, TRUE)` that returned `r`. -/
def read_got_body_sniffed (r : IOResult) : IOCtx ⊕ IOResult :=
  if !r.ret then
    if r.control == .cancel then .inr r
    else .inr { r with ctx := r.ctx.update read_got_body_paused }
  else emit_signal (r.ctx.update (set_read_state .FINISHING)) .got_body

/-- The label `got_body` in the `BODY` case of `io_data_read`. -/
def read_got_body (ctx : IOCtx) : IOCtx ⊕ IOResult :=
  read_got_body_sniffed (io_handle_sniffing ctx true)

/-- The part of case `SOUP_MESSAGE_IO_STATE_HEADERS` of `io_data_read` that derives
`read_eof_ok` and `read_length` from the encoding of the response. -/
def read_headers_encoding (io : SoupMessageIOData) : SoupMessageIOData :=
  let io := if io.read_encoding == .EOF then { io with read_eof_ok := true } else io
  if io.read_encoding == .CONTENT_LENGTH then
    let io := { io with read_length := io.msg.response_content_length }
    if !soup_message_is_keepalive io.msg then { io with read_eof_ok := true } else io
  else io

/-- The part of case `SOUP_MESSAGE_IO_STATE_HEADERS` of `io_data_read` that sets the states
of the reader and the writer after a header block that parsed. -/
def read_headers_states (io : SoupMessageIOData) : SoupMessageIOData :=
  if SOUP_STATUS_IS_INFORMATIONAL io.msg.status_code then
    if io.msg.status_code == SOUP_STATUS_CONTINUE && io.write_state == .BLOCKING then
      { io with read_state := .BLOCKING, write_state := io_body_state io.write_encoding }
    else { io with read_state := .HEADERS }
  else
    let io := { io with read_state := io_body_state io.read_encoding }
    if io.write_state == .BLOCKING then { io with write_state := .DONE } else io

/-- The signal at the end of case `HEADERS` of `io_data_read`. -/
def read_headers_signal (ctx : IOCtx) : IOCtx ⊕ IOResult :=
  if SOUP_STATUS_IS_INFORMATIONAL ctx.io.msg.status_code then
    return_if_cancelled_or_paused (signal ctx .got_informational).1
      (soup_message_cleanup_response (signal ctx .got_informational).2)
  else emit_signal ctx .got_headers

/-- The part of case `SOUP_MESSAGE_IO_STATE_HEADERS` of `io_data_read` that follows a header
block that parsed. -/
def read_headers_parsed (ctx : IOCtx) : IOCtx ⊕ IOResult :=
  read_headers_signal (ctx.update (fun io => read_headers_states (read_headers_encoding io)))

/-- The length of the header block in `read_meta_buf` without its final blank line: that
line should be two characters, but may be one. -/
def rewind_length (buf : List Byte) : Nat :=
  if decide (buf.length < 3) || buf.get? (buf.length - 2) == some LF then buf.length - 1
  else buf.length - 2

/-- The assignments of case `HEADERS` of `io_data_read` that store what `parse_headers` has
found, and empty the metadata buffer. -/
def read_headers_store (env : Env) (io : SoupMessageIOData) : SoupMessageIOData :=
  { io with
    msg := (parse_headers env io.msg (io.read_meta_buf.take (rewind_length io.read_meta_buf))).2.1
    read_encoding :=
      ((parse_headers env io.msg (io.read_meta_buf.take (rewind_length io.read_meta_buf))).2.2).getD
        io.read_encoding
    read_meta_buf := [] }

/-- The assignments of case `HEADERS` of `io_data_read` after a header block that did not
parse: `Connection: close` is appended to the request headers and the rest of the reading is
skipped. -/
def read_headers_malformed (io : SoupMessageIOData) : SoupMessageIOData :=
  { io with
    msg := { io.msg with request_connection_close := true }
    read_state := .FINISHING }

/-- The part of case `SOUP_MESSAGE_IO_STATE_HEADERS` of `io_data_read` that follows the call
of `soup_io_dispatcher_read_metadata`. -/
def read_headers_block (ctx : IOCtx) : IOCtx ⊕ IOResult :=
  if (parse_headers ctx.env ctx.io.msg
      (ctx.io.read_meta_buf.take (rewind_length ctx.io.read_meta_buf))).1 != SOUP_STATUS_OK then
    .inl ((soup_message_set_status (ctx.update (read_headers_store ctx.env))
      (parse_headers ctx.env ctx.io.msg
        (ctx.io.read_meta_buf.take (rewind_length ctx.io.read_meta_buf))).1).update
      read_headers_malformed)
  else read_headers_parsed (ctx.update (read_headers_store ctx.env))

/-- Case `SOUP_MESSAGE_IO_STATE_HEADERS` of `io_data_read`. -/
def read_case_HEADERS (response_block_size : Nat) (ctx : IOCtx) : Option (IOCtx ⊕ IOResult) :=
  with_call (soup_io_dispatcher_read_metadata response_block_size ctx true) read_headers_block

/-- The characters that `strtoul ((char *)io->read_meta_buf->data, NULL, 16)` converts in
case `CHUNK_SIZE` of `io_data_read`, and the collaborators afterwards.  The array holds
`read_meta_buf` and no null byte behind it: when the conversion gets to the end of the array
it goes on with what lies behind it in memory, which is the next entry of the script
`behind`. -/
def chunk_size_text (ctx : IOCtx) : List Byte × Env :=
  if strtoul_runs_past ctx.io.read_meta_buf then
    match ctx.env.behind with
    | [] => (ctx.io.read_meta_buf, ctx.env)
    | b :: rest => (ctx.io.read_meta_buf ++ b, { ctx.env with behind := rest })
  else (ctx.io.read_meta_buf, ctx.env)

/-- The assignments of case `CHUNK_SIZE` of `io_data_read` once the size line is read, where
`strtoul` has converted the characters `text`. -/
def read_chunk_size_parsed (text : List Byte) (io : SoupMessageIOData) : SoupMessageIOData :=
  if as_goffset (strtoul16 text) > 0 then
    { io with
      read_length := as_goffset (strtoul16 text)
      read_meta_buf := []
      read_state := .CHUNK }
  else
    { io with
      read_length := as_goffset (strtoul16 text)
      read_meta_buf := []
      read_state := .TRAILERS }

/-- The part of case `CHUNK_SIZE` of `io_data_read` that follows the call of
`soup_io_dispatcher_read_metadata`. -/
def read_chunk_size_line (ctx : IOCtx) : IOCtx :=
  { ctx.update (read_chunk_size_parsed (chunk_size_text ctx).1) with
    env := (chunk_size_text ctx).2 }

/-- Case `SOUP_MESSAGE_IO_STATE_CHUNK_SIZE` of `io_data_read`. -/
def read_case_CHUNK_SIZE (response_block_size : Nat) (ctx : IOCtx) :
    Option (IOCtx ⊕ IOResult) :=
  with_call (soup_io_dispatcher_read_metadata response_block_size ctx false) (fun ctx =>
    .inl (read_chunk_size_line ctx))

/-- The assignments of case `CHUNK_END` of `io_data_read` once the line end is read. -/
def read_chunk_end_read (io : SoupMessageIOData) : SoupMessageIOData :=
  { io with read_meta_buf := [], read_state := .CHUNK_SIZE }

/-- `g_byte_array_set_size (io->read_meta_buf, 0);`. -/
def clear_read_meta_buf (io : SoupMessageIOData) : SoupMessageIOData :=
  { io with read_meta_buf := [] }

/-- The part of case `TRAILERS` of `io_data_read` that follows the call of
`soup_io_dispatcher_read_metadata`. -/
def read_trailers_line (ctx : IOCtx) : IOCtx ⊕ IOResult :=
  if ctx.io.read_meta_buf.length ≤ SOUP_MESSAGE_IO_EOL.length then read_got_body ctx
  else .inl (ctx.update clear_read_meta_buf)

/-- One pass through the `switch` of `io_data_read`: the state with which `goto read_more`
enters the switch again, or the return of the function. -/
def io_data_read_step (response_block_size : Nat) (ctx : IOCtx) : Option (IOCtx ⊕ IOResult) :=
  match ctx.io.read_state with
  | .NOT_STARTED => some (.inr (ctx.returns false))
  | .HEADERS => read_case_HEADERS response_block_size ctx
  | .BLOCKING => some (.inr (ctx.returns false))
  | .BODY => with_call (soup_io_dispatcher_read_body_chunk response_block_size ctx) read_got_body
  | .CHUNK_SIZE => read_case_CHUNK_SIZE response_block_size ctx
  | .CHUNK =>
    with_call (soup_io_dispatcher_read_body_chunk response_block_size ctx) (fun ctx =>
      .inl (ctx.update (set_read_state .CHUNK_END)))
  | .CHUNK_END =>
    with_call (soup_io_dispatcher_read_metadata response_block_size ctx false) (fun ctx =>
      .inl (ctx.update read_chunk_end_read))
  | .TRAILERS =>
    with_call (soup_io_dispatcher_read_metadata response_block_size ctx false) read_trailers_line
  | .FINISHING => some (.inr ((ctx.update (set_read_state .DONE)).returns true))
  | .DONE => some (.inr (ctx.returns true))

/-- `io_data_read` of `soup-io-dispatcher-client.c`, for at most `fuel` passes through the
`switch`; `none` when the passes are used up before the function returns. -/
def io_data_read (response_block_size : Nat) (fuel : Nat) (ctx : IOCtx) : Option IOResult :=
  iterate (io_data_read_step response_block_size) fuel ctx

/-! ## The driver loop -/

/-- The `SoupProcessIOQueueFn` hooks of the client class. -/
inductive IOFunc
  | io_data_read | io_data_write
  deriving DecidableEq, Repr

/-- The queue that `process_queue` is called with for each hook. -/
def IOFunc.queue : IOFunc → QueueSel
  | .io_data_read => .read
  | .io_data_write => .write

/-- `get_input_item_state` and `get_output_item_state`: the state and the blocked flag of the
direction. -/
def get_item_state (f : IOFunc) (io_data : SoupMessageIOData) : SoupMessageIOState × Bool :=
  match f with
  | .io_data_read => (io_data.read_state, io_data.read_blocked)
  | .io_data_write => (io_data.write_state, io_data.write_blocked)

/-- `io_func (io_disp, io_data)`. -/
def call_io_func (f : IOFunc) (fuel : Nat) (io_disp : SoupIODispatcher)
    (io_data : SoupMessageIOData) (env : Env) : Option IOResult :=
  match f with
  | .io_data_read =>
    io_data_read io_disp.response_block_size fuel { io := io_data, env := env, events := [] }
  | .io_data_write => io_data_write fuel { io := io_data, env := env, events := [] }

/-- What a returned I/O function has done to the dispatcher: the item is as the function
left it, the events are in the trace, and what the application or the function asked for in
its last call is applied. -/
def commit (io_disp : SoupIODispatcher) (r : IOResult) : SoupIODispatcher :=
  let d := store_io_data io_disp r.ctx.io
  let d := { d with trace := d.trace ++ r.ctx.events }
  match r.control with
  | .none => d
  | .pause => soup_io_dispatcher_pause_io_data d r.ctx.io.id
  | .cancel => cancel_message d r.ctx.io.id

/-- The local state of `process_queue`. -/
structure ProcessQueue where
  io_disp : SoupIODispatcher
  env : Env
  finished_req : Nat
  io_wait_continue : Bool

/-- The branch `if (io_func (io_disp, io_data))` of `process_queue`, for the item `io_data`
as the function left it. -/
def process_queue_finished (q : QueueSel) (s : ProcessQueue) (io_data : SoupMessageIOData) :
    ProcessQueue ⊕ ProcessQueue :=
  let s := { s with finished_req := s.finished_req + 1 }
  let d := delete_link (dec_queue_length s.io_disp q) q io_data.id
  if is_io_data_finished io_data then
    let keepalive := soup_message_is_keepalive io_data.msg
    let d := { d with finished_requests := guint_inc d.finished_requests }
    let d := io_data_cleanup d io_data
    if !keepalive then
      let d := soup_io_dispatcher_set_pipelining_support d false
      let d :=
        match soup_io_dispatcher_get_socket d with
        | some socket => emit d (.socket_disconnect socket)
        | none => d
      .inr { s with io_disp := d }
    else .inl { s with io_disp := d }
  else .inl { s with io_disp := d }

/-- The `else` branch of `if (io_func (io_disp, io_data))` in `process_queue`.  When the
application has cancelled the message inside the function, the fields of the freed item are
read as the function left them. -/
def process_queue_failed (f : IOFunc) (s : ProcessQueue) (io_data : SoupMessageIOData) :
    ProcessQueue :=
  if io_data.io_error then { s with io_disp := io_data_error s.io_disp io_data }
  else if (get_item_state f io_data).1 == .BLOCKING then { s with io_wait_continue := true }
  else s

/-- One round of the loop of `process_queue`. -/
def process_queue_step (f : IOFunc) (fuel : Nat) (s : ProcessQueue) :
    Option (ProcessQueue ⊕ ProcessQueue) :=
  match get_queue s.io_disp f.queue with
  | [] => some (.inr s)
  | head :: _ =>
    match find_io_data s.io_disp head with
    | none => none
    | some io_data =>
      if io_data.cancelled || io_data.paused || (get_item_state f io_data).2 ||
          (get_item_state f io_data).1 == .BLOCKING then some (.inr s)
      else
        match call_io_func f fuel s.io_disp io_data s.env with
        | none => none
        | some r =>
          let s := { s with io_disp := commit s.io_disp r, env := r.ctx.env }
          if r.ret then some (process_queue_finished f.queue s r.ctx.io)
          else some (.inr (process_queue_failed f s r.ctx.io))

/-- `process_queue (io_disp, io_func, queue, queue_length, get_item_state)`, every loop
bounded by `fuel`. -/
def process_queue (f : IOFunc) (fuel : Nat) (io_disp : SoupIODispatcher) (env : Env) :
    Option (Bool × SoupIODispatcher × Env) :=
  if (soup_io_dispatcher_get_socket io_disp).isNone then some (false, io_disp, env)
  else
    (iterate (process_queue_step f fuel) fuel
      { io_disp := io_disp, env := env, finished_req := 0, io_wait_continue := false }).map
      (fun s => (decide (s.finished_req > 0) || s.io_wait_continue, s.io_disp, s.env))

/-- One round of `while (process_queue (first) && process_queue (second));`. -/
def process_both_step (first second : IOFunc) (fuel : Nat) (s : SoupIODispatcher × Env) :
    Option (SoupIODispatcher × Env ⊕ SoupIODispatcher × Env) :=
  match process_queue first fuel s.1 s.2 with
  | none => none
  | some (ret, d, env) =>
    if !ret then some (.inr (d, env))
    else
      match process_queue second fuel d env with
      | none => none
      | some (ret, d, env) => if !ret then some (.inr (d, env)) else some (.inl (d, env))

/-- `soup_io_dispatcher_process_input_queue`. -/
def soup_io_dispatcher_process_input_queue (fuel : Nat) (io_disp : SoupIODispatcher)
    (env : Env) : Option (SoupIODispatcher × Env) :=
  iterate (process_both_step .io_data_read .io_data_write fuel) fuel (io_disp, env)

/-- `soup_io_dispatcher_process_output_queue`. -/
def soup_io_dispatcher_process_output_queue (fuel : Nat) (io_disp : SoupIODispatcher)
    (env : Env) : Option (SoupIODispatcher × Env) :=
  iterate (process_both_step .io_data_write .io_data_read fuel) fuel (io_disp, env)

/-- `readable_cb`, the handler of the socket's `readable` signal. -/
def readable_cb (fuel : Nat) (io_disp : SoupIODispatcher) (env : Env) :
    Option (SoupIODispatcher × Env) :=
  if !env.connected then some (io_disp, env)
  else
    match get_queue io_disp .read with
    | [] => some (io_disp, env)
    | head :: _ =>
      match find_io_data io_disp head with
      | none => none
      | some io_data =>
        if io_data.read_state == .DONE then some (io_disp, env)
        else if io_data.read_blocked then
          soup_io_dispatcher_process_input_queue fuel
            (store_io_data io_disp { io_data with read_blocked := false }) env
        else some (io_disp, env)

/-- `writable_cb`, the handler of the socket's `writable` signal. -/
def writable_cb (fuel : Nat) (io_disp : SoupIODispatcher) (env : Env) :
    Option (SoupIODispatcher × Env) :=
  match get_queue io_disp .write with
  | [] => some (io_disp, env)
  | head :: _ =>
    match find_io_data io_disp head with
    | none => none
    | some io_data =>
      if io_data.write_state == .DONE then some (io_disp, env)
      else if io_data.write_blocked then
        soup_io_dispatcher_process_output_queue fuel
          (store_io_data io_disp { io_data with write_blocked := false }) env
      else some (io_disp, env)

/-- `soup_io_dispatcher_process_message` with the client's `io_data_new` and
`process_message` hooks. -/
def soup_io_dispatcher_process_message (fuel : Nat) (io_disp : SoupIODispatcher)
    (msg : SoupMessage) (completion_cb : Bool) (env : Env) :
    Option (SoupIODispatcher × Env) :=
  if (soup_io_dispatcher_get_socket io_disp).isNone then some (io_disp, env)
  else
    let (d, id) := io_data_new io_disp msg completion_cb
    let d :=
      if d.input_msg_queue.contains msg.id then
        { d with
          input_msg_queue := d.input_msg_queue.erase msg.id
          input_msg_queue_length := guint_dec d.input_msg_queue_length }
      else d
    let ctx := soup_message_cleanup_response
      { io := new_io_data id msg completion_cb, env := env, events := [] }
    let d := store_io_data d ctx.io
    let d := { d with trace := d.trace ++ ctx.events }
    soup_io_dispatcher_process_output_queue fuel d env

/-- `pause_message`. -/
def pause_message (io_disp : SoupIODispatcher) (io_data : Nat) : SoupIODispatcher :=
  soup_io_dispatcher_pause_io_data io_disp io_data

/-- `unpause_cb`, the callback scheduled or called by `unpause_message`. -/
def unpause_cb (fuel : Nat) (io_disp : SoupIODispatcher) (io_data : Nat) (env : Env) :
    Option (SoupIODispatcher × Env) :=
  match find_io_data io_disp io_data with
  | none => none
  | some io =>
    let write_state := io.write_state
    let read_state := io.read_state
    let d := store_io_data io_disp { io with unpause_source := false, paused := false }
    let d :=
      if read_state == .NOT_STARTED && write_state == .NOT_STARTED then
        if linked d .paused io_data then
          let d := delete_link (dec_queue_length d .paused) .paused io_data
          let d := push_link (inc_queue_length d .read) .read io_data
          push_link (inc_queue_length d .write) .write io_data
        else d
      else d
    if SOUP_MESSAGE_IO_STATE_ACTIVE write_state then
      soup_io_dispatcher_process_output_queue fuel d env
    else if SOUP_MESSAGE_IO_STATE_ACTIVE read_state then
      soup_io_dispatcher_process_input_queue fuel d env
    else some (d, env)

/-- `unpause_message`; `non_blocking` is the socket's `SOUP_SOCKET_FLAG_NONBLOCKING`.  On a
non-blocking socket `unpause_cb` is scheduled with `soup_add_completion` and runs later from
the main loop. -/
def unpause_message (fuel : Nat) (io_disp : SoupIODispatcher) (io_data : Nat)
    (non_blocking : Bool) (env : Env) : Option (SoupIODispatcher × Env) :=
  match find_io_data io_disp io_data with
  | none => some (io_disp, env)
  | some io =>
    if (soup_io_dispatcher_get_socket io_disp).isNone then some (io_disp, env)
    else if !io.paused then some (io_disp, env)
    else if non_blocking then
      if !io.unpause_source then
        some (store_io_data io_disp { io with unpause_source := true }, env)
      else some (io_disp, env)
    else unpause_cb fuel io_disp io_data env

/-! ## `soup-connection.c`

A `SoupConnection` is a record of its private data.  The `SoupSocket` it creates is known by
an identity; what `soup-socket.c` answers (the result of the connect, of `start_ssl` and of
the handshake, and the events the socket emits meanwhile) is given by a `SocketScript`.  The
signals the connection emits, its calls of `soup_socket_disconnect` and the call of the
caller's callback are appended to the connection's `trace`. -/

/-- Modelled from the spec: `SoupConnectionState` is declared in `soup-connection.h`, which
is not part of the sources.  The states in declaration order. -/
inductive SoupConnectionState
  | NEW
  | CONNECTING
  | CONNECTED
  | REMOTE_DISCONNECTED
  | DISCONNECTED
  deriving DecidableEq, Repr

/-- The `GSocketClientEvent` of GIO. -/
inductive GSocketClientEvent
  | RESOLVING
  | RESOLVED
  | CONNECTING
  | CONNECTED
  | PROXY_NEGOTIATING
  | PROXY_NEGOTIATED
  | TLS_HANDSHAKING
  | TLS_HANDSHAKED
  | COMPLETE
  deriving DecidableEq, Repr

/-- What leaves a connection. -/
inductive ConnEvent
  /-- `g_signal_emit (conn, signals[EVENT], 0, event, connection)`. -/
  | event (e : GSocketClientEvent)
  /-- `g_signal_emit_by_name (conn, "event", 0, G_SOCKET_CLIENT_PROXY_NEGOTIATING, ...)` of
  `tunnel_connect`. -/
  | event_by_name (e : GSocketClientEvent)
  /-- `g_signal_emit (conn, signals[CONNECTED], 0, socket)`. -/
  | connected (socket : Nat)
  /-- `g_signal_emit (conn, signals[DISCONNECTED], 0)`. -/
  | disconnected
  /-- `g_object_notify (G_OBJECT (conn), "state")`. -/
  | notify_state
  /-- `soup_socket_disconnect (socket)`. -/
  | socket_disconnect (socket : Nat)
  /-- `data->callback (data->conn, status, data->callback_data)`. -/
  | callback (status : Nat)
  deriving DecidableEq, Repr

/-- `SoupConnectionPrivate`.  `socket_disconnected_handler` and `event_handler` tell whether
`socket_disconnected` and `proxy_socket_event` are connected to the socket's signals. -/
structure SoupConnection where
  socket : Option Nat
  remote_addr : Option Nat
  tunnel_addr : Option Nat
  proxy_uri : Option Nat
  ssl : Bool
  ssl_strict : Bool
  ssl_fallback : Bool
  state : SoupConnectionState
  io_timeout : Nat
  socket_disconnected_handler : Bool
  event_handler : Bool
  trace : List ConnEvent
  deriving DecidableEq, Repr

/-- The answers of the socket layer during one connection attempt. -/
structure SocketScript where
  /-- The events the socket emits while it connects. -/
  events : List GSocketClientEvent
  /-- The status of `soup_socket_connect_sync` or of the asynchronous connect. -/
  connect_status : Nat
  /-- The result of `soup_socket_start_ssl` or `soup_socket_start_proxy_ssl`. -/
  start_ssl : Bool
  /-- The status of `soup_socket_handshake_sync` or of the asynchronous handshake. -/
  handshake_status : Nat
  deriving DecidableEq, Repr

def SOUP_STATUS_CANT_RESOLVE : Nat := 2
def SOUP_STATUS_CANT_RESOLVE_PROXY : Nat := 3
def SOUP_STATUS_CANT_CONNECT : Nat := 4
def SOUP_STATUS_CANT_CONNECT_PROXY : Nat := 5
def SOUP_STATUS_TRY_AGAIN : Nat := 9
def SOUP_STATUS_TLS_FAILED : Nat := 11

/-- Modelled from the spec: `soup_status_proxify` lives in `soup-status.c`, which is not part
of the sources.  It turns the resolve and connect failures into their proxy variants. -/
def soup_status_proxify (status : Nat) : Nat :=
  if status == SOUP_STATUS_CANT_RESOLVE then SOUP_STATUS_CANT_RESOLVE_PROXY
  else if status == SOUP_STATUS_CANT_CONNECT then SOUP_STATUS_CANT_CONNECT_PROXY
  else status

/-- Appends to the trace of the connection. -/
def SoupConnection.emit (conn : SoupConnection) (e : ConnEvent) : SoupConnection :=
  { conn with trace := conn.trace ++ [e] }

/-- `set_state` of `soup-connection.c`. -/
def set_state (conn : SoupConnection) (state : SoupConnectionState) : SoupConnection :=
  { conn with state := state }.emit .notify_state

/-- `soup_connection_event`. -/
def soup_connection_event (conn : SoupConnection) (event : GSocketClientEvent) :
    SoupConnection :=
  conn.emit (.event event)

/-- `proxy_socket_event`, the handler of the socket's `event` signal: `COMPLETE` is not
passed on. -/
def proxy_socket_event (conn : SoupConnection) (event : GSocketClientEvent) : SoupConnection :=
  if event != .COMPLETE then soup_connection_event conn event else conn

/-- The events the socket emits while `proxy_socket_event` is connected. -/
def socket_events (conn : SoupConnection) (events : List GSocketClientEvent) : SoupConnection :=
  if conn.event_handler then events.foldl proxy_socket_event conn else conn

/-- The assignment of the new socket to `priv->socket` and the `g_signal_connect` of
`proxy_socket_event` that follows it, in both connect functions. -/
def new_socket (conn : SoupConnection) (socket : Nat) : SoupConnection :=
  { conn with socket := some socket, event_handler := true, socket_disconnected_handler := false }

/-- `priv->ssl_fallback = TRUE; status = SOUP_STATUS_TRY_AGAIN;` when the status is
`SOUP_STATUS_TLS_FAILED`. -/
def tls_failed_fallback (conn : SoupConnection) (status : Nat) : Nat × SoupConnection :=
  if status == SOUP_STATUS_TLS_FAILED then
    (SOUP_STATUS_TRY_AGAIN, { conn with ssl_fallback := true })
  else (status, conn)

/-- The handshake of `soup_connection_connect_sync` and of `soup_connection_start_ssl_sync`,
from the event `TLS_HANDSHAKING` on. -/
def handshake_sync (conn : SoupConnection) (script : SocketScript) : Nat × SoupConnection :=
  let conn := soup_connection_event conn .TLS_HANDSHAKING
  if script.handshake_status == SOUP_STATUS_OK then
    (script.handshake_status, soup_connection_event conn .TLS_HANDSHAKED)
  else tls_failed_fallback conn script.handshake_status

/-- The block `if (priv->ssl && !priv->tunnel_addr)` of `soup_connection_connect_sync`. -/
def connect_sync_tls (conn : SoupConnection) (script : SocketScript) (status : Nat) :
    Nat × SoupConnection :=
  if conn.ssl && conn.tunnel_addr.isNone then
    if !script.start_ssl then (SOUP_STATUS_SSL_FAILED, conn)
    else handshake_sync conn script
  else (status, conn)

/-- The event `COMPLETE` that both connect functions emit `if (!priv->ssl ||
!priv->tunnel_addr)`. -/
def connect_complete (conn : SoupConnection) : SoupConnection :=
  if !conn.ssl || conn.tunnel_addr.isNone then soup_connection_event conn .COMPLETE else conn

/-- The successful branch at the end of `soup_connection_connect_sync`. -/
def connect_sync_succeeded (conn : SoupConnection) : SoupConnection :=
  let conn := { conn with socket_disconnected_handler := true }
  let conn := connect_complete conn
  match conn.socket with
  | some socket => conn.emit (.connected socket)
  | none => conn

/-- The label `fail` of `soup_connection_connect_sync`. -/
def connect_sync_failed (conn : SoupConnection) : SoupConnection :=
  match conn.socket with
  | some socket =>
    { conn.emit (.socket_disconnect socket) with
      socket := none, event_handler := false, socket_disconnected_handler := false }
  | none => conn

/-- The end of `soup_connection_connect_sync`: the handler of the socket's events is
disconnected and the status is proxified. -/
def connect_sync_return (conn : SoupConnection) (status : Nat) : Nat × SoupConnection :=
  let conn := if conn.socket.isSome then { conn with event_handler := false } else conn
  (if conn.proxy_uri.isSome then soup_status_proxify status else status, conn)

/-- `soup_connection_connect_sync (conn, cancellable)`; `socket` is the socket that
`soup_socket_new` returns. -/
def soup_connection_connect_sync (conn : SoupConnection) (socket : Nat)
    (script : SocketScript) : Nat × SoupConnection :=
  if conn.socket.isSome then (SOUP_STATUS_MALFORMED, conn)
  else
    let conn := set_state conn .CONNECTING
    let conn := new_socket conn socket
    let conn := socket_events conn script.events
    if !SOUP_STATUS_IS_SUCCESSFUL script.connect_status then
      connect_sync_return (connect_sync_failed conn) script.connect_status
    else
      let r := connect_sync_tls conn script script.connect_status
      if SOUP_STATUS_IS_SUCCESSFUL r.1 then connect_sync_return (connect_sync_succeeded r.2) r.1
      else connect_sync_return (connect_sync_failed r.2) r.1

/-- `SoupConnectionAsyncConnectData`, without the cancellable. -/
structure SoupConnectionAsyncConnectData where
  /-- Whether `data->callback` is set. -/
  callback : Bool
  tls_handshake : Bool
  deriving DecidableEq, Repr

/-- The successful branch of `socket_connect_finished`. -/
def connect_async_succeeded (conn : SoupConnection) (data : SoupConnectionAsyncConnectData)
    (socket : Nat) : SoupConnection :=
  let conn := { conn with socket_disconnected_handler := true }
  let conn := if data.tls_handshake then soup_connection_event conn .TLS_HANDSHAKED else conn
  let conn := connect_complete conn
  let conn := set_state conn .CONNECTED
  conn.emit (.connected socket)

/-- The call of `data->callback` at the end of `socket_connect_finished`. -/
def connect_async_callback (conn : SoupConnection) (data : SoupConnectionAsyncConnectData)
    (status : Nat) : SoupConnection :=
  if data.callback then
    conn.emit (.callback (if conn.proxy_uri.isSome then soup_status_proxify status else status))
  else conn

/-- `socket_connect_finished (socket, status, data)`. -/
def socket_connect_finished (conn : SoupConnection) (data : SoupConnectionAsyncConnectData)
    (socket : Nat) (status : Nat) : SoupConnection :=
  let conn := { conn with event_handler := false }
  if SOUP_STATUS_IS_SUCCESSFUL status then
    connect_async_callback (connect_async_succeeded conn data socket) data status
  else
    let r := tls_failed_fallback conn status
    connect_async_callback r.2 data r.1

/-- `socket_connect_result (sock, status, data)`; the handshake it starts completes with the
status of the script and `socket_connect_finished` runs then. -/
def socket_connect_result (conn : SoupConnection) (data : SoupConnectionAsyncConnectData)
    (socket : Nat) (script : SocketScript) (status : Nat) : SoupConnection :=
  if SOUP_STATUS_IS_SUCCESSFUL status && data.tls_handshake then
    if script.start_ssl then
      socket_connect_finished (soup_connection_event conn .TLS_HANDSHAKING) data socket
        script.handshake_status
    else socket_connect_finished conn data socket SOUP_STATUS_SSL_FAILED
  else socket_connect_finished conn data socket status

/-- `soup_connection_connect_async (conn, cancellable, callback, user_data)` together with the
completion of the connect it starts; `socket` is the socket that `soup_socket_new` returns. -/
def soup_connection_connect_async (conn : SoupConnection) (socket : Nat)
    (script : SocketScript) (callback : Bool) : SoupConnection :=
  if conn.socket.isSome then conn
  else
    let conn := set_state conn .CONNECTING
    let data : SoupConnectionAsyncConnectData :=
      { callback := callback, tls_handshake := conn.ssl && conn.tunnel_addr.isNone }
    let conn := new_socket conn socket
    let conn := socket_events conn script.events
    socket_connect_result conn data socket script script.connect_status

/-- `soup_connection_start_ssl_sync (conn, cancellable)`. -/
def soup_connection_start_ssl_sync (conn : SoupConnection) (script : SocketScript) :
    Nat × SoupConnection :=
  if !script.start_ssl then (SOUP_STATUS_SSL_FAILED, conn)
  else handshake_sync conn script

/-- The block `if (priv->socket)` of `soup_connection_disconnect`. -/
def disconnect_socket (conn : SoupConnection) : SoupConnection :=
  match conn.socket with
  | some socket =>
    { conn.emit (.socket_disconnect socket) with
      socket := none, socket_disconnected_handler := false, event_handler := false }
  | none => conn

/-- `soup_connection_disconnect (conn)`. -/
def soup_connection_disconnect (conn : SoupConnection) : SoupConnection :=
  let old_state := conn.state
  let conn := if old_state != .DISCONNECTED then set_state conn .DISCONNECTED else conn
  let conn := disconnect_socket conn
  if old_state != .DISCONNECTED then conn.emit .disconnected else conn

/-- `n` calls of `soup_connection_disconnect` in a row. -/
def disconnect_times : Nat → SoupConnection → SoupConnection
  | 0, conn => conn
  | n + 1, conn => disconnect_times n (soup_connection_disconnect conn)

/-! ## `tunnel_connect` of `soup-session-sync.c` -/

/-- Modelled from the spec: `SoupMessageQueueItemState` is declared in
`soup-message-queue.h`, which is not part of the sources. -/
inductive SoupMessageQueueItemState
  | STARTING
  | AWAITING_CONNECTION
  | READY
  | RUNNING
  | RESTARTING
  | FINISHING
  | FINISHED
  deriving DecidableEq, Repr

/-- The outcome of one `soup_session_send_queue_item` for the `CONNECT` message: the status
of the message, the state of the queue item, and the value of `item->io_disp &&
soup_io_dispatcher_is_msg_in_progress (item->io_disp, item->msg)`. -/
structure ConnectExchange where
  status_code : Nat
  state : SoupMessageQueueItemState
  in_progress : Bool
  deriving DecidableEq, Repr

/-- The body of the `do ... while` of `tunnel_connect` after the send: the status and the
state of the queue item. -/
def tunnel_connect_round (x : ConnectExchange) : Nat × SoupMessageQueueItemState :=
  if x.state == .RESTARTING && x.in_progress then (x.status_code, .RUNNING)
  else if x.state == .RESTARTING then (SOUP_STATUS_TRY_AGAIN, .FINISHED)
  else (x.status_code, .FINISHED)

/-- The loop `do ... while (item->state == SOUP_MESSAGE_STARTING)` of `tunnel_connect`, for
at most `fuel` rounds; the outcomes of the sends are taken from `exchanges`, and a send
without an entry leaves the status 0 and the state as it is. -/
def tunnel_connect_loop : Nat → List ConnectExchange → Option Nat
  | 0, _ => none
  | fuel + 1, exchanges =>
    let r := tunnel_connect_round
      (exchanges.headD { status_code := SOUP_STATUS_NONE, state := .STARTING, in_progress := false })
    if r.2 == .STARTING then tunnel_connect_loop fuel exchanges.tail else some r.1

/-- The part of `tunnel_connect` after the `CONNECT` exchange has ended with `status`.
`soup_message_set_https_status` acts on the message only and has no counterpart. -/
def tunnel_connect_finish (conn : SoupConnection) (script : SocketScript) (status : Nat) :
    Nat × SoupConnection :=
  let r : Nat × SoupConnection :=
    if SOUP_STATUS_IS_SUCCESSFUL status then
      let conn := conn.emit (.event_by_name .PROXY_NEGOTIATING)
      let s := soup_connection_start_ssl_sync conn script
      (if s.1 == 0 then SOUP_STATUS_SSL_FAILED else status, s.2)
    else (status, conn)
  if !SOUP_STATUS_IS_SUCCESSFUL r.1 then (r.1, soup_connection_disconnect r.2) else r

/-- `tunnel_connect (session, related)` on the connection of `related`. -/
def tunnel_connect (fuel : Nat) (conn : SoupConnection) (exchanges : List ConnectExchange)
    (script : SocketScript) : Option (Nat × SoupConnection) :=
  let conn := conn.emit (.event_by_name .PROXY_NEGOTIATING)
  (tunnel_connect_loop fuel exchanges).map (tunnel_connect_finish conn script)

/-- A new connection to an `https` server without a proxy. -/
def sample_conn : SoupConnection :=
  { socket := none, remote_addr := some 1, tunnel_addr := none, proxy_uri := none
    ssl := true, ssl_strict := true, ssl_fallback := false, state := .NEW, io_timeout := 0
    socket_disconnected_handler := false, event_handler := false, trace := [] }

/-- A connection to an `https` server through a proxy, connected to the proxy. -/
def sample_conn_tunnel : SoupConnection :=
  { sample_conn with
    socket := some 5, tunnel_addr := some 2, proxy_uri := some 3, state := .CONNECTED
    socket_disconnected_handler := true }

/-- A socket that connects and whose handshake succeeds. -/
def sample_script : SocketScript :=
  { events := [.RESOLVING, .RESOLVED, .CONNECTING, .CONNECTED, .COMPLETE]
    connect_status := SOUP_STATUS_OK, start_ssl := true, handshake_status := SOUP_STATUS_OK }

/-- A socket whose handshake fails because the peer does not speak the TLS version. -/
def sample_script_tls_failed : SocketScript :=
  { sample_script with handshake_status := SOUP_STATUS_TLS_FAILED }

/-! ## Predicates used in the statements -/

/-- Position `i` of `L` holds a candidate that is least loaded among the candidates of `L`
and strictly less loaded than every candidate before it. -/
def BestAt (dont : Bool) (L : List SoupIODispatcher) (i : Nat) : Prop :=
  ∃ d, L[i]? = some d ∧ is_candidate dont d = true ∧
    (∀ (j : Nat) (e : SoupIODispatcher), L[j]? = some e → is_candidate dont e = true →
      soup_io_dispatcher_get_queue_length d ≤ soup_io_dispatcher_get_queue_length e) ∧
    (∀ (j : Nat) (e : SoupIODispatcher), j < i → L[j]? = some e → is_candidate dont e = true →
      soup_io_dispatcher_get_queue_length d < soup_io_dispatcher_get_queue_length e)

/-- Invariant of the selection loop after the links of `pre` have been visited. -/
def ScanInv (dont : Bool) (pre : List SoupIODispatcher) (r : Option Nat) (b : Nat) : Prop :=
  match r with
  | none => ∀ e ∈ pre, is_candidate dont e = false
  | some i => 0 < b ∧ ∃ d, pre[i]? = some d ∧ is_candidate dont d = true ∧
      soup_io_dispatcher_get_queue_length d = b ∧
      (∀ (j : Nat) (e : SoupIODispatcher), pre[j]? = some e → is_candidate dont e = true →
        b ≤ soup_io_dispatcher_get_queue_length e) ∧
      (∀ (j : Nat) (e : SoupIODispatcher), j < i → pre[j]? = some e → is_candidate dont e = true →
        b < soup_io_dispatcher_get_queue_length e)

/-- The candidate rule in the words of the specification: a live socket and either
(`dont_pipeline` and an empty queue) or (not `dont_pipeline` and a queue that is not full). -/
def SpecCandidate (dont_pipeline : Bool) (io_disp : SoupIODispatcher) : Prop :=
  io_disp.socket ≠ none ∧
    ((dont_pipeline = true ∧ soup_io_dispatcher_is_queue_empty io_disp = true) ∨
     (dont_pipeline = false ∧ soup_io_dispatcher_is_queue_full io_disp = false))

/-- The pool has a Host Record for `(host, port)` whose `supports_http_pipelining` is false. -/
def PipeliningDisabled (pool : SoupIODispatcherPool) (host : String) (port : Nat) : Prop :=
  (lookup_host_info pool host port).map (fun r => r.supports_http_pipelining) = some false

/-- Every Host Record with a cleared flag in `pool` has a cleared flag in `pool'`. -/
def Sticky (pool pool' : SoupIODispatcherPool) : Prop :=
  ∀ (host : String) (port : Nat), PipeliningDisabled pool host port →
    PipeliningDisabled pool' host port

/-- The fields of a dispatcher that queue bookkeeping and item cleanup never write. -/
def SameSettings (d d' : SoupIODispatcher) : Prop :=
  d'.id = d.id ∧ d'.host = d.host ∧ d'.socket = d.socket ∧
  d'.max_pipelined_requests = d.max_pipelined_requests ∧
  d'.is_pipelining_supported = d.is_pipelining_supported ∧
  d'.idle_timeout = d.idle_timeout ∧ d'.finished_requests = d.finished_requests ∧
  d'.input_msg_queue_length = d.input_msg_queue_length ∧
  d'.pool_notify_handlers = d.pool_notify_handlers ∧ d'.conn = d.conn ∧
  d'.next_io_data = d.next_io_data

/-- Property notifications, as opposed to the events that concern a work item, a message or
the socket. -/
def Event.is_notify : Event → Bool
  | .notify _ => true
  | _ => false

/-- The three item queues and the live items of a dispatcher. -/
def queues_and_items (d : SoupIODispatcher) :
    List Nat × List Nat × List Nat × List SoupMessageIOData :=
  (d.read_io_queue, d.write_io_queue, d.paused_io_queue, d.items)

/-- The item, message and socket events of one `io_data_cleanup`, in the order in which the
function produces them: the `io-msg-restart` signal, the socket disconnect, the completion
callback. -/
def cleanup_events (socket : Option Nat) (io : SoupMessageIOData) : List Event :=
  (if !(io.read_state == .DONE && io.write_state == .DONE) && !io.io_error && !io.cancelled
    then [Event.io_msg_restart io.id io.msg.id] else []) ++
  (if (io.read_state != .NOT_STARTED || io.write_state != .NOT_STARTED) &&
      decide (io.read_state.ord < SoupMessageIOState.FINISHING.ord)
    then (match socket with
      | some s => [Event.socket_disconnect s]
      | none => [])
    else []) ++
  (if io.completion_cb then [Event.completion io.id io.msg.id] else [])

/-- Well-formed queues: no item is linked twice into a queue, and every linked item is a live
item of the dispatcher. -/
def QueuesWF (d : SoupIODispatcher) : Prop :=
  (∀ q, (get_queue d q).Nodup) ∧ ∀ q, ∀ id ∈ get_queue d q, (find_io_data d id).isSome = true

/-- The bytes that the socket has accepted, in order: the payloads of the `socket_wrote`
events of a trace. -/
def wire : List Event → List Byte
  | [] => []
  | .socket_wrote data :: rest => data ++ wire rest
  | _ :: rest => wire rest

/-- The bytes that a receiving script still holds, in order. -/
def bytes_of : List NetEvent → List Byte
  | [] => []
  | .data bytes :: rest => bytes ++ bytes_of rest
  | _ :: rest => bytes_of rest

/-- What the sniffing and the signal emissions leave alone: every field of the item but the
three sniffing fields, every collaborator but the script of the handlers, and the bytes on
the wire. -/
def SniffFrame (ctx ctx' : IOCtx) : Prop :=
  ctx'.io = { ctx.io with
    sniff_data := ctx'.io.sniff_data
    need_content_sniffed := ctx'.io.need_content_sniffed
    need_got_chunk := ctx'.io.need_got_chunk } ∧
  ctx'.env = { ctx.env with callbacks := ctx'.env.callbacks } ∧
  wire ctx'.events = wire ctx.events

/-- What the delivery of a chunk leaves alone: the remaining length, the encoding and the
end-of-file permission of the reader, and what the socket still holds. -/
def BodyFrame (ctx ctx' : IOCtx) : Prop :=
  ctx'.io.read_length = ctx.io.read_length ∧ ctx'.io.read_encoding = ctx.io.read_encoding ∧
  ctx'.io.read_eof_ok = ctx.io.read_eof_ok ∧ ctx'.io.io_error = ctx.io.io_error ∧
  ctx'.env.incoming = ctx.env.incoming

/-- The state after `n` passes through a loop none of which has left it. -/
def passes {σ ρ : Type} (step : σ → Option (σ ⊕ ρ)) : Nat → σ → Option σ
  | 0, s => some s
  | n + 1, s =>
    match step s with
    | some (.inl s') => passes step n s'
    | _ => none

/-- What `soup_io_dispatcher_read_metadata` leaves alone: every field of the item but the
metadata buffer, to which it appends, and the flags `io_error`, `error` and `read_blocked`;
every collaborator but the receiving script; and the events. -/
def MetaFrame (ctx ctx' : IOCtx) : Prop :=
  (∃ bytes, ctx'.io = { ctx.io with
    read_meta_buf := ctx.io.read_meta_buf ++ bytes
    io_error := ctx'.io.io_error
    error := ctx'.io.error
    read_blocked := ctx'.io.read_blocked }) ∧
  ctx'.env = { ctx.env with incoming := ctx'.env.incoming } ∧
  ctx'.events = ctx.events

/-- A round of `soup_io_dispatcher_read_metadata` that does not leave the loop: the three
flags are as they were. -/
def MetaStep (ctx ctx' : IOCtx) : Prop :=
  MetaFrame ctx ctx' ∧ ctx'.io.io_error = ctx.io.io_error ∧ ctx'.io.error = ctx.io.error ∧
    ctx'.io.read_blocked = ctx.io.read_blocked

/-- A return of `soup_io_dispatcher_read_metadata`: the application has not intervened, and
when the function returns TRUE the three flags are as they were and the metadata buffer ends
with a line feed. -/
def MetaRet (ctx : IOCtx) (r : IOResult) : Prop :=
  MetaFrame ctx r.ctx ∧ r.control = .none ∧
    (r.ret = true → r.ctx.io.io_error = ctx.io.io_error ∧ r.ctx.io.error = ctx.io.error ∧
      r.ctx.io.read_blocked = ctx.io.read_blocked ∧
      r.ctx.io.read_meta_buf.getLast? = some LF)

/-- A round of `soup_io_dispatcher_read_metadata`. -/
def MetaOut (ctx : IOCtx) (x : IOCtx ⊕ IOResult) : Prop :=
  match x with
  | .inl c => MetaStep ctx c
  | .inr r => MetaRet ctx r

/-- The item that a pass through the `switch` of an I/O function leaves, whether the pass
goes on to the next one or returns. -/
def pass_item (x : IOCtx ⊕ IOResult) : SoupMessageIOData :=
  match x with
  | .inl c => c.io
  | .inr r => r.ctx.io

/-! ## The pipeline: what the I/O functions keep, the view of a dispatcher and its states -/

/-- The items whose completion callback a trace records, in the order of the calls. -/
def completed (trace : List Event) : List Nat :=
  trace.filterMap (fun e => match e with
    | .completion io_data _ => some io_data
    | _ => none)

/-- What a relation between an item before and after a piece of I/O has to allow: the steps
compose, and every change that leaves the identity, the completion callback, the two states,
the metadata buffer and the `cancelled` flag alone is allowed. -/
structure Keeps (K : SoupMessageIOData → SoupMessageIOData → Prop) : Prop where
  trans : ∀ a b c, K a b → K b c → K a c
  frame : ∀ a b : SoupMessageIOData, b.id = a.id → b.completion_cb = a.completion_cb →
    b.read_state = a.read_state → b.write_state = a.write_state →
    b.read_meta_buf = a.read_meta_buf → b.cancelled = a.cancelled → K a b

/-- The same for a relation that lets the metadata buffer change. -/
structure KeepsR (K : SoupMessageIOData → SoupMessageIOData → Prop) : Prop where
  trans : ∀ a b c, K a b → K b c → K a c
  frame : ∀ a b : SoupMessageIOData, b.id = a.id → b.completion_cb = a.completion_cb →
    b.read_state = a.read_state → b.write_state = a.write_state →
    b.cancelled = a.cancelled → K a b

/-- The identity, the completion callback, the two states, the metadata buffer and the
`cancelled` flag of an item are as they were. -/
def Same (a b : SoupMessageIOData) : Prop :=
  b.id = a.id ∧ b.completion_cb = a.completion_cb ∧ b.read_state = a.read_state ∧
  b.write_state = a.write_state ∧ b.read_meta_buf = a.read_meta_buf ∧ b.cancelled = a.cancelled

/-- The identity, the completion callback, the two states and the `cancelled` flag of an item
are as they were. -/
def SameR (a b : SoupMessageIOData) : Prop :=
  b.id = a.id ∧ b.completion_cb = a.completion_cb ∧ b.read_state = a.read_state ∧
  b.write_state = a.write_state ∧ b.cancelled = a.cancelled

/-- The writer is at work in this write state, or has not started: it neither waits for the
reader nor is it done. -/
def Writes (s : SoupMessageIOState) : Prop := s ≠ .BLOCKING ∧ s ≠ .DONE

/-- The reader is at work in this read state: it has started and does not wait for the
writer. -/
def Reads (s : SoupMessageIOState) : Prop := s ≠ .NOT_STARTED ∧ s ≠ .BLOCKING

/-- The turn-taking of the two directions of an item: the reader is at work only while the
writer waits for it or is done. -/
def Turn (io : SoupMessageIOData) : Prop := Reads io.read_state → ¬ Writes io.write_state

/-- What the writer does to the two states of an item: nothing; or, from a write state in
which it is at work, it goes on to another such state and leaves the read state alone, or it
hands over to the reader, with the read state `HEADERS` and the write state `BLOCKING` or
`DONE`. -/
def WriterTurn (a b : SoupMessageIOData) : Prop :=
  (b.read_state = a.read_state ∧ b.write_state = a.write_state) ∨
  (Writes a.write_state ∧
    ((b.read_state = a.read_state ∧ Writes b.write_state) ∨
      (b.read_state = .HEADERS ∧ ¬ Writes b.write_state)))

/-- What the reader does to the two states of an item: nothing; or, from a read state in
which it is at work, it goes on to another such state and leaves the write state alone or
turns `BLOCKING` into `DONE`, or it hands over to a writer that was `BLOCKING`, with the read
state `BLOCKING`. -/
def ReaderTurn (a b : SoupMessageIOData) : Prop :=
  (b.read_state = a.read_state ∧ b.write_state = a.write_state) ∨
  (Reads a.read_state ∧
    ((Reads b.read_state ∧
        (b.write_state = a.write_state ∨
          (a.write_state = .BLOCKING ∧ b.write_state = .DONE))) ∨
      (b.read_state = .BLOCKING ∧ a.write_state = .BLOCKING)))

/-- What the writer keeps of an item: the identity, the completion callback, the metadata
buffer and the `cancelled` flag; the read state is as it was or `HEADERS`; and the two states
change as `WriterTurn` says. -/
def WriterKeeps (a b : SoupMessageIOData) : Prop :=
  b.id = a.id ∧ b.completion_cb = a.completion_cb ∧ b.read_meta_buf = a.read_meta_buf ∧
  (b.read_state = a.read_state ∨ b.read_state = .HEADERS) ∧ b.cancelled = a.cancelled ∧
  WriterTurn a b

/-- What the reader keeps of an item: the identity, the completion callback and the
`cancelled` flag; a write state `NOT_STARTED` stays, and a read state other than `NOT_STARTED`
does not become it; and the two states change as `ReaderTurn` says. -/
def ReaderKeeps (a b : SoupMessageIOData) : Prop :=
  b.id = a.id ∧ b.completion_cb = a.completion_cb ∧
  (a.write_state = .NOT_STARTED → b.write_state = .NOT_STARTED) ∧
  (a.read_state ≠ .NOT_STARTED → b.read_state ≠ .NOT_STARTED) ∧ b.cancelled = a.cancelled ∧
  ReaderTurn a b

/-- What the writer keeps of an item in a pass that does not end its writing: besides
`WriterKeeps`, the write state does not become `DONE`. -/
def WriterGoes (a b : SoupMessageIOData) : Prop :=
  WriterKeeps a b ∧ (b.write_state = .DONE → a.write_state = .DONE)

/-- What the reader keeps of an item in a pass that does not end its reading: besides
`ReaderKeeps`, the read state does not become `DONE`. -/
def ReaderGoes (a b : SoupMessageIOData) : Prop :=
  ReaderKeeps a b ∧ (b.read_state = .DONE → a.read_state = .DONE)

/-- A step inside an I/O function: the item is kept, no error is recorded and no completion
callback runs. -/
def StepOK (K : SoupMessageIOData → SoupMessageIOData → Prop) (c c' : IOCtx) : Prop :=
  K c.io c'.io ∧ c'.io.io_error = c.io.io_error ∧ completed c'.events = completed c.events

/-- A return of an I/O function: the item is kept, no completion callback runs, an error is
recorded only with a plain `return FALSE`, and `TRUE` is returned only when the application
has neither paused nor cancelled the message. -/
def RetOK (K : SoupMessageIOData → SoupMessageIOData → Prop) (c : IOCtx) (r : IOResult) :
    Prop :=
  K c.io r.ctx.io ∧ completed r.ctx.events = completed c.events ∧
  (r.ctx.io.io_error = c.io.io_error ∨ (r.ret = false ∧ r.control = .none)) ∧
  (r.ret = true → r.control = .none)

/-- Either of the two. -/
def OutOK (K : SoupMessageIOData → SoupMessageIOData → Prop) (c : IOCtx) :
    IOCtx ⊕ IOResult → Prop
  | .inl c' => StepOK K c c'
  | .inr r => RetOK K c r

/-- A pass through a loop that does not return TRUE. -/
def NoTrue (x : IOCtx ⊕ IOResult) : Prop := ∀ r, x = .inr r → r.ret = false

/-- What the pipeline invariants are about: the three item queues, the live items, the
identity of the next item and the items whose completion callback has run. -/
structure View where
  read : List Nat
  write : List Nat
  paused : List Nat
  items : List SoupMessageIOData
  next : Nat
  completed : List Nat

/-- The view of a dispatcher. -/
def view (d : SoupIODispatcher) : View :=
  { read := d.read_io_queue, write := d.write_io_queue, paused := d.paused_io_queue
    items := d.items, next := d.next_io_data, completed := completed d.trace }

/-- The queue selected by `q`. -/
def View.queue (v : View) : QueueSel → List Nat
  | .read => v.read
  | .write => v.write
  | .paused => v.paused

/-- Replaces the queue selected by `q`. -/
def View.set_queue (v : View) (q : QueueSel) (l : List Nat) : View :=
  match q with
  | .read => { v with read := l }
  | .write => { v with write := l }
  | .paused => { v with paused := l }

/-- The view after `delete_link`. -/
def View.erase (v : View) (q : QueueSel) (id : Nat) : View :=
  v.set_queue q ((v.queue q).erase id)

/-- The view after `push_link`. -/
def View.push (v : View) (q : QueueSel) (id : Nat) : View :=
  v.set_queue q (v.queue q ++ [id])

/-- The view after `store_io_data`. -/
def View.store (v : View) (io : SoupMessageIOData) : View :=
  { v with items := v.items.map (fun x => if x.id == io.id then io else x) }

/-- The view after the completion callback and `g_slice_free` of `io_data_cleanup`. -/
def View.free (v : View) (id : Nat) (completion_cb : Bool) : View :=
  { v with
    items := v.items.filter (fun x => x.id != id)
    completed := v.completed ++ (if completion_cb then [id] else []) }

/-- The view after the allocation of `io_data_new`. -/
def View.alloc (v : View) (io : SoupMessageIOData) : View :=
  { v with items := v.items ++ [io], next := v.next + 1 }

/-- The invariants of the three queues and of the completion callbacks. -/
structure QueueInv (v : View) : Prop where
  nodup : ∀ q, (v.queue q).Nodup
  paused_read : ∀ id ∈ v.paused, id ∉ v.read
  paused_write : ∀ id ∈ v.paused, id ∉ v.write
  queue_lt : ∀ q, ∀ id ∈ v.queue q, id < v.next
  linked_live : ∀ q, ∀ id ∈ v.queue q, ∃ io ∈ v.items, io.id = id
  item_lt : ∀ io ∈ v.items, io.id < v.next
  item_nodup : (v.items.map (fun x => x.id)).Nodup
  no_error : ∀ io ∈ v.items, io.io_error = false
  write_order : ∀ io ∈ v.items, io.id ∈ v.write → v.write.head? ≠ some io.id →
    io.write_state = .NOT_STARTED
  read_order : ∀ io ∈ v.items, io.id ∈ v.read → v.read.head? ≠ some io.id →
    (io.read_state = .NOT_STARTED ∨ io.read_state = .HEADERS) ∧ io.read_meta_buf = []
  unstarted : ∀ io ∈ v.items, io.read_state = .NOT_STARTED → io.read_meta_buf = []
  paused_unstarted : ∀ io ∈ v.items, io.id ∈ v.paused →
    io.read_state = .NOT_STARTED ∧ io.write_state = .NOT_STARTED
  once : v.completed.Nodup
  live : ∀ io ∈ v.items, io.id ∉ v.completed
  completed_lt : ∀ id ∈ v.completed, id < v.next

/-- The single changes of which the steps of the dispatcher are composed. -/
inductive MicroStep : View → View → Prop
  | store (v : View) (io io' : SoupMessageIOData) (hmem : io ∈ v.items)
      (hid : io'.id = io.id) (hcb : io'.completion_cb = io.completion_cb)
      (herr : io'.io_error = false)
      (hw : io.id ∈ v.write → v.write.head? ≠ some io.id → io'.write_state = .NOT_STARTED)
      (hr : io.id ∈ v.read → v.read.head? ≠ some io.id →
        (io'.read_state = .NOT_STARTED ∨ io'.read_state = .HEADERS) ∧ io'.read_meta_buf = [])
      (hm : io'.read_state = .NOT_STARTED → io'.read_meta_buf = [])
      (hpq : io.id ∈ v.paused →
        io'.read_state = .NOT_STARTED ∧ io'.write_state = .NOT_STARTED) :
      MicroStep v (v.store io')
  | erase (v : View) (q : QueueSel) (id : Nat) : MicroStep v (v.erase q id)
  | push (v : View) (q : QueueSel) (id : Nat) (hlt : id < v.next) (hq : id ∉ v.queue q)
      (hp : id ∉ v.paused) (hpa : q = .paused → id ∉ v.read ∧ id ∉ v.write)
      (hlive : ∃ io ∈ v.items, io.id = id)
      (hns : ∀ io ∈ v.items, io.id = id →
        io.read_state = .NOT_STARTED ∧ io.write_state = .NOT_STARTED) :
      MicroStep v (v.push q id)
  | free (v : View) (io : SoupMessageIOData) (hmem : io ∈ v.items)
      (hun : ∀ q, io.id ∉ v.queue q) :
      MicroStep v (v.free io.id io.completion_cb)
  | alloc (v : View) (io : SoupMessageIOData) (hid : io.id = v.next)
      (hrs : io.read_state = .NOT_STARTED) (hws : io.write_state = .NOT_STARTED)
      (hmb : io.read_meta_buf = []) (herr : io.io_error = false) :
      MicroStep v (v.alloc io)

/-- The view after `io_data_cleanup`. -/
def View.cleanup (v : View) (io : SoupMessageIOData) : View :=
  (((v.erase .read io.id).erase .write io.id).erase .paused io.id).free io.id io.completion_cb

/-- The invariants that keep every item within reach of the dispatcher: a live item is linked
in a queue; an item is out of the read queue only when it is paused unstarted or its reading
is done, and out of the write queue only when it is paused unstarted or its writing is done;
the reader of an item is at work only while its writer waits or is done; no live item has
the `cancelled` flag set; and no live item has both its reading and its writing done. -/
structure LinkInv (v : View) : Prop where
  no_orphan : ∀ io ∈ v.items, io.id ∈ v.read ∨ io.id ∈ v.write ∨ io.id ∈ v.paused
  read_done : ∀ io ∈ v.items, io.id ∉ v.read → io.id ∉ v.paused → io.read_state = .DONE
  write_done : ∀ io ∈ v.items, io.id ∉ v.write → io.id ∉ v.paused → io.write_state = .DONE
  turn : ∀ io ∈ v.items, Turn io
  not_cancelled : ∀ io ∈ v.items, io.cancelled = false
  not_finished : ∀ io ∈ v.items, is_io_data_finished io = false

/-- The invariants of the pipeline. -/
structure PipelineInv (v : View) extends QueueInv v, LinkInv v : Prop

/-- The steps of which every operation of the dispatcher is composed, each with the
conditions under which the dispatcher takes it: an item is stored as an I/O function or a
flag assignment has left it; an item whose reading or writing is done is unlinked from that
queue while the other queue holds it; `io_data_cleanup` unlinks and frees an item and runs
its completion callback; an unstarted item is moved to the paused queue, or back from it;
`io_data_new` allocates an item and links it into the read queue and the write queue. -/
inductive AStep : View → View → Prop
  | store (v : View) (io io' : SoupMessageIOData) (hmem : io ∈ v.items)
      (hid : io'.id = io.id) (hcb : io'.completion_cb = io.completion_cb)
      (herr : io'.io_error = false)
      (hw : io.id ∈ v.write → v.write.head? ≠ some io.id → io'.write_state = .NOT_STARTED)
      (hr : io.id ∈ v.read → v.read.head? ≠ some io.id →
        (io'.read_state = .NOT_STARTED ∨ io'.read_state = .HEADERS) ∧ io'.read_meta_buf = [])
      (hm : io'.read_state = .NOT_STARTED → io'.read_meta_buf = [])
      (hpq : io.id ∈ v.paused →
        io'.read_state = .NOT_STARTED ∧ io'.write_state = .NOT_STARTED)
      (hc : io'.cancelled = false) (ht : Turn io')
      (hrd : io.id ∉ v.read → io.id ∉ v.paused → io'.read_state = .DONE)
      (hwd : io.id ∉ v.write → io.id ∉ v.paused → io'.write_state = .DONE)
      (hnf : is_io_data_finished io' = false) :
      AStep v (v.store io')
  | unlink_read (v : View) (io : SoupMessageIOData) (hmem : io ∈ v.items)
      (hdone : io.read_state = .DONE) (hother : io.id ∈ v.write) :
      AStep v (v.erase .read io.id)
  | unlink_write (v : View) (io : SoupMessageIOData) (hmem : io ∈ v.items)
      (hdone : io.write_state = .DONE) (hother : io.id ∈ v.read) :
      AStep v (v.erase .write io.id)
  | cleanup (v : View) (io : SoupMessageIOData) (hmem : io ∈ v.items) :
      AStep v (v.cleanup io)
  | pause_move (v : View) (io : SoupMessageIOData) (hmem : io ∈ v.items)
      (hrs : io.read_state = .NOT_STARTED) (hws : io.write_state = .NOT_STARTED)
      (hp : io.id ∉ v.paused) :
      AStep v (((v.erase .read io.id).erase .write io.id).push .paused io.id)
  | unpause_move (v : View) (io : SoupMessageIOData) (hmem : io ∈ v.items)
      (hp : io.id ∈ v.paused) :
      AStep v (((v.erase .paused io.id).push .read io.id).push .write io.id)
  | new (v : View) (io : SoupMessageIOData) (hid : io.id = v.next)
      (hrs : io.read_state = .NOT_STARTED) (hws : io.write_state = .NOT_STARTED)
      (hmb : io.read_meta_buf = []) (herr : io.io_error = false)
      (hc : io.cancelled = false) :
      AStep v (((v.alloc io).push .read io.id).push .write io.id)

/-- One view leads to another when steps of the dispatcher take the first to the second,
provided the first satisfies the invariants. -/
def Leads (v v' : View) : Prop := PipelineInv v → Relation.ReflTransGen AStep v v'

/-- The calls that the session, the socket and the main loop make on a dispatcher. -/
inductive DispOp
  | set_socket (socket : Option Nat)
  | set_properties (via_proxy : Bool) (uri : SoupURI) (max_pipelined_req : Nat)
      (response_block_size : Nat) (is_thread_safe : Bool) (async_context : Option Nat)
      (idle_timeout : Nat)
  | set_max_pipelined_requests (value : Nat)
  | set_pipelining_support (value : Bool)
  | set_response_block_size (value : Nat)
  | queue_message (msg : Nat)
  | process_message (fuel : Nat) (msg : SoupMessage) (completion_cb : Bool) (env : Env)
  | cancel_message (io_data : Nat)
  | pause_message (io_data : Nat)
  | unpause_message (fuel : Nat) (io_data : Nat) (non_blocking : Bool) (env : Env)
  | unpause_cb (fuel : Nat) (io_data : Nat) (env : Env)
  | readable_cb (fuel : Nat) (env : Env)
  | writable_cb (fuel : Nat) (env : Env)
  | idle_timeout

/-- The dispatcher after a call, `none` when a loop of the call has run out of fuel or the
call is made for an item that does not exist. -/
def disp_step (d : SoupIODispatcher) : DispOp → Option SoupIODispatcher
  | .set_socket socket => some (soup_io_dispatcher_set_socket d socket)
  | .set_properties via_proxy uri m b ts ac it =>
    some (io_dispatcher_set_properties d via_proxy uri m b ts ac it)
  | .set_max_pipelined_requests value =>
    some (soup_io_dispatcher_set_max_pipelined_requests d value)
  | .set_pipelining_support value => some (soup_io_dispatcher_set_pipelining_support d value)
  | .set_response_block_size value => some (soup_io_dispatcher_set_response_block_size d value)
  | .queue_message msg => some (soup_io_dispatcher_queue_message d msg)
  | .process_message fuel msg completion_cb env =>
    (soup_io_dispatcher_process_message fuel d msg completion_cb env).map Prod.fst
  | .cancel_message io_data => some (cancel_message d io_data)
  | .pause_message io_data => some (pause_message d io_data)
  | .unpause_message fuel io_data non_blocking env =>
    (unpause_message fuel d io_data non_blocking env).map Prod.fst
  | .unpause_cb fuel io_data env => (unpause_cb fuel d io_data env).map Prod.fst
  | .readable_cb fuel env => (readable_cb fuel d env).map Prod.fst
  | .writable_cb fuel env => (writable_cb fuel d env).map Prod.fst
  | .idle_timeout => some (idle_timeout d)

/-- The states of a dispatcher: the state after `soup_io_dispatcher_init`, and every state
that a call makes of one of them. -/
inductive Reachable : SoupIODispatcher → Prop
  | init (id : Nat) : Reachable (soup_io_dispatcher_init id)
  | step {d d' : SoupIODispatcher} (op : DispOp) (h : Reachable d)
      (hstep : disp_step d op = some d') : Reachable d'

/-! ## Sample dispatcher states -/

/-- Decidable form of `QueuesWF`. -/
def queues_wf_check (d : SoupIODispatcher) : Bool :=
  [QueueSel.read, QueueSel.write, QueueSel.paused].all (fun q =>
    decide (get_queue d q).Nodup &&
      (get_queue d q).all (fun id => (find_io_data d id).isSome))

/-- `sample_io_disp` after `io_data_new` for one `POST` request with a completion callback. -/
def sample_io_disp_post : SoupIODispatcher :=
  (io_data_new sample_io_disp { sample_msg 7 with method := .POST } true).1

/-- The item of `sample_io_disp_one_item` once its request is written and the response is
awaited, after a read that failed with a timeout. -/
def sample_item_timed_out : SoupMessageIOData :=
  { new_io_data 0 (sample_msg 7) true with
    read_state := .HEADERS, write_state := .DONE, io_error := true, error := some .TIMED_OUT }

/-- `sample_io_disp_one_item` with one request finished before, the item's request written
(the item has left the write queue) and `sample_item_timed_out` as the state of the item. -/
def sample_io_disp_timed_out : SoupIODispatcher :=
  store_io_data
    (delete_link (dec_queue_length { sample_io_disp_one_item with finished_requests := 1 } .write)
      .write 0)
    sample_item_timed_out

/-- The item of `sample_io_disp_one_item` once its request is written and its response body
has been read: the reader is in `FINISHING`. -/
def sample_item_finishing : SoupMessageIOData :=
  { new_io_data 0 (sample_msg 7) true with read_state := .FINISHING, write_state := .DONE }

/-- `sample_io_disp_one_item` with the item's request written and `sample_item_finishing` as
the state of the item. -/
def sample_io_disp_finishing : SoupIODispatcher :=
  store_io_data (delete_link (dec_queue_length sample_io_disp_one_item .write) .write 0)
    sample_item_finishing

/-- Collaborators that stay silent: nothing arrives, the socket takes what it is given, no
handler interferes, no header block parses, no decoder is installed. -/
def sample_env : Env :=
  { incoming := [], outgoing := [], callbacks := [], allocator := []
    headers := fun _ => none, decoders := some, connected := true
    behind := [] }

/-- A fresh item for `sample_msg 7` with `sample_env`. -/
def sample_ctx : IOCtx :=
  { io := new_io_data 0 (sample_msg 7) true, env := sample_env, events := [] }

/-- The item of `sample_ctx` reading a body of which 3 bytes are left, with 5 bytes waiting in
the socket. -/
def sample_ctx_body : IOCtx :=
  { io := { new_io_data 0 (sample_msg 7) true with
      read_state := .BODY, write_state := .DONE, read_encoding := .CONTENT_LENGTH, read_length := 3 }
    env := { sample_env with incoming := [.data [1, 2, 3, 4, 5]] }
    events := [] }

/-- The item of `sample_ctx` reading a body of which 3 bytes are left, on a socket that the
peer has closed. -/
def sample_ctx_eof : IOCtx :=
  { io := { new_io_data 0 (sample_msg 7) true with
      read_state := .BODY, write_state := .DONE, read_encoding := .CONTENT_LENGTH, read_length := 3 }
    env := { sample_env with incoming := [.eof] }
    events := [] }

/-- Header codec for the samples: every header block is a response with the given status
code, HTTP/1.1, without a body. -/
def sample_headers (status_code : Nat) : List Byte → Option ParsedResponse :=
  fun _ => some
    { status_code := status_code, http_1_0 := false, encoding := .NONE, content_length := 0
      connection_close := false, keep_alive := false }

/-- A `POST` with `Expect: 100-continue` whose headers are written: the writer is `BLOCKING`,
the reader is in `HEADERS`, and the block `X CR LF CR LF` arrives, which `sample_headers 102`
reads as a response with status 102. -/
def sample_ctx_expect : IOCtx :=
  { io := { new_io_data 0 { sample_msg 7 with method := .POST, request_expect_continue := true }
        true with
      read_state := .HEADERS, write_state := .BLOCKING, write_encoding := .CONTENT_LENGTH }
    env := { sample_env with
      incoming := [.data [88, 13, 10, 13, 10]], headers := sample_headers 102 }
    events := [] }

/-- A request with `Content-Length: 5` whose body holds 3 bytes and the end-of-body chunk,
after the 3 bytes have been written: the writer is in `BODY` with 2 bytes still to write. -/
def sample_ctx_short_body : IOCtx :=
  { io := { new_io_data 0
        { sample_msg 7 with
          method := .POST, request_encoding := .CONTENT_LENGTH, request_content_length := 5
          request_body := [[1, 2, 3], []] } true with
      write_state := .BODY, write_encoding := .CONTENT_LENGTH, write_length := 2
      write_body_offset := 3 }
    env := sample_env
    events := [] }

/-- The reader in `CHUNK_SIZE` with the size line CR LF in the socket, which is white space
and nothing else, while the memory behind the metadata buffer holds the characters `1f`. -/
def sample_ctx_blank_size_line : IOCtx :=
  { io := { new_io_data 0 (sample_msg 7) true with
      read_state := .CHUNK_SIZE, write_state := .DONE, read_encoding := .CHUNKED }
    env := { sample_env with incoming := [.data [13, 10]], behind := [[49, 102]] }
    events := [] }

/-- The sample `sample_ctx_expect` with a header codec that reads every block as a response
with status 100. -/
def sample_ctx_continue : IOCtx :=
  { sample_ctx_expect with env := { sample_ctx_expect.env with headers := sample_headers 100 } }

/-- A socket that does not take the next write. -/
def sample_env_blocked : Env := { sample_env with outgoing := [.would_block] }

/-- A dispatcher bound to socket 1. -/
def sample_bound : SoupIODispatcher :=
  soup_io_dispatcher_set_socket (soup_io_dispatcher_init 0) (some 1)

/-- `sample_bound` after `soup_io_dispatcher_process_message` for a first request, of which the
socket takes nothing. -/
def sample_first_blocked : SoupIODispatcher :=
  ((soup_io_dispatcher_process_message 4 sample_bound (sample_msg 7) true
    sample_env_blocked).map Prod.fst).getD sample_bound

/-- `sample_first_blocked` after `soup_io_dispatcher_process_message` for a second request,
which waits unstarted behind the first. -/
def sample_two_requests : SoupIODispatcher :=
  ((soup_io_dispatcher_process_message 4 sample_first_blocked (sample_msg 8) true
    sample_env).map Prod.fst).getD sample_first_blocked

/-- The block `X CR LF CR LF` arrives, which `sample_headers 200` reads as a response with
status 200 and without a body. -/
def sample_env_reply : Env :=
  { sample_env with incoming := [.data [88, 13, 10, 13, 10]], headers := sample_headers 200 }

/-- `sample_bound` after `soup_io_dispatcher_process_message` for a request that the socket
takes and to which the response arrives at once. -/
def sample_done : SoupIODispatcher :=
  ((soup_io_dispatcher_process_message 6 sample_bound (sample_msg 7) true
    sample_env_reply).map Prod.fst).getD sample_bound

/-! ## Hash tables and Host Records -/

theorem g_hash_table_lookup_insert {κ α : Type} [DecidableEq κ] (table : List (κ × α))
    (key key' : κ) (value : α) :
    g_hash_table_lookup (g_hash_table_insert table key value) key' =
      if key = key' then some value else g_hash_table_lookup table key' := by
  induction table with
  | nil =>
    simp only [g_hash_table_insert, g_hash_table_lookup]
  | cons entry rest ih =>
    obtain ⟨k, v⟩ := entry
    simp only [g_hash_table_insert]
    by_cases hk : k = key
    · subst hk
      simp only [if_true, g_hash_table_lookup]
      by_cases hk' : k = key'
      · simp [hk']
      · simp [hk']
    · simp only [hk, if_false, g_hash_table_lookup]
      by_cases hk' : k = key'
      · subst hk'
        simp [Ne.symm hk]
      · simp only [hk', if_false]
        exact ih

theorem lookup_store_host_info (pool : SoupIODispatcherPool) (host host' : String)
    (port port' : Nat) (host_info : HostInfo) :
    lookup_host_info (store_host_info pool host port host_info) host' port' =
      if host = host' ∧ port = port' ∧ (lookup_host_info pool host port).isSome then
        some host_info
      else lookup_host_info pool host' port' := by
  unfold store_host_info
  split
  · rename_i h1
    simp [lookup_host_info, h1]
  · rename_i hosts h1
    split
    · rename_i h2
      simp [lookup_host_info, h1, h2]
    · rename_i old h2
      simp only [lookup_host_info, h1, h2, g_hash_table_lookup_insert, Option.isSome_some,
        and_true]
      by_cases hh : host = host'
      · subst hh
        simp only [if_true, true_and, g_hash_table_lookup_insert, h1]
      · simp [hh]

theorem lookup_get_host_info (pool : SoupIODispatcherPool) (host host' : String)
    (port port' : Nat) :
    (get_host_info pool host port).2 =
      (lookup_host_info pool host port).getD (new_host_info pool) ∧
    lookup_host_info (get_host_info pool host port).1 host' port' =
      if host = host' ∧ port = port' then some (get_host_info pool host port).2
      else lookup_host_info pool host' port' := by
  unfold get_host_info lookup_host_info
  cases h1 : g_hash_table_lookup pool.hosts_io_dispatchers host with
  | none =>
    simp only [g_hash_table_lookup_insert, if_true, Option.getD_some, g_hash_table_lookup,
      Option.getD_none]
    by_cases hh : host = host'
    · subst hh
      simp [g_hash_table_lookup_insert, g_hash_table_lookup, h1]
    · simp [hh, g_hash_table_lookup_insert]
  | some hosts =>
    simp only [h1, Option.getD_some]
    cases h2 : g_hash_table_lookup hosts port with
    | none =>
      simp only [Option.getD_none, true_and, g_hash_table_lookup_insert]
      by_cases hh : host = host'
      · subst hh
        simp only [if_true, true_and, g_hash_table_lookup_insert, h1]
      · simp [hh]
    | some old =>
      simp only [Option.getD_some, true_and]
      by_cases hh : host = host'
      · subst hh
        simp only [h1, true_and]
        by_cases hp : port = port'
        · subst hp
          simp [h2]
        · simp [hp]
      · simp [hh]

theorem g_hash_table_lookup_map {κ α : Type} [DecidableEq κ] (table : List (κ × α))
    (key : κ) (f : α → α) :
    g_hash_table_lookup (table.map (fun entry => (entry.1, f entry.2))) key =
      (g_hash_table_lookup table key).map f := by
  induction table with
  | nil => rfl
  | cons entry rest ih =>
    obtain ⟨k, v⟩ := entry
    simp only [List.map_cons, g_hash_table_lookup]
    by_cases hk : k = key
    · simp [hk]
    · simp only [hk, if_false]
      exact ih

theorem lookup_map_host_infos (pool : SoupIODispatcherPool) (f : HostInfo → HostInfo)
    (host : String) (port : Nat) :
    lookup_host_info (map_host_infos pool f) host port =
      (lookup_host_info pool host port).map f := by
  unfold lookup_host_info map_host_infos
  simp only []
  rw [g_hash_table_lookup_map pool.hosts_io_dispatchers host
    (fun ports => ports.map (fun port_entry => (port_entry.1, f port_entry.2)))]
  cases g_hash_table_lookup pool.hosts_io_dispatchers host with
  | none => rfl
  | some hosts =>
    simp only [Option.map_some']
    exact g_hash_table_lookup_map hosts port f

theorem get_host_info_of_lookup (pool : SoupIODispatcherPool) (host : String) (port : Nat)
    (record : HostInfo) (h : lookup_host_info pool host port = some record) :
    get_host_info pool host port = (pool, record) := by
  unfold lookup_host_info at h
  unfold get_host_info
  cases h1 : g_hash_table_lookup pool.hosts_io_dispatchers host with
  | none => rw [h1] at h; cases h
  | some hosts =>
    rw [h1] at h
    simp only [h1, Option.getD_some] at h ⊢
    rw [h]

/-! ## Frame properties of the dispatcher's bookkeeping -/

theorem same_settings_refl (d : SoupIODispatcher) : SameSettings d d :=
  ⟨rfl, rfl, rfl, rfl, rfl, rfl, rfl, rfl, rfl, rfl, rfl⟩

theorem same_settings_trans {a b c : SoupIODispatcher} (h1 : SameSettings a b)
    (h2 : SameSettings b c) : SameSettings a c := by
  obtain ⟨a1, a2, a3, a4, a5, a6, a7, a8, a9, a10, a11⟩ := h1
  obtain ⟨b1, b2, b3, b4, b5, b6, b7, b8, b9, b10, b11⟩ := h2
  exact ⟨b1.trans a1, b2.trans a2, b3.trans a3, b4.trans a4, b5.trans a5, b6.trans a6,
    b7.trans a7, b8.trans a8, b9.trans a9, b10.trans a10, b11.trans a11⟩

theorem same_emit (d : SoupIODispatcher) (e : Event) : SameSettings d (emit d e) :=
  same_settings_refl d

theorem same_start_idle_timer (d : SoupIODispatcher) : SameSettings d (start_idle_timer d) := by
  unfold start_idle_timer
  split <;> exact same_settings_refl d

theorem same_stop_idle_timer (d : SoupIODispatcher) : SameSettings d (stop_idle_timer d) := by
  unfold stop_idle_timer
  split <;> exact same_settings_refl d

theorem same_properties_changed_idle (d : SoupIODispatcher) :
    SameSettings d (properties_changed_idle d) := by
  unfold properties_changed_idle
  simp only []
  split
  · split
    · exact same_settings_trans (b := { d with idle := soup_io_dispatcher_is_queue_empty d })
        ⟨rfl, rfl, rfl, rfl, rfl, rfl, rfl, rfl, rfl, rfl, rfl⟩ (same_start_idle_timer _)
    · exact same_settings_trans (b := { d with idle := soup_io_dispatcher_is_queue_empty d })
        ⟨rfl, rfl, rfl, rfl, rfl, rfl, rfl, rfl, rfl, rfl, rfl⟩ (same_stop_idle_timer _)
  · exact same_settings_refl d

theorem same_properties_changed_is_queue_full (d : SoupIODispatcher) :
    SameSettings d (properties_changed_is_queue_full d) := by
  unfold properties_changed_is_queue_full
  simp only []
  split
  · exact ⟨rfl, rfl, rfl, rfl, rfl, rfl, rfl, rfl, rfl, rfl, rfl⟩
  · exact same_settings_refl d

theorem same_properties_changed (d : SoupIODispatcher) :
    SameSettings d (properties_changed d) :=
  same_settings_trans (same_properties_changed_idle d) (same_properties_changed_is_queue_full _)

theorem same_set_queue (d : SoupIODispatcher) (q : QueueSel) (l : List Nat) :
    SameSettings d (set_queue d q l) := by
  cases q <;> exact same_settings_refl d

theorem same_push_link (d : SoupIODispatcher) (q : QueueSel) (io_data : Nat) :
    SameSettings d (push_link d q io_data) :=
  same_settings_trans (same_set_queue d q _) (same_properties_changed _)

theorem same_delete_link (d : SoupIODispatcher) (q : QueueSel) (io_data : Nat) :
    SameSettings d (delete_link d q io_data) :=
  same_settings_trans (same_set_queue d q _) (same_properties_changed _)

theorem same_dec_queue_length (d : SoupIODispatcher) (q : QueueSel) :
    SameSettings d (dec_queue_length d q) := by
  cases q <;> simp [dec_queue_length, SameSettings]

theorem same_cleanup_unlink (d : SoupIODispatcher) (q : QueueSel) (io_data : Nat) :
    SameSettings d (cleanup_unlink d q io_data) := by
  unfold cleanup_unlink
  split
  · exact same_settings_trans (same_dec_queue_length d q) (same_delete_link _ q io_data)
  · exact same_settings_refl d

theorem same_cleanup_restart (d : SoupIODispatcher) (io_data : SoupMessageIOData) :
    SameSettings d (cleanup_restart d io_data) := by
  unfold cleanup_restart
  simp only []
  split
  · exact same_emit _ _
  · exact same_settings_refl d

theorem same_cleanup_disconnect (d : SoupIODispatcher) (io_data : SoupMessageIOData) :
    SameSettings d (cleanup_disconnect d io_data) := by
  unfold cleanup_disconnect
  split
  · split
    · exact same_emit _ _
    · exact same_settings_refl d
  · exact same_settings_refl d

theorem same_cleanup_completion (d : SoupIODispatcher) (io_data : SoupMessageIOData) :
    SameSettings d (cleanup_completion d io_data) := by
  unfold cleanup_completion
  split
  · exact same_emit _ _
  · exact same_settings_refl d

theorem same_free_io_data (d : SoupIODispatcher) (io_data : Nat) :
    SameSettings d (free_io_data d io_data) := ⟨rfl, rfl, rfl, rfl, rfl, rfl, rfl, rfl, rfl, rfl, rfl⟩

theorem same_io_data_cleanup (d : SoupIODispatcher) (io_data : SoupMessageIOData) :
    SameSettings d (io_data_cleanup d io_data) := by
  unfold io_data_cleanup
  exact same_settings_trans (same_cleanup_unlink d .read _)
    (same_settings_trans (same_cleanup_unlink _ .write _)
    (same_settings_trans (same_cleanup_unlink _ .paused _)
    (same_settings_trans (same_cleanup_restart _ _)
    (same_settings_trans (same_cleanup_disconnect _ _)
    (same_settings_trans (same_cleanup_completion _ _) (same_free_io_data _ _))))))

theorem same_drain_queue (q : QueueSel) (fuel : Nat) :
    ∀ d : SoupIODispatcher, SameSettings d (drain_queue q fuel d) := by
  induction fuel with
  | zero => intro d; exact same_settings_refl d
  | succ n ih =>
    intro d
    unfold drain_queue
    split
    · exact same_settings_refl d
    · split
      · exact same_settings_trans (same_io_data_cleanup d _) (ih _)
      · exact same_settings_refl d

/-! ## Queues, items and trace under the dispatcher's bookkeeping -/

theorem get_queue_set_queue (d : SoupIODispatcher) (q q' : QueueSel) (l : List Nat) :
    get_queue (set_queue d q l) q' = if q' = q then l else get_queue d q' := by
  cases q <;> cases q' <;> simp [get_queue, set_queue]

theorem qi_start_idle_timer (d : SoupIODispatcher) :
    queues_and_items (start_idle_timer d) = queues_and_items d ∧
    (start_idle_timer d).trace = d.trace := by
  unfold start_idle_timer
  split <;> exact ⟨rfl, rfl⟩

theorem qi_stop_idle_timer (d : SoupIODispatcher) :
    queues_and_items (stop_idle_timer d) = queues_and_items d ∧
    (stop_idle_timer d).trace = d.trace := by
  unfold stop_idle_timer
  split <;> exact ⟨rfl, rfl⟩

theorem count_emit (d : SoupIODispatcher) (e e' : Event) :
    (emit d e').trace.count e = d.trace.count e + if e' = e then 1 else 0 := by
  simp only [emit, List.count_append, List.count_singleton]
  by_cases h : e' = e
  · simp [h]
  · simp [h]

theorem qi_properties_changed_idle (d : SoupIODispatcher) :
    queues_and_items (properties_changed_idle d) = queues_and_items d ∧
    ∀ e : Event, e.is_notify = false →
      (properties_changed_idle d).trace.count e = d.trace.count e := by
  unfold properties_changed_idle
  simp only []
  split
  · split
    · refine ⟨(qi_start_idle_timer _).1, fun e he => ?_⟩
      rw [count_emit, (qi_start_idle_timer _).2]
      have : Event.notify DispProp.IS_QUEUE_EMPTY ≠ e := by
        intro h; rw [← h] at he; simp [Event.is_notify] at he
      simp [this]
    · refine ⟨(qi_stop_idle_timer _).1, fun e he => ?_⟩
      rw [count_emit, (qi_stop_idle_timer _).2]
      have : Event.notify DispProp.IS_QUEUE_EMPTY ≠ e := by
        intro h; rw [← h] at he; simp [Event.is_notify] at he
      simp [this]
  · exact ⟨rfl, fun _ _ => rfl⟩

theorem qi_properties_changed_is_queue_full (d : SoupIODispatcher) :
    queues_and_items (properties_changed_is_queue_full d) = queues_and_items d ∧
    ∀ e : Event, e.is_notify = false →
      (properties_changed_is_queue_full d).trace.count e = d.trace.count e := by
  unfold properties_changed_is_queue_full
  simp only []
  split
  · refine ⟨rfl, fun e he => ?_⟩
    rw [count_emit]
    have : Event.notify DispProp.IS_QUEUE_FULL ≠ e := by
      intro h; rw [← h] at he; simp [Event.is_notify] at he
    simp [this]
  · exact ⟨rfl, fun _ _ => rfl⟩

theorem qi_properties_changed (d : SoupIODispatcher) :
    queues_and_items (properties_changed d) = queues_and_items d ∧
    ∀ e : Event, e.is_notify = false → (properties_changed d).trace.count e = d.trace.count e := by
  unfold properties_changed
  obtain ⟨h1, h2⟩ := qi_properties_changed_idle d
  obtain ⟨h3, h4⟩ := qi_properties_changed_is_queue_full (properties_changed_idle d)
  exact ⟨h3.trans h1, fun e he => (h4 e he).trans (h2 e he)⟩

theorem get_queue_of_qi {d d' : SoupIODispatcher}
    (h : queues_and_items d' = queues_and_items d) (q : QueueSel) :
    get_queue d' q = get_queue d q ∧ d'.items = d.items := by
  simp only [queues_and_items, Prod.mk.injEq] at h
  obtain ⟨h1, h2, h3, h4⟩ := h
  cases q <;> simp [get_queue, h1, h2, h3, h4]

theorem delete_link_spec (d : SoupIODispatcher) (q : QueueSel) (id : Nat) :
    (∀ q', get_queue (delete_link d q id) q' =
      if q' = q then (get_queue d q).erase id else get_queue d q') ∧
    (delete_link d q id).items = d.items ∧
    ∀ e : Event, e.is_notify = false → (delete_link d q id).trace.count e = d.trace.count e := by
  unfold delete_link
  obtain ⟨h1, h2⟩ := qi_properties_changed (set_queue d q ((get_queue d q).erase id))
  refine ⟨fun q' => ?_, ?_, fun e he => ?_⟩
  · rw [(get_queue_of_qi h1 q').1, get_queue_set_queue]
  · rw [(get_queue_of_qi h1 q).2]
    cases q <;> rfl
  · rw [h2 e he]
    cases q <;> rfl

theorem push_link_spec (d : SoupIODispatcher) (q : QueueSel) (id : Nat) :
    (∀ q', get_queue (push_link d q id) q' =
      if q' = q then get_queue d q ++ [id] else get_queue d q') ∧
    (push_link d q id).items = d.items ∧
    ∀ e : Event, e.is_notify = false → (push_link d q id).trace.count e = d.trace.count e := by
  unfold push_link
  obtain ⟨h1, h2⟩ := qi_properties_changed (set_queue d q (get_queue d q ++ [id]))
  refine ⟨fun q' => ?_, ?_, fun e he => ?_⟩
  · rw [(get_queue_of_qi h1 q').1, get_queue_set_queue]
  · rw [(get_queue_of_qi h1 q).2]
    cases q <;> rfl
  · rw [h2 e he]
    cases q <;> rfl

theorem dec_queue_length_spec (d : SoupIODispatcher) (q : QueueSel) :
    (∀ q', get_queue (dec_queue_length d q) q' = get_queue d q') ∧
    (dec_queue_length d q).items = d.items ∧ (dec_queue_length d q).trace = d.trace := by
  cases q <;> exact ⟨fun q' => by cases q' <;> rfl, rfl, rfl⟩

theorem inc_queue_length_spec (d : SoupIODispatcher) (q : QueueSel) :
    (∀ q', get_queue (inc_queue_length d q) q' = get_queue d q') ∧
    (inc_queue_length d q).items = d.items ∧ (inc_queue_length d q).trace = d.trace := by
  cases q <;> exact ⟨fun q' => by cases q' <;> rfl, rfl, rfl⟩

theorem erase_of_not_mem_eq (l : List Nat) (id : Nat) (h : l.contains id = false) :
    l.erase id = l := by
  apply List.erase_of_not_mem
  intro hm
  have : l.contains id = true := by simpa using hm
  rw [h] at this
  cases this

theorem cleanup_unlink_spec (d : SoupIODispatcher) (q : QueueSel) (id : Nat) :
    (∀ q', get_queue (cleanup_unlink d q id) q' =
      if q' = q then (get_queue d q).erase id else get_queue d q') ∧
    (cleanup_unlink d q id).items = d.items ∧
    ∀ e : Event, e.is_notify = false →
      (cleanup_unlink d q id).trace.count e = d.trace.count e := by
  unfold cleanup_unlink
  split
  · obtain ⟨h1, h2, h3⟩ := delete_link_spec (dec_queue_length d q) q id
    obtain ⟨g1, g2, g3⟩ := dec_queue_length_spec d q
    refine ⟨fun q' => ?_, h2.trans g2, fun e he => (h3 e he).trans (by rw [g3])⟩
    rw [h1 q', g1 q, g1 q']
  · rename_i hl
    refine ⟨fun q' => ?_, rfl, fun _ _ => rfl⟩
    split
    · rename_i hq
      subst hq
      simp only [linked, Bool.not_eq_true] at hl
      exact (erase_of_not_mem_eq _ _ hl).symm
    · rfl

/-! ## What `io_data_cleanup` does to the queues, the items and the trace -/

theorem find_io_data_some {d : SoupIODispatcher} {id : Nat} {io : SoupMessageIOData}
    (h : find_io_data d id = some io) : io.id = id ∧ io ∈ d.items := by
  unfold find_io_data at h
  have h1 := List.find?_some h
  have h2 := List.mem_of_find?_eq_some h
  exact ⟨by simpa using h1, h2⟩

theorem find_io_data_none {d : SoupIODispatcher} {id : Nat}
    (h : ∀ x ∈ d.items, x.id ≠ id) : find_io_data d id = none := by
  unfold find_io_data
  rw [List.find?_eq_none]
  intro x hx
  simpa using h x hx

theorem find_io_data_isSome {d : SoupIODispatcher} {id : Nat} :
    (find_io_data d id).isSome = true ↔ ∃ x ∈ d.items, x.id = id := by
  unfold find_io_data
  rw [List.find?_isSome]
  constructor
  · rintro ⟨x, hx, h⟩
    exact ⟨x, hx, by simpa using h⟩
  · rintro ⟨x, hx, h⟩
    exact ⟨x, hx, by simpa using h⟩

theorem unlink_all_spec (d : SoupIODispatcher) (id : Nat) :
    (∀ q, get_queue (cleanup_unlink (cleanup_unlink (cleanup_unlink d .read id) .write id)
        .paused id) q = (get_queue d q).erase id) ∧
    (cleanup_unlink (cleanup_unlink (cleanup_unlink d .read id) .write id) .paused id).items =
      d.items ∧
    (cleanup_unlink (cleanup_unlink (cleanup_unlink d .read id) .write id) .paused id).socket =
      d.socket ∧
    ∀ e : Event, e.is_notify = false →
      (cleanup_unlink (cleanup_unlink (cleanup_unlink d .read id) .write id)
        .paused id).trace.count e = d.trace.count e := by
  obtain ⟨a1, a2, a3⟩ := cleanup_unlink_spec d .read id
  obtain ⟨b1, b2, b3⟩ := cleanup_unlink_spec (cleanup_unlink d .read id) .write id
  obtain ⟨c1, c2, c3⟩ :=
    cleanup_unlink_spec (cleanup_unlink (cleanup_unlink d .read id) .write id) .paused id
  have s1 := same_cleanup_unlink d .read id
  have s2 := same_cleanup_unlink (cleanup_unlink d .read id) .write id
  have s3 := same_cleanup_unlink (cleanup_unlink (cleanup_unlink d .read id) .write id) .paused id
  refine ⟨fun q => ?_, c2.trans (b2.trans a2), ?_, fun e he =>
    (c3 e he).trans ((b3 e he).trans (a3 e he))⟩
  · cases q <;> simp [c1, b1, a1]
  · have := same_settings_trans (same_settings_trans s1 s2) s3
    exact this.2.2.1

theorem cleanup_restart_spec (d : SoupIODispatcher) (io : SoupMessageIOData) :
    (cleanup_restart d io).trace = d.trace ++
      (if !(io.read_state == .DONE && io.write_state == .DONE) && !io.io_error && !io.cancelled
        then [Event.io_msg_restart io.id io.msg.id] else []) ∧
    (cleanup_restart d io).socket = d.socket ∧
    queues_and_items (cleanup_restart d io) = queues_and_items d := by
  unfold cleanup_restart
  simp only []
  split
  · exact ⟨rfl, rfl, rfl⟩
  · exact ⟨by simp, rfl, rfl⟩

theorem cleanup_disconnect_spec (d : SoupIODispatcher) (io : SoupMessageIOData) :
    (cleanup_disconnect d io).trace = d.trace ++
      (if (io.read_state != .NOT_STARTED || io.write_state != .NOT_STARTED) &&
          decide (io.read_state.ord < SoupMessageIOState.FINISHING.ord)
        then (match d.socket with
          | some s => [Event.socket_disconnect s]
          | none => [])
        else []) ∧
    (cleanup_disconnect d io).socket = d.socket ∧
    queues_and_items (cleanup_disconnect d io) = queues_and_items d := by
  unfold cleanup_disconnect soup_io_dispatcher_get_socket
  split
  · cases hs : d.socket
    · exact ⟨by simp, hs, rfl⟩
    · exact ⟨rfl, hs, rfl⟩
  · exact ⟨by simp, rfl, rfl⟩

theorem cleanup_completion_spec (d : SoupIODispatcher) (io : SoupMessageIOData) :
    (cleanup_completion d io).trace = d.trace ++
      (if io.completion_cb then [Event.completion io.id io.msg.id] else []) ∧
    (cleanup_completion d io).socket = d.socket ∧
    queues_and_items (cleanup_completion d io) = queues_and_items d := by
  unfold cleanup_completion
  split
  · exact ⟨rfl, rfl, rfl⟩
  · exact ⟨by simp, rfl, rfl⟩

theorem cleanup_tail_trace (d : SoupIODispatcher) (io : SoupMessageIOData) :
    (free_io_data (cleanup_completion (cleanup_disconnect (cleanup_restart d io) io) io)
      io.id).trace = d.trace ++ cleanup_events d.socket io ∧
    (∀ q, get_queue (free_io_data (cleanup_completion (cleanup_disconnect
      (cleanup_restart d io) io) io) io.id) q = get_queue d q) ∧
    (free_io_data (cleanup_completion (cleanup_disconnect (cleanup_restart d io) io) io)
      io.id).items = d.items.filter (fun x => x.id != io.id) := by
  obtain ⟨r1, r2, r3⟩ := cleanup_restart_spec d io
  obtain ⟨d1, d2, d3⟩ := cleanup_disconnect_spec (cleanup_restart d io) io
  obtain ⟨c1, c2, c3⟩ := cleanup_completion_spec (cleanup_disconnect (cleanup_restart d io) io) io
  have hq := c3.trans (d3.trans r3)
  refine ⟨?_, fun q => ?_, ?_⟩
  · show (cleanup_completion (cleanup_disconnect (cleanup_restart d io) io) io).trace = _
    rw [c1, d1, r1, r2]
    unfold cleanup_events
    simp only [List.append_assoc]
  · have := (get_queue_of_qi hq q).1
    rw [← this]
    cases q <;> rfl
  · show (cleanup_completion (cleanup_disconnect (cleanup_restart d io) io) io).items.filter _ = _
    rw [(get_queue_of_qi hq .read).2]

theorem io_data_cleanup_spec (d : SoupIODispatcher) (io : SoupMessageIOData) :
    (∀ q, get_queue (io_data_cleanup d io) q = (get_queue d q).erase io.id) ∧
    (io_data_cleanup d io).items = d.items.filter (fun x => x.id != io.id) ∧
    ∀ e : Event, e.is_notify = false →
      (io_data_cleanup d io).trace.count e =
        d.trace.count e + (cleanup_events d.socket io).count e := by
  obtain ⟨u1, u2, u3, u4⟩ := unlink_all_spec d io.id
  obtain ⟨t1, t2, t3⟩ := cleanup_tail_trace
    (cleanup_unlink (cleanup_unlink (cleanup_unlink d .read io.id) .write io.id) .paused io.id) io
  unfold io_data_cleanup
  simp only []
  refine ⟨fun q => ?_, ?_, fun e he => ?_⟩
  · rw [t2, u1]
  · rw [t3, u2]
  · rw [t1, List.count_append, u4 e he, u3]

theorem same_cleanup_tail (d : SoupIODispatcher) (io : SoupMessageIOData) :
    SameSettings d (io_data_cleanup d io) := same_io_data_cleanup d io

theorem queuesWF_cleanup {d : SoupIODispatcher} (h : QueuesWF d) (io : SoupMessageIOData) :
    QueuesWF (io_data_cleanup d io) := by
  obtain ⟨c1, c2, _⟩ := io_data_cleanup_spec d io
  refine ⟨fun q => ?_, fun q id hid => ?_⟩
  · rw [c1]
    exact (h.1 q).erase _
  · rw [c1] at hid
    have hm := ((h.1 q).mem_erase_iff).mp hid
    obtain ⟨x, hx, hxid⟩ := find_io_data_isSome.mp (h.2 q id hm.2)
    refine find_io_data_isSome.mpr ⟨x, ?_, hxid⟩
    rw [c2, List.mem_filter]
    refine ⟨hx, ?_⟩
    simp only [bne_iff_ne, ne_eq, hxid]
    exact hm.1

theorem count_cleanup_events_other (socket : Option Nat) (io : SoupMessageIOData) (i m : Nat)
    (h : io.id ≠ i) :
    (cleanup_events socket io).count (Event.io_msg_restart i m) = 0 ∧
    (cleanup_events socket io).count (Event.completion i m) = 0 := by
  constructor
  · rw [List.count_eq_zero]
    intro hm
    unfold cleanup_events at hm
    simp only [List.mem_append] at hm
    rcases hm with (hm | hm) | hm
    · split at hm
      · simp only [List.mem_singleton, Event.io_msg_restart.injEq] at hm
        exact h hm.1.symm
      · cases hm
    · split at hm
      · cases socket
        · cases hm
        · simp at hm
      · cases hm
    · split at hm
      · simp at hm
      · cases hm
  · rw [List.count_eq_zero]
    intro hm
    unfold cleanup_events at hm
    simp only [List.mem_append] at hm
    rcases hm with (hm | hm) | hm
    · split at hm
      · simp at hm
      · cases hm
    · split at hm
      · cases socket
        · cases hm
        · simp at hm
      · cases hm
    · split at hm
      · simp only [List.mem_singleton, Event.completion.injEq] at hm
        exact h hm.1.symm
      · cases hm

theorem count_cleanup_events_self (socket : Option Nat) (io : SoupMessageIOData) :
    (cleanup_events socket io).count (Event.io_msg_restart io.id io.msg.id) =
      (if !(io.read_state == .DONE && io.write_state == .DONE) && !io.io_error &&
        !io.cancelled then 1 else 0) ∧
    (cleanup_events socket io).count (Event.completion io.id io.msg.id) =
      (if io.completion_cb then 1 else 0) := by
  unfold cleanup_events
  generalize (!(io.read_state == .DONE && io.write_state == .DONE) && !io.io_error &&
    !io.cancelled) = c1
  generalize ((io.read_state != .NOT_STARTED || io.write_state != .NOT_STARTED) &&
    decide (io.read_state.ord < SoupMessageIOState.FINISHING.ord)) = c2
  cases c1 <;> cases c2 <;> cases io.completion_cb <;> cases socket <;>
    simp [List.count_cons]

theorem count_cleanup_events_status (socket : Option Nat) (io : SoupMessageIOData) (m st : Nat) :
    (cleanup_events socket io).count (Event.set_status m st) = 0 := by
  unfold cleanup_events
  generalize (!(io.read_state == .DONE && io.write_state == .DONE) && !io.io_error &&
    !io.cancelled) = c1
  generalize ((io.read_state != .NOT_STARTED || io.write_state != .NOT_STARTED) &&
    decide (io.read_state.ord < SoupMessageIOState.FINISHING.ord)) = c2
  cases c1 <;> cases c2 <;> cases io.completion_cb <;> cases socket <;>
    simp [List.count_cons]

theorem count_cleanup_events_disconnect (s : Nat) (io : SoupMessageIOData) :
    (cleanup_events (some s) io).count (Event.socket_disconnect s) =
      (if (io.read_state != .NOT_STARTED || io.write_state != .NOT_STARTED) &&
        decide (io.read_state.ord < SoupMessageIOState.FINISHING.ord) then 1 else 0) ∧
    ∀ s', (cleanup_events none io).count (Event.socket_disconnect s') = 0 := by
  unfold cleanup_events
  generalize (!(io.read_state == .DONE && io.write_state == .DONE) && !io.io_error &&
    !io.cancelled) = c1
  generalize ((io.read_state != .NOT_STARTED || io.write_state != .NOT_STARTED) &&
    decide (io.read_state.ord < SoupMessageIOState.FINISHING.ord)) = c2
  cases c1 <;> cases c2 <;> cases io.completion_cb <;> simp [List.count_cons]

theorem store_io_data_qi (d : SoupIODispatcher) (io : SoupMessageIOData) :
    (∀ q, get_queue (store_io_data d io) q = get_queue d q) ∧
    (store_io_data d io).trace = d.trace ∧ (store_io_data d io).socket = d.socket ∧
    (store_io_data d io).finished_requests = d.finished_requests :=
  ⟨fun q => by cases q <;> rfl, rfl, rfl, rfl⟩

/-! ## The drain loops of `soup_io_dispatcher_set_socket` -/

theorem find_cleanup_other (d : SoupIODispatcher) (io : SoupMessageIOData) (i : Nat)
    (h : io.id ≠ i) : find_io_data (io_data_cleanup d io) i = find_io_data d i := by
  unfold find_io_data
  rw [(io_data_cleanup_spec d io).2.1]
  induction d.items with
  | nil => rfl
  | cons x xs ih =>
    rw [List.filter_cons, List.find?_cons]
    cases hb : (x.id == i)
    · cases hc : (x.id != io.id)
      · simpa using ih
      · simp only [if_true, List.find?_cons, hb]
        exact ih
    · have hxi : x.id = i := by simpa using hb
      have hc : (x.id != io.id) = true := by
        simp only [bne_iff_ne, ne_eq, hxi]
        exact fun hh => h hh.symm
      simp only [hc, if_true, List.find?_cons, hb]

theorem drain_queue_spec (q : QueueSel) :
    ∀ (n : Nat) (d : SoupIODispatcher), QueuesWF d → (get_queue d q).length ≤ n →
      get_queue (drain_queue q n d) q = [] ∧ QueuesWF (drain_queue q n d) ∧
      (∀ q' i, i ∈ get_queue (drain_queue q n d) q' ↔ i ∈ get_queue d q' ∧ i ∉ get_queue d q) ∧
      (∀ x, x ∈ (drain_queue q n d).items ↔ x ∈ d.items ∧ x.id ∉ get_queue d q) ∧
      (∀ i, i ∉ get_queue d q → find_io_data (drain_queue q n d) i = find_io_data d i) := by
  intro n
  induction n with
  | zero =>
    intro d hwf hlen
    have hnil : get_queue d q = [] := List.length_eq_zero.mp (Nat.le_zero.mp hlen)
    unfold drain_queue
    refine ⟨hnil, hwf, fun q' i => ?_, fun x => ?_, fun _ _ => rfl⟩
    · simp [hnil]
    · simp [hnil]
  | succ n ih =>
    intro d hwf hlen
    unfold drain_queue
    split
    · rename_i hnil
      refine ⟨hnil, hwf, fun q' i => ?_, fun x => ?_, fun _ _ => rfl⟩
      · simp [hnil]
      · simp [hnil]
    · rename_i h t hq
      have hlive := hwf.2 q h (by rw [hq]; exact List.mem_cons_self _ _)
      split
      · rename_i io hfind
        obtain ⟨hid, _⟩ := find_io_data_some hfind
        obtain ⟨c1, c2, _⟩ := io_data_cleanup_spec d io
        have hq1 : get_queue (io_data_cleanup d io) q = t := by
          rw [c1, hq, hid]
          simp
        have hnd : (h :: t).Nodup := hq ▸ hwf.1 q
        have hht : h ∉ t := (List.nodup_cons.mp hnd).1
        obtain ⟨i1, i2, i3, i4, i5⟩ := ih (io_data_cleanup d io) (queuesWF_cleanup hwf io)
          (by rw [hq1]; rw [hq] at hlen; simpa using hlen)
        refine ⟨i1, i2, fun q' i => ?_, fun x => ?_, fun i hi => ?_⟩
        · rw [i3, hq1, c1, (hwf.1 q').mem_erase_iff, hid, hq]
          simp only [List.mem_cons, not_or]
          tauto
        · rw [i4, hq1, c2, List.mem_filter, hid, hq]
          simp only [List.mem_cons, not_or, bne_iff_ne, ne_eq]
          tauto
        · rw [hq] at hi
          simp only [List.mem_cons, not_or] at hi
          rw [i5 i (by rw [hq1]; exact hi.2)]
          exact find_cleanup_other d io i (by rw [hid]; exact fun hh => hi.1 hh.symm)
      · rename_i hnone
        rw [hnone] at hlive
        cases hlive

theorem drain_count_other (q : QueueSel) (e : Event) (i : Nat) (he : e.is_notify = false)
    (hown : ∀ s (io : SoupMessageIOData), io.id ≠ i → (cleanup_events s io).count e = 0) :
    ∀ (n : Nat) (d : SoupIODispatcher), i ∉ get_queue d q →
      (drain_queue q n d).trace.count e = d.trace.count e := by
  intro n
  induction n with
  | zero => intro d _; rfl
  | succ n ih =>
    intro d hi
    unfold drain_queue
    split
    · rfl
    · rename_i h t hq
      split
      · rename_i io hfind
        obtain ⟨hid, _⟩ := find_io_data_some hfind
        obtain ⟨c1, _, c3⟩ := io_data_cleanup_spec d io
        have hne : io.id ≠ i := by
          rw [hid]
          intro hh
          apply hi
          rw [hq, hh]
          exact List.mem_cons_self _ _
        rw [ih (io_data_cleanup d io) (by rw [c1]; exact fun hm => hi (List.mem_of_mem_erase hm)),
          c3 e he, hown _ io hne]
        rfl
      · rfl

theorem drain_count_live (q : QueueSel) (e : Event) (i : Nat) (he : e.is_notify = false)
    (hown : ∀ s (io : SoupMessageIOData), io.id ≠ i → (cleanup_events s io).count e = 0)
    (io : SoupMessageIOData) :
    ∀ (n : Nat) (d : SoupIODispatcher), QueuesWF d → (get_queue d q).length ≤ n →
      find_io_data d i = some io → i ∈ get_queue d q →
      (drain_queue q n d).trace.count e = d.trace.count e + (cleanup_events d.socket io).count e := by
  intro n
  induction n with
  | zero =>
    intro d _ hlen _ hi
    have hnil : get_queue d q = [] := List.length_eq_zero.mp (Nat.le_zero.mp hlen)
    rw [hnil] at hi
    cases hi
  | succ n ih =>
    intro d hwf hlen hfindi hi
    unfold drain_queue
    split
    · rename_i hnil
      rw [hnil] at hi
      cases hi
    · rename_i h t hq
      have hnd : (h :: t).Nodup := hq ▸ hwf.1 q
      have hht : h ∉ t := (List.nodup_cons.mp hnd).1
      have hlive := hwf.2 q h (by rw [hq]; exact List.mem_cons_self _ _)
      split
      · rename_i ioh hfind
        obtain ⟨hid, _⟩ := find_io_data_some hfind
        obtain ⟨c1, _, c3⟩ := io_data_cleanup_spec d ioh
        have hq1 : get_queue (io_data_cleanup d ioh) q = t := by
          rw [c1, hq, hid]
          simp
        by_cases hhi : h = i
        · subst hhi
          rw [hfindi] at hfind
          cases hfind
          rw [drain_count_other q e h he hown n _ (by rw [hq1]; exact hht), c3 e he]
        · have hne : ioh.id ≠ i := by rw [hid]; exact hhi
          have hit : i ∈ t := by
            rw [hq] at hi
            rcases List.mem_cons.mp hi with hh | hh
            · exact absurd hh.symm hhi
            · exact hh
          rw [ih (io_data_cleanup d ioh) (queuesWF_cleanup hwf ioh)
            (by rw [hq1]; rw [hq] at hlen; simpa using hlen)
            (by rw [find_cleanup_other d ioh i hne]; exact hfindi)
            (by rw [hq1]; exact hit),
            c3 e he, hown _ ioh hne, (same_io_data_cleanup d ioh).2.2.1]
          rfl
      · rename_i hnone
        rw [hnone] at hlive
        cases hlive

/-! ## `soup_io_dispatcher_set_socket` as a whole -/

theorem find_io_data_of_qi {d d' : SoupIODispatcher}
    (h : queues_and_items d' = queues_and_items d) (i : Nat) :
    find_io_data d' i = find_io_data d i := by
  unfold find_io_data
  rw [(get_queue_of_qi h .read).2]

theorem queuesWF_of_qi {d d' : SoupIODispatcher}
    (h : queues_and_items d' = queues_and_items d) (hwf : QueuesWF d) : QueuesWF d' := by
  refine ⟨fun q => ?_, fun q id hid => ?_⟩
  · rw [(get_queue_of_qi h q).1]
    exact hwf.1 q
  · rw [(get_queue_of_qi h q).1] at hid
    rw [find_io_data_of_qi h]
    exact hwf.2 q id hid

theorem set_socket_unbind_qi (d : SoupIODispatcher) (socket : Option Nat) :
    queues_and_items { set_socket_unbind d with socket := socket } = queues_and_items d ∧
    ({ set_socket_unbind d with socket := socket } : SoupIODispatcher).trace = d.trace ∧
    ({ set_socket_unbind d with socket := socket } : SoupIODispatcher).socket = socket := by
  unfold set_socket_unbind
  split
  · exact ⟨(qi_stop_idle_timer d).1, (qi_stop_idle_timer d).2, rfl⟩
  · exact ⟨rfl, rfl, rfl⟩

theorem set_socket_bind_qi (d : SoupIODispatcher) :
    queues_and_items (set_socket_bind d) = queues_and_items d ∧
    ∀ e : Event, e.is_notify = false → (set_socket_bind d).trace.count e = d.trace.count e := by
  unfold set_socket_bind
  split
  · refine ⟨(qi_start_idle_timer d).1, fun e he => ?_⟩
    rw [count_emit, (qi_start_idle_timer d).2]
    have : Event.notify DispProp.SOCKET ≠ e := by
      intro h; rw [← h] at he; simp [Event.is_notify] at he
    simp [this]
  · refine ⟨rfl, fun e he => ?_⟩
    rw [count_emit]
    have : Event.notify DispProp.SOCKET ≠ e := by
      intro h; rw [← h] at he; simp [Event.is_notify] at he
    simp [this]

/-- The drain loops on a dispatcher with well-formed queues: both active queues end up
empty, every item that was linked in one of them is freed, and an event owned by such an item
occurs as often more as the item's own cleanup produces it. -/
theorem set_socket_drain_spec (d : SoupIODispatcher) (socket : Option Nat) (hwf : QueuesWF d) :
    get_queue (set_socket_drain d socket) .read = [] ∧
    get_queue (set_socket_drain d socket) .write = [] ∧
    (socket = none → get_queue (set_socket_drain d socket) .paused = []) ∧
    QueuesWF (set_socket_drain d socket) ∧
    (∀ x ∈ (set_socket_drain d socket).items, x ∈ d.items ∧
      x.id ∉ get_queue d .read ∧ x.id ∉ get_queue d .write ∧
      (socket = none → x.id ∉ get_queue d .paused)) ∧
    (∀ i, i ∈ get_queue (set_socket_drain d socket) .paused → i ∈ get_queue d .paused) ∧
    ∀ (e : Event) (i : Nat) (io : SoupMessageIOData), e.is_notify = false →
      (∀ s (io : SoupMessageIOData), io.id ≠ i → (cleanup_events s io).count e = 0) →
      find_io_data d i = some io →
      (set_socket_drain d socket).trace.count e = d.trace.count e +
        if i ∈ get_queue d .read ∨ i ∈ get_queue d .write ∨
            (socket = none ∧ i ∈ get_queue d .paused)
          then (cleanup_events d.socket io).count e else 0 := by
  obtain ⟨a1, a2, a3, a4, a5⟩ := drain_queue_spec .read d.read_io_queue.length d hwf
    (Nat.le_refl _)
  obtain ⟨b1, b2, b3, b4, b5⟩ := drain_queue_spec .write
    (drain_queue .read d.read_io_queue.length d).write_io_queue.length
    (drain_queue .read d.read_io_queue.length d) a2 (Nat.le_refl _)
  obtain ⟨c1, c2, c3, c4, c5⟩ := drain_queue_spec .paused
    (drain_queue .write (drain_queue .read d.read_io_queue.length d).write_io_queue.length
      (drain_queue .read d.read_io_queue.length d)).paused_io_queue.length
    (drain_queue .write (drain_queue .read d.read_io_queue.length d).write_io_queue.length
      (drain_queue .read d.read_io_queue.length d)) b2 (Nat.le_refl _)
  have hs1 := (same_drain_queue .read d.read_io_queue.length d).2.2.1
  have hs2 := (same_drain_queue .write
    (drain_queue .read d.read_io_queue.length d).write_io_queue.length
    (drain_queue .read d.read_io_queue.length d)).2.2.1
  have hcount2 : ∀ (e : Event) (i : Nat) (io : SoupMessageIOData), e.is_notify = false →
      (∀ s (io : SoupMessageIOData), io.id ≠ i → (cleanup_events s io).count e = 0) →
      find_io_data d i = some io →
      (drain_queue .write (drain_queue .read d.read_io_queue.length d).write_io_queue.length
        (drain_queue .read d.read_io_queue.length d)).trace.count e = d.trace.count e +
        if i ∈ get_queue d .read ∨ i ∈ get_queue d .write
          then (cleanup_events d.socket io).count e else 0 := by
    intro e i io he hown hfind
    by_cases hr : i ∈ get_queue d .read
    · rw [drain_count_other .write e i he hown _ _ (by rw [a3]; exact fun hh => hh.2 hr),
        drain_count_live .read e i he hown io d.read_io_queue.length d hwf (Nat.le_refl _) hfind hr]
      simp [hr]
    · by_cases hw : i ∈ get_queue d .write
      · rw [drain_count_live .write e i he hown io
          (drain_queue .read d.read_io_queue.length d).write_io_queue.length _ a2 (Nat.le_refl _)
          (by rw [a5 i hr]; exact hfind) (by rw [a3]; exact ⟨hw, hr⟩),
          drain_count_other .read e i he hown _ d hr, hs1]
        simp [hw]
      · rw [drain_count_other .write e i he hown _ _ (by rw [a3]; exact fun hh => hw hh.1),
          drain_count_other .read e i he hown _ d hr]
        simp [hr, hw]
  unfold set_socket_drain
  simp only []
  split
  · rename_i hnone
    have hsn : socket = none := by cases socket <;> simp_all
    refine ⟨?_, ?_, fun _ => c1, c2, fun x hx => ?_, fun i hi => ?_, ?_⟩
    · rw [List.eq_nil_iff_forall_not_mem]
      intro i hi
      have := ((c3 .read i).mp hi).1
      have := ((b3 .read i).mp this).1
      rw [a1] at this
      cases this
    · rw [List.eq_nil_iff_forall_not_mem]
      intro i hi
      have := ((c3 .write i).mp hi).1
      rw [b1] at this
      cases this
    · obtain ⟨hx2, hp⟩ := (c4 x).mp hx
      obtain ⟨hx1, hw⟩ := (b4 x).mp hx2
      obtain ⟨hx0, hr⟩ := (a4 x).mp hx1
      refine ⟨hx0, hr, fun hh => hw ((a3 .write x.id).mpr ⟨hh, hr⟩), fun _ hh => ?_⟩
      by_cases hw0 : x.id ∈ get_queue d .write
      · exact hw ((a3 .write x.id).mpr ⟨hw0, hr⟩)
      · exact hp ((b3 .paused x.id).mpr ⟨(a3 .paused x.id).mpr ⟨hh, hr⟩,
          fun h2 => hw0 ((a3 .write x.id).mp h2).1⟩)
    · have := ((c3 .paused i).mp hi).1
      have := ((b3 .paused i).mp this).1
      exact ((a3 .paused i).mp this).1
    · intro e i io he hown hfind
      by_cases hrw : i ∈ get_queue d .read ∨ i ∈ get_queue d .write
      · have hnp : i ∉ get_queue (drain_queue .write
            (drain_queue .read d.read_io_queue.length d).write_io_queue.length
            (drain_queue .read d.read_io_queue.length d)) .paused := by
          intro hh
          obtain ⟨h1, h2⟩ := (b3 .paused i).mp hh
          obtain ⟨_, h3⟩ := (a3 .paused i).mp h1
          rcases hrw with hr | hw
          · exact h3 hr
          · exact h2 ((a3 .write i).mpr ⟨hw, h3⟩)
        rw [drain_count_other .paused e i he hown _ _ hnp, hcount2 e i io he hown hfind]
        rcases hrw with hr | hw
        · simp [hr]
        · simp [hw]
      · have hr : i ∉ get_queue d .read := fun hh => hrw (Or.inl hh)
        have hw : i ∉ get_queue d .write := fun hh => hrw (Or.inr hh)
        have hw1 : i ∉ get_queue (drain_queue .read d.read_io_queue.length d) .write :=
          fun hh => hw ((a3 .write i).mp hh).1
        by_cases hp : i ∈ get_queue d .paused
        · rw [drain_count_live .paused e i he hown io
            (drain_queue .write (drain_queue .read d.read_io_queue.length d).write_io_queue.length
              (drain_queue .read d.read_io_queue.length d)).paused_io_queue.length _ b2
            (Nat.le_refl _)
            (by rw [b5 i hw1, a5 i hr]; exact hfind)
            ((b3 .paused i).mpr ⟨(a3 .paused i).mpr ⟨hp, hr⟩, hw1⟩),
            hcount2 e i io he hown hfind, hs2, hs1]
          simp [hr, hw, hp, hsn]
        · have hnp : i ∉ get_queue (drain_queue .write
              (drain_queue .read d.read_io_queue.length d).write_io_queue.length
              (drain_queue .read d.read_io_queue.length d)) .paused :=
            fun hh => hp ((a3 .paused i).mp ((b3 .paused i).mp hh).1).1
          rw [drain_count_other .paused e i he hown _ _ hnp, hcount2 e i io he hown hfind]
          simp [hr, hw, hp]
  · rename_i hsome
    have hsn : socket ≠ none := by cases socket <;> simp_all
    refine ⟨?_, b1, fun hh => absurd hh hsn, b2, fun x hx => ?_, fun i hi => ?_, ?_⟩
    · rw [List.eq_nil_iff_forall_not_mem]
      intro i hi
      have := ((b3 .read i).mp hi).1
      rw [a1] at this
      cases this
    · obtain ⟨hx1, hw⟩ := (b4 x).mp hx
      obtain ⟨hx0, hr⟩ := (a4 x).mp hx1
      exact ⟨hx0, hr, fun hh => hw ((a3 .write x.id).mpr ⟨hh, hr⟩), fun hh => absurd hh hsn⟩
    · have := ((b3 .paused i).mp hi).1
      exact ((a3 .paused i).mp this).1
    · intro e i io he hown hfind
      rw [hcount2 e i io he hown hfind]
      simp [hsn]

/-! ## Item-level I/O: the primitives and `soup_io_dispatcher_write_data` -/

theorem wire_append (a b : List Event) : wire (a ++ b) = wire a ++ wire b := by
  induction a with
  | nil => rfl
  | cons e rest ih =>
    cases e <;> simp [wire, ih]

theorem wire_signal (a : List Event) (m : Nat) (sig : MsgSignal) :
    wire (a ++ [Event.msg_signal m sig]) = wire a := by
  rw [wire_append]
  simp [wire]

theorem wire_wrote (a : List Event) (data : List Byte) :
    wire (a ++ [Event.socket_wrote data]) = wire a ++ data := by
  rw [wire_append]
  simp [wire]

theorem soup_socket_write_ok (env : Env) (data : List Byte) (hne : data ≠ [])
    (h : (soup_socket_write env data).status = .OK) :
    ∃ k, 1 ≤ k ∧ k ≤ data.length ∧ (soup_socket_write env data).data = data.take k := by
  have hlen : 1 ≤ data.length := by
    cases data with
    | nil => exact absurd rfl hne
    | cons _ _ => simp
  unfold soup_socket_write at h ⊢
  split at h
  · exact ⟨data.length, hlen, Nat.le_refl _, by simp⟩
  · rename_i n rest _
    refine ⟨min (max n 1) data.length, ?_, Nat.min_le_right _ _, ?_⟩
    · exact Nat.le_min.mpr ⟨Nat.le_max_right _ _, hlen⟩
    · simp only []
      rw [List.take_eq_take]
      simp
  · cases h
  · cases h
  · cases h

theorem emit_signal_inl {ctx ctx' : IOCtx} {sig : MsgSignal}
    (h : emit_signal ctx sig = .inl ctx') :
    ctx'.io = ctx.io ∧ ctx'.events = ctx.events ++ [Event.msg_signal ctx.io.msg.id sig] := by
  unfold emit_signal return_if_cancelled_or_paused signal run_callback at h
  cases hcb : ctx.env.callbacks with
  | nil =>
    rw [hcb] at h
    simp only [Sum.inl.injEq] at h
    subst h
    exact ⟨rfl, rfl⟩
  | cons o rest =>
    rw [hcb] at h
    cases o <;> simp only [Sum.inl.injEq, reduceCtorEq] at h
    subst h
    exact ⟨rfl, rfl⟩

theorem emit_signal_inr {ctx : IOCtx} {r : IOResult} {sig : MsgSignal}
    (h : emit_signal ctx sig = .inr r) :
    r.ret = false ∧ r.control ≠ .none ∧ r.ctx.io = ctx.io ∧
    r.ctx.events = ctx.events ++ [Event.msg_signal ctx.io.msg.id sig] := by
  unfold emit_signal return_if_cancelled_or_paused signal run_callback at h
  cases hcb : ctx.env.callbacks with
  | nil =>
    rw [hcb] at h
    simp only [reduceCtorEq] at h
  | cons o rest =>
    rw [hcb] at h
    cases o <;> simp only [Sum.inr.injEq, reduceCtorEq] at h
    · subst h
      exact ⟨rfl, by simp, rfl, rfl⟩
    · subst h
      exact ⟨rfl, by simp, rfl, rfl⟩

theorem write_data_account_spec (ctx : IOCtx) (n : Nat) :
    (write_data_account ctx n).io.written = ctx.io.written ∧
    (write_data_account ctx n).events = ctx.events ∧
    (write_data_account ctx n).io.msg = ctx.io.msg ∧
    (write_data_account ctx n).io.io_error = ctx.io.io_error ∧
    (write_data_account ctx n).io.write_blocked = ctx.io.write_blocked := by
  unfold write_data_account
  split <;> exact ⟨rfl, rfl, rfl, rfl, rfl⟩

theorem write_data_ok_inl {body : Bool} {ctx ctx' : IOCtx} {accepted : List Byte}
    (h : write_data_ok body ctx accepted = .inl ctx') :
    ctx'.io.written = ctx.io.written + accepted.length ∧
    wire ctx'.events = wire ctx.events ++ accepted ∧
    ctx'.io.io_error = ctx.io.io_error ∧ ctx'.io.write_blocked = ctx.io.write_blocked := by
  unfold write_data_ok at h
  simp only [] at h
  split at h
  · obtain ⟨h1, h2⟩ := emit_signal_inl h
    rw [h1, h2, wire_signal, (write_data_account_spec _ _).1, (write_data_account_spec _ _).2.1,
      (write_data_account_spec _ _).2.2.2.1, (write_data_account_spec _ _).2.2.2.2, wire_wrote]
    exact ⟨rfl, rfl, rfl, rfl⟩
  · simp only [Sum.inl.injEq] at h
    subst h
    exact ⟨rfl, wire_wrote _ _, rfl, rfl⟩

theorem write_data_ok_inr {body : Bool} {ctx : IOCtx} {r : IOResult} {accepted : List Byte}
    (h : write_data_ok body ctx accepted = .inr r) :
    r.ret = false ∧ r.control ≠ .none ∧ body = true ∧
    r.ctx.io.written = ctx.io.written + accepted.length ∧
    wire r.ctx.events = wire ctx.events ++ accepted ∧
    r.ctx.io.io_error = ctx.io.io_error ∧ r.ctx.io.write_blocked = ctx.io.write_blocked := by
  unfold write_data_ok at h
  simp only [] at h
  split at h
  · rename_i hb
    obtain ⟨h0, hc, h1, h2⟩ := emit_signal_inr h
    rw [h1, h2, wire_signal, (write_data_account_spec _ _).1, (write_data_account_spec _ _).2.1,
      (write_data_account_spec _ _).2.2.2.1, (write_data_account_spec _ _).2.2.2.2, wire_wrote]
    exact ⟨h0, hc, hb, rfl, rfl, rfl, rfl⟩
  · simp only [reduceCtorEq] at h

theorem fail_spec (ctx : IOCtx) (error : Option GErrorKind) :
    (ctx.fail error).ret = false ∧ (ctx.fail error).control = .none ∧
    (ctx.fail error).ctx.io.io_error = true ∧ (ctx.fail error).ctx.events = ctx.events ∧
    (ctx.fail error).ctx.io.written = ctx.io.written ∧
    (ctx.fail error).ctx.io.error = (if error.isSome then error else ctx.io.error) ∧
    (ctx.fail error).ctx.env = ctx.env := by
  unfold IOCtx.fail IOCtx.returns
  simp only []
  split <;> simp_all

/-- What one round of the loop of `soup_io_dispatcher_write_data` does: `k` further bytes of
`data`, from the offset `written` on, are on the wire. -/
theorem write_data_step_spec (data : List Byte) (body : Bool) (ctx : IOCtx)
    (h : ctx.io.written ≤ data.length) :
    (∀ ctx', write_data_step data body ctx = .inl ctx' →
      ∃ k, 1 ≤ k ∧ ctx.io.written + k ≤ data.length ∧
        ctx'.io.written = ctx.io.written + k ∧
        wire ctx'.events = wire ctx.events ++ (data.drop ctx.io.written).take k) ∧
    (∀ r, write_data_step data body ctx = .inr r →
      ∃ k, ctx.io.written + k ≤ data.length ∧
        wire r.ctx.events = wire ctx.events ++ (data.drop ctx.io.written).take k ∧
        (r.ret = true → ctx.io.written + k = data.length ∧ r.ctx.io.written = 0) ∧
        (r.ret = false → r.ctx.io.written = ctx.io.written + k)) := by
  unfold write_data_step
  by_cases hlt : data.length > ctx.io.written
  · simp only [hlt, if_true]
    have hne : data.drop ctx.io.written ≠ [] := by
      intro hnil
      have := congrArg List.length hnil
      simp at this
      omega
    cases hst : (soup_socket_write ctx.env (data.drop ctx.io.written)).status with
    | EOF =>
      simp only [reduceCtorEq, false_implies, implies_true, true_and, Sum.inr.injEq]
      intro r hr
      subst hr
      obtain ⟨f1, _, _, f4, f5, _⟩ := fail_spec
        { ctx with env := (soup_socket_write ctx.env (data.drop ctx.io.written)).env }
        (soup_socket_write ctx.env (data.drop ctx.io.written)).error
      refine ⟨0, by omega, ?_, ?_, ?_⟩
      · rw [f4]; simp
      · intro ht; rw [f1] at ht; cases ht
      · intro _; rw [f5]; rfl
    | ERROR =>
      simp only [reduceCtorEq, false_implies, implies_true, true_and, Sum.inr.injEq]
      intro r hr
      subst hr
      obtain ⟨f1, _, _, f4, f5, _⟩ := fail_spec
        { ctx with env := (soup_socket_write ctx.env (data.drop ctx.io.written)).env }
        (soup_socket_write ctx.env (data.drop ctx.io.written)).error
      refine ⟨0, by omega, ?_, ?_, ?_⟩
      · rw [f4]; simp
      · intro ht; rw [f1] at ht; cases ht
      · intro _; rw [f5]; rfl
    | WOULD_BLOCK =>
      simp only [reduceCtorEq, false_implies, implies_true, true_and, Sum.inr.injEq]
      intro r hr
      subst hr
      exact ⟨0, (by omega), (by simp [write_data_would_block, IOCtx.returns]),
        (by simp [write_data_would_block, IOCtx.returns]),
        (by simp [write_data_would_block, IOCtx.returns])⟩
    | OK =>
      simp only []
      obtain ⟨k, hk1, hk2, hk3⟩ := soup_socket_write_ok ctx.env _ hne hst
      have hk2' : ctx.io.written + k ≤ data.length := by
        simp at hk2
        omega
      have hlenk : (soup_socket_write ctx.env (data.drop ctx.io.written)).data.length = k := by
        rw [hk3, List.length_take]
        simp at hk2 ⊢
        omega
      refine ⟨fun ctx' hc => ?_, fun r hr => ?_⟩
      · obtain ⟨h1, h2, _⟩ := write_data_ok_inl hc
        exact ⟨k, hk1, hk2', (by rw [h1, hlenk]), (by rw [h2, hk3])⟩
      · obtain ⟨h0, _, _, h1, h2, _⟩ := write_data_ok_inr hr
        refine ⟨k, hk2', (by rw [h2, hk3]), ?_, ?_⟩
        · intro ht; rw [h0] at ht; cases ht
        · intro _; rw [h1, hlenk]
  · have heq : ctx.io.written = data.length := by omega
    simp only [hlt, if_false, reduceCtorEq, false_implies, implies_true, true_and, Sum.inr.injEq]
    intro r hr
    subst hr
    exact ⟨0, (by omega), (by simp [write_data_done, IOCtx.returns]),
      (by simp [write_data_done, IOCtx.returns, heq]),
      (by simp [write_data_done, IOCtx.returns])⟩

/-- The loop of `soup_io_dispatcher_write_data` returns within `len - written + 1` rounds,
and what it has put on the wire by then is a segment of `data` that starts at the offset it
was entered with. -/
theorem write_data_loop_spec (data : List Byte) (body : Bool) :
    ∀ (n : Nat) (ctx : IOCtx), ctx.io.written ≤ data.length →
      data.length - ctx.io.written + 1 ≤ n →
      ∃ r, iterate (fun s => some (write_data_step data body s)) n ctx = some r ∧
        ∃ k, ctx.io.written + k ≤ data.length ∧
          wire r.ctx.events = wire ctx.events ++ (data.drop ctx.io.written).take k ∧
          (r.ret = true → ctx.io.written + k = data.length ∧ r.ctx.io.written = 0) ∧
          (r.ret = false → r.ctx.io.written = ctx.io.written + k) := by
  intro n
  induction n with
  | zero => intro ctx _ h; omega
  | succ n ih =>
    intro ctx hw hn
    obtain ⟨hs1, hs2⟩ := write_data_step_spec data body ctx hw
    unfold iterate
    cases hstep : write_data_step data body ctx with
    | inl ctx' =>
      simp only []
      obtain ⟨k1, hk1, hk1', hw1, hwire1⟩ := hs1 ctx' hstep
      obtain ⟨r, hr, k2, hk2, hwire2, ht, hf⟩ := ih ctx' (by omega) (by omega)
      refine ⟨r, hr, k1 + k2, by omega, ?_, ?_, ?_⟩
      · rw [hwire2, hwire1, hw1, List.append_assoc, List.take_add, List.drop_drop]
      · intro h
        obtain ⟨h1, h2⟩ := ht h
        exact ⟨by omega, h2⟩
      · intro h
        rw [hf h]
        omega
    | inr r =>
      simp only []
      obtain ⟨k, hk, hwire, ht, hf⟩ := hs2 r hstep
      exact ⟨r, rfl, k, hk, hwire, ht, hf⟩


theorem iterate_of_inr {σ ρ : Type} {step : σ → Option (σ ⊕ ρ)} {s : σ} {r : ρ} (n : Nat)
    (h : step s = some (.inr r)) : iterate step (n + 1) s = some r := by
  unfold iterate
  rw [h]

theorem iterate_of_inl {σ ρ : Type} {step : σ → Option (σ ⊕ ρ)} {s s' : σ} (n : Nat)
    (h : step s = some (.inl s')) : iterate step (n + 1) s = iterate step n s' := by
  conv => lhs; unfold iterate
  rw [h]


/-! ## Item-level I/O: the reading side -/

theorem bool_false_ne_true {b : Bool} (h : b = false) (h' : b = true) : False := by
  rw [h] at h'
  cases h'

theorem sniffFrame_refl (ctx : IOCtx) : SniffFrame ctx ctx := ⟨rfl, rfl, rfl⟩

theorem sniffFrame_trans {a b c : IOCtx} (h1 : SniffFrame a b) (h2 : SniffFrame b c) :
    SniffFrame a c := by
  obtain ⟨i1, e1, w1⟩ := h1
  obtain ⟨i2, e2, w2⟩ := h2
  refine ⟨?_, ?_, w2.trans w1⟩
  · rw [i1] at i2
    exact i2
  · rw [e1] at e2
    exact e2

theorem emit_signal_frame {ctx : IOCtx} {sig : MsgSignal} :
    (∀ ctx', emit_signal ctx sig = .inl ctx' → SniffFrame ctx ctx') ∧
    (∀ r, emit_signal ctx sig = .inr r →
      SniffFrame ctx r.ctx ∧ r.ret = false ∧ r.control ≠ .none) := by
  unfold emit_signal return_if_cancelled_or_paused signal run_callback
  cases hcb : ctx.env.callbacks with
  | nil =>
    simp only [Sum.inl.injEq, reduceCtorEq, false_implies, implies_true, and_true]
    intro ctx' h
    subst h
    exact ⟨rfl, rfl, wire_signal _ _ _⟩
  | cons o rest =>
    cases o
    · simp only [Sum.inl.injEq, reduceCtorEq, false_implies, implies_true, and_true]
      intro ctx' h
      subst h
      exact ⟨rfl, rfl, wire_signal _ _ _⟩
    · simp only [Sum.inr.injEq, reduceCtorEq, false_implies, implies_true, true_and]
      intro ctx' h
      subst h
      exact ⟨⟨rfl, rfl, wire_signal _ _ _⟩, rfl, by simp⟩
    · simp only [Sum.inr.injEq, reduceCtorEq, false_implies, implies_true, true_and]
      intro ctx' h
      subst h
      exact ⟨⟨rfl, rfl, wire_signal _ _ _⟩, rfl, by simp⟩

theorem sniff_alloc_frame (ctx : IOCtx) : SniffFrame ctx (sniff_alloc ctx) := by
  unfold sniff_alloc
  split
  · exact ⟨rfl, rfl, rfl⟩
  · exact sniffFrame_refl ctx

theorem sniff_content_frame (ctx : IOCtx) (done_reading : Bool) :
    (∀ ctx', sniff_content ctx done_reading = .inl ctx' → SniffFrame ctx ctx') ∧
    (∀ r, sniff_content ctx done_reading = .inr r →
      SniffFrame ctx r.ctx ∧ (r.ret = true → r.control = .none) ∧
      (r.ret = false → r.control ≠ .none)) := by
  unfold sniff_content
  split
  · split
    · simp only [reduceCtorEq, false_implies, implies_true, Sum.inr.injEq, true_and]
      intro r h
      subst h
      exact ⟨sniffFrame_refl ctx, fun _ => rfl, fun h => by cases h⟩
    · have hc : SniffFrame ctx (sniff_content_clear ctx) := ⟨rfl, rfl, rfl⟩
      refine ⟨fun ctx' h => sniffFrame_trans hc (emit_signal_frame.1 ctx' h), fun r h => ?_⟩
      obtain ⟨f, hr, hctl⟩ := emit_signal_frame.2 r h
      exact ⟨sniffFrame_trans hc f, fun ht => (bool_false_ne_true hr ht).elim, fun _ => hctl⟩
  · simp only [Sum.inl.injEq, reduceCtorEq, false_implies, implies_true, and_true]
    intro ctx' h
    subst h
    exact sniffFrame_refl ctx

theorem sniff_got_chunk_frame (ctx : IOCtx) :
    SniffFrame ctx (sniff_got_chunk ctx).ctx ∧
    ((sniff_got_chunk ctx).ret = true → (sniff_got_chunk ctx).control = .none) ∧
    ((sniff_got_chunk ctx).ret = false → (sniff_got_chunk ctx).control ≠ .none) := by
  unfold sniff_got_chunk
  split
  · have hc : SniffFrame ctx (sniff_got_chunk_clear ctx) := ⟨rfl, rfl, rfl⟩
    split
    · rename_i r h
      obtain ⟨f, hr, hctl⟩ := emit_signal_frame.2 r h
      exact ⟨sniffFrame_trans hc f, fun ht => (bool_false_ne_true hr ht).elim, fun _ => hctl⟩
    · rename_i ctx' h
      exact ⟨sniffFrame_trans hc (emit_signal_frame.1 ctx' h), fun _ => rfl,
        fun h => by cases h⟩
  · exact ⟨sniffFrame_refl ctx, fun _ => rfl, fun h => by cases h⟩

/-- What `io_handle_sniffing` can change: the sniffing fields of the item, the script of the
handlers and the events, to which it adds signals only; it returns FALSE only when a handler
has paused or cancelled the message. -/
theorem io_handle_sniffing_spec (ctx : IOCtx) (done_reading : Bool) :
    SniffFrame ctx (io_handle_sniffing ctx done_reading).ctx ∧
    ((io_handle_sniffing ctx done_reading).ret = true →
      (io_handle_sniffing ctx done_reading).control = .none) ∧
    ((io_handle_sniffing ctx done_reading).ret = false →
      (io_handle_sniffing ctx done_reading).control ≠ .none) := by
  unfold io_handle_sniffing
  split
  · exact ⟨sniffFrame_refl ctx, fun _ => rfl, fun h => by cases h⟩
  · have ha := sniff_alloc_frame ctx
    split
    · rename_i r h
      obtain ⟨f, h1, h2⟩ := (sniff_content_frame _ _).2 r h
      exact ⟨sniffFrame_trans ha f, h1, h2⟩
    · rename_i ctx' h
      have f := (sniff_content_frame _ _).1 ctx' h
      obtain ⟨g, h1, h2⟩ := sniff_got_chunk_frame ctx'
      exact ⟨sniffFrame_trans ha (sniffFrame_trans f g), h1, h2⟩

theorem bytes_of_unread (bytes : List Byte) (rest : List NetEvent) :
    bytes_of (unread bytes rest) = bytes ++ bytes_of rest := by
  unfold unread
  split
  · rename_i h
    have : bytes = [] := by simpa using h
    simp [this]
  · rfl

/-- `soup_socket_read` hands out a prefix of the bytes that the script holds, of at most
`len` bytes, and nothing unless the status is `OK`; it touches the receiving script only. -/
theorem soup_socket_read_spec (env : Env) (len : Nat) :
    bytes_of env.incoming =
      (soup_socket_read env len).data ++ bytes_of (soup_socket_read env len).env.incoming ∧
    (soup_socket_read env len).data.length ≤ len ∧
    ((soup_socket_read env len).status ≠ .OK → (soup_socket_read env len).data = []) ∧
    (soup_socket_read env len).env =
      { env with incoming := (soup_socket_read env len).env.incoming } := by
  unfold soup_socket_read
  split
  · rename_i h
    exact ⟨by simp [h, bytes_of], by simp, fun _ => rfl, rfl⟩
  · rename_i bytes rest h
    refine ⟨?_, by simp, fun h => by simp at h, rfl⟩
    simp only [h, bytes_of, bytes_of_unread]
    rw [← List.append_assoc, List.take_append_drop]
  · rename_i rest h
    exact ⟨by simp [h, bytes_of], by simp, fun _ => rfl, rfl⟩
  · rename_i rest h
    exact ⟨by simp [h, bytes_of], by simp, fun _ => rfl, rfl⟩
  · rename_i e rest h
    exact ⟨by simp [h, bytes_of], by simp, fun _ => rfl, rfl⟩

theorem bodyFrame_of_sniffFrame {a b : IOCtx} (h : SniffFrame a b) : BodyFrame a b := by
  obtain ⟨hi, he, _⟩ := h
  refine ⟨?_, ?_, ?_, ?_, ?_⟩
  · rw [hi]
  · rw [hi]
  · rw [hi]
  · rw [hi]
  · rw [he]

theorem bodyFrame_trans {a b c : IOCtx} (h1 : BodyFrame a b) (h2 : BodyFrame b c) :
    BodyFrame a c :=
  ⟨h2.1.trans h1.1, h2.2.1.trans h1.2.1, h2.2.2.1.trans h1.2.2.1, h2.2.2.2.1.trans h1.2.2.2.1,
    h2.2.2.2.2.trans h1.2.2.2.2⟩

theorem or_return_inl_frame {r : IOResult} {ctx' : IOCtx}
    (h : or_return r .inl = .inl ctx') : r.ret = true ∧ ctx' = r.ctx := by
  unfold or_return at h
  split at h
  · rename_i hr
    simp only [Sum.inl.injEq] at h
    exact ⟨hr, h.symm⟩
  · simp only [reduceCtorEq] at h

theorem or_return_inr_frame {r r' : IOResult}
    (h : or_return r .inl = .inr r') : r.ret = false ∧ r' = r := by
  unfold or_return at h
  split at h
  · simp only [reduceCtorEq] at h
  · rename_i hr
    simp only [Sum.inr.injEq] at h
    exact ⟨by simpa using hr, h.symm⟩

theorem read_body_chunk_deliver_frame (ctx : IOCtx) (buffer : List Byte) :
    (∀ ctx', read_body_chunk_deliver ctx buffer = .inl ctx' → BodyFrame ctx ctx') ∧
    (∀ r, read_body_chunk_deliver ctx buffer = .inr r →
      BodyFrame ctx r.ctx ∧ r.ret = false ∧ r.control ≠ .none) := by
  have hg : BodyFrame ctx (read_body_got_chunk ctx buffer) := ⟨rfl, rfl, rfl, rfl, rfl⟩
  have hs : BodyFrame ctx (sniff_append (read_body_got_chunk ctx buffer) buffer) :=
    ⟨rfl, rfl, rfl, rfl, rfl⟩
  unfold read_body_chunk_deliver
  split
  · obtain ⟨f, _, h2⟩ := io_handle_sniffing_spec
      (sniff_append (read_body_got_chunk ctx buffer) buffer) false
    refine ⟨fun ctx' h => ?_, fun r h => ?_⟩
    · obtain ⟨_, hc⟩ := or_return_inl_frame h
      rw [hc]
      exact bodyFrame_trans hs (bodyFrame_of_sniffFrame f)
    · obtain ⟨hr, hc⟩ := or_return_inr_frame h
      rw [hc]
      exact ⟨bodyFrame_trans hs (bodyFrame_of_sniffFrame f), hr, h2 hr⟩
  · refine ⟨fun ctx' h => ?_, fun r h => ?_⟩
    · exact bodyFrame_trans hg (bodyFrame_of_sniffFrame (emit_signal_frame.1 ctx' h))
    · obtain ⟨f, hr, hc⟩ := emit_signal_frame.2 r h
      exact ⟨bodyFrame_trans hg (bodyFrame_of_sniffFrame f), hr, hc⟩

theorem read_body_chunk_got_data_frame (ctx : IOCtx) (data : List Byte) :
    (∀ ctx', read_body_chunk_got_data ctx data = .inl ctx' →
      BodyFrame (read_body_chunk_account ctx data.length) ctx') ∧
    (∀ r, read_body_chunk_got_data ctx data = .inr r →
      BodyFrame (read_body_chunk_account ctx data.length) r.ctx ∧ r.ret = false ∧
      r.control ≠ .none) := by
  unfold read_body_chunk_got_data
  split
  · simp only [Sum.inl.injEq, reduceCtorEq, false_implies, implies_true, and_true]
    intro ctx' h
    subst h
    exact ⟨rfl, rfl, rfl, rfl, rfl⟩
  · exact read_body_chunk_deliver_frame _ _

theorem allocate_buffer_frame (response_block_size : Nat) (ctx : IOCtx) :
    (allocate_buffer response_block_size ctx).2.io = ctx.io ∧
    (allocate_buffer response_block_size ctx).2.env.incoming = ctx.env.incoming ∧
    (allocate_buffer response_block_size ctx).2.events = ctx.events := by
  unfold allocate_buffer
  split
  · split <;> exact ⟨rfl, rfl, rfl⟩
  · exact ⟨rfl, rfl, rfl⟩

theorem read_body_chunk_len_le (ctx : IOCtx) (buffer_length : Nat)
    (henc : ctx.io.read_encoding ≠ .EOF) :
    read_body_chunk_len ctx buffer_length ≤ ctx.io.read_length.toNat := by
  unfold read_body_chunk_len
  have : (ctx.io.read_encoding == SoupEncoding.EOF) = false := by simpa using henc
  simp only [this, Bool.false_eq_true, if_false]
  exact Nat.min_le_right _ _

/-- One round of the loop of `soup_io_dispatcher_read_body_chunk` for an encoding other
than `EOF`: the bytes taken from the socket are counted off `read_length`, which stays
non-negative; only the end-of-file that is permitted sets it to 0 without reading. -/
theorem read_body_chunk_step_spec (response_block_size : Nat) (ctx : IOCtx)
    (henc : ctx.io.read_encoding ≠ .EOF) (hlen : 0 ≤ ctx.io.read_length) :
    (∀ ctx', read_body_chunk_step response_block_size ctx = .inl ctx' →
      ∃ c, bytes_of ctx.env.incoming = c ++ bytes_of ctx'.env.incoming ∧
        ctx'.io.read_length = ctx.io.read_length - c.length ∧ 0 ≤ ctx'.io.read_length ∧
        ctx'.io.read_encoding = ctx.io.read_encoding ∧
        ctx'.io.read_eof_ok = ctx.io.read_eof_ok) ∧
    (∀ r, read_body_chunk_step response_block_size ctx = .inr r →
      ∃ c, bytes_of ctx.env.incoming = c ++ bytes_of r.ctx.env.incoming ∧
        ((r.ctx.io.read_length = ctx.io.read_length - c.length ∧ 0 ≤ r.ctx.io.read_length) ∨
          (r.ctx.io.read_length = 0 ∧ ctx.io.read_eof_ok = true ∧ c = []))) := by
  have hencb : (ctx.io.read_encoding == SoupEncoding.EOF) = false := by simpa using henc
  unfold read_body_chunk_step
  simp only [hencb, Bool.false_or, decide_eq_true_eq]
  split
  · rename_i hpos
    obtain ⟨a1, a2, _⟩ := allocate_buffer_frame response_block_size ctx
    split
    · rename_i ctx1 halloc
      simp only [reduceCtorEq, false_implies, implies_true, Sum.inr.injEq, true_and]
      intro r h
      subst h
      have h1 : ctx1 = (allocate_buffer response_block_size ctx).2 := by rw [halloc]
      refine ⟨[], ?_, Or.inl ⟨?_, ?_⟩⟩
      · rw [h1]; simp [IOCtx.pause, a2]
      · rw [h1]; simp [IOCtx.pause, a1]
      · rw [h1]; simp only [IOCtx.pause, a1]; exact hlen
    · rename_i n ctx1 halloc
      have h1 : ctx1 = (allocate_buffer response_block_size ctx).2 := by rw [halloc]
      have hio : ctx1.io = ctx.io := by rw [h1]; exact a1
      have hin : ctx1.env.incoming = ctx.env.incoming := by rw [h1]; exact a2
      obtain ⟨s1, s2, s3, s4⟩ := soup_socket_read_spec ctx1.env (read_body_chunk_len ctx1 n)
      have hle : ((soup_socket_read ctx1.env (read_body_chunk_len ctx1 n)).data.length : Int) ≤
          ctx.io.read_length := by
        have h2 := read_body_chunk_len_le ctx1 n (by rw [hio]; exact henc)
        rw [hio] at h2
        have h3 := Nat.le_trans s2 h2
        have h4 : ((ctx.io.read_length.toNat : Nat) : Int) = ctx.io.read_length :=
          Int.toNat_of_nonneg hlen
        omega
      unfold read_body_chunk_result
      split
      · obtain ⟨g1, g2⟩ := read_body_chunk_got_data_frame
          { ctx1 with env := (soup_socket_read ctx1.env (read_body_chunk_len ctx1 n)).env }
          (soup_socket_read ctx1.env (read_body_chunk_len ctx1 n)).data
        refine ⟨fun ctx' h => ?_, fun r h => ?_⟩
        · obtain ⟨f1, f2, f3, _, f5⟩ := g1 ctx' h
          refine ⟨(soup_socket_read ctx1.env (read_body_chunk_len ctx1 n)).data, ?_, ?_, ?_, ?_,
            ?_⟩
          · rw [f5, ← hin]; exact s1
          · rw [f1]; simp only [read_body_chunk_account, hio]
          · rw [f1]; simp only [read_body_chunk_account, hio]; omega
          · rw [f2]; simp only [read_body_chunk_account, hio]
          · rw [f3]; simp only [read_body_chunk_account, hio]
        · obtain ⟨⟨f1, f2, f3, _, f5⟩, _, _⟩ := g2 r h
          refine ⟨(soup_socket_read ctx1.env (read_body_chunk_len ctx1 n)).data, ?_,
            Or.inl ⟨?_, ?_⟩⟩
          · rw [f5, ← hin]; exact s1
          · rw [f1]; simp only [read_body_chunk_account, hio]
          · rw [f1]; simp only [read_body_chunk_account, hio]; omega
      · rename_i hnd
        have hdata : (soup_socket_read ctx1.env (read_body_chunk_len ctx1 n)).data = [] := by
          by_cases hst : (soup_socket_read ctx1.env (read_body_chunk_len ctx1 n)).status = .OK
          · simp only [hst, beq_self_eq_true, Bool.true_and, bne_iff_ne, ne_eq,
              Decidable.not_not] at hnd
            exact List.length_eq_zero.mp hnd
          · exact s3 hst
        have hbytes : bytes_of ctx.env.incoming = [] ++
            bytes_of (soup_socket_read ctx1.env (read_body_chunk_len ctx1 n)).env.incoming := by
          rw [← hin, s1, hdata]
        split
        · simp only [Sum.inl.injEq, reduceCtorEq, false_implies, implies_true, and_true]
          intro ctx' h
          subst h
          exact ⟨[], hbytes, by simp [hio], by simp [hio, hlen], by simp [hio], by simp [hio]⟩
        · simp only [reduceCtorEq, false_implies, implies_true, Sum.inr.injEq, true_and]
          intro r h
          subst h
          refine ⟨[], ?_, ?_⟩
          · unfold read_body_chunk_eof
            split
            · exact hbytes
            · rw [(fail_spec _ _).2.2.2.2.2.2]; exact hbytes
          · unfold read_body_chunk_eof
            split
            · rename_i hok
              right
              exact ⟨rfl, by rw [← hio]; exact hok, rfl⟩
            · left
              unfold IOCtx.fail IOCtx.returns
              simp only []
              split <;> simp [hio, hlen]
        · simp only [reduceCtorEq, false_implies, implies_true, Sum.inr.injEq, true_and]
          intro r h
          subst h
          refine ⟨[], ?_, Or.inl ?_⟩
          · rw [(fail_spec _ _).2.2.2.2.2.2]; exact hbytes
          · unfold IOCtx.fail IOCtx.returns
            simp only []
            split <;> simp [hio, hlen]
        · simp only [reduceCtorEq, false_implies, implies_true, Sum.inr.injEq, true_and]
          intro r h
          subst h
          exact ⟨[], hbytes, Or.inl ⟨by simp [read_would_block, IOCtx.returns, hio],
            by simp [read_would_block, IOCtx.returns, hio, hlen]⟩⟩
  · simp only [reduceCtorEq, false_implies, implies_true, Sum.inr.injEq, true_and]
    intro r h
    subst h
    exact ⟨[], rfl, Or.inl ⟨by simp [IOCtx.returns], hlen⟩⟩

theorem read_body_chunk_loop_spec (response_block_size : Nat) :
    ∀ (n : Nat) (ctx : IOCtx), ctx.io.read_encoding ≠ .EOF → 0 ≤ ctx.io.read_length →
      ∀ r, iterate (fun s => some (read_body_chunk_step response_block_size s)) n ctx = some r →
      ∃ c, bytes_of ctx.env.incoming = c ++ bytes_of r.ctx.env.incoming ∧
        (c.length : Int) ≤ ctx.io.read_length ∧ 0 ≤ r.ctx.io.read_length ∧
        (r.ctx.io.read_length = ctx.io.read_length - c.length ∨
          (r.ctx.io.read_length = 0 ∧ ctx.io.read_eof_ok = true)) := by
  intro n
  induction n with
  | zero =>
    intro ctx _ _ r h
    simp [iterate] at h
  | succ n ih =>
    intro ctx henc hlen r h
    obtain ⟨s1, s2⟩ := read_body_chunk_step_spec response_block_size ctx henc hlen
    unfold iterate at h
    cases hstep : read_body_chunk_step response_block_size ctx with
    | inl ctx' =>
      rw [hstep] at h
      simp only [] at h
      obtain ⟨c1, hb1, hl1, hpos1, he1, hok1⟩ := s1 ctx' hstep
      obtain ⟨c2, hb2, hl2, hpos2, hfin⟩ := ih ctx' (by rw [he1]; exact henc) hpos1 r h
      refine ⟨c1 ++ c2, ?_, ?_, hpos2, ?_⟩
      · rw [hb1, hb2, List.append_assoc]
      · rw [List.length_append]
        push_cast
        omega
      · rcases hfin with hf | ⟨hf, hok⟩
        · left
          rw [hf, hl1, List.length_append]
          push_cast
          omega
        · right
          exact ⟨hf, by rw [← hok1]; exact hok⟩
    | inr r' =>
      rw [hstep] at h
      simp only [Option.some.injEq] at h
      subst h
      obtain ⟨c, hb, hfin⟩ := s2 r' hstep
      rcases hfin with ⟨hf, hpos⟩ | ⟨hf, hok, hc⟩
      · exact ⟨c, hb, by omega, hpos, Or.inl hf⟩
      · subst hc
        exact ⟨[], hb, by simpa using hlen, by omega, Or.inr ⟨hf, hok⟩⟩


theorem read_body_chunk_at_eof (response_block_size : Nat) (ctx : IOCtx) (rest : List NetEvent)
    (hin : ctx.env.incoming = .eof :: rest) (hsn : ctx.io.msg.sniffer = false)
    (hal : ctx.io.msg.chunk_allocator = false)
    (hgo : ctx.io.read_encoding = .EOF ∨ 0 < ctx.io.read_length) :
    soup_io_dispatcher_read_body_chunk response_block_size ctx =
      some (read_body_chunk_eof ctx none) := by
  have hcond : (ctx.io.read_encoding == SoupEncoding.EOF || decide (ctx.io.read_length > 0)) =
      true := by
    rcases hgo with h | h
    · simp [h]
    · simp [h]
  unfold soup_io_dispatcher_read_body_chunk
  simp only [io_handle_sniffing, hsn, Bool.not_false, if_true, IOCtx.returns,
    Bool.not_true, Bool.false_eq_true, if_false]
  apply iterate_of_inr
  simp only [read_body_chunk_step, hcond, if_true, allocate_buffer, hal, Bool.false_eq_true,
    if_false, read_body_chunk_result, soup_socket_read, hin, Option.some.injEq, Sum.inr.injEq]
  rfl

theorem emit_signal_proceed (ctx : IOCtx) (sig : MsgSignal) (h : ctx.env.callbacks = []) :
    emit_signal ctx sig =
      .inl { ctx with events := ctx.events ++ [Event.msg_signal ctx.io.msg.id sig] } := by
  simp [emit_signal, signal, run_callback, h, return_if_cancelled_or_paused]

theorem write_data_empty (ctx : IOCtx) (body : Bool) :
    soup_io_dispatcher_write_data ctx [] body = some (write_data_done ctx) := by
  unfold soup_io_dispatcher_write_data
  simp only [List.length_nil, Nat.zero_sub, Nat.zero_add]
  apply iterate_of_inr
  simp [write_data_step]

theorem write_body_empty_chunk_pass (ctx : IOCtx)
    (hst : ctx.io.write_state = .BODY) (henc : ctx.io.write_encoding = .CONTENT_LENGTH)
    (hlen : ctx.io.write_length ≠ 0) (hchunk : ctx.io.write_chunk = none)
    (hget : soup_message_body_get_chunk ctx.io.msg.request_body
      ctx.io.write_body_offset.toNat = some [])
    (hcb : ctx.env.callbacks = []) :
    ∃ ctx', io_data_write_step ctx = some (.inl ctx') ∧
      ctx'.io.write_state = .BODY ∧ ctx'.io.write_encoding = .CONTENT_LENGTH ∧
      ctx'.io.write_length = ctx.io.write_length ∧ ctx'.io.write_chunk = none ∧
      ctx'.io.msg.request_body = ctx.io.msg.request_body ∧
      ctx'.io.write_body_offset = ctx.io.write_body_offset ∧ ctx'.env.callbacks = [] ∧
      wire ctx'.events = wire ctx.events := by
  have hl : (ctx.io.write_length == 0) = false := by simpa using hlen
  have h0 : decide (0 > as_gsize ctx.io.write_length) = false := by simp
  have hE : (SoupEncoding.CONTENT_LENGTH == SoupEncoding.EOF) = false := rfl
  have hstep : io_data_write_step ctx = some (.inl
      { ((write_data_done (ctx.update (set_write_chunk (some [])))).ctx.update
          (write_body_written [])) with
        events := ctx.events ++ [Event.msg_signal ctx.io.msg.id .wrote_chunk] }) := by
    unfold io_data_write_step
    rw [hst]
    simp only [write_case_BODY, hl, Bool.false_and, Bool.false_eq_true, if_false, hchunk, hget,
      write_body_fetched, List.length_nil, henc, h0, hE, write_body_chunk, write_data_empty,
      with_call, Option.map_some', or_return]
    have hret : (write_data_done (ctx.update (set_write_chunk (some [])))).ret = true := rfl
    rw [if_pos hret, emit_signal_proceed _ _ (by exact hcb)]
    have hid : ((write_data_done (ctx.update (set_write_chunk (some [])))).ctx.update
        (write_body_written [])).io.msg.id = ctx.io.msg.id := by
      simp only [write_data_done, IOCtx.returns, IOCtx.update, write_body_written,
        wrote_chunk_if_can_rebuild, set_write_chunk, soup_message_body_wrote_chunk]
      split <;> rfl
    rw [hid]
    rfl
  refine ⟨_, hstep, ?_, ?_, ?_, ?_, ?_, ?_, hcb, ?_⟩
  · simp only [write_data_done, IOCtx.returns, IOCtx.update, write_body_written,
      wrote_chunk_if_can_rebuild, set_write_chunk]
    split <;> exact hst
  · simp only [write_data_done, IOCtx.returns, IOCtx.update, write_body_written,
      wrote_chunk_if_can_rebuild, set_write_chunk]
    split <;> exact henc
  · simp only [write_data_done, IOCtx.returns, IOCtx.update, write_body_written,
      wrote_chunk_if_can_rebuild, set_write_chunk]
    split <;> rfl
  · rfl
  · simp only [write_data_done, IOCtx.returns, IOCtx.update, write_body_written,
      wrote_chunk_if_can_rebuild, set_write_chunk, soup_message_body_wrote_chunk]
    split <;> rfl
  · simp [write_data_done, IOCtx.returns, IOCtx.update, write_body_written, set_write_chunk]
  · exact wire_signal _ _ _

theorem passes_of_inl {σ ρ : Type} {step : σ → Option (σ ⊕ ρ)} {s s' : σ} (n : Nat)
    (h : step s = some (.inl s')) : passes step (n + 1) s = passes step n s' := by
  conv => lhs; unfold passes
  rw [h]

theorem passes_of_inr {σ ρ : Type} {step : σ → Option (σ ⊕ ρ)} {s : σ} {r : ρ} (n : Nat)
    (h : step s = some (.inr r)) : passes step (n + 1) s = none := by
  conv => lhs; unfold passes
  rw [h]

theorem passes_add {σ ρ : Type} {step : σ → Option (σ ⊕ ρ)} (m : Nat) :
    ∀ (n : Nat) (s s' : σ), passes step n s = some s' →
      passes step (n + m) s = passes step m s' := by
  intro n
  induction n with
  | zero =>
    intro s s' h
    simp only [passes, Option.some.injEq] at h
    subst h
    simp
  | succ n ih =>
    intro s s' h
    cases hs : step s with
    | none => unfold passes at h; rw [hs] at h; cases h
    | some x =>
      cases x with
      | inr r => rw [passes_of_inr n hs] at h; cases h
      | inl s1 =>
        rw [passes_of_inl n hs] at h
        rw [show n + 1 + m = (n + m) + 1 by omega, passes_of_inl (n + m) hs]
        exact ih s1 s' h

/-- A property that every round of a loop keeps holds of the state in which the loop is
left. -/
theorem iterate_invariant {σ ρ : Type} (step : σ → Option (σ ⊕ ρ)) (P : σ → Prop) (Q : ρ → Prop)
    (hl : ∀ s s', P s → step s = some (.inl s') → P s')
    (hr : ∀ s r, P s → step s = some (.inr r) → Q r) :
    ∀ (n : Nat) (s : σ), P s → ∀ r, iterate step n s = some r → Q r := by
  intro n
  induction n with
  | zero => intro s _ r h; simp [iterate] at h
  | succ n ih =>
    intro s hs r h
    unfold iterate at h
    cases hstep : step s with
    | none => rw [hstep] at h; simp at h
    | some x =>
      rw [hstep] at h
      cases x with
      | inl s' => exact ih s' (hl s s' hs hstep) r h
      | inr r' =>
        simp only [Option.some.injEq] at h
        rw [← h]
        exact hr s r' hs hstep

theorem metaFrame_refl (ctx : IOCtx) : MetaFrame ctx ctx :=
  ⟨⟨[], by simp⟩, rfl, rfl⟩

theorem metaFrame_trans {a b c : IOCtx} (h1 : MetaFrame a b) (h2 : MetaFrame b c) :
    MetaFrame a c := by
  obtain ⟨⟨x, hx⟩, e1, v1⟩ := h1
  obtain ⟨⟨y, hy⟩, e2, v2⟩ := h2
  refine ⟨⟨x ++ y, ?_⟩, ?_, v2.trans v1⟩
  · rw [hy, hx]
    simp
  · rw [e2, e1]

theorem metaStep_refl (ctx : IOCtx) : MetaStep ctx ctx := ⟨metaFrame_refl ctx, rfl, rfl, rfl⟩

theorem metaStep_trans {a b c : IOCtx} (h1 : MetaStep a b) (h2 : MetaStep b c) :
    MetaStep a c :=
  ⟨metaFrame_trans h1.1 h2.1, h2.2.1.trans h1.2.1, h2.2.2.1.trans h1.2.2.1,
    h2.2.2.2.trans h1.2.2.2⟩

theorem metaRet_trans {a b : IOCtx} {r : IOResult} (h1 : MetaStep a b) (h2 : MetaRet b r) :
    MetaRet a r := by
  refine ⟨metaFrame_trans h1.1 h2.1, h2.2.1, fun h => ?_⟩
  obtain ⟨e1, e2, e3, e4⟩ := h2.2.2 h
  exact ⟨e1.trans h1.2.1, e2.trans h1.2.2.1, e3.trans h1.2.2.2, e4⟩

theorem metaOut_trans {a b : IOCtx} {x : IOCtx ⊕ IOResult} (h1 : MetaStep a b)
    (h2 : MetaOut b x) : MetaOut a x := by
  cases x with
  | inl c => exact metaStep_trans h1 h2
  | inr r => exact metaRet_trans h1 h2

theorem metaStep_append (ctx : IOCtx) (bytes : List Byte) :
    MetaStep ctx (read_metadata_append ctx bytes) :=
  ⟨⟨⟨bytes, rfl⟩, rfl, rfl⟩, rfl, rfl, rfl⟩

theorem metaStep_env (ctx : IOCtx) (env : Env)
    (h : env = { ctx.env with incoming := env.incoming }) :
    MetaStep ctx { ctx with env := env } :=
  ⟨⟨⟨[], by simp⟩, h, rfl⟩, rfl, rfl, rfl⟩

theorem soup_socket_read_until_env (env : Env) (len : Nat) :
    (soup_socket_read_until env len).env =
      { env with incoming := (soup_socket_read_until env len).env.incoming } := by
  unfold soup_socket_read_until
  split <;> rfl

theorem soup_socket_read_until_boundary (env : Env) (len : Nat)
    (h : (soup_socket_read_until env len).got_boundary = true) :
    (soup_socket_read_until env len).data.getLast? = some LF := by
  unfold soup_socket_read_until at h ⊢
  split at h
  · exact absurd h (by simp)
  · simpa using h
  · exact absurd h (by simp)
  · exact absurd h (by simp)
  · exact absurd h (by simp)

theorem metaRet_fail (ctx : IOCtx) (error : Option GErrorKind) : MetaRet ctx (ctx.fail error) := by
  refine ⟨⟨⟨[], ?_⟩, rfl, rfl⟩, rfl, fun h => ?_⟩
  · unfold IOCtx.fail IOCtx.returns
    simp only []
    split <;> simp
  · exact absurd h (by simp [IOCtx.fail, IOCtx.returns])

theorem metaRet_would_block (ctx : IOCtx) : MetaRet ctx (read_would_block ctx) := by
  refine ⟨⟨⟨[], ?_⟩, rfl, rfl⟩, rfl, fun h => ?_⟩
  · simp [read_would_block, IOCtx.returns]
  · exact absurd h (by simp [read_would_block, IOCtx.returns])

theorem metaOut_after (to_blank : Bool) (nread : Nat) (ctx : IOCtx) (got_lf : Bool)
    (hlf : got_lf = true → ctx.io.read_meta_buf.getLast? = some LF) :
    MetaOut ctx (read_metadata_after to_blank nread ctx got_lf) := by
  unfold read_metadata_after
  split
  · rename_i h
    have hg : got_lf = true := by
      unfold read_metadata_done at h
      simp only [Bool.and_eq_true] at h
      exact h.1
    exact ⟨metaFrame_refl ctx, rfl, fun _ => ⟨rfl, rfl, rfl, hlf hg⟩⟩
  · exact metaStep_refl ctx

theorem metaOut_eof_append (to_blank : Bool) (ctx : IOCtx) (line : List Byte)
    (h : (ctx.io.read_meta_buf ++ line).getLast? = some LF) :
    MetaOut ctx (read_metadata_after to_blank 0 (read_metadata_append ctx line) true) :=
  metaOut_trans (metaStep_append ctx line) (metaOut_after to_blank 0 _ true (fun _ => h))

theorem metaOut_read_metadata_step (bs : Nat) (to_blank : Bool) (ctx : IOCtx) :
    MetaOut ctx (read_metadata_step bs to_blank ctx) := by
  have h0 : MetaStep ctx { ctx with env := (soup_socket_read_until ctx.env bs).env } :=
    metaStep_env ctx _ (soup_socket_read_until_env ctx.env bs)
  unfold read_metadata_step
  simp only []
  split
  · refine metaOut_trans (metaStep_trans h0 (metaStep_append _ _)) (metaOut_after _ _ _ _ ?_)
    intro hg
    have := soup_socket_read_until_boundary ctx.env bs hg
    simp only [read_metadata_append]
    cases hd : (soup_socket_read_until ctx.env bs).data with
    | nil => rw [hd] at this; simp at this
    | cons x xs =>
      rw [hd] at this
      rw [List.getLast?_append_of_ne_nil _ (by simp)]
      exact this
  · refine metaOut_trans h0 ?_
    unfold read_metadata_eof
    split
    · exact metaOut_eof_append _ _ _ (by simp [List.getLast?_append])
    · split
      · exact metaOut_eof_append _ _ _ (by simp [List.getLast?_append])
      · exact metaRet_fail _ _
  · exact metaOut_trans h0 (metaRet_fail _ _)
  · exact metaOut_trans h0 (metaRet_would_block _)

/-- What a return of `soup_io_dispatcher_read_metadata` looks like. -/
theorem read_metadata_spec (bs : Nat) (ctx : IOCtx) (to_blank : Bool) (r : IOResult)
    (h : soup_io_dispatcher_read_metadata bs ctx to_blank = some r) : MetaRet ctx r := by
  unfold soup_io_dispatcher_read_metadata at h
  refine iterate_invariant (fun s => some (read_metadata_step bs to_blank s))
    (fun s => MetaStep ctx s) (fun r => MetaRet ctx r) ?_ ?_ _ ctx (metaStep_refl ctx) r h
  · intro s s' hs hstep
    have := metaOut_read_metadata_step bs to_blank s
    simp only [Option.some.injEq] at hstep
    rw [hstep] at this
    exact metaStep_trans hs this
  · intro s r' hs hstep
    have := metaOut_read_metadata_step bs to_blank s
    simp only [Option.some.injEq] at hstep
    rw [hstep] at this
    exact metaRet_trans hs this
/-! ### `strtoul` and what lies behind the text -/

theorem skip_spaces_append_of_ne (s b : List Byte) (h : skip_spaces s ≠ []) :
    skip_spaces (s ++ b) = skip_spaces s ++ b := by
  induction s with
  | nil => exact absurd rfl h
  | cons c t ih =>
    simp only [List.cons_append, skip_spaces] at h ⊢
    by_cases hc : isspace c = true
    · simp only [hc, if_true] at h ⊢
      exact ih h
    · simp only [hc, if_false, Bool.false_eq_true, List.cons_append]
      rfl

theorem strtoul_sign_append (c : Byte) (t b : List Byte) :
    strtoul_sign (c :: t ++ b) = ((strtoul_sign (c :: t)).1, (strtoul_sign (c :: t)).2 ++ b) := by
  by_cases h1 : c = 45
  · subst h1; rfl
  · by_cases h2 : c = 43
    · subst h2; rfl
    · have e : ∀ u, strtoul_sign (c :: u) = (false, c :: u) := by
        intro u
        unfold strtoul_sign
        split
        · rename_i heq; exact absurd (List.cons.inj heq).1 h1
        · rename_i heq; exact absurd (List.cons.inj heq).1 h2
        · rfl
      rw [List.cons_append, e, e]
      rfl

theorem hex_run_append_of_stop (v b : List Byte)
    (h : v.all (fun c => (hex_value c).isSome) = false) :
    ∀ acc, hex_run (v ++ b) acc = hex_run v acc := by
  induction v with
  | nil => simp at h
  | cons c t ih =>
    intro acc
    simp only [List.cons_append, hex_run]
    cases hc : hex_value c with
    | none => rfl
    | some d =>
      simp only
      apply ih
      simpa [List.all_cons, hc] using h

/-- Digits that do not go to the end of the text are the same digits, whatever follows the
text. -/
theorem strtoul_digits_append_of_stop (u b : List Byte) (h : strtoul_digits_to_end u = false) :
    strtoul_digits (u ++ b) = strtoul_digits u ++ b ∧
      (strtoul_digits u).all (fun c => (hex_value c).isSome) = false := by
  match u, h with
  | [], h => simp [strtoul_digits_to_end] at h
  | [a], h =>
    have ha : (hex_value a).isSome = false := by
      simpa [strtoul_digits_to_end] using h
    have h48 : a ≠ 48 := by
      intro e; rw [e] at ha; exact absurd ha (by decide)
    refine ⟨?_, by simpa [strtoul_digits] using ha⟩
    simp only [List.singleton_append]
    unfold strtoul_digits
    split
    · rename_i heq; exact absurd (List.cons.inj heq).1 h48
    · split
      · rename_i heq; exact absurd (List.cons.inj heq).1 h48
      · rfl
  | a :: x :: rest, h =>
    by_cases h48 : a = 48
    · subst h48
      by_cases hx : (x == 120 || x == 88) = true
      · have hr : rest.all (fun c => (hex_value c).isSome) = false := by
          simpa [strtoul_digits_to_end, hx] using h
        have hxv : (hex_value x).isSome = false := by
          simp only [Bool.or_eq_true, beq_iff_eq] at hx
          rcases hx with e | e <;> (rw [e]; decide)
        cases rest with
        | nil => simp at hr
        | cons c r2 =>
          by_cases hc : (hex_value c).isSome = true
          · have e1 : strtoul_digits (48 :: x :: c :: r2) = c :: r2 := by
              simp [strtoul_digits, hx, hc]
            have e2 : strtoul_digits (48 :: x :: c :: r2 ++ b) = c :: r2 ++ b := by
              simp only [List.cons_append]
              simp [strtoul_digits, hx, hc]
            rw [e1, e2]
            exact ⟨rfl, hr⟩
          · have e1 : strtoul_digits (48 :: x :: c :: r2) = 48 :: x :: c :: r2 := by
              simp [strtoul_digits, hx, hc]
            have e2 : strtoul_digits (48 :: x :: c :: r2 ++ b) = 48 :: x :: c :: r2 ++ b := by
              simp only [List.cons_append]
              simp [strtoul_digits, hx, hc]
            rw [e1, e2]
            refine ⟨rfl, ?_⟩
            simp [List.all_cons, hxv]
      · have hx2 : (x == 120 || x == 88) = false := by simpa using hx
        have hr : (48 :: x :: rest).all (fun c => (hex_value c).isSome) = false := by
          simpa [strtoul_digits_to_end, hx2] using h
        have e1 : ∀ w, strtoul_digits (48 :: x :: w) = 48 :: x :: w := by
          intro w
          unfold strtoul_digits
          split
          · rename_i x2 c2 r2 heq
            have : x = x2 := (List.cons.inj (List.cons.inj heq).2).1
            rw [← this, hx2]
            simp
          · rfl
        rw [List.cons_append, List.cons_append, e1, e1]
        exact ⟨rfl, hr⟩
    · have hr : (a :: x :: rest).all (fun c => (hex_value c).isSome) = false := by
        unfold strtoul_digits_to_end at h
        split at h
        · rename_i heq; exact absurd (List.cons.inj heq).1 h48
        · exact h
      have e1 : ∀ w, strtoul_digits (a :: w) = a :: w := by
        intro w
        unfold strtoul_digits
        split
        · rename_i heq; exact absurd (List.cons.inj heq).1 h48
        · rfl
      rw [List.cons_append, e1, e1]
      exact ⟨rfl, hr⟩

/-- When the text stops `strtoul`, what lies behind the text does not matter. -/
theorem strtoul16_append_of_stop (s b : List Byte) (h : strtoul_runs_past s = false) :
    strtoul16 (s ++ b) = strtoul16 s := by
  unfold strtoul_runs_past at h
  cases hs : skip_spaces s with
  | nil => rw [hs] at h; simp [strtoul_sign, strtoul_digits_to_end] at h
  | cons c t =>
    rw [hs] at h
    have e1 : skip_spaces (s ++ b) = c :: t ++ b := by
      rw [skip_spaces_append_of_ne s b (by rw [hs]; simp), hs]
    obtain ⟨e2, e3⟩ := strtoul_digits_append_of_stop _ b h
    unfold strtoul16
    rw [e1, hs, strtoul_sign_append]
    simp only [e2, hex_run_append_of_stop _ b e3]

theorem getElem?_snoc_cases {α : Type} (pre : List α) (x : α) (j : Nat) (e : α)
    (h : (pre ++ [x])[j]? = some e) :
    (j < pre.length ∧ pre[j]? = some e) ∨ (j = pre.length ∧ e = x) := by
  by_cases hj : j < pre.length
  · left
    rw [List.getElem?_append_left hj] at h
    exact ⟨hj, h⟩
  · right
    have hge : pre.length ≤ j := Nat.le_of_not_lt hj
    rw [List.getElem?_append_right hge] at h
    by_cases hj0 : j - pre.length = 0
    · rw [hj0] at h
      simp at h
      exact ⟨by omega, h.symm⟩
    · obtain ⟨m, hm⟩ := Nat.exists_eq_succ_of_ne_zero hj0
      rw [hm] at h
      simp at h

theorem scan_least_loaded (dont : Bool) (l : List SoupIODispatcher) :
    ∀ (pre : List SoupIODispatcher) (r : Option Nat) (b : Nat), ScanInv dont pre r b →
      match scan_io_dispatchers false dont l pre.length r b with
      | none => ∀ e ∈ pre ++ l, is_candidate dont e = false
      | some i => BestAt dont (pre ++ l) i := by
  induction l with
  | nil =>
    intro pre r b hinv
    cases r with
    | none => simpa [scan_io_dispatchers, ScanInv] using hinv
    | some i =>
      simp only [scan_io_dispatchers, List.append_nil]
      obtain ⟨_, d, hd, hc, hq, hle, hlt⟩ := hinv
      exact ⟨d, hd, hc, fun j e hj he => hq ▸ hle j e hj he, fun j e hji hj he => hq ▸ hlt j e hji hj he⟩
  | cons x rest ih =>
    intro pre r b hinv
    have happ : pre ++ x :: rest = (pre ++ [x]) ++ rest := by simp
    have hlen : (pre ++ [x]).length = pre.length + 1 := by simp
    rw [happ]
    unfold scan_io_dispatchers
    by_cases hc : is_candidate dont x = true
    · simp only [hc, if_true]
      by_cases hbeat : (r.isNone || decide (soup_io_dispatcher_get_queue_length x < b)) = true
      · simp only [hbeat, if_true, Bool.false_or]
        -- every candidate already visited is strictly more loaded than `x`
        have hprev : ∀ (j : Nat) (e : SoupIODispatcher), pre[j]? = some e → is_candidate dont e = true →
            soup_io_dispatcher_get_queue_length x < soup_io_dispatcher_get_queue_length e := by
          intro j e hj he
          cases r with
          | none =>
            have hmem : e ∈ pre := List.getElem?_mem hj
            have := hinv e hmem
            rw [this] at he
            exact absurd he (by simp)
          | some i =>
            obtain ⟨_, d, _, _, _, hle, _⟩ := hinv
            have hxb : soup_io_dispatcher_get_queue_length x < b := by simpa using hbeat
            exact Nat.lt_of_lt_of_le hxb (hle j e hj he)
        have hx : (pre ++ [x])[pre.length]? = some x := by simp
        by_cases hz : (soup_io_dispatcher_get_queue_length x == 0) = true
        · simp only [hz, if_true]
          have hz0 : soup_io_dispatcher_get_queue_length x = 0 := by simpa using hz
          refine ⟨x, ?_, hc, ?_, ?_⟩
          · rw [List.getElem?_append_left (by simp)]
            exact hx
          · intro j e _ _
            omega
          · intro j e hji hj he
            have hj' : pre[j]? = some e := by
              rw [List.getElem?_append_left (by simp; omega),
                List.getElem?_append_left hji] at hj
              exact hj
            exact hprev j e hj' he
        · simp only [hz, Bool.false_eq_true, if_false]
          have hpos : 0 < soup_io_dispatcher_get_queue_length x := by
            have : soup_io_dispatcher_get_queue_length x ≠ 0 := by simpa using hz
            omega
          have := ih (pre ++ [x]) (some pre.length) (soup_io_dispatcher_get_queue_length x)
            ⟨hpos, x, hx, hc, rfl, by
              intro j e hj he
              rcases getElem?_snoc_cases pre x j e hj with ⟨_, hj'⟩ | ⟨_, rfl⟩
              · exact Nat.le_of_lt (hprev j e hj' he)
              · exact Nat.le_refl _, by
              intro j e hji hj he
              rcases getElem?_snoc_cases pre x j e hj with ⟨_, hj'⟩ | ⟨hjeq, _⟩
              · exact hprev j e hj' he
              · omega⟩
          rw [hlen] at this
          exact this
      · simp only [hbeat, Bool.false_eq_true, if_false]
        cases r with
        | none => simp at hbeat
        | some i =>
          have hnb : ¬ soup_io_dispatcher_get_queue_length x < b := by simpa using hbeat
          obtain ⟨hpos, d, hd, hdc, hq, hle, hlt⟩ := hinv
          have hi : i < pre.length := by
            by_contra hcon
            rw [List.getElem?_eq_none (by omega)] at hd
            exact absurd hd (by simp)
          have := ih (pre ++ [x]) (some i) b
            ⟨hpos, d, by rw [List.getElem?_append_left hi]; exact hd, hdc, hq, by
              intro j e hj he
              rcases getElem?_snoc_cases pre x j e hj with ⟨_, hj'⟩ | ⟨_, rfl⟩
              · exact hle j e hj' he
              · omega, by
              intro j e hji hj he
              rcases getElem?_snoc_cases pre x j e hj with ⟨_, hj'⟩ | ⟨hjeq, _⟩
              · exact hlt j e hji hj' he
              · omega⟩
          rw [hlen] at this
          exact this
    · simp only [hc, Bool.false_eq_true, if_false]
      have hcf : is_candidate dont x = false := by simpa using hc
      have hinv' : ScanInv dont (pre ++ [x]) r b := by
        cases r with
        | none =>
          show ∀ e ∈ pre ++ [x], is_candidate dont e = false
          intro e he
          have hinv : ∀ e ∈ pre, is_candidate dont e = false := hinv
          rcases List.mem_append.mp he with h | h
          · exact hinv e h
          · simp at h
            rw [h]; exact hcf
        | some i =>
          obtain ⟨hpos, d, hd, hdc, hq, hle, hlt⟩ := hinv
          have hi : i < pre.length := by
            by_contra hcon
            rw [List.getElem?_eq_none (by omega)] at hd
            exact absurd hd (by simp)
          refine ⟨hpos, d, by rw [List.getElem?_append_left hi]; exact hd, hdc, hq, ?_, ?_⟩
          · intro j e hj he
            rcases getElem?_snoc_cases pre x j e hj with ⟨_, hj'⟩ | ⟨_, rfl⟩
            · exact hle j e hj' he
            · rw [hcf] at he; exact absurd he (by simp)
          · intro j e hji hj he
            rcases getElem?_snoc_cases pre x j e hj with ⟨_, hj'⟩ | ⟨_, rfl⟩
            · exact hlt j e hji hj' he
            · rw [hcf] at he; exact absurd he (by simp)
      have := ih (pre ++ [x]) r b hinv'
      rw [hlen] at this
      exact this

theorem get_host_info_flags (pool : SoupIODispatcherPool) (host : String) (port : Nat) :
    (get_host_info pool host port).1.use_first_avail_conn = pool.use_first_avail_conn ∧
    (get_host_info pool host port).1.make_all_conns_firstly = pool.make_all_conns_firstly ∧
    (get_host_info pool host port).1.max_io_disps_per_host = pool.max_io_disps_per_host ∧
    (get_host_info pool host port).1.pipeline_via_proxy = pool.pipeline_via_proxy ∧
    (get_host_info pool host port).1.pipeline_via_https = pool.pipeline_via_https ∧
    (get_host_info pool host port).1.max_pipelined_msgs = pool.max_pipelined_msgs ∧
    (get_host_info pool host port).1.idle_io_dispatchers = pool.idle_io_dispatchers ∧
    (get_host_info pool host port).1.next_io_disp = pool.next_io_disp ∧
    (get_host_info pool host port).1.response_block_size = pool.response_block_size ∧
    (get_host_info pool host port).1.is_thread_safe = pool.is_thread_safe ∧
    (get_host_info pool host port).1.idle_timeout = pool.idle_timeout := by
  unfold get_host_info
  cases h1 : g_hash_table_lookup pool.hosts_io_dispatchers host <;>
    simp only [] <;> split <;> simp

/-- The dispatcher at the returned position, and the candidate rule seen by the loop. -/
theorem scan_candidate (uf dont : Bool) (l : List SoupIODispatcher) :
    ∀ (pre : List SoupIODispatcher) (r : Option Nat) (b : Nat),
      (r = none → ∀ e ∈ pre, is_candidate dont e = false) →
      (∀ i, r = some i → ∃ d, pre[i]? = some d ∧ is_candidate dont d = true) →
      match scan_io_dispatchers uf dont l pre.length r b with
      | none => ∀ e ∈ pre ++ l, is_candidate dont e = false
      | some i => ∃ d, (pre ++ l)[i]? = some d ∧ is_candidate dont d = true := by
  induction l with
  | nil =>
    intro pre r b h1 h2
    cases r with
    | none => simpa [scan_io_dispatchers] using h1 rfl
    | some i => simpa [scan_io_dispatchers] using h2 i rfl
  | cons x rest ih =>
    intro pre r b h1 h2
    have happ : pre ++ x :: rest = (pre ++ [x]) ++ rest := by simp
    have hlen : (pre ++ [x]).length = pre.length + 1 := by simp
    have hx : (pre ++ [x])[pre.length]? = some x := by simp
    have hkeep : ∀ i, r = some i → ∃ d, (pre ++ [x])[i]? = some d ∧ is_candidate dont d = true := by
      intro i hi
      obtain ⟨d, hd, hc⟩ := h2 i hi
      have hil : i < pre.length := by
        by_contra hcon
        rw [List.getElem?_eq_none (by omega)] at hd
        exact absurd hd (by simp)
      exact ⟨d, by rw [List.getElem?_append_left hil]; exact hd, hc⟩
    rw [happ]
    unfold scan_io_dispatchers
    by_cases hc : is_candidate dont x = true
    · simp only [hc, if_true]
      have hnew : ∀ i, some pre.length = some i →
          ∃ d, (pre ++ [x])[i]? = some d ∧ is_candidate dont d = true := by
        intro i hi
        cases hi
        exact ⟨x, hx, hc⟩
      by_cases hbeat : (r.isNone || decide (soup_io_dispatcher_get_queue_length x < b)) = true
      · simp only [hbeat, if_true]
        by_cases hz : (uf || soup_io_dispatcher_get_queue_length x == 0) = true
        · simp only [hz, if_true]
          exact ⟨x, by rw [List.getElem?_append_left (by simp)]; exact hx, hc⟩
        · simp only [hz, Bool.false_eq_true, if_false]
          have := ih (pre ++ [x]) (some pre.length) (soup_io_dispatcher_get_queue_length x)
            (by intro h; cases h) hnew
          rw [hlen] at this
          exact this
      · simp only [hbeat, Bool.false_eq_true, if_false]
        have hr : r ≠ none := by
          intro h
          rw [h] at hbeat
          simp at hbeat
        have := ih (pre ++ [x]) r b (fun h => absurd h hr) hkeep
        rw [hlen] at this
        exact this
    · simp only [hc, Bool.false_eq_true, if_false]
      have hcf : is_candidate dont x = false := by simpa using hc
      have := ih (pre ++ [x]) r b (by
        intro h e he
        rcases List.mem_append.mp he with h' | h'
        · exact h1 h e h'
        · simp at h'
          rw [h']; exact hcf) hkeep
      rw [hlen] at this
      exact this

theorem is_candidate_iff (dont : Bool) (d : SoupIODispatcher) :
    is_candidate dont d = true ↔ SpecCandidate dont d := by
  unfold is_candidate SpecCandidate soup_io_dispatcher_get_socket
  cases hs : d.socket <;> cases dont <;>
    cases soup_io_dispatcher_is_queue_empty d <;>
    cases soup_io_dispatcher_is_queue_full d <;> simp

/-- The pointer returned by `get_io_dispatcher`, once the two early returns are passed,
is the result of the selection loop. -/
theorem get_io_dispatcher_result (pool : SoupIODispatcherPool) (msg : SoupMessage)
    (via_https via_proxy : Bool) (result : Option DispRef)
    (hspdy : (get_host_info pool msg.uri.host msg.uri.port).2.spdy_supported_version = 0)
    (hfirst : ¬ (pool.make_all_conns_firstly = true ∧
      (get_host_info pool msg.uri.host msg.uri.port).2.io_dispatchers.length <
        pool.max_io_disps_per_host))
    (h : (get_io_dispatcher pool msg via_https via_proxy).map Prod.fst = some result) :
    result = (scan_io_dispatchers pool.use_first_avail_conn
      (dont_use_http_pipelining pool (get_host_info pool msg.uri.host msg.uri.port).2 msg
        via_https via_proxy)
      (get_host_info pool msg.uri.host msg.uri.port).2.io_dispatchers 0 none 0).map
        DispRef.live := by
  obtain ⟨hf1, hf2, hf3, hf4, hf5, _, _⟩ := get_host_info_flags pool msg.uri.host msg.uri.port
  have hdont : dont_use_http_pipelining (get_host_info pool msg.uri.host msg.uri.port).1
      (get_host_info pool msg.uri.host msg.uri.port).2 msg via_https via_proxy =
      dont_use_http_pipelining pool (get_host_info pool msg.uri.host msg.uri.port).2 msg
        via_https via_proxy := by
    simp [dont_use_http_pipelining, hf4, hf5]
  unfold get_io_dispatcher at h
  simp only [hspdy, hf1, hf2, hf3, hdont] at h
  have hfirst' : (pool.make_all_conns_firstly &&
      decide ((get_host_info pool msg.uri.host msg.uri.port).2.io_dispatchers.length <
        pool.max_io_disps_per_host)) = false := by
    cases hm : pool.make_all_conns_firstly
    · simp
    · simp [hm] at hfirst ⊢
      exact hfirst
  simp only [hfirst'] at h
  simp only [bne_self_eq_false, Bool.false_eq_true, if_false] at h
  generalize hscan : scan_io_dispatchers pool.use_first_avail_conn
      (dont_use_http_pipelining pool (get_host_info pool msg.uri.host msg.uri.port).2 msg
        via_https via_proxy)
      (get_host_info pool msg.uri.host msg.uri.port).2.io_dispatchers 0 none 0 = sc at h ⊢
  have hsc := scan_candidate pool.use_first_avail_conn
      (dont_use_http_pipelining pool (get_host_info pool msg.uri.host msg.uri.port).2 msg
        via_https via_proxy)
      (get_host_info pool msg.uri.host msg.uri.port).2.io_dispatchers [] none 0
      (by intro _ e he; simp at he) (by intro i hi; cases hi)
  simp only [List.length_nil, List.nil_append] at hsc
  rw [hscan] at hsc
  cases sc with
  | none =>
    simp at h
    simp [h]
  | some index =>
    obtain ⟨d, hd, _⟩ := hsc
    simp only [hd] at h
    simp only [Option.map_some']
    split at h
    · split at h
      · simp at h
      · simp at h
        exact h.symm
    · simp at h
      exact h.symm

/-- C1.  With `use_first_avail_conn` off, whenever `get_io_dispatcher` returns the dispatcher
at a position of the host's live list, that dispatcher is a candidate, no candidate of the
list has a smaller `soup_io_dispatcher_get_queue_length`, and every candidate before it in
list order has a strictly larger one. -/
theorem get_io_dispatcher_least_loaded (pool : SoupIODispatcherPool) (msg : SoupMessage)
    (via_https via_proxy : Bool) (index : Nat)
    (huse : pool.use_first_avail_conn = false)
    (h : (get_io_dispatcher pool msg via_https via_proxy).map Prod.fst =
      some (some (DispRef.live index))) :
    ∃ io_disp,
      (get_host_info pool msg.uri.host msg.uri.port).2.io_dispatchers[index]? = some io_disp ∧
      is_candidate (dont_use_http_pipelining pool
        (get_host_info pool msg.uri.host msg.uri.port).2 msg via_https via_proxy) io_disp = true ∧
      (∀ (j : Nat) (other : SoupIODispatcher),
        (get_host_info pool msg.uri.host msg.uri.port).2.io_dispatchers[j]? = some other →
        is_candidate (dont_use_http_pipelining pool
          (get_host_info pool msg.uri.host msg.uri.port).2 msg via_https via_proxy) other = true →
        soup_io_dispatcher_get_queue_length io_disp ≤
          soup_io_dispatcher_get_queue_length other) ∧
      (∀ (j : Nat) (other : SoupIODispatcher), j < index →
        (get_host_info pool msg.uri.host msg.uri.port).2.io_dispatchers[j]? = some other →
        is_candidate (dont_use_http_pipelining pool
          (get_host_info pool msg.uri.host msg.uri.port).2 msg via_https via_proxy) other = true →
        soup_io_dispatcher_get_queue_length io_disp <
          soup_io_dispatcher_get_queue_length other) := by
  obtain ⟨hf1, hf2, hf3, hf4, hf5, _, _⟩ := get_host_info_flags pool msg.uri.host msg.uri.port
  have hdont : dont_use_http_pipelining (get_host_info pool msg.uri.host msg.uri.port).1
      (get_host_info pool msg.uri.host msg.uri.port).2 msg via_https via_proxy =
      dont_use_http_pipelining pool (get_host_info pool msg.uri.host msg.uri.port).2 msg
        via_https via_proxy := by
    simp [dont_use_http_pipelining, hf4, hf5]
  -- the two early returns do not produce a position of the live list
  have hspdy : (get_host_info pool msg.uri.host msg.uri.port).2.spdy_supported_version = 0 := by
    by_contra hne
    unfold get_io_dispatcher at h
    simp [hne] at h
  have hfirst : ¬ (pool.make_all_conns_firstly = true ∧
      (get_host_info pool msg.uri.host msg.uri.port).2.io_dispatchers.length <
        pool.max_io_disps_per_host) := by
    intro hcon
    unfold get_io_dispatcher at h
    simp [hspdy, hf2, hf3, hcon.1, hcon.2] at h
  have hres := get_io_dispatcher_result pool msg via_https via_proxy _ hspdy hfirst h
  rw [huse] at hres
  have hsc := scan_least_loaded
      (dont_use_http_pipelining pool (get_host_info pool msg.uri.host msg.uri.port).2 msg
        via_https via_proxy)
      (get_host_info pool msg.uri.host msg.uri.port).2.io_dispatchers [] none 0
      (by intro e he; simp at he)
  simp only [List.length_nil, List.nil_append] at hsc
  cases hscan : scan_io_dispatchers false
      (dont_use_http_pipelining pool (get_host_info pool msg.uri.host msg.uri.port).2 msg
        via_https via_proxy)
      (get_host_info pool msg.uri.host msg.uri.port).2.io_dispatchers 0 none 0 with
  | none =>
    rw [hscan] at hres
    simp at hres
  | some i =>
    rw [hscan] at hres hsc
    simp at hres
    subst hres
    exact hsc

/-- C2.  Past the alternate-protocol rule and the `make_all_conns_firstly` rule,
`get_io_dispatcher` returns null exactly when no dispatcher of the host's live list is a
candidate, and whatever it returns is a position of that list holding a candidate.
`dont_pipeline` and the candidate rule are the ones of the specification. -/
theorem get_io_dispatcher_candidate_rule (pool : SoupIODispatcherPool) (msg : SoupMessage)
    (via_https via_proxy : Bool) (result : Option DispRef) (dont_pipeline : Bool)
    (hdont : dont_pipeline =
      ((via_proxy && !pool.pipeline_via_proxy) || (via_https && !pool.pipeline_via_https) ||
        !(get_host_info pool msg.uri.host msg.uri.port).2.supports_http_pipelining ||
        msg.request_connection_close))
    (hspdy : (get_host_info pool msg.uri.host msg.uri.port).2.spdy_supported_version = 0)
    (hfirst : ¬ (pool.make_all_conns_firstly = true ∧
      (get_host_info pool msg.uri.host msg.uri.port).2.io_dispatchers.length <
        pool.max_io_disps_per_host))
    (h : (get_io_dispatcher pool msg via_https via_proxy).map Prod.fst = some result) :
    (result = none ↔
      ∀ io_disp ∈ (get_host_info pool msg.uri.host msg.uri.port).2.io_dispatchers,
        ¬ SpecCandidate dont_pipeline io_disp) ∧
    (∀ r, result = some r → ∃ (index : Nat) (io_disp : SoupIODispatcher),
      r = DispRef.live index ∧
      (get_host_info pool msg.uri.host msg.uri.port).2.io_dispatchers[index]? = some io_disp ∧
      SpecCandidate dont_pipeline io_disp) := by
  have hres := get_io_dispatcher_result pool msg via_https via_proxy _ hspdy hfirst h
  have hd : dont_use_http_pipelining pool (get_host_info pool msg.uri.host msg.uri.port).2 msg
      via_https via_proxy = dont_pipeline := by
    rw [hdont]
    rfl
  rw [hd] at hres
  have hsc := scan_candidate pool.use_first_avail_conn dont_pipeline
      (get_host_info pool msg.uri.host msg.uri.port).2.io_dispatchers [] none 0
      (by intro _ e he; simp at he) (by intro i hi; cases hi)
  simp only [List.length_nil, List.nil_append] at hsc
  cases hscan : scan_io_dispatchers pool.use_first_avail_conn dont_pipeline
      (get_host_info pool msg.uri.host msg.uri.port).2.io_dispatchers 0 none 0 with
  | none =>
    rw [hscan] at hres hsc
    simp at hres
    subst hres
    refine ⟨⟨fun _ d hdm hcand => ?_, fun _ => rfl⟩, fun r hr => by cases hr⟩
    have := hsc d hdm
    rw [(is_candidate_iff dont_pipeline d).mpr hcand] at this
    exact absurd this (by simp)
  | some i =>
    rw [hscan] at hres hsc
    simp at hres
    subst hres
    obtain ⟨d, hdi, hdc⟩ := hsc
    refine ⟨⟨fun hn => (by cases hn), fun hall => ?_⟩, fun r hr => ?_⟩
    · exact absurd ((is_candidate_iff dont_pipeline d).mp hdc) (hall d (List.getElem?_mem hdi))
    · cases hr
      exact ⟨i, d, rfl, hdi, (is_candidate_iff dont_pipeline d).mp hdc⟩

/-- Witness for C1 on `sample_pool`: position 2 is returned, the first of the two least
loaded connected dispatchers. -/
theorem get_io_dispatcher_least_loaded_witness :
    sample_pool.use_first_avail_conn = false ∧
    (get_io_dispatcher sample_pool (sample_msg 9) false false).map Prod.fst =
      some (some (DispRef.live 2)) ∧
    ∃ io_disp,
      (get_host_info sample_pool "example.com" 80).2.io_dispatchers[2]? = some io_disp ∧
      soup_io_dispatcher_get_queue_length io_disp = 1 ∧
      (∀ (j : Nat) (other : SoupIODispatcher), j < 2 →
        (get_host_info sample_pool "example.com" 80).2.io_dispatchers[j]? = some other →
        is_candidate false other = true →
        soup_io_dispatcher_get_queue_length io_disp <
          soup_io_dispatcher_get_queue_length other) := by
  refine ⟨by decide, by decide, ?_⟩
  obtain ⟨io_disp, h1, _, _, h4⟩ :=
    get_io_dispatcher_least_loaded sample_pool (sample_msg 9) false false 2 (by decide)
      (by decide)
  refine ⟨io_disp, h1, ?_, h4⟩
  have h2 : (get_host_info sample_pool "example.com" 80).2.io_dispatchers[2]?.map
      soup_io_dispatcher_get_queue_length = some 1 := by decide
  have h1' : (get_host_info sample_pool "example.com" 80).2.io_dispatchers[2]? = some io_disp := h1
  rw [h1'] at h2
  simpa using h2

/-- Witness for C2 on `sample_pool`: a candidate exists and one is returned. -/
theorem get_io_dispatcher_candidate_rule_witness :
    (get_io_dispatcher sample_pool (sample_msg 9) false false).map Prod.fst =
      some (some (DispRef.live 2)) ∧
    ∃ (index : Nat) (io_disp : SoupIODispatcher),
      (get_host_info sample_pool "example.com" 80).2.io_dispatchers[index]? = some io_disp ∧
      SpecCandidate false io_disp := by
  refine ⟨by decide, ?_⟩
  obtain ⟨_, h2⟩ :=
    get_io_dispatcher_candidate_rule sample_pool (sample_msg 9) false false
      (some (DispRef.live 2)) false (by decide) (by decide) (by decide) (by decide)
  obtain ⟨index, io_disp, _, h3, h4⟩ := h2 (DispRef.live 2) rfl
  exact ⟨index, io_disp, h3, h4⟩

/-! ## Propagation of `max_pipelined_msgs` -/

theorem live_map_host_infos (pool : SoupIODispatcherPool)
    (g : SoupIODispatcher → SoupIODispatcher) :
    live_io_dispatchers (map_host_infos pool (map_io_dispatchers g)) =
      (live_io_dispatchers pool).map g := by
  unfold live_io_dispatchers map_host_infos map_io_dispatchers
  simp only [List.map_map, List.map_flatten]
  congr 1
  apply List.map_congr_left
  intro entry _
  simp only [Function.comp, List.map_map, List.map_flatten]
  rfl

theorem set_max_pipelined_requests_supported (io_disp : SoupIODispatcher) (value : Nat)
    (hv : value ≤ SOUP_MAX_PIPELINED_REQ_CONSTRAINT) :
    (soup_io_dispatcher_set_max_pipelined_requests io_disp value).is_pipelining_supported =
      io_disp.is_pipelining_supported ∧
    (io_disp.is_pipelining_supported = true →
      soup_io_dispatcher_get_max_pipelined_requests
        (soup_io_dispatcher_set_max_pipelined_requests io_disp value) = value) ∧
    (io_disp.is_pipelining_supported = false →
      soup_io_dispatcher_set_max_pipelined_requests io_disp value = io_disp) := by
  unfold soup_io_dispatcher_set_max_pipelined_requests
    soup_io_dispatcher_get_max_pipelined_requests emit
  refine ⟨?_, ?_, ?_⟩
  · split <;> rfl
  · intro hs
    by_cases hne : value = io_disp.max_pipelined_requests
    · simp [hs, hv, hne]
    · simp [hs, hv, hne]
  · intro hs
    simp [hs]

/-- C10, as amended.  After the pool's `max_pipelined_msgs` is changed to a new value `v`
with `1 ≤ v ≤ 20`, `soup_io_dispatcher_get_max_pipelined_requests` returns `v` for every
dispatcher of a live list or of the idle FIFO whose `is_pipelining_supported` flag is set;
a dispatcher whose flag is cleared is left as it was. -/
theorem max_pipelined_msgs_propagation (pool : SoupIODispatcherPool) (v : Nat)
    (hvalid : (PoolSetting.MAX_PIPELINED_MSGS v).valid = true)
    (hnew : pool.max_pipelined_msgs ≠ v) :
    (∀ io_disp ∈ live_io_dispatchers (pool_set_property pool (.MAX_PIPELINED_MSGS v)) ++
        (pool_set_property pool (.MAX_PIPELINED_MSGS v)).idle_io_dispatchers,
      io_disp.is_pipelining_supported = true →
        soup_io_dispatcher_get_max_pipelined_requests io_disp = v) ∧
    (∀ io_disp ∈ live_io_dispatchers (pool_set_property pool (.MAX_PIPELINED_MSGS v)) ++
        (pool_set_property pool (.MAX_PIPELINED_MSGS v)).idle_io_dispatchers,
      io_disp.is_pipelining_supported = false →
        io_disp ∈ live_io_dispatchers pool ++ pool.idle_io_dispatchers) := by
  have hv : v ≤ SOUP_MAX_PIPELINED_REQ_CONSTRAINT := by
    simp [PoolSetting.valid, SOUP_IO_DISPATCHER_POOL_MAX_PIPELINED_MSGS_CONSTRAINT] at hvalid
    exact hvalid.2
  have hlive : live_io_dispatchers (pool_set_property pool (.MAX_PIPELINED_MSGS v)) =
      (live_io_dispatchers pool).map
        (fun d => soup_io_dispatcher_set_max_pipelined_requests d v) := by
    simp only [pool_set_property, beq_iff_eq, hnew, if_false, iterate_over_dispatchers]
    exact live_map_host_infos { pool with max_pipelined_msgs := v }
      (fun d => soup_io_dispatcher_set_max_pipelined_requests d v)
  have hidle : (pool_set_property pool (.MAX_PIPELINED_MSGS v)).idle_io_dispatchers =
      pool.idle_io_dispatchers.map
        (fun d => soup_io_dispatcher_set_max_pipelined_requests d v) := by
    simp [pool_set_property, hnew, iterate_over_dispatchers, map_host_infos]
  rw [hlive, hidle, ← List.map_append]
  refine ⟨?_, ?_⟩
  · intro io_disp hmem hs
    obtain ⟨d, hd, rfl⟩ := List.mem_map.mp hmem
    obtain ⟨h1, h2, _⟩ := set_max_pipelined_requests_supported d v hv
    exact h2 (h1 ▸ hs)
  · intro io_disp hmem hs
    obtain ⟨d, hd, rfl⟩ := List.mem_map.mp hmem
    obtain ⟨h1, _, h3⟩ := set_max_pipelined_requests_supported d v hv
    rw [h3 (h1 ▸ hs)]
    exact hd

/-- Witness for C10 as amended, on `sample_pool` and the new value 8. -/
theorem max_pipelined_msgs_propagation_witness :
    (PoolSetting.MAX_PIPELINED_MSGS 8).valid = true ∧ sample_pool.max_pipelined_msgs ≠ 8 ∧
    (∀ io_disp ∈ live_io_dispatchers (pool_set_property sample_pool (.MAX_PIPELINED_MSGS 8)) ++
        (pool_set_property sample_pool (.MAX_PIPELINED_MSGS 8)).idle_io_dispatchers,
      io_disp.is_pipelining_supported = true →
        soup_io_dispatcher_get_max_pipelined_requests io_disp = 8) :=
  ⟨by decide, by decide,
    (max_pipelined_msgs_propagation sample_pool 8 (by decide) (by decide)).1⟩

/-- Counterexample to C10 as stated.  In `sample_pool_close` the only live dispatcher has had
its pipelining flag cleared by `get_io_dispatcher`; after the pool's `max_pipelined_msgs` is
changed from 4 to 8 its `max_pipelined_requests` is still 4. -/
theorem max_pipelined_msgs_not_propagated :
    (PoolSetting.MAX_PIPELINED_MSGS 8).valid = true ∧
    sample_pool_close.max_pipelined_msgs = 4 ∧
    (pool_set_property sample_pool_close (.MAX_PIPELINED_MSGS 8)).max_pipelined_msgs = 8 ∧
    (live_io_dispatchers (pool_set_property sample_pool_close (.MAX_PIPELINED_MSGS 8))).map
      soup_io_dispatcher_get_max_pipelined_requests = [4] ∧
    ¬ (∀ io_disp ∈ live_io_dispatchers
          (pool_set_property sample_pool_close (.MAX_PIPELINED_MSGS 8)) ++
          (pool_set_property sample_pool_close (.MAX_PIPELINED_MSGS 8)).idle_io_dispatchers,
        soup_io_dispatcher_get_max_pipelined_requests io_disp = 8) := by
  refine ⟨by decide, by decide, by decide, by decide, ?_⟩
  decide

/-! ## Sticky pipelining disable -/

theorem sticky_refl (pool : SoupIODispatcherPool) : Sticky pool pool := fun _ _ h => h

theorem sticky_trans {p q r : SoupIODispatcherPool} (h1 : Sticky p q) (h2 : Sticky q r) :
    Sticky p r := fun host port h => h2 host port (h1 host port h)

theorem sticky_of_hosts_eq {p q : SoupIODispatcherPool}
    (h : q.hosts_io_dispatchers = p.hosts_io_dispatchers) : Sticky p q := by
  intro host port hd
  unfold PipeliningDisabled lookup_host_info at *
  rw [h]
  exact hd

theorem sticky_store (pool : SoupIODispatcherPool) (host : String) (port : Nat)
    (host_info : HostInfo)
    (h : ∀ old, lookup_host_info pool host port = some old →
      old.supports_http_pipelining = false → host_info.supports_http_pipelining = false) :
    Sticky pool (store_host_info pool host port host_info) := by
  intro host' port' hd
  unfold PipeliningDisabled at *
  rw [lookup_store_host_info]
  by_cases hc : host = host' ∧ port = port' ∧ (lookup_host_info pool host port).isSome
  · rw [if_pos hc]
    obtain ⟨rfl, rfl, hs⟩ := hc
    obtain ⟨old, hold⟩ := Option.isSome_iff_exists.mp hs
    rw [hold] at hd
    simp only [Option.map_some', Option.some.injEq] at hd ⊢
    exact h old hold hd
  · rw [if_neg hc]
    exact hd

theorem sticky_get_host_info (pool : SoupIODispatcherPool) (host : String) (port : Nat) :
    Sticky pool (get_host_info pool host port).1 := by
  intro host' port' hd
  unfold PipeliningDisabled at *
  obtain ⟨h1, h2⟩ := lookup_get_host_info pool host host' port port'
  rw [h2]
  by_cases hc : host = host' ∧ port = port'
  · rw [if_pos hc]
    obtain ⟨rfl, rfl⟩ := hc
    rw [h1]
    cases hl : lookup_host_info pool host port with
    | none => rw [hl] at hd; simp at hd
    | some old => rw [hl] at hd; simpa using hd
  · rw [if_neg hc]
    exact hd

theorem sticky_map_host_infos (pool : SoupIODispatcherPool) (f : HostInfo → HostInfo)
    (hf : ∀ r, (f r).supports_http_pipelining = r.supports_http_pipelining) :
    Sticky pool (map_host_infos pool f) := by
  intro host port hd
  unfold PipeliningDisabled at *
  rw [lookup_map_host_infos]
  cases hl : lookup_host_info pool host port with
  | none => rw [hl] at hd; simp at hd
  | some old =>
    rw [hl] at hd
    simp only [Option.map_some', Option.some.injEq] at hd ⊢
    rw [hf]
    exact hd

theorem sticky_of_lookup_map (p q : SoupIODispatcherPool) (g : HostInfo → HostInfo)
    (hg : ∀ r, (g r).supports_http_pipelining = r.supports_http_pipelining)
    (h : ∀ host port, lookup_host_info q host port = (lookup_host_info p host port).map g) :
    Sticky p q := by
  intro host port hd
  unfold PipeliningDisabled at *
  rw [h]
  cases hl : lookup_host_info p host port with
  | none => rw [hl] at hd; simp at hd
  | some old =>
    rw [hl] at hd
    simp only [Option.map_some', Option.some.injEq] at hd ⊢
    rw [hg]
    exact hd

theorem sticky_update_io_dispatcher (pool : SoupIODispatcherPool) (id : Nat)
    (f : SoupIODispatcher → SoupIODispatcher) : Sticky pool (update_io_dispatcher pool id f) :=
  sticky_of_lookup_map pool _
    (map_io_dispatchers (fun io_disp => if io_disp.id = id then f io_disp else io_disp))
    (fun _ => rfl) (fun host port => lookup_map_host_infos pool _ host port)

theorem get_host_info_snd_lookup (pool : SoupIODispatcherPool) (host : String) (port : Nat) :
    lookup_host_info (get_host_info pool host port).1 host port =
      some (get_host_info pool host port).2 := by
  have := (lookup_get_host_info pool host host port port).2
  simpa using this

theorem sticky_pipelining_is_not_supported (pool pool' : SoupIODispatcherPool) (host : String)
    (port index : Nat) (h : pipelining_is_not_supported pool host port index = some pool') :
    Sticky pool pool' := by
  unfold pipelining_is_not_supported at h
  split at h
  · cases h; exact sticky_refl _
  · split at h
    · cases h; exact sticky_refl _
    · rename_i io_disp _
      split at h
      · split at h
        · cases h
        · rename_i uri _
          have s1 := sticky_get_host_info pool uri.host uri.port
          have s2 := sticky_store (get_host_info pool uri.host uri.port).1 uri.host uri.port
            { (get_host_info pool uri.host uri.port).2 with supports_http_pipelining := false }
            (fun _ _ _ => rfl)
          simp only [] at h
          split at h
          · cases h
            exact sticky_trans s1 s2
          · rename_i record2 hrec2
            cases h
            refine sticky_trans s1 (sticky_trans s2 (sticky_store _ host port _ ?_))
            intro old hold hf
            rw [hrec2] at hold
            cases hold
            exact hf
      · cases h; exact sticky_refl _

theorem sticky_get_io_dispatcher (pool pool' : SoupIODispatcherPool) (msg : SoupMessage)
    (via_https via_proxy : Bool) (result : Option DispRef)
    (h : get_io_dispatcher pool msg via_https via_proxy = some (result, pool')) :
    Sticky pool pool' := by
  have s1 := sticky_get_host_info pool msg.uri.host msg.uri.port
  have hl := get_host_info_snd_lookup pool msg.uri.host msg.uri.port
  unfold get_io_dispatcher at h
  simp only [] at h
  split at h
  · cases h; exact s1
  · split at h
    · cases h; exact s1
    · split at h
      · cases h; exact s1
      · split at h
        · cases h; exact s1
        · have s2 : ∀ l, Sticky (get_host_info pool msg.uri.host msg.uri.port).1
              (store_host_info (get_host_info pool msg.uri.host msg.uri.port).1 msg.uri.host
                msg.uri.port
                { (get_host_info pool msg.uri.host msg.uri.port).2 with io_dispatchers := l }) := by
            intro l
            apply sticky_store
            intro old hold hf
            rw [hl] at hold
            cases hold
            exact hf
          split at h
          · split at h
            · cases h
            · rename_i pool3 hp3
              cases h
              exact sticky_trans s1 (sticky_trans (s2 _)
                (sticky_pipelining_is_not_supported _ _ _ _ _ hp3))
          · cases h
            exact sticky_trans s1 (s2 _)

theorem sticky_pool_set_property (pool : SoupIODispatcherPool) (setting : PoolSetting) :
    Sticky pool (pool_set_property pool setting) := by
  cases setting with
  | MAX_PIPELINED_MSGS v =>
    simp only [pool_set_property]
    split
    · exact sticky_refl _
    · exact sticky_of_lookup_map pool _
        (map_io_dispatchers (fun io_disp => soup_io_dispatcher_set_max_pipelined_requests io_disp v))
        (fun _ => rfl)
        (fun host port => lookup_map_host_infos { pool with max_pipelined_msgs := v } _ host port)
  | RESPONSE_BLOCK_SIZE v =>
    simp only [pool_set_property]
    split
    · exact sticky_refl _
    · exact sticky_of_lookup_map pool _
        (map_io_dispatchers (fun io_disp => soup_io_dispatcher_set_response_block_size io_disp v))
        (fun _ => rfl)
        (fun host port => lookup_map_host_infos { pool with response_block_size := v } _ host port)
  | _ => exact fun _ _ h => h

theorem sticky_alloc (pool : SoupIODispatcherPool) (uri : SoupURI) (async_context : Option Nat)
    (conn : Nat) (via_proxy : Bool) :
    Sticky pool
      (soup_io_dispatcher_pool_alloc_io_dispatcher pool uri async_context conn via_proxy).2 := by
  have s1 := sticky_get_host_info pool uri.host uri.port
  have hl := get_host_info_snd_lookup pool uri.host uri.port
  unfold soup_io_dispatcher_pool_alloc_io_dispatcher
  simp only []
  have key : ∀ (q : SoupIODispatcherPool) (l : List SoupIODispatcher),
      q.hosts_io_dispatchers = (get_host_info pool uri.host uri.port).1.hosts_io_dispatchers →
      Sticky pool (store_host_info q uri.host uri.port
        { (get_host_info pool uri.host uri.port).2 with io_dispatchers := l }) := by
    intro q l hq
    refine sticky_trans s1 (sticky_trans (sticky_of_hosts_eq hq) (sticky_store _ _ _ _ ?_))
    intro old hold hf
    have : lookup_host_info q uri.host uri.port =
        lookup_host_info (get_host_info pool uri.host uri.port).1 uri.host uri.port := by
      unfold lookup_host_info
      rw [hq]
    rw [this, hl] at hold
    cases hold
    exact hf
  split <;> exact key _ _ rfl

theorem sticky_connection_disconnected (pool pool' : SoupIODispatcherPool) (io_disp : Nat)
    (h : connection_disconnected pool io_disp = some pool') : Sticky pool pool' := by
  unfold connection_disconnected at h
  split at h
  · cases h
  · split at h
    · cases h
    · split at h
      · cases h
      · rename_i host_info hhi
        cases h
        refine sticky_trans (sticky_store pool _ _ _ ?_)
          (sticky_trans (sticky_of_hosts_eq rfl) (sticky_update_io_dispatcher _ _ _))
        intro old hold hf
        rw [hhi] at hold
        cases hold
        exact hf

theorem sticky_pool_step (pool pool' : SoupIODispatcherPool) (op : PoolOp)
    (h : pool_step pool op = some pool') : Sticky pool pool' := by
  cases op with
  | get_io_dispatcher msg via_https via_proxy =>
    simp only [pool_step, Option.map_eq_some'] at h
    obtain ⟨⟨result, q⟩, hq, rfl⟩ := h
    exact sticky_get_io_dispatcher pool q msg via_https via_proxy result hq
  | alloc_io_dispatcher uri async_context conn via_proxy =>
    simp only [pool_step, Option.some.injEq] at h
    subst h
    exact sticky_alloc pool uri async_context conn via_proxy
  | set_property setting =>
    simp only [pool_step] at h
    split at h
    · cases h; exact sticky_pool_set_property pool setting
    · cases h
  | enable_spdy_support host version =>
    simp only [pool_step, soup_io_dispatcher_pool_enable_spdy_support] at h
    split at h
    · cases h; exact sticky_refl _
    · cases h
  | set_max_pipelined_msgs_for_host host max_queue_length =>
    simp only [pool_step, soup_io_dispatcher_pool_set_max_pipelined_msgs_for_host] at h
    split at h
    · cases h; exact sticky_refl _
    · cases h
  | connection_established io_disp socket =>
    simp only [pool_step, Option.some.injEq] at h
    subst h
    exact sticky_update_io_dispatcher _ _ _
  | connection_disconnected io_disp =>
    exact sticky_connection_disconnected pool pool' io_disp h
  | pipelining_notify host port index =>
    exact sticky_pipelining_is_not_supported pool pool' host port index h
  | io_dispatcher_activity io_disp f =>
    simp only [pool_step, Option.some.injEq] at h
    subst h
    exact sticky_update_io_dispatcher _ _ _

theorem sticky_pool_run (ops : List PoolOp) :
    ∀ (pool pool' : SoupIODispatcherPool), pool_run pool ops = some pool' →
      Sticky pool pool' := by
  induction ops with
  | nil =>
    intro pool pool' h
    simp only [pool_run, Option.some.injEq] at h
    subst h
    exact sticky_refl _
  | cons op ops ih =>
    intro pool pool' h
    simp only [pool_run] at h
    split at h
    · cases h
    · rename_i pool1 h1
      exact sticky_trans (sticky_pool_step pool pool1 op h1) (ih pool1 pool' h)

/-- C8.  `get_host_info` creates a Host Record with `supports_http_pipelining` set, and a
Host Record whose flag is cleared keeps it cleared through every sequence of pool
operations. -/
theorem supports_pipelining_sticky (pool pool' : SoupIODispatcherPool) (host : String)
    (port : Nat) (ops : List PoolOp)
    (hrun : pool_run pool ops = some pool') :
    (lookup_host_info pool host port = none →
      (get_host_info pool host port).2.supports_http_pipelining = true ∧
      lookup_host_info (get_host_info pool host port).1 host port =
        some (get_host_info pool host port).2) ∧
    (PipeliningDisabled pool host port → PipeliningDisabled pool' host port) := by
  refine ⟨?_, sticky_pool_run ops pool pool' hrun host port⟩
  intro hnone
  refine ⟨?_, get_host_info_snd_lookup pool host port⟩
  rw [(lookup_get_host_info pool host host port port).1, hnone]
  rfl

/-- Witness for C8: the Host Record of `sample_pool_close` has its flag cleared, `sample_ops`
runs to the end, and the flag is still cleared. -/
theorem supports_pipelining_sticky_witness :
    PipeliningDisabled sample_pool_close "example.com" 80 ∧
    ∃ pool', pool_run sample_pool_close sample_ops = some pool' ∧
      PipeliningDisabled pool' "example.com" 80 := by
  have h1 : PipeliningDisabled sample_pool_close "example.com" 80 := by
    unfold PipeliningDisabled
    decide
  have hs : (pool_run sample_pool_close sample_ops).isSome = true := by decide
  obtain ⟨pool', hp⟩ := Option.isSome_iff_exists.mp hs
  exact ⟨h1, pool', hp,
    (supports_pipelining_sticky sample_pool_close pool' "example.com" 80 sample_ops hp).2 h1⟩

/-! ## Queue length, fullness and the pipelining flag -/

/-- C12, as amended.  For `max_pipelined_requests ≥ 1`, `soup_io_dispatcher_is_queue_full`
is true exactly when `soup_io_dispatcher_get_queue_length` has reached
`max_pipelined_requests` (so it is true when they are equal and false when the length is
smaller); with `max_pipelined_requests = 0` it is false whatever the length. -/
theorem is_queue_full_spec (io_disp : SoupIODispatcher) :
    (io_disp.max_pipelined_requests ≠ 0 →
      (soup_io_dispatcher_is_queue_full io_disp = true ↔
        io_disp.max_pipelined_requests ≤ soup_io_dispatcher_get_queue_length io_disp)) ∧
    (io_disp.max_pipelined_requests = 0 → soup_io_dispatcher_is_queue_full io_disp = false) := by
  unfold soup_io_dispatcher_is_queue_full
  refine ⟨fun h => ?_, fun h => ?_⟩
  · simp [h]
  · simp [h]

/-- Witness for C12 as amended: `sample_io_disp_one_item` has `max_pipelined_requests = 1`
and one outstanding item, and is full. -/
theorem is_queue_full_spec_witness :
    sample_io_disp_one_item.max_pipelined_requests ≠ 0 ∧
    soup_io_dispatcher_get_queue_length sample_io_disp_one_item = 1 ∧
    soup_io_dispatcher_is_queue_full sample_io_disp_one_item = true :=
  ⟨by decide, by decide,
    ((is_queue_full_spec sample_io_disp_one_item).1 (by decide)).mpr (by decide)⟩

/-- Counterexample to C12 as stated: a client dispatcher with `max_pipelined_requests = 0`
and no outstanding item has a queue length equal to `max_pipelined_requests`, and is not
full. -/
theorem is_queue_full_zero_limit :
    soup_io_dispatcher_get_queue_length
      (soup_io_dispatcher_set_max_pipelined_requests (soup_io_dispatcher_init 0) 0) =
      (soup_io_dispatcher_set_max_pipelined_requests (soup_io_dispatcher_init 0) 0).max_pipelined_requests ∧
    soup_io_dispatcher_is_queue_full
      (soup_io_dispatcher_set_max_pipelined_requests (soup_io_dispatcher_init 0) 0) = false := by
  decide

/-- C23, refuted on the code.  `soup_io_dispatcher_set_pipelining_support (d, FALSE)` on a
dispatcher whose flag is set clears the flag and leaves `max_pipelined_requests` as it was:
the nested `soup_io_dispatcher_set_max_pipelined_requests (d, 1)` runs after the flag is
cleared and is refused by its own guard. -/
theorem set_pipelining_support_keeps_max (io_disp : SoupIODispatcher) :
    io_disp.is_pipelining_supported = true →
      (soup_io_dispatcher_set_pipelining_support io_disp false).is_pipelining_supported = false ∧
      (soup_io_dispatcher_set_pipelining_support io_disp false).max_pipelined_requests =
        io_disp.max_pipelined_requests := by
  intro h
  simp [soup_io_dispatcher_set_pipelining_support, set_pipelining_support_changes, h,
    soup_io_dispatcher_set_max_pipelined_requests, emit]

/-- The failing input of C23: dispatcher 1 of `sample_pool` has its flag set and
`max_pipelined_requests = 4`; after the flag is cleared the limit is still 4, not 1. -/
theorem set_pipelining_support_keeps_max_witness :
    (((lookup_host_info sample_pool "example.com" 80).map (fun r => r.io_dispatchers)).getD
        [])[1]?.map (fun d =>
      (d.is_pipelining_supported, d.max_pipelined_requests,
        (soup_io_dispatcher_set_pipelining_support d false).is_pipelining_supported,
        (soup_io_dispatcher_set_pipelining_support d false).max_pipelined_requests)) =
      some (true, 4, false, 4) ∧
    (soup_io_dispatcher_set_pipelining_support sample_io_disp false).max_pipelined_requests =
      sample_io_disp.max_pipelined_requests :=
  ⟨by decide, (set_pipelining_support_keeps_max sample_io_disp (by decide)).2⟩

/-- C11, refuted on the code.  `sample_io_disp_one_item` has one item in its read and write
queues; `soup_io_dispatcher_set_socket (io_disp, NULL)` calls `reset`, which zeroes the length
counters, before the queues are drained, so the two decrements of the drain wrap around:
afterwards all four queues are empty and `soup_io_dispatcher_is_queue_empty` is false. -/
theorem is_queue_empty_after_rebinding :
    sample_io_disp_one_item.read_io_queue = [0] ∧
    sample_io_disp_one_item.write_io_queue = [0] ∧
    soup_io_dispatcher_get_queue_length sample_io_disp_one_item = 1 ∧
    (soup_io_dispatcher_set_socket sample_io_disp_one_item none).read_io_queue = [] ∧
    (soup_io_dispatcher_set_socket sample_io_disp_one_item none).write_io_queue = [] ∧
    (soup_io_dispatcher_set_socket sample_io_disp_one_item none).paused_io_queue = [] ∧
    (soup_io_dispatcher_set_socket sample_io_disp_one_item none).input_msg_queue = [] ∧
    (soup_io_dispatcher_set_socket sample_io_disp_one_item none).read_io_queue_length =
      4294967295 ∧
    soup_io_dispatcher_get_queue_length
      (soup_io_dispatcher_set_socket sample_io_disp_one_item none) = 4294967295 ∧
    soup_io_dispatcher_is_queue_empty
      (soup_io_dispatcher_set_socket sample_io_disp_one_item none) = false := by
  decide

/-- C30, refuted on the code.  `sample_io_disp` is idle with its timer armed;
`soup_io_dispatcher_queue_message` raises the queue length to 1 without calling
`properties_changed`, so the timer stays armed while the queue is not empty. -/
theorem idle_timer_armed_with_queued_message :
    sample_io_disp.idle_timeout_src = true ∧
    soup_io_dispatcher_get_queue_length sample_io_disp = 0 ∧
    (soup_io_dispatcher_queue_message sample_io_disp 7).idle_timeout_src = true ∧
    soup_io_dispatcher_get_queue_length (soup_io_dispatcher_queue_message sample_io_disp 7) = 1 := by
  decide

/-! ## Per-host functions of the pool -/

theorem set_max_pipelined_msgs_for_host_rounds_spec (pool : SoupIODispatcherPool)
    (host : String) (max_queue_length : Int) (rounds : Nat) :
    set_max_pipelined_msgs_for_host_rounds pool host max_queue_length (rounds + 1) =
      soup_io_dispatcher_pool_set_max_pipelined_msgs_for_host pool host max_queue_length := by
  induction rounds with
  | zero =>
    unfold set_max_pipelined_msgs_for_host_rounds
      soup_io_dispatcher_pool_set_max_pipelined_msgs_for_host
    split <;> simp [set_max_pipelined_msgs_for_host_rounds]
  | succ n ih =>
    unfold set_max_pipelined_msgs_for_host_rounds
    split
    · rename_i h
      simp [soup_io_dispatcher_pool_set_max_pipelined_msgs_for_host, h]
    · exact ih

/-- C25, refuted on the code.  `sample_pool` has an entry for `example.com`: the loop of
`soup_io_dispatcher_pool_set_max_pipelined_msgs_for_host` is still running after any number
of rounds, so the function does not return. -/
theorem set_max_pipelined_msgs_for_host_diverges (rounds : Nat) :
    (g_hash_table_lookup sample_pool.hosts_io_dispatchers "example.com").isSome = true ∧
    set_max_pipelined_msgs_for_host_rounds sample_pool "example.com" 8 rounds = none := by
  refine ⟨by decide, ?_⟩
  cases rounds with
  | zero => rfl
  | succ n =>
    rw [set_max_pipelined_msgs_for_host_rounds_spec]
    decide

theorem set_pipelining_support_false_fields (io_disp : SoupIODispatcher)
    (h : io_disp.is_pipelining_supported = true) :
    set_pipelining_support_changes io_disp false = true ∧
    (soup_io_dispatcher_set_pipelining_support io_disp false).is_pipelining_supported = false ∧
    (soup_io_dispatcher_set_pipelining_support io_disp false).host = io_disp.host ∧
    (soup_io_dispatcher_set_pipelining_support io_disp false).pool_notify_handlers =
      io_disp.pool_notify_handlers := by
  simp [soup_io_dispatcher_set_pipelining_support, set_pipelining_support_changes, h,
    soup_io_dispatcher_set_max_pipelined_requests, emit]

/-- C24.  When `get_io_dispatcher` selects, with `dont_use_http_pipelining` true, a
dispatcher of the request's origin whose pipelining flag is set and to which the pool's
`notify::is-pipelining-supported` handler is connected, the Host Record's
`supports_http_pipelining` is cleared on return, and after any further pool operations every
selection for that host and port computes `dont_use_http_pipelining = true`. -/
theorem per_request_decision_leaks (pool pool' : SoupIODispatcherPool) (msg : SoupMessage)
    (via_https via_proxy : Bool) (index : Nat) (io_disp : SoupIODispatcher)
    (h : get_io_dispatcher pool msg via_https via_proxy = some (some (DispRef.live index), pool'))
    (hdont : dont_use_http_pipelining pool (get_host_info pool msg.uri.host msg.uri.port).2 msg
      via_https via_proxy = true)
    (hd : (get_host_info pool msg.uri.host msg.uri.port).2.io_dispatchers[index]? = some io_disp)
    (hflag : io_disp.is_pipelining_supported = true)
    (hhandler : 0 < io_disp.pool_notify_handlers)
    (hhost : io_disp.host = some msg.uri) :
    PipeliningDisabled pool' msg.uri.host msg.uri.port ∧
    ∀ (ops : List PoolOp) (later : SoupIODispatcherPool) (msg' : SoupMessage)
      (via_https' via_proxy' : Bool),
      pool_run pool' ops = some later → msg'.uri.host = msg.uri.host →
      msg'.uri.port = msg.uri.port →
      dont_use_http_pipelining later (get_host_info later msg'.uri.host msg'.uri.port).2 msg'
        via_https' via_proxy' = true := by
  have hdis : PipeliningDisabled pool' msg.uri.host msg.uri.port := by
    obtain ⟨hf1, hf2, hf3, hf4, hf5, _, _⟩ := get_host_info_flags pool msg.uri.host msg.uri.port
    have hl := get_host_info_snd_lookup pool msg.uri.host msg.uri.port
    have hdont1 : dont_use_http_pipelining (get_host_info pool msg.uri.host msg.uri.port).1
        (get_host_info pool msg.uri.host msg.uri.port).2 msg via_https via_proxy = true := by
      rw [← hdont]
      simp [dont_use_http_pipelining, hf4, hf5]
    have hspdy : (get_host_info pool msg.uri.host msg.uri.port).2.spdy_supported_version = 0 := by
      by_contra hne
      unfold get_io_dispatcher at h
      simp [hne] at h
    unfold get_io_dispatcher at h
    simp only [hspdy, bne_self_eq_false, Bool.false_eq_true, if_false, hdont1, Bool.not_true] at h
    split at h
    · cases h
    · split at h
      · cases h
      · rename_i index' hscan
        split at h
        · cases h
        · rename_i io_disp' hd'
          split at h
          · rename_i hcond
            split at h
            · cases h
            · rename_i pool3 hp3
              simp only [Option.some.injEq, Prod.mk.injEq, DispRef.live.injEq] at h
              obtain ⟨hidx, hpool⟩ := h
              subst hidx hpool
              rw [hd] at hd'
              cases hd'
              obtain ⟨_, hf, hh, hn⟩ := set_pipelining_support_false_fields io_disp hflag
              -- the record after the dispatcher has been written back
              have hlen : index' < (get_host_info pool msg.uri.host msg.uri.port).2.io_dispatchers.length := by
                by_contra hcon
                rw [List.getElem?_eq_none (by omega)] at hd
                cases hd
              have hst : ∀ (q : SoupIODispatcherPool) (r r0 : HostInfo),
                  lookup_host_info q msg.uri.host msg.uri.port = some r0 →
                  lookup_host_info (store_host_info q msg.uri.host msg.uri.port r) msg.uri.host
                    msg.uri.port = some r := by
                intro q r r0 hq
                rw [lookup_store_host_info, hq]
                simp
              unfold pipelining_is_not_supported at hp3
              rw [hst _ _ _ hl] at hp3
              simp only [List.getElem?_set_self hlen, soup_io_dispatcher_is_pipelining_supported,
                hf, Bool.not_false, if_true, hh, hhost] at hp3
              rw [get_host_info_of_lookup _ _ _ _ (hst _ _ _ hl)] at hp3
              simp only [] at hp3
              rw [hst _ _ _ (hst _ _ _ hl)] at hp3
              simp only [Option.some.injEq] at hp3
              subst hp3
              unfold PipeliningDisabled
              rw [hst _ _ _ (hst _ _ _ (hst _ _ _ hl))]
              rfl
          · rename_i hcond
            exfalso
            simp only [Option.some.injEq, Prod.mk.injEq, DispRef.live.injEq] at h
            obtain ⟨hidx, _⟩ := h
            subst hidx
            rw [hd] at hd'
            cases hd'
            apply hcond
            obtain ⟨hc, _, _, hn⟩ := set_pipelining_support_false_fields io_disp hflag
            simp [hc, hn, hhandler]
  refine ⟨hdis, ?_⟩
  intro ops later msg' via_https' via_proxy' hrun hh hp
  have hlater := sticky_pool_run ops pool' later hrun msg.uri.host msg.uri.port hdis
  unfold PipeliningDisabled at hlater
  rw [hh, hp]
  cases hrec : lookup_host_info later msg.uri.host msg.uri.port with
  | none => rw [hrec] at hlater; simp at hlater
  | some record =>
    rw [hrec] at hlater
    simp only [Option.map_some', Option.some.injEq] at hlater
    rw [get_host_info_of_lookup _ _ _ _ hrec]
    simp [dont_use_http_pipelining, hlater]

/-- Witness for C24: in `sample_pool_connected` the request `sample_msg_close` selects the
only dispatcher; the Host Record is then marked, and a later plain request for the same
origin computes `dont_use_http_pipelining = true`. -/
theorem per_request_decision_leaks_witness :
    ∃ pool', get_io_dispatcher sample_pool_connected sample_msg_close false false =
        some (some (DispRef.live 0), pool') ∧
      PipeliningDisabled pool' "example.com" 80 ∧
      dont_use_http_pipelining pool' (get_host_info pool' "example.com" 80).2 (sample_msg 2)
        false false = true := by
  have h1 : (get_io_dispatcher sample_pool_connected sample_msg_close false false).map Prod.fst =
      some (some (DispRef.live 0)) := by decide
  obtain ⟨⟨r, pool'⟩, hp, hr⟩ := Option.map_eq_some'.mp h1
  simp only at hr
  subst hr
  have hflags : ((get_host_info sample_pool_connected sample_msg_close.uri.host
      sample_msg_close.uri.port).2.io_dispatchers[0]?).map
      (fun d => (d.is_pipelining_supported, decide (0 < d.pool_notify_handlers), d.host)) =
      some (true, true, some sample_msg_close.uri) := by decide
  cases hd : (get_host_info sample_pool_connected sample_msg_close.uri.host
      sample_msg_close.uri.port).2.io_dispatchers[0]? with
  | none => rw [hd] at hflags; cases hflags
  | some io_disp =>
    rw [hd] at hflags
    simp only [Option.map_some', Option.some.injEq, Prod.mk.injEq, decide_eq_true_eq] at hflags
    obtain ⟨hdis, hlater⟩ := per_request_decision_leaks sample_pool_connected pool'
      sample_msg_close false false 0 io_disp hp (by decide) hd hflags.1 hflags.2.1 hflags.2.2
    exact ⟨pool', hp, hdis, hlater [] pool' (sample_msg 2) false false rfl rfl rfl⟩

/-! ## Idle reclamation -/

theorem same_set_socket_drain (d : SoupIODispatcher) (socket : Option Nat) :
    SameSettings d (set_socket_drain d socket) := by
  unfold set_socket_drain
  simp only []
  split
  · exact same_settings_trans (same_drain_queue .read _ d)
      (same_settings_trans (same_drain_queue .write _ _) (same_drain_queue .paused _ _))
  · exact same_settings_trans (same_drain_queue .read _ d) (same_drain_queue .write _ _)

theorem set_socket_unbind_id (d : SoupIODispatcher) :
    (set_socket_unbind d).id = d.id ∧ (set_socket_unbind d).host = d.host := by
  unfold set_socket_unbind reset stop_idle_timer
  split
  · split <;> exact ⟨rfl, rfl⟩
  · exact ⟨rfl, rfl⟩

theorem set_socket_bind_fields (d : SoupIODispatcher) :
    (set_socket_bind d).id = d.id ∧ (set_socket_bind d).socket = d.socket ∧
    (set_socket_bind d).host = d.host := by
  unfold set_socket_bind emit
  split
  · exact ⟨(same_start_idle_timer d).1, (same_start_idle_timer d).2.2.1,
      (same_start_idle_timer d).2.1⟩
  · exact ⟨rfl, rfl, rfl⟩

theorem set_socket_fields (d : SoupIODispatcher) (socket : Option Nat) :
    (soup_io_dispatcher_set_socket d socket).id = d.id ∧
    (soup_io_dispatcher_set_socket d socket).socket = socket ∧
    (soup_io_dispatcher_set_socket d socket).host = d.host := by
  unfold soup_io_dispatcher_set_socket
  split
  · obtain ⟨b1, b2, b3⟩ := set_socket_bind_fields
      (set_socket_drain { set_socket_unbind d with socket := socket } socket)
    obtain ⟨s1, s2, s3, _⟩ := same_set_socket_drain
      { set_socket_unbind d with socket := socket } socket
    obtain ⟨u1, u2⟩ := set_socket_unbind_id d
    refine ⟨?_, ?_, ?_⟩
    · rw [b1, s1]; exact u1
    · rw [b2, s3]
    · rw [b3, s2]; exact u2
  · rename_i hc
    simp only [Bool.or_eq_true, Option.isNone_iff_eq_none, bne_iff_ne, ne_eq, not_or,
      Decidable.not_not] at hc
    exact ⟨rfl, hc.2, rfl⟩

theorem table_split {κ α β : Type} [DecidableEq κ] (c : α → List β) (table : List (κ × α))
    (key : κ) (v : α) (h : g_hash_table_lookup table key = some v) :
    ∃ A B, (table.map (fun e => c e.2)).flatten = A ++ c v ++ B ∧
      ∀ v', ((g_hash_table_insert table key v').map (fun e => c e.2)).flatten =
        A ++ c v' ++ B := by
  induction table with
  | nil => simp [g_hash_table_lookup] at h
  | cons entry rest ih =>
    obtain ⟨k, w⟩ := entry
    simp only [g_hash_table_lookup] at h
    by_cases hk : k = key
    · simp only [hk, if_true, Option.some.injEq] at h
      subst h
      refine ⟨[], (rest.map (fun e => c e.2)).flatten, by simp, ?_⟩
      intro v'
      simp [g_hash_table_insert, hk]
    · simp only [hk, if_false] at h
      obtain ⟨A, B, h1, h2⟩ := ih h
      refine ⟨c w ++ A, B, ?_, ?_⟩
      · simp only [List.map_cons, List.flatten_cons, h1, List.append_assoc]
      · intro v'
        simp only [g_hash_table_insert, hk, if_false, List.map_cons, List.flatten_cons, h2 v',
          List.append_assoc]

theorem live_store_split (pool : SoupIODispatcherPool) (host : String) (port : Nat)
    (host_info : HostInfo) (h : lookup_host_info pool host port = some host_info) :
    ∃ A B, live_io_dispatchers pool = A ++ host_info.io_dispatchers ++ B ∧
      ∀ r : HostInfo, live_io_dispatchers (store_host_info pool host port r) =
        A ++ r.io_dispatchers ++ B := by
  unfold lookup_host_info at h
  cases h1 : g_hash_table_lookup pool.hosts_io_dispatchers host with
  | none => rw [h1] at h; cases h
  | some hosts =>
    rw [h1] at h
    simp only [] at h
    obtain ⟨A1, B1, ho1, ho2⟩ := table_split
      (fun (ports : List (Nat × HostInfo)) =>
        (ports.map (fun port_entry => port_entry.2.io_dispatchers)).flatten)
      pool.hosts_io_dispatchers host hosts h1
    obtain ⟨A2, B2, hi1, hi2⟩ := table_split (fun (r : HostInfo) => r.io_dispatchers) hosts port
      host_info h
    refine ⟨A1 ++ A2, B2 ++ B1, ?_, ?_⟩
    · unfold live_io_dispatchers
      rw [ho1]
      simp only [hi1, List.append_assoc]
    · intro r
      unfold live_io_dispatchers store_host_info
      simp only [h1, h]
      rw [ho2]
      simp only [hi2 r, List.append_assoc]

theorem live_update_io_dispatcher (pool : SoupIODispatcherPool) (id : Nat)
    (f : SoupIODispatcher → SoupIODispatcher) :
    live_io_dispatchers (update_io_dispatcher pool id f) =
      (live_io_dispatchers pool).map (fun d => if d.id = id then f d else d) ∧
    (update_io_dispatcher pool id f).idle_io_dispatchers =
      pool.idle_io_dispatchers.map (fun d => if d.id = id then f d else d) := by
  refine ⟨?_, ?_⟩
  · exact live_map_host_infos pool _
  · rfl

theorem g_queue_remove_spec (queue : List SoupIODispatcher) (id : Nat)
    (hnodup : (queue.map (fun d => d.id)).Nodup) :
    ∀ d ∈ g_queue_remove queue id, d.id ≠ id ∧ d ∈ queue := by
  induction queue with
  | nil => intro d hd; simp [g_queue_remove] at hd
  | cons head rest ih =>
    intro d hd
    simp only [List.map_cons, List.nodup_cons] at hnodup
    simp only [g_queue_remove] at hd
    by_cases hh : head.id = id
    · simp only [hh, if_true] at hd
      refine ⟨?_, List.mem_cons_of_mem _ hd⟩
      intro hcon
      apply hnodup.1
      rw [hh, ← hcon]
      exact List.mem_map_of_mem _ hd
    · simp only [hh, if_false] at hd
      rcases List.mem_cons.mp hd with rfl | hd'
      · exact ⟨hh, List.mem_cons_self _ _⟩
      · exact ⟨(ih hnodup.2 d hd').1, List.mem_cons_of_mem _ (ih hnodup.2 d hd').2⟩

theorem store_host_info_fields (pool : SoupIODispatcherPool) (host : String) (port : Nat)
    (r : HostInfo) :
    (store_host_info pool host port r).idle_io_dispatchers = pool.idle_io_dispatchers ∧
    (store_host_info pool host port r).next_io_disp = pool.next_io_disp := by
  unfold store_host_info
  split
  · exact ⟨rfl, rfl⟩
  · split <;> exact ⟨rfl, rfl⟩

theorem io_dispatcher_set_properties_id (d : SoupIODispatcher) (via_proxy : Bool) (uri : SoupURI)
    (m b : Nat) (ts : Bool) (ctx : Option Nat) (t : Nat) :
    (io_dispatcher_set_properties d via_proxy uri m b ts ctx t).id = d.id := by
  unfold io_dispatcher_set_properties soup_io_dispatcher_set_max_pipelined_requests
    soup_io_dispatcher_set_response_block_size emit
  simp only []
  split <;> split <;> split <;> split <;> rfl

theorem alloc_takes_idle_head (q : SoupIODispatcherPool) (head : SoupIODispatcher)
    (rest : List SoupIODispatcher) (uri : SoupURI) (ctx : Option Nat) (conn : Nat)
    (via_proxy : Bool) (h : q.idle_io_dispatchers = head :: rest) :
    (soup_io_dispatcher_pool_alloc_io_dispatcher q uri ctx conn via_proxy).1 = head.id ∧
    (soup_io_dispatcher_pool_alloc_io_dispatcher q uri ctx conn via_proxy).2.idle_io_dispatchers =
      rest ∧
    (soup_io_dispatcher_pool_alloc_io_dispatcher q uri ctx conn via_proxy).2.next_io_disp =
      q.next_io_disp := by
  obtain ⟨_, _, _, _, _, _, hidle, hnext, _⟩ := get_host_info_flags q uri.host uri.port
  unfold soup_io_dispatcher_pool_alloc_io_dispatcher
  simp only [hidle, h]
  refine ⟨io_dispatcher_set_properties_id _ _ _ _ _ _ _ _, ?_, ?_⟩
  · rw [(store_host_info_fields _ _ _ _).1]
  · rw [(store_host_info_fields _ _ _ _).2]
    exact hnext

theorem alloc_constructs_when_idle_empty (q : SoupIODispatcherPool) (uri : SoupURI)
    (ctx : Option Nat) (conn : Nat) (via_proxy : Bool) (h : q.idle_io_dispatchers = []) :
    (soup_io_dispatcher_pool_alloc_io_dispatcher q uri ctx conn via_proxy).1 = q.next_io_disp ∧
    (soup_io_dispatcher_pool_alloc_io_dispatcher q uri ctx conn via_proxy).2.next_io_disp =
      q.next_io_disp + 1 := by
  obtain ⟨_, _, _, _, _, _, hidle, hnext, _⟩ := get_host_info_flags q uri.host uri.port
  unfold soup_io_dispatcher_pool_alloc_io_dispatcher
  simp only [hidle, h]
  refine ⟨?_, ?_⟩
  · rw [io_dispatcher_set_properties_id]
    simp only [soup_io_dispatcher_init, reset]
    exact hnext
  · rw [(store_host_info_fields _ _ _ _).2]
    simp only [hnext]

theorem find_io_dispatcher_live (pool : SoupIODispatcherPool) (d : SoupIODispatcher)
    (hd : d ∈ live_io_dispatchers pool)
    (hnodup : ((live_io_dispatchers pool).map (fun x => x.id)).Nodup) :
    find_io_dispatcher pool d.id = some d := by
  unfold find_io_dispatcher
  rw [List.find?_append]
  cases hf : List.find? (fun io_disp => io_disp.id == d.id) (live_io_dispatchers pool) with
  | none =>
    have := List.find?_eq_none.mp hf d hd
    simp at this
  | some d0 =>
    have hmem := List.mem_of_find?_eq_some hf
    have hid := List.find?_some hf
    simp only [beq_iff_eq] at hid
    have := List.inj_on_of_nodup_map hnodup hmem hd hid
    simp [this]

/-- C9.  For a dispatcher `d` that sits in the live list of the Host Record of its own
origin, in a pool whose live dispatchers are distinct objects: `connection_disconnected`
returns; afterwards no live list of any Host Record holds the dispatcher, it is the last
element of the idle FIFO behind the dispatchers that were idle before, and its socket is
null.  `soup_io_dispatcher_pool_alloc_io_dispatcher` takes the head of a non-empty idle FIFO
and constructs a dispatcher only when the FIFO is empty. -/
theorem idle_reclamation (pool : SoupIODispatcherPool) (id : Nat) (d : SoupIODispatcher)
    (uri : SoupURI) (host_info : HostInfo)
    (hrec : lookup_host_info pool uri.host uri.port = some host_info)
    (hd : d ∈ host_info.io_dispatchers) (hid : d.id = id) (hhost : d.host = some uri)
    (hnodup : ((live_io_dispatchers pool).map (fun x => x.id)).Nodup) :
    (∃ pool', connection_disconnected pool id = some pool' ∧
      (∀ x ∈ live_io_dispatchers pool', x.id ≠ id) ∧
      (∃ last, pool'.idle_io_dispatchers.getLast? = some last ∧ last.id = id ∧
        last.socket = none) ∧
      pool'.idle_io_dispatchers.map (fun x => x.id) =
        pool.idle_io_dispatchers.map (fun x => x.id) ++ [id]) ∧
    (∀ (q : SoupIODispatcherPool) (head : SoupIODispatcher) (rest : List SoupIODispatcher)
      (uri' : SoupURI) (ctx : Option Nat) (conn : Nat) (via_proxy : Bool),
      q.idle_io_dispatchers = head :: rest →
      (soup_io_dispatcher_pool_alloc_io_dispatcher q uri' ctx conn via_proxy).1 = head.id ∧
      (soup_io_dispatcher_pool_alloc_io_dispatcher q uri' ctx conn via_proxy).2.idle_io_dispatchers
        = rest ∧
      (soup_io_dispatcher_pool_alloc_io_dispatcher q uri' ctx conn via_proxy).2.next_io_disp =
        q.next_io_disp) ∧
    (∀ (q : SoupIODispatcherPool) (uri' : SoupURI) (ctx : Option Nat) (conn : Nat)
      (via_proxy : Bool), q.idle_io_dispatchers = [] →
      (soup_io_dispatcher_pool_alloc_io_dispatcher q uri' ctx conn via_proxy).1 = q.next_io_disp ∧
      (soup_io_dispatcher_pool_alloc_io_dispatcher q uri' ctx conn via_proxy).2.next_io_disp =
        q.next_io_disp + 1) := by
  refine ⟨?_, fun q head rest uri' ctx conn via_proxy h =>
    alloc_takes_idle_head q head rest uri' ctx conn via_proxy h,
    fun q uri' ctx conn via_proxy h => alloc_constructs_when_idle_empty q uri' ctx conn via_proxy h⟩
  obtain ⟨A, B, hlive, hstore⟩ := live_store_split pool uri.host uri.port host_info hrec
  have hdlive : d ∈ live_io_dispatchers pool := by
    rw [hlive]
    simp [hd]
  have hfind := find_io_dispatcher_live pool d hdlive hnodup
  rw [hid] at hfind
  -- the result of the handler
  have hres : connection_disconnected pool id = some (update_io_dispatcher
      { store_host_info pool uri.host uri.port
          { host_info with io_dispatchers := g_queue_remove host_info.io_dispatchers id } with
        idle_io_dispatchers := (store_host_info pool uri.host uri.port
          { host_info with io_dispatchers := g_queue_remove host_info.io_dispatchers id
            }).idle_io_dispatchers ++ [d] }
      id (fun d => soup_io_dispatcher_set_socket d none)) := by
    unfold connection_disconnected
    simp only [hfind, hhost, hrec]
  refine ⟨_, hres, ?_, ?_, ?_⟩
  · intro x hx
    rw [(live_update_io_dispatcher _ _ _).1] at hx
    obtain ⟨y, hy, rfl⟩ := List.mem_map.mp hx
    have hlive2 : live_io_dispatchers
        { store_host_info pool uri.host uri.port
            { host_info with io_dispatchers := g_queue_remove host_info.io_dispatchers id } with
          idle_io_dispatchers := (store_host_info pool uri.host uri.port
            { host_info with io_dispatchers := g_queue_remove host_info.io_dispatchers id
              }).idle_io_dispatchers ++ [d] } =
        A ++ g_queue_remove host_info.io_dispatchers id ++ B := hstore _
    rw [hlive2] at hy
    rw [hlive] at hnodup
    simp only [List.map_append, List.append_assoc] at hnodup
    obtain ⟨_, hn2, hdisjA⟩ := List.nodup_append.mp hnodup
    obtain ⟨hnl, _, hdisjB⟩ := List.nodup_append.mp hn2
    have hidl : id ∈ host_info.io_dispatchers.map (fun x => x.id) := by
      rw [← hid]
      exact List.mem_map_of_mem _ hd
    have hy_ne : y.id ≠ id := by
      simp only [List.append_assoc, List.mem_append] at hy
      rcases hy with hyA | hyl | hyB
      · intro hcon
        have h1 : y.id ∈ A.map (fun x => x.id) := List.mem_map_of_mem _ hyA
        exact hdisjA h1 (List.mem_append_left _ (hcon ▸ hidl))
      · exact (g_queue_remove_spec _ id hnl y hyl).1
      · intro hcon
        have h1 : y.id ∈ B.map (fun x => x.id) := List.mem_map_of_mem _ hyB
        exact hdisjB hidl (hcon ▸ h1)
    simp only [hy_ne, if_false]
    exact hy_ne
  · refine ⟨soup_io_dispatcher_set_socket d none, ?_, ?_, ?_⟩
    · rw [(live_update_io_dispatcher _ _ _).2]
      simp [hid]
    · rw [(set_socket_fields d none).1]
      exact hid
    · exact (set_socket_fields d none).2.1
  · rw [(live_update_io_dispatcher _ _ _).2]
    simp only [(store_host_info_fields _ _ _ _).1, List.map_append, List.map_map, List.map_cons,
      List.map_nil, hid, if_true, Function.comp]
    congr 1
    · apply List.map_congr_left
      intro x _
      simp only [Function.comp]
      split
      · exact (set_socket_fields x none).1
      · rfl
    · simp only [Function.comp, hid, if_true, (set_socket_fields d none).1]

/-- Witness for C9: dispatcher 2 of `sample_pool` is reclaimed. -/
theorem idle_reclamation_witness :
    ∃ pool', connection_disconnected sample_pool 2 = some pool' ∧
      (∀ x ∈ live_io_dispatchers pool', x.id ≠ 2) ∧
      (∃ last, pool'.idle_io_dispatchers.getLast? = some last ∧ last.id = 2 ∧
        last.socket = none) := by
  have hfacts : (lookup_host_info sample_pool sample_uri.host sample_uri.port).bind (fun r =>
      r.io_dispatchers[2]?.map (fun d => (d.id, d.host))) = some (2, some sample_uri) := by
    decide
  cases hrec : lookup_host_info sample_pool sample_uri.host sample_uri.port with
  | none => rw [hrec] at hfacts; cases hfacts
  | some host_info =>
    rw [hrec] at hfacts
    simp only [Option.some_bind] at hfacts
    cases hd : host_info.io_dispatchers[2]? with
    | none => rw [hd] at hfacts; cases hfacts
    | some d =>
      rw [hd] at hfacts
      simp only [Option.map_some', Option.some.injEq, Prod.mk.injEq] at hfacts
      obtain ⟨⟨pool', h1, h2, h3, _⟩, _⟩ := idle_reclamation sample_pool 2 d sample_uri host_info
        hrec (List.getElem?_mem hd) hfacts.1 hfacts.2 (by decide)
      exact ⟨pool', h1, h2, h3⟩

/-! ## Re-binding, errors and cancellation (C5, C6, C7, C16) -/

theorem queuesWF_of_check (d : SoupIODispatcher) (h : queues_wf_check d = true) :
    QueuesWF d := by
  simp only [queues_wf_check, List.all_cons, List.all_nil, Bool.and_true, Bool.and_eq_true,
    decide_eq_true_eq, List.all_eq_true] at h
  obtain ⟨⟨r1, r2⟩, ⟨w1, w2⟩, ⟨p1, p2⟩⟩ := h
  refine ⟨fun q => ?_, fun q id hid => ?_⟩
  · cases q
    · exact r1
    · exact w1
    · exact p1
  · cases q
    · exact r2 id hid
    · exact w2 id hid
    · exact p2 id hid

theorem restart_owned (i m : Nat) :
    (Event.io_msg_restart i m).is_notify = false ∧
    ∀ s (io : SoupMessageIOData), io.id ≠ i →
      (cleanup_events s io).count (Event.io_msg_restart i m) = 0 :=
  ⟨rfl, fun s io h => (count_cleanup_events_other s io i m h).1⟩

theorem completion_owned (i m : Nat) :
    (Event.completion i m).is_notify = false ∧
    ∀ s (io : SoupMessageIOData), io.id ≠ i →
      (cleanup_events s io).count (Event.completion i m) = 0 :=
  ⟨rfl, fun s io h => (count_cleanup_events_other s io i m h).2⟩

/-- C7. `soup_io_dispatcher_set_socket` with null or with a socket other than the bound one,
on a dispatcher whose queues are well formed: afterwards the read queue and the write queue
are empty; every item that was linked in one of them is freed, its completion callback (when
it has one) has run exactly once more, and `io-msg-restart` has been emitted for it exactly
once more if it is not done, not errored and not cancelled, and not at all otherwise. -/
theorem set_socket_cleans_active_queues (d : SoupIODispatcher) (socket : Option Nat)
    (hwf : QueuesWF d) (hnew : socket = none ∨ d.socket ≠ socket) :
    (soup_io_dispatcher_set_socket d socket).read_io_queue = [] ∧
    (soup_io_dispatcher_set_socket d socket).write_io_queue = [] ∧
    ∀ (i : Nat) (io : SoupMessageIOData), find_io_data d i = some io →
      (i ∈ d.read_io_queue ∨ i ∈ d.write_io_queue) →
      find_io_data (soup_io_dispatcher_set_socket d socket) i = none ∧
      (soup_io_dispatcher_set_socket d socket).trace.count (Event.io_msg_restart i io.msg.id) =
        d.trace.count (Event.io_msg_restart i io.msg.id) +
          (if !(io.read_state == .DONE && io.write_state == .DONE) && !io.io_error &&
            !io.cancelled then 1 else 0) ∧
      (soup_io_dispatcher_set_socket d socket).trace.count (Event.completion i io.msg.id) =
        d.trace.count (Event.completion i io.msg.id) + (if io.completion_cb then 1 else 0) := by
  have hcond : (socket.isNone || d.socket != socket) = true := by
    rcases hnew with h | h
    · simp [h]
    · simp [h]
  obtain ⟨u1, u2, u3⟩ := set_socket_unbind_qi d socket
  have hwf0 := queuesWF_of_qi u1 hwf
  obtain ⟨s1, s2, _, _, s5, _, s7⟩ :=
    set_socket_drain_spec { set_socket_unbind d with socket := socket } socket hwf0
  obtain ⟨b1, b2⟩ :=
    set_socket_bind_qi (set_socket_drain { set_socket_unbind d with socket := socket } socket)
  unfold soup_io_dispatcher_set_socket
  rw [if_pos hcond]
  refine ⟨?_, ?_, fun i io hfind hin => ?_⟩
  · have := (get_queue_of_qi b1 .read).1
    rw [s1] at this
    exact this
  · have := (get_queue_of_qi b1 .write).1
    rw [s2] at this
    exact this
  · have hid := (find_io_data_some hfind).1
    have hfind0 : find_io_data { set_socket_unbind d with socket := socket } i = some io := by
      rw [find_io_data_of_qi u1]; exact hfind
    have hin0 : i ∈ get_queue { set_socket_unbind d with socket := socket } .read ∨
        i ∈ get_queue { set_socket_unbind d with socket := socket } .write ∨
        (socket = none ∧ i ∈ get_queue { set_socket_unbind d with socket := socket } .paused) := by
      rw [(get_queue_of_qi u1 .read).1, (get_queue_of_qi u1 .write).1]
      rcases hin with h | h
      · exact Or.inl h
      · exact Or.inr (Or.inl h)
    refine ⟨?_, ?_, ?_⟩
    · rw [find_io_data_of_qi b1]
      apply find_io_data_none
      intro x hx hxi
      obtain ⟨_, hr, hw, _⟩ := s5 x hx
      rw [(get_queue_of_qi u1 .read).1] at hr
      rw [(get_queue_of_qi u1 .write).1] at hw
      rw [hxi] at hr hw
      rcases hin with h | h
      · exact hr h
      · exact hw h
    · rw [b2 _ (restart_owned i io.msg.id).1,
        s7 _ i io (restart_owned i io.msg.id).1 (restart_owned i io.msg.id).2 hfind0,
        if_pos hin0, u2, ← hid, (count_cleanup_events_self _ io).1]
    · rw [b2 _ (completion_owned i io.msg.id).1,
        s7 _ i io (completion_owned i io.msg.id).1 (completion_owned i io.msg.id).2 hfind0,
        if_pos hin0, u2, ← hid, (count_cleanup_events_self _ io).2]

/-- Witness for C7: `sample_io_disp_one_item`, whose one item is unstarted, re-bound to no
socket. -/
theorem set_socket_cleans_active_queues_witness :
    QueuesWF sample_io_disp_one_item ∧
    find_io_data sample_io_disp_one_item 0 = some (new_io_data 0 (sample_msg 7) true) ∧
    (soup_io_dispatcher_set_socket sample_io_disp_one_item none).read_io_queue = [] ∧
    (soup_io_dispatcher_set_socket sample_io_disp_one_item none).write_io_queue = [] ∧
    find_io_data (soup_io_dispatcher_set_socket sample_io_disp_one_item none) 0 = none ∧
    (soup_io_dispatcher_set_socket sample_io_disp_one_item none).trace.count
      (Event.io_msg_restart 0 7) = 1 ∧
    (soup_io_dispatcher_set_socket sample_io_disp_one_item none).trace.count
      (Event.completion 0 7) = 1 := by
  have hwf := queuesWF_of_check sample_io_disp_one_item (by decide)
  have hfind : find_io_data sample_io_disp_one_item 0 =
      some (new_io_data 0 (sample_msg 7) true) := by decide
  obtain ⟨h1, h2, h3⟩ :=
    set_socket_cleans_active_queues sample_io_disp_one_item none hwf (Or.inl rfl)
  obtain ⟨h4, h5, h6⟩ := h3 0 _ hfind (Or.inl (by decide))
  exact ⟨hwf, hfind, h1, h2, h4, h5, h6⟩


theorem io_data_error_policy_eq (n : Nat) (io : SoupMessageIOData) :
    io_data_error_policy n io =
      if io.error = some .TLS then .SSL_FAILED
      else if io.error ≠ some .TIMED_OUT ∧ io.msg.method = .GET ∧
          io.read_state.ord ≤ SoupMessageIOState.HEADERS.ord ∧ io.read_meta_buf = [] ∧ n ≠ 0
        then .RESTART
      else if SOUP_STATUS_IS_TRANSPORT_ERROR io.msg.status_code = false then .IO_ERROR
      else .KEEP_STATUS := by
  unfold io_data_error_policy
  by_cases h1 : io.error = some .TLS
  · simp [h1]
  · have h1b : (io.error == some GErrorKind.TLS) = false := by simpa using h1
    simp only [h1b, h1, if_false, Bool.false_eq_true]
    by_cases h2 : io.error ≠ some .TIMED_OUT ∧ io.msg.method = .GET ∧
          io.read_state.ord ≤ SoupMessageIOState.HEADERS.ord ∧ io.read_meta_buf = [] ∧ n ≠ 0
    · obtain ⟨a, b, c, e, f⟩ := h2
      simp [a, b, c, e, f]
    · rw [if_neg h2, if_neg]
      · cases SOUP_STATUS_IS_TRANSPORT_ERROR io.msg.status_code <;> simp
      · intro hc
        apply h2
        simp only [Bool.and_eq_true, decide_eq_true_eq, beq_iff_eq, bne_iff_ne, ne_eq,
          Bool.not_eq_true', beq_eq_false_iff_ne, List.length_eq_zero] at hc
        obtain ⟨⟨⟨⟨a, b⟩, c⟩, e⟩, f⟩ := hc
        exact ⟨e, f, a, b, c⟩

theorem io_data_error_counts (d : SoupIODispatcher) (io : SoupMessageIOData)
    (hio : io.io_error = true) :
    (io_data_error d io).trace.count (Event.io_msg_restart io.id io.msg.id) =
      d.trace.count (Event.io_msg_restart io.id io.msg.id) +
        (if io_data_error_policy d.finished_requests io = .RESTART then 1 else 0) ∧
    (io_data_error d io).trace.count (Event.set_status io.msg.id SOUP_STATUS_IO_ERROR) =
      d.trace.count (Event.set_status io.msg.id SOUP_STATUS_IO_ERROR) +
        (if io_data_error_policy d.finished_requests io = .IO_ERROR then 1 else 0) ∧
    (io_data_error d io).trace.count (Event.set_status io.msg.id SOUP_STATUS_SSL_FAILED) =
      d.trace.count (Event.set_status io.msg.id SOUP_STATUS_SSL_FAILED) +
        (if io_data_error_policy d.finished_requests io = .SSL_FAILED then 1 else 0) ∧
    (∀ q, get_queue (io_data_error d io) q = (get_queue d q).erase io.id) ∧
    find_io_data (io_data_error d io) io.id = none := by
  have hpol : ∀ p : ErrorPolicy,
      (∀ q, get_queue (apply_error_policy d io p) q = get_queue d q) ∧
      (apply_error_policy d io p).items = d.items ∧
      (apply_error_policy d io p).socket = d.socket ∧
      ∀ e : Event, (apply_error_policy d io p).trace.count e = d.trace.count e +
        (match p with
          | .SSL_FAILED => if Event.set_status io.msg.id SOUP_STATUS_SSL_FAILED = e then 1 else 0
          | .RESTART => if Event.io_msg_restart io.id io.msg.id = e then 1 else 0
          | .IO_ERROR => if Event.set_status io.msg.id SOUP_STATUS_IO_ERROR = e then 1 else 0
          | .KEEP_STATUS => 0) := by
    intro p
    cases p
    · exact ⟨fun q => by cases q <;> rfl, rfl, rfl, fun e => count_emit _ _ _⟩
    · exact ⟨fun q => by cases q <;> rfl, rfl, rfl, fun e => count_emit _ _ _⟩
    · exact ⟨fun q => by cases q <;> rfl, rfl, rfl, fun e => count_emit _ _ _⟩
    · exact ⟨fun q => by cases q <;> rfl, rfl, rfl, fun e => rfl⟩
  obtain ⟨p1, p2, p3, p4⟩ := hpol (io_data_error_policy d.finished_requests io)
  obtain ⟨c1, c2, c3⟩ := io_data_cleanup_spec
    (apply_error_policy d io (io_data_error_policy d.finished_requests io)) io
  have hself := (count_cleanup_events_self
    (apply_error_policy d io (io_data_error_policy d.finished_requests io)).socket io).1
  rw [hio] at hself
  simp only [Bool.not_true, Bool.and_false, Bool.false_and, Bool.false_eq_true, if_false]
    at hself
  refine ⟨?_, ?_, ?_, ?_, ?_⟩
  · show (io_data_cleanup _ io).trace.count _ = _
    rw [c3 (Event.io_msg_restart io.id io.msg.id) rfl, hself, p4]
    cases io_data_error_policy d.finished_requests io <;> simp [SOUP_STATUS_SSL_FAILED,
      SOUP_STATUS_IO_ERROR]
  · show (io_data_cleanup _ io).trace.count _ = _
    rw [c3 (Event.set_status io.msg.id SOUP_STATUS_IO_ERROR) rfl, count_cleanup_events_status, p4]
    cases io_data_error_policy d.finished_requests io <;> simp [SOUP_STATUS_SSL_FAILED,
      SOUP_STATUS_IO_ERROR]
  · show (io_data_cleanup _ io).trace.count _ = _
    rw [c3 (Event.set_status io.msg.id SOUP_STATUS_SSL_FAILED) rfl, count_cleanup_events_status,
      p4]
    cases io_data_error_policy d.finished_requests io <;> simp [SOUP_STATUS_SSL_FAILED,
      SOUP_STATUS_IO_ERROR]
  · intro q
    show get_queue (io_data_cleanup _ io) q = _
    rw [c1, p1]
  · show find_io_data (io_data_cleanup _ io) io.id = none
    apply find_io_data_none
    intro x hx
    rw [c2, List.mem_filter] at hx
    simpa using hx.2

theorem count_cleanup_events_cancelled (socket : Option Nat) (io : SoupMessageIOData)
    (h : io.cancelled = true) (i m : Nat) :
    (cleanup_events socket io).count (Event.io_msg_restart i m) = 0 := by
  unfold cleanup_events
  rw [h]
  generalize ((io.read_state != .NOT_STARTED || io.write_state != .NOT_STARTED) &&
    decide (io.read_state.ord < SoupMessageIOState.FINISHING.ord)) = c2
  cases c2 <;> cases io.completion_cb <;> cases socket <;> simp [List.count_cons]

/-- C6 (amended). `io_data_error` for an item with `io_error` set.  The decision: a TLS
error sets the status `SSL_FAILED`; otherwise `io-msg-restart` is emitted iff the error is not
a timeout, the request is a `GET`, the reader is in `NOT_STARTED` or `HEADERS` with an empty
metadata buffer and at least one request has finished on the connection; otherwise the status
`IO_ERROR` is set unless the status is a transport error already.  The effect: exactly the
signal or status of the decision, then the item is unlinked from every queue and freed
(the cleanup emits no `io-msg-restart` of its own). -/
theorem io_data_error_policy_spec (d : SoupIODispatcher) (io : SoupMessageIOData)
    (hio : io.io_error = true) :
    (io_data_error_policy d.finished_requests io = .SSL_FAILED ↔ io.error = some .TLS) ∧
    (io_data_error_policy d.finished_requests io = .RESTART ↔
      io.error ≠ some .TLS ∧ io.error ≠ some .TIMED_OUT ∧ io.msg.method = .GET ∧
      io.read_state.ord ≤ SoupMessageIOState.HEADERS.ord ∧ io.read_meta_buf = [] ∧
      d.finished_requests ≠ 0) ∧
    (io_data_error_policy d.finished_requests io = .IO_ERROR ↔
      io.error ≠ some .TLS ∧
      ¬ (io.error ≠ some .TIMED_OUT ∧ io.msg.method = .GET ∧
        io.read_state.ord ≤ SoupMessageIOState.HEADERS.ord ∧ io.read_meta_buf = [] ∧
        d.finished_requests ≠ 0) ∧
      SOUP_STATUS_IS_TRANSPORT_ERROR io.msg.status_code = false) ∧
    (io_data_error d io).trace.count (Event.io_msg_restart io.id io.msg.id) =
      d.trace.count (Event.io_msg_restart io.id io.msg.id) +
        (if io_data_error_policy d.finished_requests io = .RESTART then 1 else 0) ∧
    (io_data_error d io).trace.count (Event.set_status io.msg.id SOUP_STATUS_IO_ERROR) =
      d.trace.count (Event.set_status io.msg.id SOUP_STATUS_IO_ERROR) +
        (if io_data_error_policy d.finished_requests io = .IO_ERROR then 1 else 0) ∧
    (io_data_error d io).trace.count (Event.set_status io.msg.id SOUP_STATUS_SSL_FAILED) =
      d.trace.count (Event.set_status io.msg.id SOUP_STATUS_SSL_FAILED) +
        (if io_data_error_policy d.finished_requests io = .SSL_FAILED then 1 else 0) ∧
    (∀ q, get_queue (io_data_error d io) q = (get_queue d q).erase io.id) ∧
    find_io_data (io_data_error d io) io.id = none := by
  refine ⟨?_, ?_, ?_, io_data_error_counts d io hio⟩
  · rw [io_data_error_policy_eq]
    split_ifs <;> simp_all
  · rw [io_data_error_policy_eq]
    split_ifs <;> simp_all
  · rw [io_data_error_policy_eq]
    split_ifs <;> simp_all

/-- Witness for C6: the timed-out item of `sample_io_disp_timed_out`. -/
theorem io_data_error_policy_spec_witness :
    sample_item_timed_out.io_error = true ∧
    (io_data_error_policy sample_io_disp_timed_out.finished_requests sample_item_timed_out =
        .SSL_FAILED ↔ sample_item_timed_out.error = some .TLS) :=
  ⟨by decide, (io_data_error_policy_spec sample_io_disp_timed_out sample_item_timed_out
    (by decide)).1⟩

/-- C6, counterexample to the claim as stated.  The item of `sample_io_disp_timed_out` is a
`GET` whose response headers have not been received (reader in `HEADERS`, nothing buffered),
one request has finished on the connection, and `io_error` is set by a read that timed out:
`io_data_error` emits no `io-msg-restart` and sets the status `IO_ERROR`. -/
theorem io_data_error_timeout_not_restarted :
    find_io_data sample_io_disp_timed_out 0 = some sample_item_timed_out ∧
    sample_item_timed_out.io_error = true ∧
    sample_item_timed_out.msg.method = .GET ∧
    sample_item_timed_out.read_state = .HEADERS ∧
    sample_item_timed_out.read_meta_buf = [] ∧
    sample_io_disp_timed_out.finished_requests = 1 ∧
    (io_data_error sample_io_disp_timed_out sample_item_timed_out).trace.count
      (Event.io_msg_restart 0 7) = 0 ∧
    (io_data_error sample_io_disp_timed_out sample_item_timed_out).trace.count
      (Event.set_status 7 SOUP_STATUS_IO_ERROR) = 1 := by
  decide

/-- C16 (amended). `cancel_message` on a live, linked item that is not yet cancelled: the
socket is disconnected iff a socket is bound, the item has started I/O (read state or write
state other than `NOT_STARTED`) and its reader has not reached `FINISHING`; no
`io-msg-restart` is emitted for the item; the item is freed. -/
theorem cancel_message_disconnect (d : SoupIODispatcher) (i : Nat) (io : SoupMessageIOData)
    (hfind : find_io_data d i = some io)
    (hl : linked d .read i = true ∨ linked d .write i = true ∨ linked d .paused i = true)
    (hc : io.cancelled = false) :
    (∀ s, (cancel_message d i).trace.count (Event.socket_disconnect s) =
      d.trace.count (Event.socket_disconnect s) +
        (if d.socket = some s ∧
            ((io.read_state != .NOT_STARTED || io.write_state != .NOT_STARTED) &&
              decide (io.read_state.ord < SoupMessageIOState.FINISHING.ord)) = true
          then 1 else 0)) ∧
    (∀ m, (cancel_message d i).trace.count (Event.io_msg_restart i m) =
      d.trace.count (Event.io_msg_restart i m)) ∧
    find_io_data (cancel_message d i) i = none := by
  have hid := (find_io_data_some hfind).1
  have hlb : (linked d .read i || linked d .write i || linked d .paused i) = true := by
    rcases hl with h | h | h <;> simp [h]
  obtain ⟨c1, c2, c3⟩ := io_data_cleanup_spec
    (store_io_data d { io with cancelled := true }) { io with cancelled := true }
  obtain ⟨_, s2, s3, _⟩ := store_io_data_qi d { io with cancelled := true }
  unfold cancel_message
  simp only [hfind, hlb, hc, Bool.not_true, Bool.false_eq_true, if_false]
  refine ⟨fun s => ?_, fun m => ?_, ?_⟩
  · rw [c3 (Event.socket_disconnect s) rfl, s2, s3]
    congr 1
    cases hs : d.socket with
    | none => simp [(count_cleanup_events_disconnect 0 { io with cancelled := true }).2 s]
    | some s' =>
      by_cases hss : s' = s
      · subst hss
        rw [(count_cleanup_events_disconnect s' { io with cancelled := true }).1]
        simp
      · have : (cleanup_events (some s') { io with cancelled := true }).count
            (Event.socket_disconnect s) = 0 := by
          rw [List.count_eq_zero]
          intro hm
          unfold cleanup_events at hm
          simp only [List.mem_append] at hm
          rcases hm with (hm | hm) | hm
          · split at hm
            · simp at hm
            · cases hm
          · split at hm
            · simp only [List.mem_singleton, Event.socket_disconnect.injEq] at hm
              exact hss hm.symm
            · cases hm
          · split at hm
            · simp at hm
            · cases hm
        rw [this]
        simp [hss]
  · rw [c3 (Event.io_msg_restart i m) rfl, s2, count_cleanup_events_cancelled _ _ rfl]
    rfl
  · apply find_io_data_none
    intro x hx
    rw [c2, List.mem_filter] at hx
    rw [← hid]
    simpa using hx.2

/-- Witness for C16: the unstarted item of `sample_io_disp_one_item`. -/
theorem cancel_message_disconnect_witness :
    find_io_data sample_io_disp_one_item 0 = some (new_io_data 0 (sample_msg 7) true) ∧
    find_io_data (cancel_message sample_io_disp_one_item 0) 0 = none :=
  ⟨by decide, (cancel_message_disconnect sample_io_disp_one_item 0
    (new_io_data 0 (sample_msg 7) true) (by decide) (Or.inl (by decide)) (by decide)).2.2⟩

/-- C16, counterexample to the claim as stated.  The item of `sample_io_disp_finishing` has
started I/O (request written, response body read, reader in `FINISHING`) and a socket is
bound; `cancel_message` frees the item and does not disconnect the socket. -/
theorem cancel_after_body_keeps_socket :
    find_io_data sample_io_disp_finishing 0 = some sample_item_finishing ∧
    sample_item_finishing.read_state = .FINISHING ∧
    sample_item_finishing.write_state = .DONE ∧
    sample_item_finishing.cancelled = false ∧
    sample_io_disp_finishing.socket = some 1 ∧
    linked sample_io_disp_finishing .read 0 = true ∧
    find_io_data (cancel_message sample_io_disp_finishing 0) 0 = none ∧
    (cancel_message sample_io_disp_finishing 0).trace.count (Event.socket_disconnect 1) = 0 := by
  decide

/-- C5 (amended). For a message whose method is not `GET`: `io_data_error` on an item with
`io_error` set emits no `io-msg-restart` for it, while `io_data_cleanup` emits `io-msg-restart`
for it exactly when the item is not done, not errored and not cancelled, as for a `GET`. -/
theorem restart_of_non_get (d : SoupIODispatcher) (io : SoupMessageIOData)
    (hm : io.msg.method ≠ .GET) :
    (io.io_error = true →
      (io_data_error d io).trace.count (Event.io_msg_restart io.id io.msg.id) =
        d.trace.count (Event.io_msg_restart io.id io.msg.id)) ∧
    (io_data_cleanup d io).trace.count (Event.io_msg_restart io.id io.msg.id) =
      d.trace.count (Event.io_msg_restart io.id io.msg.id) +
        (if !(io.read_state == .DONE && io.write_state == .DONE) && !io.io_error &&
          !io.cancelled then 1 else 0) := by
  refine ⟨fun hio => ?_, ?_⟩
  · rw [(io_data_error_counts d io hio).1, io_data_error_policy_eq]
    split_ifs <;> simp_all
  · rw [(io_data_cleanup_spec d io).2.2 (Event.io_msg_restart io.id io.msg.id) rfl,
      (count_cleanup_events_self _ io).1]

/-- Witness for C5: the unstarted `POST` item of `sample_io_disp_post`. -/
theorem restart_of_non_get_witness :
    (new_io_data 0 { sample_msg 7 with method := .POST } true).msg.method ≠ .GET ∧
    (io_data_cleanup sample_io_disp_post
      (new_io_data 0 { sample_msg 7 with method := .POST } true)).trace.count
        (Event.io_msg_restart 0 7) =
      sample_io_disp_post.trace.count (Event.io_msg_restart 0 7) + 1 :=
  ⟨by decide, (restart_of_non_get sample_io_disp_post
    (new_io_data 0 { sample_msg 7 with method := .POST } true) (by decide)).2⟩

/-- C5, counterexample to the claim as stated.  `sample_io_disp_post` holds one unstarted
`POST` item; `soup_io_dispatcher_set_socket (io_disp, NULL)` drains it and the cleanup emits
`io-msg-restart` for the `POST` message. -/
theorem restart_emitted_for_post :
    (find_io_data sample_io_disp_post 0).map (fun io => (io.msg.id, io.msg.method)) =
      some (7, .POST) ∧
    sample_io_disp_post.trace.count (Event.io_msg_restart 0 7) = 0 ∧
    (soup_io_dispatcher_set_socket sample_io_disp_post none).trace.count
      (Event.io_msg_restart 0 7) = 1 := by
  decide

/-! ## Item-level I/O (C13, C14, C15, C20, C21, C22, C26, C27, C28) -/

/-- C21. `soup_io_dispatcher_write_data` on a buffer `data` of which the first `written`
bytes have been accepted before, whatever the socket and the handlers do.  The function
returns; the bytes it has put on the wire are, in order, the bytes of `data` from the saved
offset on; when it returns TRUE these are all the bytes that were left and the offset is back
to 0; when it returns FALSE the offset has advanced by the bytes accepted, so that the next
call goes on behind them.  If the first answer of the socket is `WOULD_BLOCK` the function
sets `write_blocked` and returns FALSE without setting `io_error`; if it is `EOF` or `ERROR`
it sets `io_error` and returns FALSE. -/
theorem write_data_outcomes (ctx : IOCtx) (data : List Byte) (body : Bool)
    (hw : ctx.io.written ≤ data.length) :
    (∃ r, soup_io_dispatcher_write_data ctx data body = some r ∧
      ∃ k, ctx.io.written + k ≤ data.length ∧
        wire r.ctx.events = wire ctx.events ++ (data.drop ctx.io.written).take k ∧
        (r.ret = true → ctx.io.written + k = data.length ∧ r.ctx.io.written = 0) ∧
        (r.ret = false → r.ctx.io.written = ctx.io.written + k)) ∧
    (ctx.io.written < data.length →
      (∀ rest, ctx.env.outgoing = .would_block :: rest →
        ∃ r, soup_io_dispatcher_write_data ctx data body = some r ∧ r.ret = false ∧
          r.ctx.io.write_blocked = true ∧ r.ctx.io.io_error = ctx.io.io_error ∧
          r.ctx.io.written = ctx.io.written ∧ r.ctx.events = ctx.events) ∧
      (∀ rest, ctx.env.outgoing = .eof :: rest →
        ∃ r, soup_io_dispatcher_write_data ctx data body = some r ∧ r.ret = false ∧
          r.ctx.io.io_error = true ∧ r.ctx.events = ctx.events) ∧
      (∀ e rest, ctx.env.outgoing = .error e :: rest →
        ∃ r, soup_io_dispatcher_write_data ctx data body = some r ∧ r.ret = false ∧
          r.ctx.io.io_error = true ∧ r.ctx.io.error = some e ∧ r.ctx.events = ctx.events)) := by
  refine ⟨write_data_loop_spec data body _ ctx hw (Nat.le_refl _), fun hlt => ⟨?_, ?_, ?_⟩⟩
  · intro rest hout
    refine ⟨write_data_would_block { ctx with env := { ctx.env with outgoing := rest } },
      ?_, rfl, rfl, rfl, rfl, rfl⟩
    unfold soup_io_dispatcher_write_data iterate
    simp [write_data_step, hlt, soup_socket_write, hout]
  · intro rest hout
    refine ⟨{ ctx with env := { ctx.env with outgoing := rest } }.fail none,
      ?_, rfl, rfl, rfl⟩
    unfold soup_io_dispatcher_write_data iterate
    simp [write_data_step, hlt, soup_socket_write, hout]
  · intro e rest hout
    refine ⟨{ ctx with env := { ctx.env with outgoing := rest } }.fail (some e),
      ?_, rfl, rfl, rfl, rfl⟩
    unfold soup_io_dispatcher_write_data iterate
    simp [write_data_step, hlt, soup_socket_write, hout]

/-- Witness for C21: a fresh item, three bytes to write, a socket that takes them. -/
theorem write_data_outcomes_witness :
    sample_ctx.io.written ≤ [1, 2, 3].length ∧
    ∃ r, soup_io_dispatcher_write_data sample_ctx [1, 2, 3] false = some r ∧
      ∃ k, sample_ctx.io.written + k ≤ [1, 2, 3].length ∧
        wire r.ctx.events = wire sample_ctx.events ++ (List.drop sample_ctx.io.written [1, 2, 3]).take k ∧
        (r.ret = true → sample_ctx.io.written + k = [1, 2, 3].length ∧ r.ctx.io.written = 0) ∧
        (r.ret = false → r.ctx.io.written = sample_ctx.io.written + k) :=
  ⟨by decide, (write_data_outcomes sample_ctx [1, 2, 3] false (by decide)).1⟩

/-- C26. `soup_io_dispatcher_read_body_chunk` with an encoding other than `EOF` and a
remaining length that is not negative, for every socket and every handler: a read asks for at
most `read_length` bytes; when the function returns, the bytes it has taken from the socket
are a prefix of what the socket held, no longer than `read_length`; `read_length` is not
negative and has gone down by exactly that number of bytes, unless a permitted end-of-file has
set it to 0; the rest of what the socket held is still there. -/
theorem read_body_chunk_never_over_reads (response_block_size : Nat) (ctx : IOCtx)
    (r : IOResult) (henc : ctx.io.read_encoding ≠ .EOF) (hlen : 0 ≤ ctx.io.read_length)
    (h : soup_io_dispatcher_read_body_chunk response_block_size ctx = some r) :
    (∀ buffer_length, read_body_chunk_len ctx buffer_length ≤ ctx.io.read_length.toNat) ∧
    ∃ c, bytes_of ctx.env.incoming = c ++ bytes_of r.ctx.env.incoming ∧
      (c.length : Int) ≤ ctx.io.read_length ∧ 0 ≤ r.ctx.io.read_length ∧
      (r.ctx.io.read_length = ctx.io.read_length - c.length ∨
        (r.ctx.io.read_length = 0 ∧ ctx.io.read_eof_ok = true)) := by
  refine ⟨fun n => read_body_chunk_len_le ctx n henc, ?_⟩
  obtain ⟨f, _, _⟩ := io_handle_sniffing_spec ctx false
  obtain ⟨b1, b2, b3, _, b5⟩ := bodyFrame_of_sniffFrame f
  unfold soup_io_dispatcher_read_body_chunk at h
  simp only [] at h
  split at h
  · simp only [Option.some.injEq] at h
    subst h
    exact ⟨[], by rw [b5]; rfl, by simpa using hlen, by rw [b1]; exact hlen,
      Or.inl (by rw [b1]; simp)⟩
  · obtain ⟨c, hb, hl, hpos, hfin⟩ := read_body_chunk_loop_spec response_block_size _ _
      (by rw [b2]; exact henc) (by rw [b1]; exact hlen) r h
    rw [b5] at hb
    rw [b1] at hl hfin
    rw [b3] at hfin
    exact ⟨c, hb, hl, hpos, hfin⟩

/-- Witness for C26: `sample_ctx_body`, with 3 bytes of the body left and 5 bytes in the
socket. -/
theorem read_body_chunk_never_over_reads_witness :
    ∃ r, soup_io_dispatcher_read_body_chunk 8192 sample_ctx_body = some r ∧
      ∃ c, bytes_of sample_ctx_body.env.incoming = c ++ bytes_of r.ctx.env.incoming ∧
        (c.length : Int) ≤ sample_ctx_body.io.read_length ∧ 0 ≤ r.ctx.io.read_length ∧
        (r.ctx.io.read_length = sample_ctx_body.io.read_length - c.length ∨
          (r.ctx.io.read_length = 0 ∧ sample_ctx_body.io.read_eof_ok = true)) := by
  have hsome : (soup_io_dispatcher_read_body_chunk 8192 sample_ctx_body).isSome = true := by
    decide
  cases h : soup_io_dispatcher_read_body_chunk 8192 sample_ctx_body with
  | none =>
    rw [h] at hsome
    cases hsome
  | some r =>
    exact ⟨r, rfl, (read_body_chunk_never_over_reads 8192 sample_ctx_body r (by decide)
      (by decide) h).2⟩

/-- C15. The end of the file as the end of a body.  The header stage permits it
(`read_eof_ok`) for the encoding `EOF`, and for `CONTENT_LENGTH` when the message is not
keep-alive; for `CONTENT_LENGTH` on a keep-alive message it leaves `read_eof_ok` as it is,
which is false on a new item.  When the socket then reports the end of the file while the body
is not complete, `soup_io_dispatcher_read_body_chunk` with the permission returns TRUE with
`read_length` 0 and without `io_error`, and the `BODY` case goes on to `FINISHING`; without
the permission it sets `io_error` and returns FALSE. -/
theorem eof_as_body_terminator (response_block_size : Nat) (ctx : IOCtx) (rest : List NetEvent)
    (hin : ctx.env.incoming = .eof :: rest) (hsn : ctx.io.msg.sniffer = false)
    (hal : ctx.io.msg.chunk_allocator = false)
    (hgo : ctx.io.read_encoding = .EOF ∨ 0 < ctx.io.read_length) :
    (∀ io : SoupMessageIOData, (read_headers_encoding io).read_eof_ok =
      (io.read_eof_ok || io.read_encoding == .EOF ||
        (io.read_encoding == .CONTENT_LENGTH && !soup_message_is_keepalive io.msg))) ∧
    (∃ r, soup_io_dispatcher_read_body_chunk response_block_size ctx = some r ∧
      (ctx.io.read_eof_ok = true → r.ret = true ∧ r.control = .none ∧
        r.ctx.io.read_length = 0 ∧ r.ctx.io.io_error = ctx.io.io_error) ∧
      (ctx.io.read_eof_ok = false → r.ret = false ∧ r.control = .none ∧
        r.ctx.io.io_error = true)) ∧
    (ctx.io.read_eof_ok = true → ctx.io.read_state = .BODY → ctx.env.callbacks = [] →
      ∃ ctx', io_data_read_step response_block_size ctx = some (.inl ctx') ∧
        ctx'.io.read_state = .FINISHING ∧ ctx'.io.read_length = 0 ∧
        ctx'.io.io_error = ctx.io.io_error) := by
  have hrun := read_body_chunk_at_eof response_block_size ctx rest hin hsn hal hgo
  refine ⟨fun io => ?_, ⟨read_body_chunk_eof ctx none, hrun, fun hok => ?_, fun hok => ?_⟩,
    fun hok hst hcb => ?_⟩
  · unfold read_headers_encoding
    by_cases h1 : io.read_encoding = .EOF
    · simp [h1]
    · by_cases h2 : io.read_encoding = .CONTENT_LENGTH
      · cases hk : soup_message_is_keepalive io.msg <;> simp [h2, hk]
      · have b1 : (io.read_encoding == SoupEncoding.EOF) = false := by simpa using h1
        have b2 : (io.read_encoding == SoupEncoding.CONTENT_LENGTH) = false := by simpa using h2
        simp [h1, h2, b1, b2]
  · simp [read_body_chunk_eof, hok, IOCtx.returns]
  · simp [read_body_chunk_eof, hok, IOCtx.fail, IOCtx.returns]
  · unfold io_data_read_step
    rw [hst]
    simp only [hrun, with_call, Option.map_some', or_return, read_body_chunk_eof, hok, if_true,
      IOCtx.returns, read_got_body, io_handle_sniffing, hsn, Bool.not_false,
      read_got_body_sniffed, Bool.not_true, Bool.false_eq_true, if_false, emit_signal,
      return_if_cancelled_or_paused, signal, run_callback, IOCtx.update, hcb,
      Option.some.injEq, Sum.inl.injEq, exists_eq_left', set_read_state]
    exact ⟨trivial, trivial, trivial⟩

/-- Witness for C15: `sample_ctx_eof`, a `CONTENT_LENGTH` body of which 3 bytes are missing
when the peer closes. -/
theorem eof_as_body_terminator_witness :
    sample_ctx_eof.env.incoming = [.eof] ∧
    ∃ r, soup_io_dispatcher_read_body_chunk 8192 sample_ctx_eof = some r ∧
      (sample_ctx_eof.io.read_eof_ok = true → r.ret = true ∧ r.control = .none ∧
        r.ctx.io.read_length = 0 ∧ r.ctx.io.io_error = sample_ctx_eof.io.io_error) ∧
      (sample_ctx_eof.io.read_eof_ok = false → r.ret = false ∧ r.control = .none ∧
        r.ctx.io.io_error = true) :=
  ⟨rfl, (eof_as_body_terminator 8192 sample_ctx_eof [] rfl rfl rfl (Or.inr (by decide))).2.1⟩

/-- The state assignments of the reader after a header block with an informational status,
while the writer is `BLOCKING`. -/
theorem read_headers_states_informational (io : SoupMessageIOData)
    (hinfo : SOUP_STATUS_IS_INFORMATIONAL io.msg.status_code = true)
    (hw : io.write_state = .BLOCKING) :
    (io.msg.status_code = SOUP_STATUS_CONTINUE →
      (read_headers_states io).read_state = .BLOCKING ∧
      (read_headers_states io).write_state = io_body_state io.write_encoding) ∧
    (io.msg.status_code ≠ SOUP_STATUS_CONTINUE →
      (read_headers_states io).read_state = .HEADERS ∧
      (read_headers_states io).write_state = .BLOCKING) ∧
    (read_headers_states io).msg = io.msg := by
  unfold read_headers_states
  simp only [hinfo, if_true, hw, beq_self_eq_true, Bool.and_true]
  refine ⟨fun h => ?_, fun h => ?_, ?_⟩
  · simp only [h, beq_self_eq_true, if_true, true_and]
  · have : (io.msg.status_code == SOUP_STATUS_CONTINUE) = false := by simpa using h
    simp [this, hw]
  · split <;> rfl

theorem parse_headers_informational (env : Env) (req : SoupMessage) (headers : List Byte)
    (p : ParsedResponse) (hp : env.headers headers = some p)
    (hinfo : SOUP_STATUS_IS_INFORMATIONAL p.status_code = true) :
    ∃ m, parse_headers env req headers = (SOUP_STATUS_OK, m, some .NONE) ∧
      m.status_code = p.status_code := by
  unfold parse_headers
  rw [hp]
  simp only []
  split
  · rename_i h
    simp only [hinfo, Bool.or_true, Bool.true_or, if_true] at h ⊢
    split
    · rename_i h2; exact absurd h2 (by decide)
    · exact ⟨_, rfl, rfl⟩
  · rename_i h
    simp only [hinfo, Bool.or_true, Bool.true_or, if_true] at h ⊢
    split
    · rename_i h2; exact absurd h2 (by decide)
    · exact ⟨_, rfl, rfl⟩

theorem pass_item_return_if (o : CallbackOutcome) (c : IOCtx) :
    pass_item (return_if_cancelled_or_paused o c) = c.io ∧
      ∀ r, return_if_cancelled_or_paused o c = .inr r → r.ret = false := by
  cases o
  · exact ⟨rfl, fun r h => by simp [return_if_cancelled_or_paused] at h⟩
  · refine ⟨rfl, fun r h => ?_⟩
    simp only [return_if_cancelled_or_paused, Sum.inr.injEq] at h
    rw [← h]
  · refine ⟨rfl, fun r h => ?_⟩
    simp only [return_if_cancelled_or_paused, Sum.inr.injEq] at h
    rw [← h]

/-- The part of case `HEADERS` of `io_data_read` that follows a header block with an
informational status, while the writer is `BLOCKING`. -/
theorem read_headers_block_informational (c : IOCtx) (p : ParsedResponse)
    (hw : c.io.write_state = .BLOCKING)
    (hp : c.env.headers (c.io.read_meta_buf.take (rewind_length c.io.read_meta_buf)) = some p)
    (hinfo : SOUP_STATUS_IS_INFORMATIONAL p.status_code = true) :
    (p.status_code = SOUP_STATUS_CONTINUE →
      (pass_item (read_headers_block c)).read_state = .BLOCKING ∧
      (pass_item (read_headers_block c)).write_state = io_body_state c.io.write_encoding) ∧
    (p.status_code ≠ SOUP_STATUS_CONTINUE →
      (pass_item (read_headers_block c)).read_state = .HEADERS ∧
      (pass_item (read_headers_block c)).write_state = .BLOCKING) ∧
    (∀ r, read_headers_block c = .inr r → r.ret = false) := by
  obtain ⟨m, hm, hst⟩ := parse_headers_informational c.env c.io.msg _ p hp hinfo
  have hb : read_headers_block c =
      read_headers_parsed (c.update (read_headers_store c.env)) := by
    unfold read_headers_block
    rw [hm]
    simp
  have hstore : (c.update (read_headers_store c.env)).io =
      { c.io with msg := m, read_encoding := .NONE, read_meta_buf := [] } := by
    simp only [IOCtx.update, read_headers_store]
    rw [hm]
    rfl
  have henc : read_headers_encoding (c.update (read_headers_store c.env)).io =
      (c.update (read_headers_store c.env)).io := by
    rw [hstore]
    rfl
  have hinfo2 : SOUP_STATUS_IS_INFORMATIONAL
      (c.update (read_headers_store c.env)).io.msg.status_code = true := by
    rw [hstore]; simp only []; rw [hst]; exact hinfo
  have hw2 : (c.update (read_headers_store c.env)).io.write_state = .BLOCKING := by
    rw [hstore]; exact hw
  obtain ⟨s1, s2, s3⟩ := read_headers_states_informational _ hinfo2 hw2
  have hcode : (c.update (read_headers_store c.env)).io.msg.status_code = p.status_code := by
    rw [hstore]; exact hst
  have hwe : (c.update (read_headers_store c.env)).io.write_encoding = c.io.write_encoding := by
    rw [hstore]
  rw [hcode] at s1 s2
  rw [hwe] at s1
  have hsig : ∃ o c2, read_headers_block c = return_if_cancelled_or_paused o c2 ∧
      c2.io.read_state = (read_headers_states (c.update (read_headers_store c.env)).io).read_state ∧
      c2.io.write_state =
        (read_headers_states (c.update (read_headers_store c.env)).io).write_state := by
    rw [hb]
    unfold read_headers_parsed read_headers_signal
    have : SOUP_STATUS_IS_INFORMATIONAL (((c.update (read_headers_store c.env)).update
        (fun io => read_headers_states (read_headers_encoding io))).io.msg.status_code) = true := by
      simp only [IOCtx.update] at henc hinfo2 s3 ⊢
      rw [henc, s3]
      exact hinfo2
    rw [if_pos this]
    refine ⟨_, _, rfl, ?_, ?_⟩
    · simp only [IOCtx.update, soup_message_cleanup_response, signal] at henc ⊢
      rw [henc]
    · simp only [IOCtx.update, soup_message_cleanup_response, signal] at henc ⊢
      rw [henc]
  obtain ⟨o, c2, e, r1, r2⟩ := hsig
  rw [e, (pass_item_return_if o c2).1, r1, r2]
  exact ⟨s1, s2, (pass_item_return_if o c2).2⟩

/-- C20 (amended). A pass of `io_data_read` in the state `HEADERS` while the writer is
`BLOCKING`, in which `soup_io_dispatcher_read_metadata` returns TRUE and the header block
parses as a response with an informational status.  When the status is 100 the pass releases
the writer: the reader becomes `BLOCKING` and the writer gets the body state of its encoding,
`CHUNK_SIZE` for `CHUNKED` and `BODY` otherwise, and `io_data_read` returns FALSE with these
states.  With every other informational status the pass leaves the reader in `HEADERS` and
the writer `BLOCKING`. -/
theorem expect_continue_release (response_block_size : Nat) (ctx : IOCtx) (p : ParsedResponse)
    (hrs : ctx.io.read_state = .HEADERS) (hws : ctx.io.write_state = .BLOCKING)
    (hparse : (soup_io_dispatcher_read_metadata response_block_size ctx true).bind (fun r =>
      if r.ret then
        r.ctx.env.headers (r.ctx.io.read_meta_buf.take (rewind_length r.ctx.io.read_meta_buf))
      else none) = some p)
    (hinfo : SOUP_STATUS_IS_INFORMATIONAL p.status_code = true) :
    ∃ x, io_data_read_step response_block_size ctx = some x ∧
      (p.status_code = SOUP_STATUS_CONTINUE →
        (pass_item x).read_state = .BLOCKING ∧
        (pass_item x).write_state = io_body_state ctx.io.write_encoding ∧
        (ctx.io.write_encoding = .CHUNKED → (pass_item x).write_state = .CHUNK_SIZE) ∧
        (ctx.io.write_encoding ≠ .CHUNKED → (pass_item x).write_state = .BODY) ∧
        ∀ fuel, ∃ r, io_data_read response_block_size (fuel + 2) ctx = some r ∧
          r.ret = false ∧ r.ctx.io.read_state = .BLOCKING ∧
          r.ctx.io.write_state = io_body_state ctx.io.write_encoding) ∧
      (p.status_code ≠ SOUP_STATUS_CONTINUE →
        (pass_item x).read_state = .HEADERS ∧ (pass_item x).write_state = .BLOCKING) := by
  cases hrm : soup_io_dispatcher_read_metadata response_block_size ctx true with
  | none => rw [hrm] at hparse; simp at hparse
  | some r =>
    rw [hrm] at hparse
    simp only [Option.some_bind] at hparse
    have hr : r.ret = true := by
      by_contra h
      rw [if_neg h] at hparse
      exact absurd hparse (by simp)
    rw [if_pos hr] at hparse
    obtain ⟨⟨⟨bytes, hio⟩, _, _⟩, _, _⟩ := read_metadata_spec _ _ _ _ hrm
    have hw : r.ctx.io.write_state = .BLOCKING := by rw [hio]; exact hws
    have hwe : r.ctx.io.write_encoding = ctx.io.write_encoding := by rw [hio]
    obtain ⟨s1, s2, s3⟩ := read_headers_block_informational r.ctx p hw hparse hinfo
    rw [hwe] at s1
    have hstep : io_data_read_step response_block_size ctx = some (read_headers_block r.ctx) := by
      unfold io_data_read_step
      rw [hrs]
      simp only [read_case_HEADERS]
      rw [hrm]
      simp only [with_call, Option.map_some', or_return, hr, if_true]
    refine ⟨read_headers_block r.ctx, hstep, fun h100 => ?_, s2⟩
    obtain ⟨a1, a2⟩ := s1 h100
    refine ⟨a1, a2, fun hc => ?_, fun hc => ?_, fun fuel => ?_⟩
    · rw [a2]; simp [io_body_state, hc]
    · rw [a2]
      have : (ctx.io.write_encoding == SoupEncoding.CHUNKED) = false := by simpa using hc
      simp [io_body_state, this]
    · unfold io_data_read
      cases hx : read_headers_block r.ctx with
      | inl c =>
        rw [hx] at a1 a2 hstep
        have h2 : io_data_read_step response_block_size c = some (.inr (c.returns false)) := by
          unfold io_data_read_step
          simp only [pass_item] at a1
          rw [a1]
        refine ⟨c.returns false, ?_, rfl, a1, a2⟩
        rw [iterate_of_inl (fuel + 1) hstep]
        exact iterate_of_inr fuel h2
      | inr r2 =>
        rw [hx] at a1 a2 hstep
        exact ⟨r2, iterate_of_inr (fuel + 1) hstep, s3 r2 hx, a1, a2⟩

/-- Witness for C20: the header block of `sample_ctx_continue` is a response with status 100;
the pass leaves the reader `BLOCKING` and the writer, whose encoding is `CONTENT_LENGTH`, in
`BODY`. -/
theorem expect_continue_release_witness :
    sample_ctx_continue.io.write_state = .BLOCKING ∧
    sample_ctx_continue.io.write_encoding = .CONTENT_LENGTH ∧
    ∃ x, io_data_read_step 8192 sample_ctx_continue = some x ∧
      (pass_item x).read_state = .BLOCKING ∧ (pass_item x).write_state = .BODY := by
  obtain ⟨x, h1, h2, _⟩ := expect_continue_release 8192 sample_ctx_continue
    { status_code := 100, http_1_0 := false, encoding := .NONE, content_length := 0
      connection_close := false, keep_alive := false } rfl rfl (by decide) (by decide)
  obtain ⟨e1, _, _, e4, _⟩ := h2 rfl
  exact ⟨rfl, rfl, x, h1, e1, e4 (by decide)⟩

/-- C20, counterexample to the claim as stated.  The writer of `sample_ctx_expect` is
`BLOCKING` for `Expect: 100-continue`; the reader parses a header block with the
informational status 102.  `io_data_read` leaves the writer `BLOCKING` and the reader in
`HEADERS`, and returns FALSE when the socket has nothing more. -/
theorem status_102_does_not_release :
    sample_ctx_expect.io.write_state = .BLOCKING ∧
    SOUP_STATUS_IS_INFORMATIONAL 102 = true ∧
    (io_data_read 8192 3 sample_ctx_expect).map
      (fun r => (r.ret, r.ctx.io.read_state, r.ctx.io.write_state, r.ctx.io.read_blocked,
        r.ctx.events)) =
      some (false, .HEADERS, .BLOCKING, true,
        [Event.msg_signal 7 .got_informational, Event.msg_signal 7 .cleanup_response]) := by
  decide

/-- C27, refuted on the code.  The writer is in `BODY` with the encoding `CONTENT_LENGTH` and
bytes still to write, no chunk in hand, and the body has nothing more than its end-of-body
chunk at the current offset; the handlers of the application do nothing.  Then a pass through
the `BODY` case hands no byte to the socket, stays in `BODY` and does not return, and so does
every later pass: `io_data_write` has no result, whatever the number of passes. -/
theorem io_data_write_body_loops (fuel : Nat) (ctx : IOCtx)
    (hst : ctx.io.write_state = .BODY) (henc : ctx.io.write_encoding = .CONTENT_LENGTH)
    (hlen : ctx.io.write_length ≠ 0) (hchunk : ctx.io.write_chunk = none)
    (hget : soup_message_body_get_chunk ctx.io.msg.request_body
      ctx.io.write_body_offset.toNat = some [])
    (hcb : ctx.env.callbacks = []) :
    io_data_write fuel ctx = none ∧
    ∃ ctx', io_data_write_step ctx = some (.inl ctx') ∧ ctx'.io.write_state = .BODY ∧
      wire ctx'.events = wire ctx.events := by
  constructor
  · have hstart : ctx.update write_start = ctx := by
      simp [IOCtx.update, write_start, hst]
    unfold io_data_write
    rw [hstart]
    clear hstart
    induction fuel generalizing ctx with
    | zero => rfl
    | succ n ih =>
      obtain ⟨ctx', hstep, h1, h2, h3, h4, h5, h6, h7, _⟩ :=
        write_body_empty_chunk_pass ctx hst henc hlen hchunk hget hcb
      rw [iterate_of_inl n hstep]
      exact ih ctx' h1 h2 (by rw [h3]; exact hlen) h4 (by rw [h5, h6]; exact hget) h7
  · obtain ⟨ctx', hstep, h1, _, _, _, _, _, _, h8⟩ :=
      write_body_empty_chunk_pass ctx hst henc hlen hchunk hget hcb
    exact ⟨ctx', hstep, h1, h8⟩

/-- Witness for C27: `sample_ctx_short_body`, a request with `Content-Length: 5` whose body
ends after 3 bytes. -/
theorem io_data_write_body_loops_witness :
    sample_ctx_short_body.io.write_length = 2 ∧
    soup_message_body_get_chunk sample_ctx_short_body.io.msg.request_body 3 = some [] ∧
    io_data_write 1000 sample_ctx_short_body = none :=
  ⟨rfl, rfl, (io_data_write_body_loops 1000 sample_ctx_short_body rfl rfl (by decide) rfl rfl
    rfl).1⟩

/-- The size line of `sample_ctx_blank_size_line` is CR LF, which is white space: `strtoul`
goes on into the memory behind the metadata buffer, finds `1f` there, and the reader goes to
`CHUNK` with `read_length = 31`. -/
theorem blank_size_line_reads_behind :
    sample_ctx_blank_size_line.env.incoming = [.data [13, 10]] ∧
    sample_ctx_blank_size_line.env.behind = [[49, 102]] ∧
    (io_data_read_step 8192 sample_ctx_blank_size_line).map (fun s =>
      match s with
      | .inl c => some (c.io.read_state, c.io.read_length, c.env.behind)
      | .inr _ => none) = some (some (.CHUNK, 31, [])) := by
  decide

theorem disconnect_socket_spec (conn : SoupConnection) :
    (disconnect_socket conn).socket = none ∧
    (disconnect_socket conn).state = conn.state ∧
    (disconnect_socket conn).trace.count .disconnected = conn.trace.count .disconnected ∧
    (conn.socket = none → disconnect_socket conn = conn) := by
  unfold disconnect_socket
  cases h : conn.socket with
  | none => exact ⟨h, rfl, rfl, fun _ => rfl⟩
  | some s =>
    refine ⟨rfl, rfl, ?_, fun h2 => absurd h2 (by simp)⟩
    simp [SoupConnection.emit, List.count_append]

theorem disconnect_first (conn : SoupConnection) (hs : conn.state ≠ .DISCONNECTED) :
    (soup_connection_disconnect conn).state = .DISCONNECTED ∧
    (soup_connection_disconnect conn).socket = none ∧
    (soup_connection_disconnect conn).trace.count .disconnected =
      conn.trace.count .disconnected + 1 := by
  have hb : (conn.state != SoupConnectionState.DISCONNECTED) = true := by simpa using hs
  unfold soup_connection_disconnect
  simp only [hb, if_true]
  obtain ⟨h1, h2, h3, _⟩ := disconnect_socket_spec (set_state conn .DISCONNECTED)
  refine ⟨?_, ?_, ?_⟩
  · simp only [SoupConnection.emit]
    rw [h2]
    rfl
  · simp only [SoupConnection.emit]
    exact h1
  · simp only [SoupConnection.emit, List.count_append]
    rw [h3]
    simp [set_state, SoupConnection.emit, List.count_append]

theorem disconnect_again (conn : SoupConnection) (hs : conn.state = .DISCONNECTED)
    (hk : conn.socket = none) : soup_connection_disconnect conn = conn := by
  unfold soup_connection_disconnect
  simp only [hs, bne_self_eq_false, Bool.false_eq_true, if_false]
  exact (disconnect_socket_spec conn).2.2.2 hk

theorem disconnect_times_fixed (n : Nat) (conn : SoupConnection)
    (hs : conn.state = .DISCONNECTED) (hk : conn.socket = none) :
    disconnect_times n conn = conn := by
  induction n with
  | zero => rfl
  | succ n ih =>
    rw [disconnect_times, disconnect_again conn hs hk]
    exact ih

/-- C18. `soup_connection_disconnect` is idempotent: on a connection that is not
`DISCONNECTED`, `n ≥ 1` calls in a row leave the state `DISCONNECTED` and the socket null and
emit `disconnected` exactly once in total; the result of the first call is a fixed point of
the function, so the second and later calls emit nothing and change nothing. -/
theorem soup_connection_disconnect_idempotent (conn : SoupConnection) (n : Nat)
    (hs : conn.state ≠ .DISCONNECTED) (hn : 1 ≤ n) :
    (disconnect_times n conn).state = .DISCONNECTED ∧
    (disconnect_times n conn).socket = none ∧
    (disconnect_times n conn).trace.count .disconnected =
      conn.trace.count .disconnected + 1 ∧
    disconnect_times n conn = soup_connection_disconnect conn ∧
    soup_connection_disconnect (soup_connection_disconnect conn) =
      soup_connection_disconnect conn := by
  obtain ⟨h1, h2, h3⟩ := disconnect_first conn hs
  obtain ⟨m, rfl⟩ : ∃ m, n = m + 1 := ⟨n - 1, by omega⟩
  have e : disconnect_times (m + 1) conn = soup_connection_disconnect conn := by
    rw [disconnect_times]
    exact disconnect_times_fixed m _ h1 h2
  rw [e]
  exact ⟨h1, h2, h3, rfl, disconnect_again _ h1 h2⟩

/-- Witness for C18: three calls on `sample_conn_tunnel`, which is connected. -/
theorem soup_connection_disconnect_idempotent_witness :
    (disconnect_times 3 sample_conn_tunnel).trace =
      [.notify_state, .socket_disconnect 5, .disconnected] ∧
    (disconnect_times 3 sample_conn_tunnel).state = .DISCONNECTED :=
  ⟨by decide,
    (soup_connection_disconnect_idempotent sample_conn_tunnel 3 (by decide) (by decide)).1⟩

theorem tunnel_connect_loop_one (fuel : Nat) (x : ConnectExchange) (rest : List ConnectExchange) :
    tunnel_connect_loop (fuel + 1) (x :: rest) = some (tunnel_connect_round x).1 := by
  have h : ((tunnel_connect_round x).2 == SoupMessageQueueItemState.STARTING) = false := by
    unfold tunnel_connect_round
    split
    · rfl
    · split <;> rfl
  simp [tunnel_connect_loop, h]

theorem handshake_sync_spec (conn : SoupConnection) (script : SocketScript) :
    (handshake_sync conn script).2.state = conn.state ∧
    (handshake_sync conn script).2.socket = conn.socket ∧
    (handshake_sync conn script).2.ssl = conn.ssl ∧
    (handshake_sync conn script).2.tunnel_addr = conn.tunnel_addr ∧
    (handshake_sync conn script).2.proxy_uri = conn.proxy_uri ∧
    (handshake_sync conn script).2.event_handler = conn.event_handler ∧
    (∀ e, (∀ g, e ≠ .event g) → (handshake_sync conn script).2.trace.count e =
      conn.trace.count e) ∧
    (handshake_sync conn script).2.trace.count (.event .COMPLETE) =
      conn.trace.count (.event .COMPLETE) ∧
    (script.handshake_status = SOUP_STATUS_OK → (handshake_sync conn script).1 = SOUP_STATUS_OK) ∧
    (script.handshake_status ≠ SOUP_STATUS_OK →
      (handshake_sync conn script).1 =
        (if script.handshake_status = SOUP_STATUS_TLS_FAILED then SOUP_STATUS_TRY_AGAIN
         else script.handshake_status) ∧
      (script.handshake_status = SOUP_STATUS_TLS_FAILED →
        (handshake_sync conn script).2.ssl_fallback = true)) := by
  unfold handshake_sync
  by_cases h : script.handshake_status = SOUP_STATUS_OK
  · simp only [h, beq_self_eq_true, if_true]
    refine ⟨rfl, rfl, rfl, rfl, rfl, rfl, ?_, ?_, fun _ => trivial, fun hh => absurd rfl hh⟩
    · intro e he
      simp [soup_connection_event, SoupConnection.emit, List.count_append, List.count_singleton,
        he]
    · simp [soup_connection_event, SoupConnection.emit, List.count_append]
  · have hb : (script.handshake_status == SOUP_STATUS_OK) = false := by simpa using h
    simp only [hb, Bool.false_eq_true, if_false]
    unfold tls_failed_fallback
    by_cases ht : script.handshake_status = SOUP_STATUS_TLS_FAILED
    · simp only [ht, beq_self_eq_true, if_true]
      refine ⟨rfl, rfl, rfl, rfl, rfl, rfl, ?_, ?_, fun hh => absurd hh (by decide),
        fun _ => ⟨trivial, fun _ => trivial⟩⟩
      · intro e he
        simp [soup_connection_event, SoupConnection.emit, List.count_append,
          List.count_singleton, he]
      · simp [soup_connection_event, SoupConnection.emit, List.count_append]
    · have hb2 : (script.handshake_status == SOUP_STATUS_TLS_FAILED) = false := by simpa using ht
      simp only [hb2, Bool.false_eq_true, if_false]
      refine ⟨rfl, rfl, rfl, rfl, rfl, rfl, ?_, ?_, fun hh => absurd hh h,
        fun _ => ⟨by simp [ht], fun hh => absurd hh ht⟩⟩
      · intro e he
        simp [soup_connection_event, SoupConnection.emit, List.count_append,
          List.count_singleton, he]
      · simp [soup_connection_event, SoupConnection.emit, List.count_append]

theorem start_ssl_sync_failure (conn : SoupConnection) (script : SocketScript)
    (hfail : script.start_ssl = false ∨
      (SOUP_STATUS_IS_SUCCESSFUL script.handshake_status = false ∧
        script.handshake_status ≠ SOUP_STATUS_NONE)) :
    SOUP_STATUS_IS_SUCCESSFUL (soup_connection_start_ssl_sync conn script).1 = false ∧
    (soup_connection_start_ssl_sync conn script).1 ≠ 0 := by
  unfold soup_connection_start_ssl_sync
  by_cases hs : script.start_ssl = false
  · simp only [hs, Bool.not_false, if_true]
    exact ⟨by decide, by decide⟩
  · have hs2 : script.start_ssl = true := by simpa using hs
    obtain ⟨hf, h0⟩ := hfail.resolve_left hs
    simp only [hs2, Bool.not_true, Bool.false_eq_true, if_false]
    have hne : script.handshake_status ≠ SOUP_STATUS_OK := by
      intro h
      rw [h] at hf
      exact absurd hf (by decide)
    have h1 := ((handshake_sync_spec conn script).2.2.2.2.2.2.2.2.2 hne).1
    rw [h1]
    by_cases ht : script.handshake_status = SOUP_STATUS_TLS_FAILED
    · simp only [ht, if_true]
      exact ⟨by decide, by decide⟩
    · simp only [ht, if_false]
      exact ⟨hf, h0⟩

theorem start_ssl_sync_frame (conn : SoupConnection) (script : SocketScript) :
    (soup_connection_start_ssl_sync conn script).2.state = conn.state ∧
    (soup_connection_start_ssl_sync conn script).2.socket = conn.socket ∧
    (∀ e, (∀ g, e ≠ .event g) →
      (soup_connection_start_ssl_sync conn script).2.trace.count e = conn.trace.count e) ∧
    (script.start_ssl = true → script.handshake_status = SOUP_STATUS_TLS_FAILED →
      (soup_connection_start_ssl_sync conn script).2.ssl_fallback = true) := by
  by_cases hs : script.start_ssl = false
  · have e : soup_connection_start_ssl_sync conn script = (SOUP_STATUS_SSL_FAILED, conn) := by
      simp [soup_connection_start_ssl_sync, hs]
    rw [e]
    exact ⟨rfl, rfl, fun _ _ => rfl, fun h => absurd h (by simp [hs])⟩
  · have hs2 : script.start_ssl = true := by simpa using hs
    have e : soup_connection_start_ssl_sync conn script = handshake_sync conn script := by
      simp [soup_connection_start_ssl_sync, hs2]
    rw [e]
    obtain ⟨h1, h2, _, _, _, _, h7, _, _, h10⟩ := handshake_sync_spec conn script
    refine ⟨h1, h2, h7, fun _ ht => ?_⟩
    exact (h10 (by rw [ht]; decide)).2 ht

/-- C19, refuted on the code.  The `CONNECT` exchange has ended with a successful status and
the handshake that follows fails: `soup_socket_start_proxy_ssl` returns FALSE, or the
handshake returns a status that is not successful.  `soup_connection_start_ssl_sync` returns
the failure, which is a status other than 0, and `tunnel_connect` tests the result with `!`:
the failure is dropped, `tunnel_connect` returns the successful status of the exchange, and
the connection is not disconnected, although `ssl_fallback` is set when the failure was
`TLS_FAILED`. -/
theorem tunnel_connect_drops_handshake_failure (fuel : Nat) (conn : SoupConnection)
    (x : ConnectExchange) (rest : List ConnectExchange) (script : SocketScript)
    (hok : SOUP_STATUS_IS_SUCCESSFUL x.status_code = true) (hst : x.state ≠ .RESTARTING)
    (hfail : script.start_ssl = false ∨
      (SOUP_STATUS_IS_SUCCESSFUL script.handshake_status = false ∧
        script.handshake_status ≠ SOUP_STATUS_NONE)) :
    SOUP_STATUS_IS_SUCCESSFUL (soup_connection_start_ssl_sync
      ((conn.emit (.event_by_name .PROXY_NEGOTIATING)).emit (.event_by_name .PROXY_NEGOTIATING))
      script).1 = false ∧
    ∃ c, tunnel_connect (fuel + 1) conn (x :: rest) script = some (x.status_code, c) ∧
      c.state = conn.state ∧ c.socket = conn.socket ∧
      c.trace.count .disconnected = conn.trace.count .disconnected ∧
      (∀ s, c.trace.count (.socket_disconnect s) = conn.trace.count (.socket_disconnect s)) ∧
      (script.start_ssl = true → script.handshake_status = SOUP_STATUS_TLS_FAILED →
        c.ssl_fallback = true) := by
  have hround : (tunnel_connect_round x).1 = x.status_code := by
    unfold tunnel_connect_round
    have : (x.state == SoupMessageQueueItemState.RESTARTING) = false := by simpa using hst
    simp [this]
  obtain ⟨f1, f2⟩ := start_ssl_sync_failure
    ((conn.emit (.event_by_name .PROXY_NEGOTIATING)).emit (.event_by_name .PROXY_NEGOTIATING))
    script hfail
  obtain ⟨g1, g2, g3, g4⟩ := start_ssl_sync_frame
    ((conn.emit (.event_by_name .PROXY_NEGOTIATING)).emit (.event_by_name .PROXY_NEGOTIATING))
    script
  refine ⟨f1, (soup_connection_start_ssl_sync
    ((conn.emit (.event_by_name .PROXY_NEGOTIATING)).emit (.event_by_name .PROXY_NEGOTIATING))
    script).2, ?_, ?_, ?_, ?_, ?_, ?_⟩
  · unfold tunnel_connect
    rw [tunnel_connect_loop_one, hround]
    simp only [Option.map_some', tunnel_connect_finish, hok, if_true]
    have hz : ((soup_connection_start_ssl_sync
        ((conn.emit (.event_by_name .PROXY_NEGOTIATING)).emit (.event_by_name .PROXY_NEGOTIATING))
        script).1 == 0) = false := by simpa using f2
    simp only [hz, Bool.false_eq_true, if_false, hok, Bool.not_true]
  · exact g1
  · exact g2
  · rw [g3 _ (by intro g; simp)]
    simp [SoupConnection.emit, List.count_append]
  · intro s
    rw [g3 _ (by intro g; simp)]
    simp [SoupConnection.emit, List.count_append]
  · exact g4

/-- Witness for C19: the tunnel of `sample_conn_tunnel` is set up with status 200 and the
handshake fails with `TLS_FAILED`; `tunnel_connect` returns 200 and the socket stays. -/
theorem tunnel_connect_drops_handshake_failure_witness :
    tunnel_connect 1 sample_conn_tunnel
        [{ status_code := 200, state := .RUNNING, in_progress := false }]
        sample_script_tls_failed =
      some (200, { sample_conn_tunnel with
        ssl_fallback := true
        trace := [.event_by_name .PROXY_NEGOTIATING, .event_by_name .PROXY_NEGOTIATING,
          .event .TLS_HANDSHAKING] }) ∧
    SOUP_STATUS_IS_SUCCESSFUL (soup_connection_start_ssl_sync
      ((sample_conn_tunnel.emit (.event_by_name .PROXY_NEGOTIATING)).emit
        (.event_by_name .PROXY_NEGOTIATING)) sample_script_tls_failed).1 = false :=
  ⟨by decide,
    (tunnel_connect_drops_handshake_failure 0 sample_conn_tunnel
      { status_code := 200, state := .RUNNING, in_progress := false } []
      sample_script_tls_failed (by decide) (by decide) (Or.inr (by decide))).1⟩

theorem foldl_proxy_socket_event (events : List GSocketClientEvent) :
    ∀ conn : SoupConnection,
      (events.foldl proxy_socket_event conn).state = conn.state ∧
      (events.foldl proxy_socket_event conn).socket = conn.socket ∧
      (events.foldl proxy_socket_event conn).ssl = conn.ssl ∧
      (events.foldl proxy_socket_event conn).tunnel_addr = conn.tunnel_addr ∧
      (∀ e, (∀ g, g ≠ .COMPLETE → e ≠ .event g) →
        (events.foldl proxy_socket_event conn).trace.count e = conn.trace.count e) := by
  induction events with
  | nil => intro conn; exact ⟨rfl, rfl, rfl, rfl, fun _ _ => rfl⟩
  | cons g rest ih =>
    intro conn
    obtain ⟨h1, h2, h3, h4, h5⟩ := ih (proxy_socket_event conn g)
    simp only [List.foldl_cons]
    by_cases hg : g = .COMPLETE
    · have e : proxy_socket_event conn g = conn := by simp [proxy_socket_event, hg]
      rw [e] at h1 h2 h3 h4 h5 ⊢
      exact ⟨h1, h2, h3, h4, h5⟩
    · have e : proxy_socket_event conn g = conn.emit (.event g) := by
        simp [proxy_socket_event, hg, soup_connection_event]
      rw [e] at h1 h2 h3 h4 h5 ⊢
      refine ⟨h1, h2, h3, h4, fun ev hev => ?_⟩
      rw [h5 ev hev]
      have : ev ≠ .event g := hev g hg
      simp [SoupConnection.emit, List.count_append, List.count_singleton, this]

theorem socket_events_spec (conn : SoupConnection) (events : List GSocketClientEvent) :
    (socket_events conn events).state = conn.state ∧
    (socket_events conn events).socket = conn.socket ∧
    (socket_events conn events).ssl = conn.ssl ∧
    (socket_events conn events).tunnel_addr = conn.tunnel_addr ∧
    (∀ e, (∀ g, g ≠ .COMPLETE → e ≠ .event g) →
      (socket_events conn events).trace.count e = conn.trace.count e) := by
  unfold socket_events
  split
  · exact foldl_proxy_socket_event events conn
  · exact ⟨rfl, rfl, rfl, rfl, fun _ _ => rfl⟩

theorem connect_complete_spec (conn : SoupConnection) :
    (connect_complete conn).state = conn.state ∧
    (connect_complete conn).socket = conn.socket ∧
    (∀ s, (connect_complete conn).trace.count (.connected s) = conn.trace.count (.connected s)) ∧
    (connect_complete conn).trace.count (.event .COMPLETE) =
      conn.trace.count (.event .COMPLETE) +
        (if conn.ssl && conn.tunnel_addr.isSome then 0 else 1) := by
  unfold connect_complete
  cases h1 : conn.ssl <;> cases h2 : conn.tunnel_addr <;>
    simp [soup_connection_event, SoupConnection.emit, List.count_append]

/-- C29, refuted on the code.  A connection without a socket is connected, the socket
connects with status `OK`, and the handshake, where one is made, succeeds.  Both functions
emit `connected` once and emit `COMPLETE` unless the connection is a TLS tunnel, but only
`soup_connection_connect_async` sets the state to `CONNECTED`: `soup_connection_connect_sync`
returns `OK` and leaves the state `CONNECTING`. -/
theorem connect_sync_leaves_connecting (conn : SoupConnection) (socket : Nat)
    (script : SocketScript) (callback : Bool) (hsock : conn.socket = none)
    (hc : script.connect_status = SOUP_STATUS_OK) (hs : script.start_ssl = true)
    (hh : script.handshake_status = SOUP_STATUS_OK) :
    (soup_connection_connect_sync conn socket script).1 = SOUP_STATUS_OK ∧
    (soup_connection_connect_sync conn socket script).2.state = .CONNECTING ∧
    (soup_connection_connect_async conn socket script callback).state = .CONNECTED ∧
    (soup_connection_connect_sync conn socket script).2.socket = some socket ∧
    (soup_connection_connect_async conn socket script callback).socket = some socket ∧
    (soup_connection_connect_sync conn socket script).2.trace.count (.connected socket) =
      conn.trace.count (.connected socket) + 1 ∧
    (soup_connection_connect_async conn socket script callback).trace.count
      (.connected socket) = conn.trace.count (.connected socket) + 1 ∧
    (soup_connection_connect_sync conn socket script).2.trace.count (.event .COMPLETE) =
      conn.trace.count (.event .COMPLETE) +
        (if conn.ssl && conn.tunnel_addr.isSome then 0 else 1) ∧
    (soup_connection_connect_async conn socket script callback).trace.count
      (.event .COMPLETE) = conn.trace.count (.event .COMPLETE) +
        (if conn.ssl && conn.tunnel_addr.isSome then 0 else 1) := by
  obtain ⟨e1, e2, e3, e4, e5⟩ :=
    socket_events_spec (new_socket (set_state conn .CONNECTING) socket) script.events
  have c1 := e5 (.connected socket) (by intro g _; simp)
  have c2 := e5 (.event .COMPLETE) (by intro g hg heq; exact hg (ConnEvent.event.inj heq).symm)
  have hsync : soup_connection_connect_sync conn socket script =
      connect_sync_return (connect_sync_succeeded (connect_sync_tls
        (socket_events (new_socket (set_state conn .CONNECTING) socket) script.events) script
        SOUP_STATUS_OK).2) SOUP_STATUS_OK := by
    unfold soup_connection_connect_sync
    have hok : (connect_sync_tls
        (socket_events (new_socket (set_state conn .CONNECTING) socket) script.events) script
        SOUP_STATUS_OK).1 = SOUP_STATUS_OK := by
      unfold connect_sync_tls
      split
      · simp only [hs, Bool.not_true, Bool.false_eq_true, if_false]
        exact (handshake_sync_spec _ script).2.2.2.2.2.2.2.2.1 hh
      · rfl
    simp only [hsock, Option.isSome_none, Bool.false_eq_true, if_false, hc]
    rw [hok]
    simp [SOUP_STATUS_IS_SUCCESSFUL, SOUP_STATUS_OK]
  have hasync : soup_connection_connect_async conn socket script callback =
      socket_connect_result
        (socket_events (new_socket (set_state conn .CONNECTING) socket) script.events)
        { callback := callback, tls_handshake := conn.ssl && conn.tunnel_addr.isNone }
        socket script SOUP_STATUS_OK := by
    unfold soup_connection_connect_async
    simp only [hsock, Option.isSome_none, Bool.false_eq_true, if_false, hc]
    rfl
  rw [hsync, hasync]
  generalize socket_events (new_socket (set_state conn .CONNECTING) socket) script.events = c
    at e1 e2 e3 e4 c1 c2
  have n1 : (new_socket (set_state conn .CONNECTING) socket).state = .CONNECTING := rfl
  have n2 : (new_socket (set_state conn .CONNECTING) socket).socket = some socket := rfl
  have n3 : (new_socket (set_state conn .CONNECTING) socket).ssl = conn.ssl := rfl
  have n4 : (new_socket (set_state conn .CONNECTING) socket).tunnel_addr = conn.tunnel_addr :=
    rfl
  have n5 : (new_socket (set_state conn .CONNECTING) socket).trace.count (.connected socket) =
      conn.trace.count (.connected socket) := by
    simp [new_socket, set_state, SoupConnection.emit, List.count_append]
  have n6 : (new_socket (set_state conn .CONNECTING) socket).trace.count (.event .COMPLETE) =
      conn.trace.count (.event .COMPLETE) := by
    simp [new_socket, set_state, SoupConnection.emit, List.count_append]
  rw [n1] at e1
  rw [n2] at e2
  rw [n3] at e3
  rw [n4] at e4
  rw [n5] at c1
  rw [n6] at c2
  rw [← c1, ← c2, ← e3, ← e4]
  clear n1 n2 n3 n4 n5 n6 c1 c2 e3 e4 hsync hasync hsock
  obtain ⟨cs, ca, ce, cf, cg, ch, ci, cj⟩ := c
  simp only at e1 e2
  subst e1 e2
  cases cg <;> cases ce <;> cases cf <;> cases callback <;>
    simp [connect_sync_return, connect_sync_succeeded, connect_sync_tls, handshake_sync, hs, hh,
      connect_complete, soup_connection_event, SoupConnection.emit, socket_connect_result,
      socket_connect_finished, connect_async_callback, connect_async_succeeded, set_state,
      SOUP_STATUS_IS_SUCCESSFUL, SOUP_STATUS_OK, List.count_append, soup_status_proxify,
      SOUP_STATUS_CANT_RESOLVE, SOUP_STATUS_CANT_CONNECT]

/-- Witness for C29: `sample_conn` with a socket that connects and shakes hands. -/
theorem connect_sync_leaves_connecting_witness :
    (soup_connection_connect_sync sample_conn 5 sample_script).2.state = .CONNECTING ∧
    (soup_connection_connect_async sample_conn 5 sample_script true).state = .CONNECTED ∧
    (soup_connection_connect_sync sample_conn 5 sample_script).1 = SOUP_STATUS_OK :=
  ⟨by decide, by decide,
    (connect_sync_leaves_connecting sample_conn 5 sample_script true rfl rfl rfl rfl).1⟩

/-! # The pipeline invariants -/

theorem keeps_refl {K : SoupMessageIOData → SoupMessageIOData → Prop} (hK : Keeps K)
    (a : SoupMessageIOData) : K a a := hK.frame a a rfl rfl rfl rfl rfl rfl

theorem KeepsR.keeps {K : SoupMessageIOData → SoupMessageIOData → Prop} (hK : KeepsR K) :
    Keeps K :=
  ⟨hK.trans, fun a b h1 h2 h3 h4 _ h6 => hK.frame a b h1 h2 h3 h4 h6⟩

theorem same_keeps : Keeps Same := by
  refine ⟨?_, fun a b h1 h2 h3 h4 h5 h6 => ⟨h1, h2, h3, h4, h5, h6⟩⟩
  rintro a b c ⟨h1, h2, h3, h4, h5, h6⟩ ⟨g1, g2, g3, g4, g5, g6⟩
  exact ⟨g1.trans h1, g2.trans h2, g3.trans h3, g4.trans h4, g5.trans h5, g6.trans h6⟩

theorem sameR_keepsR : KeepsR SameR := by
  refine ⟨?_, fun a b h1 h2 h3 h4 h5 => ⟨h1, h2, h3, h4, h5⟩⟩
  rintro a b c ⟨h1, h2, h3, h4, h5⟩ ⟨g1, g2, g3, g4, g5⟩
  exact ⟨g1.trans h1, g2.trans h2, g3.trans h3, g4.trans h4, g5.trans h5⟩

theorem same_sub {K : SoupMessageIOData → SoupMessageIOData → Prop} (hK : Keeps K)
    {a b : SoupMessageIOData} (h : Same a b) : K a b :=
  hK.frame a b h.1 h.2.1 h.2.2.1 h.2.2.2.1 h.2.2.2.2.1 h.2.2.2.2.2

theorem sameR_sub {K : SoupMessageIOData → SoupMessageIOData → Prop} (hK : KeepsR K)
    {a b : SoupMessageIOData} (h : SameR a b) : K a b :=
  hK.frame a b h.1 h.2.1 h.2.2.1 h.2.2.2.1 h.2.2.2.2

theorem writerTurn_refl (a : SoupMessageIOData) : WriterTurn a a := Or.inl ⟨rfl, rfl⟩

theorem writerTurn_trans {a b c : SoupMessageIOData} (h1 : WriterTurn a b)
    (h2 : WriterTurn b c) : WriterTurn a c := by
  rcases h1 with ⟨r1, w1⟩ | ⟨wa, h1⟩
  · rcases h2 with ⟨r2, w2⟩ | ⟨wb, h2⟩
    · exact Or.inl ⟨r2.trans r1, w2.trans w1⟩
    · rw [w1] at wb
      rw [r1] at h2
      exact Or.inr ⟨wb, h2⟩
  · rcases h1 with ⟨r1, wb⟩ | ⟨r1, nwb⟩
    · rcases h2 with ⟨r2, w2⟩ | ⟨_, h2⟩
      · exact Or.inr ⟨wa, Or.inl ⟨r2.trans r1, by rw [w2]; exact wb⟩⟩
      · rw [r1] at h2
        exact Or.inr ⟨wa, h2⟩
    · rcases h2 with ⟨r2, w2⟩ | ⟨wb, _⟩
      · exact Or.inr ⟨wa, Or.inr ⟨r2.trans r1, by rw [w2]; exact nwb⟩⟩
      · exact absurd wb nwb

theorem readerTurn_refl (a : SoupMessageIOData) : ReaderTurn a a := Or.inl ⟨rfl, rfl⟩

theorem readerTurn_trans {a b c : SoupMessageIOData} (h1 : ReaderTurn a b)
    (h2 : ReaderTurn b c) : ReaderTurn a c := by
  rcases h1 with ⟨r1, w1⟩ | ⟨ra, h1⟩
  · rcases h2 with ⟨r2, w2⟩ | ⟨rb, h2⟩
    · exact Or.inl ⟨r2.trans r1, w2.trans w1⟩
    · rw [r1] at rb
      rw [w1] at h2
      exact Or.inr ⟨rb, h2⟩
  · rcases h1 with ⟨rb, w1⟩ | ⟨r1, w1⟩
    · rcases h2 with ⟨r2, w2⟩ | ⟨_, h2⟩
      · refine Or.inr ⟨ra, Or.inl ⟨by rw [r2]; exact rb, ?_⟩⟩
        rw [w2]; exact w1
      · rcases h2 with ⟨rc, w2⟩ | ⟨r2, w2⟩
        · refine Or.inr ⟨ra, Or.inl ⟨rc, ?_⟩⟩
          rcases w1 with w1 | ⟨wa, wb⟩
          · rw [w1] at w2; exact w2
          · rcases w2 with w2 | ⟨wb2, _⟩
            · exact Or.inr ⟨wa, w2.trans wb⟩
            · rw [wb] at wb2; exact absurd wb2 (by simp)
        · refine Or.inr ⟨ra, Or.inr ⟨r2, ?_⟩⟩
          rcases w1 with w1 | ⟨wa, wb⟩
          · rw [← w1]; exact w2
          · exact wa
    · rcases h2 with ⟨r2, w2⟩ | ⟨rb, _⟩
      · exact Or.inr ⟨ra, Or.inr ⟨r2.trans r1, w1⟩⟩
      · rw [r1] at rb
        exact absurd rfl rb.2

/-- The writer keeps the turn-taking of an item. -/
theorem turn_of_writerTurn {a b : SoupMessageIOData} (h : WriterTurn a b) (ha : Turn a) :
    Turn b := by
  intro rb wb
  rcases h with ⟨r1, w1⟩ | ⟨wa, h⟩
  · rw [r1] at rb; rw [w1] at wb
    exact ha rb wb
  · rcases h with ⟨r1, _⟩ | ⟨_, nwb⟩
    · rw [r1] at rb
      exact ha rb wa
    · exact nwb wb

/-- The reader keeps the turn-taking of an item. -/
theorem turn_of_readerTurn {a b : SoupMessageIOData} (h : ReaderTurn a b) (ha : Turn a) :
    Turn b := by
  intro rb wb
  rcases h with ⟨r1, w1⟩ | ⟨ra, h⟩
  · rw [r1] at rb; rw [w1] at wb
    exact ha rb wb
  · rcases h with ⟨_, w1⟩ | ⟨r1, _⟩
    · rcases w1 with w1 | ⟨_, w1⟩
      · rw [w1] at wb
        exact ha ra wb
      · exact wb.2 w1
    · exact rb.2 r1

/-- The writer leaves alone an item whose reader is at work. -/
theorem writerTurn_of_reads {a b : SoupMessageIOData} (h : WriterTurn a b) (ha : Turn a)
    (hr : Reads a.read_state) :
    b.read_state = a.read_state ∧ b.write_state = a.write_state := by
  rcases h with h | ⟨wa, _⟩
  · exact h
  · exact absurd wa (ha hr)

/-- The reader leaves a write state `DONE` alone. -/
theorem readerTurn_of_done {a b : SoupMessageIOData} (h : ReaderTurn a b)
    (hw : a.write_state = .DONE) : b.write_state = .DONE := by
  rcases h with ⟨_, w1⟩ | ⟨_, h⟩
  · exact w1.trans hw
  · rcases h with ⟨_, w1⟩ | ⟨_, w1⟩
    · rcases w1 with w1 | ⟨_, w1⟩
      · exact w1.trans hw
      · exact w1
    · rw [hw] at w1; exact absurd w1 (by simp)

theorem writerKeeps_keeps : Keeps WriterKeeps := by
  refine ⟨?_, ?_⟩
  · rintro a b c ⟨h1, h2, h3, h4, h5, h6⟩ ⟨g1, g2, g3, g4, g5, g6⟩
    refine ⟨g1.trans h1, g2.trans h2, g3.trans h3, ?_, g5.trans h5, writerTurn_trans h6 g6⟩
    rcases g4 with g4 | g4
    · rcases h4 with h4 | h4
      · exact Or.inl (g4.trans h4)
      · exact Or.inr (g4.trans h4)
    · exact Or.inr g4
  · intro a b h1 h2 h3 h4 h5 h6
    exact ⟨h1, h2, h5, Or.inl h3, h6, Or.inl ⟨h3, h4⟩⟩

theorem readerKeeps_keepsR : KeepsR ReaderKeeps := by
  refine ⟨?_, ?_⟩
  · rintro a b c ⟨h1, h2, h3, h4, h5, h6⟩ ⟨g1, g2, g3, g4, g5, g6⟩
    exact ⟨g1.trans h1, g2.trans h2, fun h => g3 (h3 h), fun h => g4 (h4 h), g5.trans h5,
      readerTurn_trans h6 g6⟩
  · intro a b h1 h2 h3 h4 h5
    exact ⟨h1, h2, fun h => h4.trans h, fun h => by rw [h3]; exact h, h5, Or.inl ⟨h3, h4⟩⟩

theorem readerKeeps_keeps : Keeps ReaderKeeps := readerKeeps_keepsR.keeps

theorem writerGoes_keeps : Keeps WriterGoes := by
  refine ⟨?_, ?_⟩
  · rintro a b c ⟨h1, h2⟩ ⟨g1, g2⟩
    exact ⟨writerKeeps_keeps.trans _ _ _ h1 g1, fun h => h2 (g2 h)⟩
  · intro a b h1 h2 h3 h4 h5 h6
    exact ⟨writerKeeps_keeps.frame a b h1 h2 h3 h4 h5 h6, fun h => h4.symm.trans h⟩

theorem readerGoes_keepsR : KeepsR ReaderGoes := by
  refine ⟨?_, ?_⟩
  · rintro a b c ⟨h1, h2⟩ ⟨g1, g2⟩
    exact ⟨readerKeeps_keepsR.trans _ _ _ h1 g1, fun h => h2 (g2 h)⟩
  · intro a b h1 h2 h3 h4 h5
    exact ⟨readerKeeps_keepsR.frame a b h1 h2 h3 h4 h5, fun h => h3.symm.trans h⟩

theorem readerGoes_keeps : Keeps ReaderGoes := readerGoes_keepsR.keeps

theorem completed_append (a b : List Event) : completed (a ++ b) = completed a ++ completed b := by
  simp [completed, List.filterMap_append]

theorem completed_msg_signal (es : List Event) (m : Nat) (sig : MsgSignal) :
    completed (es ++ [Event.msg_signal m sig]) = completed es := by
  simp [completed, List.filterMap_append]

theorem completed_socket_wrote (es : List Event) (data : List Byte) :
    completed (es ++ [Event.socket_wrote data]) = completed es := by
  simp [completed, List.filterMap_append]

theorem completed_set_status (es : List Event) (m st : Nat) :
    completed (es ++ [Event.set_status m st]) = completed es := by
  simp [completed, List.filterMap_append]

theorem stepOK_refl {K : SoupMessageIOData → SoupMessageIOData → Prop} (hK : Keeps K) (c : IOCtx) : StepOK K c c := ⟨keeps_refl hK _, rfl, rfl⟩

theorem stepOK_trans {K : SoupMessageIOData → SoupMessageIOData → Prop} (hK : Keeps K) {a b c : IOCtx} (h1 : StepOK K a b) (h2 : StepOK K b c) :
    StepOK K a c :=
  ⟨hK.trans _ _ _ h1.1 h2.1, h2.2.1.trans h1.2.1, h2.2.2.trans h1.2.2⟩

theorem retOK_trans {K : SoupMessageIOData → SoupMessageIOData → Prop} (hK : Keeps K) {a b : IOCtx} {r : IOResult} (h1 : StepOK K a b)
    (h2 : RetOK K b r) : RetOK K a r := by
  obtain ⟨k1, e1, c1⟩ := h1
  obtain ⟨k2, c2, e2, t2⟩ := h2
  refine ⟨hK.trans _ _ _ k1 k2, c2.trans c1, ?_, t2⟩
  rcases e2 with e2 | e2
  · exact Or.inl (e2.trans e1)
  · exact Or.inr e2

theorem outOK_trans {K : SoupMessageIOData → SoupMessageIOData → Prop} (hK : Keeps K) {a b : IOCtx} {x : IOCtx ⊕ IOResult} (h1 : StepOK K a b)
    (h2 : OutOK K b x) : OutOK K a x := by
  cases x with
  | inl c => exact stepOK_trans hK h1 h2
  | inr r => exact retOK_trans hK h1 h2

/-- A change of the item alone that the relation allows and that records no error. -/
theorem stepOK_update {K : SoupMessageIOData → SoupMessageIOData → Prop} (c : IOCtx) (f : SoupMessageIOData → SoupMessageIOData)
    (h : K c.io (f c.io)) (he : (f c.io).io_error = c.io.io_error) : StepOK K c (c.update f) :=
  ⟨h, he, rfl⟩

/-- A change that leaves the item alone and adds no completion. -/
theorem stepOK_same_io {K : SoupMessageIOData → SoupMessageIOData → Prop} (hK : Keeps K) (c c' : IOCtx) (h : c'.io = c.io)
    (he : completed c'.events = completed c.events) : StepOK K c c' := by
  refine ⟨?_, ?_, he⟩
  · rw [h]; exact keeps_refl hK _
  · rw [h]

theorem retOK_of_step {K : SoupMessageIOData → SoupMessageIOData → Prop} (c c' : IOCtx) (h : StepOK K c c') (ret : Bool) :
    RetOK K c (c'.returns ret) :=
  ⟨h.1, h.2.2, Or.inl h.2.1, fun _ => rfl⟩

theorem retOK_returns {K : SoupMessageIOData → SoupMessageIOData → Prop} (hK : Keeps K) (c : IOCtx) (ret : Bool) : RetOK K c (c.returns ret) :=
  retOK_of_step c c (stepOK_refl hK c) ret

theorem retOK_pause {K : SoupMessageIOData → SoupMessageIOData → Prop} (hK : Keeps K) (c : IOCtx) : RetOK K c c.pause :=
  ⟨keeps_refl hK _, rfl, Or.inl rfl, fun h => by simp [IOCtx.pause] at h⟩

theorem retOK_fail {K : SoupMessageIOData → SoupMessageIOData → Prop} (hK : Keeps K) (c : IOCtx) (error : Option GErrorKind) :
    RetOK K c (c.fail error) := by
  unfold IOCtx.fail
  refine ⟨?_, ?_, Or.inr ⟨rfl, rfl⟩, fun _ => rfl⟩
  · simp only [IOCtx.returns]
    split <;> exact hK.frame _ _ rfl rfl rfl rfl rfl rfl
  · rfl

theorem outOK_return_if {K : SoupMessageIOData → SoupMessageIOData → Prop} (hK : Keeps K) (c : IOCtx) (o : CallbackOutcome) :
    OutOK K c (return_if_cancelled_or_paused o c) := by
  cases o with
  | proceed => exact stepOK_refl hK c
  | pause => exact ⟨keeps_refl hK _, rfl, Or.inl rfl, fun h => by simp at h⟩
  | cancel => exact ⟨keeps_refl hK _, rfl, Or.inl rfl, fun h => by simp at h⟩

theorem stepOK_signal {K : SoupMessageIOData → SoupMessageIOData → Prop} (hK : Keeps K) (c : IOCtx) (sig : MsgSignal) :
    StepOK K c (signal c sig).2 := by
  apply stepOK_same_io hK
  · rfl
  · exact completed_msg_signal _ _ _

theorem outOK_emit_signal {K : SoupMessageIOData → SoupMessageIOData → Prop} (hK : Keeps K) (c : IOCtx) (sig : MsgSignal) :
    OutOK K c (emit_signal c sig) :=
  outOK_trans hK (stepOK_signal hK c sig) (outOK_return_if hK _ _)

theorem stepOK_of_ret {K : SoupMessageIOData → SoupMessageIOData → Prop} {c : IOCtx} {r : IOResult} (h : RetOK K c r) (hr : r.ret = true) :
    StepOK K c r.ctx := by
  obtain ⟨k, e, f, _⟩ := h
  refine ⟨k, ?_, e⟩
  rcases f with f | f
  · exact f
  · rw [hr] at f; exact absurd f.1 (by simp)

theorem outOK_or_return {K : SoupMessageIOData → SoupMessageIOData → Prop} (hK : Keeps K) {c : IOCtx} {r : IOResult}
    {k : IOCtx → IOCtx ⊕ IOResult} (h : RetOK K c r) (hk : ∀ c', OutOK K c' (k c')) :
    OutOK K c (or_return r k) := by
  unfold or_return
  by_cases hr : r.ret = true
  · rw [if_pos hr]
    exact outOK_trans hK (stepOK_of_ret h hr) (hk _)
  · rw [if_neg hr]
    exact h

theorem outOK_with_call {K : SoupMessageIOData → SoupMessageIOData → Prop} (hK : Keeps K) {c : IOCtx} {ro : Option IOResult}
    {k : IOCtx → IOCtx ⊕ IOResult} (h : ∀ r, ro = some r → RetOK K c r)
    (hk : ∀ c', OutOK K c' (k c')) (x : IOCtx ⊕ IOResult) (hx : with_call ro k = some x) :
    OutOK K c x := by
  unfold with_call at hx
  cases ro with
  | none => simp at hx
  | some r =>
    simp only [Option.map_some', Option.some.injEq] at hx
    subst hx
    exact outOK_or_return hK (h r rfl) hk

theorem retOK_iterate {K : SoupMessageIOData → SoupMessageIOData → Prop} (hK : Keeps K) (step : IOCtx → Option (IOCtx ⊕ IOResult))
    (hstep : ∀ s x, step s = some x → OutOK K s x) :
    ∀ (n : Nat) (s : IOCtx) (r : IOResult), iterate step n s = some r → RetOK K s r := by
  intro n
  induction n with
  | zero => intro s r h; simp [iterate] at h
  | succ n ih =>
    intro s r h
    rw [iterate] at h
    cases hs : step s with
    | none => rw [hs] at h; simp at h
    | some x =>
      rw [hs] at h
      cases x with
      | inl s' =>
        simp only at h
        exact retOK_trans hK (hstep s _ hs) (ih s' r h)
      | inr r' =>
        simp only [Option.some.injEq] at h
        subst h
        exact hstep s _ hs

theorem stepOK_sub {K : SoupMessageIOData → SoupMessageIOData → Prop} {K' : SoupMessageIOData → SoupMessageIOData → Prop}
    (hsub : ∀ a b, K' a b → K a b) {c c' : IOCtx} (h : StepOK K' c c') : StepOK K c c' :=
  ⟨hsub _ _ h.1, h.2.1, h.2.2⟩

theorem retOK_sub {K : SoupMessageIOData → SoupMessageIOData → Prop} {K' : SoupMessageIOData → SoupMessageIOData → Prop}
    (hsub : ∀ a b, K' a b → K a b) {c : IOCtx} {r : IOResult} (h : RetOK K' c r) :
    RetOK K c r :=
  ⟨hsub _ _ h.1, h.2.1, h.2.2.1, h.2.2.2⟩

/-- A call that keeps more than the function that makes it: the rest of the function may rely
on what the call has kept. -/
theorem outOK_with_call_sub {K : SoupMessageIOData → SoupMessageIOData → Prop} {K' : SoupMessageIOData → SoupMessageIOData → Prop} (hK : Keeps K)
    (hsub : ∀ a b, K' a b → K a b) {c : IOCtx} {ro : Option IOResult}
    {k : IOCtx → IOCtx ⊕ IOResult} (h : ∀ r, ro = some r → RetOK K' c r)
    (hk : ∀ c', K' c.io c'.io → OutOK K c' (k c')) (x : IOCtx ⊕ IOResult)
    (hx : with_call ro k = some x) : OutOK K c x := by
  unfold with_call at hx
  cases ro with
  | none => simp at hx
  | some r =>
    simp only [Option.map_some', Option.some.injEq] at hx
    subst hx
    have hr := h r rfl
    unfold or_return
    by_cases hret : r.ret = true
    · rw [if_pos hret]
      exact outOK_trans hK (stepOK_sub hsub (stepOK_of_ret hr hret)) (hk _ hr.1)
    · rw [if_neg hret]
      exact retOK_sub hsub hr

/-! ### `soup_io_dispatcher_write_data` -/

theorem outOK_write_data_step {K : SoupMessageIOData → SoupMessageIOData → Prop} (hK : Keeps K) (data : List Byte) (body : Bool) (c : IOCtx) :
    OutOK K c (write_data_step data body c) := by
  unfold write_data_step
  split
  · simp only []
    split
    · exact retOK_trans hK (stepOK_same_io hK c _ rfl rfl) (retOK_fail hK _ _)
    · exact retOK_trans hK (stepOK_same_io hK c _ rfl rfl) (retOK_fail hK _ _)
    · exact ⟨hK.frame _ _ rfl rfl rfl rfl rfl rfl, rfl, Or.inl rfl, fun _ => rfl⟩
    · unfold write_data_ok
      simp only []
      have h1 : StepOK K c
          { io := { c.io with written := c.io.written +
              (soup_socket_write c.env (data.drop c.io.written)).data.length }
            env := (soup_socket_write c.env (data.drop c.io.written)).env
            events := c.events ++
              [Event.socket_wrote (soup_socket_write c.env (data.drop c.io.written)).data] } :=
        ⟨hK.frame _ _ rfl rfl rfl rfl rfl rfl, rfl, completed_socket_wrote _ _⟩
      split
      · refine outOK_trans hK (stepOK_trans hK h1 ?_) (outOK_emit_signal hK _ _)
        unfold write_data_account
        split
        · exact ⟨hK.frame _ _ rfl rfl rfl rfl rfl rfl, rfl, rfl⟩
        · exact stepOK_refl hK _
      · exact h1
  · exact ⟨hK.frame _ _ rfl rfl rfl rfl rfl rfl, rfl, Or.inl rfl, fun _ => rfl⟩

theorem retOK_write_data {K : SoupMessageIOData → SoupMessageIOData → Prop} (hK : Keeps K) (c : IOCtx) (data : List Byte) (body : Bool)
    (r : IOResult) (h : soup_io_dispatcher_write_data c data body = some r) : RetOK K c r := by
  unfold soup_io_dispatcher_write_data at h
  refine retOK_iterate hK _ ?_ _ _ _ h
  intro s x hx
  simp only [Option.some.injEq] at hx
  subst hx
  exact outOK_write_data_step hK data body s

theorem wk_same (a b : SoupMessageIOData) (h1 : b.id = a.id)
    (h2 : b.completion_cb = a.completion_cb) (h3 : b.read_meta_buf = a.read_meta_buf)
    (h4 : b.read_state = a.read_state) (h5 : b.write_state = a.write_state)
    (h6 : b.cancelled = a.cancelled) : WriterGoes a b :=
  ⟨⟨h1, h2, h3, Or.inl h4, h6, Or.inl ⟨h4, h5⟩⟩, fun h => h5.symm.trans h⟩

theorem wk_goes_on (a b : SoupMessageIOData) (h1 : b.id = a.id)
    (h2 : b.completion_cb = a.completion_cb) (h3 : b.read_meta_buf = a.read_meta_buf)
    (h4 : b.read_state = a.read_state) (h6 : b.cancelled = a.cancelled)
    (ha : Writes a.write_state) (hb : Writes b.write_state) : WriterGoes a b :=
  ⟨⟨h1, h2, h3, Or.inl h4, h6, Or.inr ⟨ha, Or.inl ⟨h4, hb⟩⟩⟩, fun h => absurd h hb.2⟩

theorem wk_hands_over (a b : SoupMessageIOData) (h1 : b.id = a.id)
    (h2 : b.completion_cb = a.completion_cb) (h3 : b.read_meta_buf = a.read_meta_buf)
    (h4 : b.read_state = .HEADERS) (h6 : b.cancelled = a.cancelled)
    (ha : Writes a.write_state) (hb : b.write_state = .BLOCKING) : WriterGoes a b :=
  ⟨⟨h1, h2, h3, Or.inr h4, h6, Or.inr ⟨ha, Or.inr ⟨h4, fun w => w.1 hb⟩⟩⟩,
    fun h => by rw [hb] at h; exact absurd h (by simp)⟩

theorem writes_io_body_state (e : SoupEncoding) : Writes (io_body_state e) := by
  unfold io_body_state
  split <;> exact ⟨by simp, by simp⟩

theorem wk_set_write_state (st : SoupMessageIOState) (hst : Writes st)
    (io : SoupMessageIOData) (hio : Writes io.write_state) :
    WriterGoes io (set_write_state st io) ∧ (set_write_state st io).io_error = io.io_error :=
  ⟨wk_goes_on _ _ rfl rfl rfl rfl rfl hio hst, rfl⟩

theorem wk_set_write_chunk (ch : Option (List Byte)) (io : SoupMessageIOData) :
    WriterGoes io (set_write_chunk ch io) ∧ (set_write_chunk ch io).io_error = io.io_error :=
  ⟨wk_same _ _ rfl rfl rfl rfl rfl rfl, rfl⟩

theorem wk_write_headers_fetch (io : SoupMessageIOData) :
    WriterGoes io (write_headers_fetch io) ∧ (write_headers_fetch io).io_error = io.io_error := by
  unfold write_headers_fetch
  split <;> exact ⟨wk_same _ _ rfl rfl rfl rfl rfl rfl, rfl⟩

theorem write_headers_fetch_write_state (io : SoupMessageIOData) :
    (write_headers_fetch io).write_state = io.write_state := by
  unfold write_headers_fetch
  split <;> rfl

theorem wk_write_headers_written (io : SoupMessageIOData) (hio : Writes io.write_state) :
    WriterGoes io (write_headers_written io) ∧
      (write_headers_written io).io_error = io.io_error := by
  unfold write_headers_written
  simp only []
  split <;> split <;>
    first
      | exact ⟨wk_hands_over _ _ rfl rfl rfl rfl rfl hio rfl, rfl⟩
      | exact ⟨wk_goes_on _ _ rfl rfl rfl rfl rfl hio (writes_io_body_state _), rfl⟩

theorem wk_wrote_chunk_if_can_rebuild (ch : List Byte) (io : SoupMessageIOData) :
    WriterGoes io (wrote_chunk_if_can_rebuild ch io) ∧
      (wrote_chunk_if_can_rebuild ch io).io_error = io.io_error := by
  unfold wrote_chunk_if_can_rebuild
  split <;> exact ⟨wk_same _ _ rfl rfl rfl rfl rfl rfl, rfl⟩

theorem wk_write_body_written (ch : List Byte) (io : SoupMessageIOData) :
    WriterGoes io (write_body_written ch io) ∧
      (write_body_written ch io).io_error = io.io_error := by
  unfold write_body_written wrote_chunk_if_can_rebuild
  split <;> exact ⟨wk_same _ _ rfl rfl rfl rfl rfl rfl, rfl⟩

theorem wk_write_chunk_size_fetched (ch : List Byte) (io : SoupMessageIOData) :
    WriterGoes io (write_chunk_size_fetched ch io) ∧
      (write_chunk_size_fetched ch io).io_error = io.io_error :=
  ⟨wk_same _ _ rfl rfl rfl rfl rfl rfl, rfl⟩

theorem wk_write_chunk_size_written (io : SoupMessageIOData) (hio : Writes io.write_state) :
    WriterGoes io (write_chunk_size_written io) ∧
      (write_chunk_size_written io).io_error = io.io_error := by
  unfold write_chunk_size_written
  split <;> exact ⟨wk_goes_on _ _ rfl rfl rfl rfl rfl hio ⟨by simp, by simp⟩, rfl⟩

theorem wk_write_chunk_written (io : SoupMessageIOData) (hio : Writes io.write_state) :
    WriterGoes io (write_chunk_written io) ∧
      (write_chunk_written io).io_error = io.io_error := by
  unfold write_chunk_written wrote_chunk_if_can_rebuild
  split <;> exact ⟨wk_goes_on _ _ rfl rfl rfl rfl rfl hio ⟨by simp, by simp⟩, rfl⟩

theorem wk_write_finishing (io : SoupMessageIOData) (hio : Writes io.write_state) :
    WriterKeeps io (write_finishing io) ∧ (write_finishing io).io_error = io.io_error :=
  ⟨⟨rfl, rfl, rfl, Or.inr rfl, rfl, Or.inr ⟨hio, Or.inr ⟨rfl, fun h => h.2 rfl⟩⟩⟩, rfl⟩

theorem wk_write_start (io : SoupMessageIOData) :
    WriterGoes io (write_start io) ∧ (write_start io).io_error = io.io_error := by
  unfold write_start
  split
  · rename_i h
    simp only [beq_iff_eq] at h
    exact ⟨wk_goes_on _ _ rfl rfl rfl rfl rfl (by rw [h]; exact ⟨by simp, by simp⟩)
      ⟨by simp, by simp⟩, rfl⟩
  · exact ⟨wk_same _ _ rfl rfl rfl rfl rfl rfl, rfl⟩

theorem wk_update (c : IOCtx) (f : SoupMessageIOData → SoupMessageIOData)
    (h : WriterGoes c.io (f c.io) ∧ (f c.io).io_error = c.io.io_error) :
    StepOK WriterGoes c (c.update f) :=
  stepOK_update c f h.1 h.2

theorem stepOK_cleanup_response {K : SoupMessageIOData → SoupMessageIOData → Prop}
    (hK : Keeps K) (c : IOCtx) : StepOK K c (soup_message_cleanup_response c) :=
  ⟨hK.frame _ _ rfl rfl rfl rfl rfl rfl, rfl, completed_msg_signal _ _ _⟩

theorem outOK_write_headers_signal (c : IOCtx) :
    OutOK WriterGoes c (write_headers_signal c) := by
  unfold write_headers_signal
  split
  · exact outOK_trans writerGoes_keeps
      (stepOK_trans writerGoes_keeps (stepOK_signal writerGoes_keeps c _)
        (stepOK_cleanup_response writerGoes_keeps _))
      (outOK_return_if writerGoes_keeps _ _)
  · exact outOK_emit_signal writerGoes_keeps _ _

/-- A call of `soup_io_dispatcher_write_data` after a change of the item, followed by the rest
of the case, which finds the write state as the call found it. -/
theorem outOK_write_call {c c1 : IOCtx} (h1 : StepOK WriterGoes c c1) (data : List Byte)
    (body : Bool) (k : IOCtx → IOCtx ⊕ IOResult)
    (hk : ∀ c', c'.io.write_state = c1.io.write_state → OutOK WriterGoes c' (k c'))
    (x : IOCtx ⊕ IOResult)
    (hx : with_call (soup_io_dispatcher_write_data c1 data body) k = some x) :
    OutOK WriterGoes c x :=
  outOK_trans writerGoes_keeps h1
    (outOK_with_call_sub writerGoes_keeps (fun _ _ h => same_sub writerGoes_keeps h)
      (fun r hr => retOK_write_data same_keeps _ _ _ r hr)
      (fun c' hs => hk c' hs.2.2.2.1) x hx)

theorem outOK_update_then {c : IOCtx} (f : SoupMessageIOData → SoupMessageIOData)
    (h : WriterGoes c.io (f c.io) ∧ (f c.io).io_error = c.io.io_error)
    {x : IOCtx ⊕ IOResult} (hx : OutOK WriterGoes (c.update f) x) : OutOK WriterGoes c x :=
  outOK_trans writerGoes_keeps (wk_update c f h) hx

theorem outOK_write_wrote_body (c : IOCtx) (hc : Writes c.io.write_state) :
    OutOK WriterGoes c (write_wrote_body c) :=
  outOK_update_then _ (wk_set_write_state _ ⟨by simp, by simp⟩ _ hc)
    (outOK_emit_signal writerGoes_keeps _ _)

theorem outOK_write_body_chunk (c : IOCtx) (chunk : List Byte) (x : IOCtx ⊕ IOResult)
    (hx : write_body_chunk c chunk = some x) : OutOK WriterGoes c x :=
  outOK_write_call (stepOK_refl writerGoes_keeps c) _ _ _
    (fun _ _ => outOK_update_then _ (wk_write_body_written chunk _)
      (outOK_emit_signal writerGoes_keeps _ _)) x hx

theorem outOK_write_chunk_size_line (c : IOCtx) (hc : Writes c.io.write_state)
    (x : IOCtx ⊕ IOResult) (hx : write_chunk_size_line c = some x) : OutOK WriterGoes c x :=
  outOK_write_call (stepOK_refl writerGoes_keeps c) _ _
    (fun ctx => .inl (ctx.update write_chunk_size_written))
    (fun c' hs => wk_update c' _ (wk_write_chunk_size_written _ (by rw [hs]; exact hc))) x hx

/-- A pass of `io_data_write` from a write state other than `FINISHING`. -/
theorem outOK_io_data_write_step_goes (c : IOCtx) (x : IOCtx ⊕ IOResult)
    (hx : io_data_write_step c = some x) (hf : c.io.write_state ≠ .FINISHING) :
    OutOK WriterGoes c x := by
  have hK := writerGoes_keeps
  unfold io_data_write_step at hx
  split at hx
  · simp only [Option.some.injEq] at hx; subst hx; exact retOK_returns hK _ _
  · -- HEADERS
    rename_i hst
    have hw : Writes c.io.write_state := by rw [hst]; exact ⟨by simp, by simp⟩
    unfold write_case_HEADERS at hx
    split at hx
    · simp only [Option.some.injEq] at hx; subst hx
      exact retOK_trans hK (wk_update c _ (wk_write_headers_fetch _)) (retOK_pause hK _)
    · exact outOK_write_call (wk_update c _ (wk_write_headers_fetch _)) _ _ _
        (fun c' hs => outOK_update_then _
          (wk_write_headers_written _ (by
            rw [hs]
            show Writes (write_headers_fetch c.io).write_state
            rw [write_headers_fetch_write_state]
            exact hw))
          (outOK_write_headers_signal _))
        x hx
  · simp only [Option.some.injEq] at hx; subst hx; exact retOK_returns hK _ _
  · -- BODY
    rename_i hst
    have hw : Writes c.io.write_state := by rw [hst]; exact ⟨by simp, by simp⟩
    unfold write_case_BODY at hx
    split at hx
    · simp only [Option.some.injEq] at hx; subst hx; exact outOK_write_wrote_body _ hw
    · split at hx
      · exact outOK_write_body_chunk _ _ _ hx
      · split at hx
        · simp only [Option.some.injEq] at hx; subst hx; exact retOK_pause hK _
        · unfold write_body_fetched at hx
          split at hx
          · exact outOK_update_then _ (wk_set_write_chunk _ _) (outOK_write_body_chunk _ _ _ hx)
          · split at hx
            · simp only [Option.some.injEq] at hx; subst hx
              exact outOK_update_then _ (wk_set_write_chunk _ _) (outOK_write_wrote_body _ hw)
            · exact outOK_update_then _ (wk_set_write_chunk _ _) (outOK_write_body_chunk _ _ _ hx)
  · -- CHUNK_SIZE
    rename_i hst
    have hw : Writes c.io.write_state := by rw [hst]; exact ⟨by simp, by simp⟩
    unfold write_case_CHUNK_SIZE at hx
    split at hx
    · exact outOK_write_chunk_size_line _ hw _ hx
    · split at hx
      · simp only [Option.some.injEq] at hx; subst hx; exact retOK_pause hK _
      · exact outOK_update_then _ (wk_write_chunk_size_fetched _ _)
          (outOK_write_chunk_size_line (c.update (write_chunk_size_fetched _)) hw _ hx)
  · -- CHUNK
    rename_i hst
    have hw : Writes c.io.write_state := by rw [hst]; exact ⟨by simp, by simp⟩
    exact outOK_write_call (stepOK_refl hK c) _ _ _
      (fun c' hs => outOK_update_then _ (wk_write_chunk_written _ (by rw [hs]; exact hw))
        (outOK_emit_signal hK _ _)) x hx
  · -- CHUNK_END
    rename_i hst
    have hw : Writes c.io.write_state := by rw [hst]; exact ⟨by simp, by simp⟩
    exact outOK_write_call (stepOK_refl hK c) _ _
      (fun ctx => .inl (ctx.update (set_write_state .CHUNK_SIZE)))
      (fun c' hs => wk_update c' _
        (wk_set_write_state _ ⟨by simp, by simp⟩ _ (by rw [hs]; exact hw))) x hx
  · -- TRAILERS
    rename_i hst
    have hw : Writes c.io.write_state := by rw [hst]; exact ⟨by simp, by simp⟩
    exact outOK_write_call (stepOK_refl hK c) _ _ _
      (fun c' hs => outOK_update_then _
        (wk_set_write_state _ ⟨by simp, by simp⟩ _ (by rw [hs]; exact hw))
        (outOK_emit_signal hK _ _)) x hx
  · rename_i hst
    exact absurd hst hf
  · simp only [Option.some.injEq] at hx; subst hx; exact retOK_returns hK _ _

theorem outOK_sub {K K' : SoupMessageIOData → SoupMessageIOData → Prop}
    (hsub : ∀ a b, K' a b → K a b) {c : IOCtx} {x : IOCtx ⊕ IOResult} (h : OutOK K' c x) :
    OutOK K c x := by
  cases x with
  | inl c' => exact stepOK_sub hsub h
  | inr r => exact retOK_sub hsub h

theorem outOK_io_data_write_step (c : IOCtx) (x : IOCtx ⊕ IOResult)
    (hx : io_data_write_step c = some x) : OutOK WriterKeeps c x := by
  by_cases hf : c.io.write_state = .FINISHING
  · have hw : Writes c.io.write_state := by rw [hf]; exact ⟨by simp, by simp⟩
    unfold io_data_write_step at hx
    rw [hf] at hx
    simp only [Option.some.injEq] at hx; subst hx
    exact retOK_of_step _ _
      (stepOK_update c _ (wk_write_finishing _ hw).1 (wk_write_finishing _ hw).2) _
  · exact outOK_sub (fun _ _ h => h.1) (outOK_io_data_write_step_goes c x hx hf)

/-- A pass of `io_data_write` that returns FALSE has not left the write state `DONE`. -/
theorem io_data_write_step_false (c : IOCtx) (r : IOResult)
    (hx : io_data_write_step c = some (.inr r)) (hr : r.ret = false) :
    r.ctx.io.write_state ≠ .DONE := by
  by_cases hf : c.io.write_state = .FINISHING
  · unfold io_data_write_step at hx
    rw [hf] at hx
    simp only [Option.some.injEq, Sum.inr.injEq] at hx; subst hx
    exact absurd hr (by simp [IOCtx.returns])
  · by_cases hd : c.io.write_state = .DONE
    · unfold io_data_write_step at hx
      rw [hd] at hx
      simp only [Option.some.injEq, Sum.inr.injEq] at hx; subst hx
      exact absurd hr (by simp [IOCtx.returns])
    · have h := outOK_io_data_write_step_goes c _ hx hf
      exact fun e => hd (h.1.2 e)

/-- `io_data_write` returns FALSE only with a write state other than `DONE`. -/
theorem io_data_write_false (fuel : Nat) (c : IOCtx) (r : IOResult)
    (h : io_data_write fuel c = some r) (hr : r.ret = false) : r.ctx.io.write_state ≠ .DONE := by
  unfold io_data_write at h
  exact iterate_invariant io_data_write_step (fun _ => True)
    (fun r => r.ret = false → r.ctx.io.write_state ≠ .DONE) (fun _ _ _ _ => trivial)
    (fun s r _ hs => io_data_write_step_false s r hs) _ _ trivial r h hr

/-- What `io_data_write` keeps of the item it is called with. -/
theorem retOK_io_data_write (fuel : Nat) (c : IOCtx) (r : IOResult)
    (h : io_data_write fuel c = some r) : RetOK WriterKeeps c r := by
  unfold io_data_write at h
  exact retOK_trans writerKeeps_keeps
    (stepOK_sub (fun _ _ h => h.1) (wk_update c _ (wk_write_start _)))
    (retOK_iterate writerKeeps_keeps _ outOK_io_data_write_step _ _ _ h)

/-! ### The I/O functions return TRUE when their direction is done -/

theorem noTrue_inl (c : IOCtx) : NoTrue (.inl c) := fun _ h => by cases h

theorem noTrue_false (r : IOResult) (h : r.ret = false) : NoTrue (.inr r) := by
  intro r' hr
  cases hr
  exact h

theorem noTrue_return_if (o : CallbackOutcome) (c : IOCtx) :
    NoTrue (return_if_cancelled_or_paused o c) := by
  cases o
  · exact noTrue_inl _
  · exact noTrue_false _ rfl
  · exact noTrue_false _ rfl

theorem noTrue_emit_signal (c : IOCtx) (sig : MsgSignal) : NoTrue (emit_signal c sig) :=
  noTrue_return_if _ _

theorem noTrue_or_return (r : IOResult) (k : IOCtx → IOCtx ⊕ IOResult)
    (hk : ∀ c', NoTrue (k c')) : NoTrue (or_return r k) := by
  unfold or_return
  split
  · exact hk _
  · rename_i h
    exact noTrue_false _ (by simpa using h)

theorem noTrue_with_call {ro : Option IOResult} {k : IOCtx → IOCtx ⊕ IOResult}
    (hk : ∀ c', NoTrue (k c')) {x : IOCtx ⊕ IOResult} (hx : with_call ro k = some x) :
    NoTrue x := by
  unfold with_call at hx
  cases ro with
  | none => simp at hx
  | some r =>
    simp only [Option.map_some', Option.some.injEq] at hx
    subst hx
    exact noTrue_or_return r k hk

theorem noTrue_write_headers_signal (c : IOCtx) : NoTrue (write_headers_signal c) := by
  unfold write_headers_signal
  split
  · exact noTrue_return_if _ _
  · exact noTrue_emit_signal _ _

theorem noTrue_write_body_chunk (c : IOCtx) (chunk : List Byte) (x : IOCtx ⊕ IOResult)
    (hx : write_body_chunk c chunk = some x) : NoTrue x :=
  noTrue_with_call (fun _ => noTrue_emit_signal _ _) hx

theorem noTrue_write_chunk_size_line (c : IOCtx) (x : IOCtx ⊕ IOResult)
    (hx : write_chunk_size_line c = some x) : NoTrue x :=
  noTrue_with_call (fun _ => noTrue_inl _) hx

/-- A pass of `io_data_write` that returns TRUE leaves the write state `DONE`. -/
theorem io_data_write_step_true (c : IOCtx) (r : IOResult)
    (hx : io_data_write_step c = some (.inr r)) (hr : r.ret = true) :
    r.ctx.io.write_state = .DONE := by
  have hno : ∀ x, x = Sum.inr r → NoTrue x → False := by
    intro x hx hn
    have := hn r hx
    rw [hr] at this
    exact absurd this (by simp)
  unfold io_data_write_step at hx
  split at hx
  · simp only [Option.some.injEq, Sum.inr.injEq] at hx; subst hx; exact absurd hr (by simp [IOCtx.returns])
  · exfalso
    unfold write_case_HEADERS at hx
    split at hx
    · simp only [Option.some.injEq, Sum.inr.injEq] at hx; subst hx
      exact absurd hr (by simp [IOCtx.pause])
    · exact hno _ rfl (noTrue_with_call (fun _ => noTrue_write_headers_signal _) hx)
  · simp only [Option.some.injEq, Sum.inr.injEq] at hx; subst hx; exact absurd hr (by simp [IOCtx.returns])
  · exfalso
    unfold write_case_BODY at hx
    split at hx
    · simp only [Option.some.injEq] at hx
      exact hno _ rfl (hx ▸ noTrue_emit_signal _ _)
    · split at hx
      · exact hno _ rfl (noTrue_write_body_chunk _ _ _ hx)
      · split at hx
        · simp only [Option.some.injEq, Sum.inr.injEq] at hx; subst hx
          exact absurd hr (by simp [IOCtx.pause])
        · unfold write_body_fetched at hx
          split at hx
          · exact hno _ rfl (noTrue_write_body_chunk _ _ _ hx)
          · split at hx
            · simp only [Option.some.injEq] at hx
              exact hno _ rfl (hx ▸ noTrue_emit_signal _ _)
            · exact hno _ rfl (noTrue_write_body_chunk _ _ _ hx)
  · exfalso
    unfold write_case_CHUNK_SIZE at hx
    split at hx
    · exact hno _ rfl (noTrue_write_chunk_size_line _ _ hx)
    · split at hx
      · simp only [Option.some.injEq, Sum.inr.injEq] at hx; subst hx
        exact absurd hr (by simp [IOCtx.pause])
      · exact hno _ rfl (noTrue_write_chunk_size_line _ _ hx)
  · exact (hno _ rfl (noTrue_with_call (fun _ => noTrue_emit_signal _ _) hx)).elim
  · exact (hno _ rfl (noTrue_with_call (fun _ => noTrue_inl _) hx)).elim
  · exact (hno _ rfl (noTrue_with_call (fun _ => noTrue_emit_signal _ _) hx)).elim
  · simp only [Option.some.injEq, Sum.inr.injEq] at hx; subst hx; rfl
  · rename_i hst
    simp only [Option.some.injEq, Sum.inr.injEq] at hx; subst hx; exact hst

/-- `io_data_write` returns TRUE only with the write state `DONE`. -/
theorem io_data_write_true (fuel : Nat) (c : IOCtx) (r : IOResult)
    (h : io_data_write fuel c = some r) (hr : r.ret = true) : r.ctx.io.write_state = .DONE := by
  unfold io_data_write at h
  exact iterate_invariant io_data_write_step (fun _ => True)
    (fun r => r.ret = true → r.ctx.io.write_state = .DONE) (fun _ _ _ _ => trivial)
    (fun s r _ hs => io_data_write_step_true s r hs) _ _ trivial r h hr

theorem rk_frame (a b : SoupMessageIOData) (h1 : b.id = a.id)
    (h2 : b.completion_cb = a.completion_cb) (h3 : b.read_state = a.read_state)
    (h4 : b.write_state = a.write_state) (h5 : b.cancelled = a.cancelled) : ReaderGoes a b :=
  readerGoes_keepsR.frame a b h1 h2 h3 h4 h5

theorem rk_goes_on (a b : SoupMessageIOData) (h1 : b.id = a.id)
    (h2 : b.completion_cb = a.completion_cb) (h4 : b.write_state = a.write_state)
    (h5 : b.cancelled = a.cancelled) (ha : Reads a.read_state) (hb : Reads b.read_state)
    (hd : b.read_state ≠ .DONE) : ReaderGoes a b :=
  ⟨⟨h1, h2, fun h => h4.trans h, fun _ => hb.1, h5, Or.inr ⟨ha, Or.inl ⟨hb, Or.inl h4⟩⟩⟩,
    fun h => absurd h hd⟩

theorem rk_update (c : IOCtx) (f : SoupMessageIOData → SoupMessageIOData)
    (h : ReaderGoes c.io (f c.io) ∧ (f c.io).io_error = c.io.io_error) :
    StepOK ReaderGoes c (c.update f) :=
  stepOK_update c f h.1 h.2

theorem rk_update_then {c : IOCtx} (f : SoupMessageIOData → SoupMessageIOData)
    (h : ReaderGoes c.io (f c.io) ∧ (f c.io).io_error = c.io.io_error)
    {x : IOCtx ⊕ IOResult} (hx : OutOK ReaderGoes (c.update f) x) : OutOK ReaderGoes c x :=
  outOK_trans readerGoes_keeps (rk_update c f h) hx

/-- A step that leaves the identity, the completion callback, the two states and the
`cancelled` flag of the item alone, records no error and adds no completion. -/
theorem kr_step {K : SoupMessageIOData → SoupMessageIOData → Prop} (hK : KeepsR K) (c c' : IOCtx) (h1 : c'.io.id = c.io.id)
    (h2 : c'.io.completion_cb = c.io.completion_cb) (h3 : c'.io.read_state = c.io.read_state)
    (h4 : c'.io.write_state = c.io.write_state) (h5 : c'.io.cancelled = c.io.cancelled)
    (h6 : c'.io.io_error = c.io.io_error)
    (h7 : completed c'.events = completed c.events) : StepOK K c c' :=
  ⟨hK.frame _ _ h1 h2 h3 h4 h5, h6, h7⟩

/-! ### Sniffing -/

theorem stepOK_sniff_alloc {K : SoupMessageIOData → SoupMessageIOData → Prop} (hK : KeepsR K) (c : IOCtx) : StepOK K c (sniff_alloc c) := by
  unfold sniff_alloc
  split
  · exact kr_step hK _ _ rfl rfl rfl rfl rfl rfl rfl
  · exact stepOK_refl hK.keeps c

theorem outOK_sniff_content {K : SoupMessageIOData → SoupMessageIOData → Prop} (hK : KeepsR K) (c : IOCtx) (done_reading : Bool) :
    OutOK K c (sniff_content c done_reading) := by
  unfold sniff_content
  split
  · split
    · exact retOK_returns hK.keeps _ _
    · exact outOK_trans hK.keeps
        (kr_step hK c (sniff_content_clear c) rfl rfl rfl rfl rfl rfl rfl)
        (outOK_emit_signal hK.keeps _ _)
  · exact stepOK_refl hK.keeps c

theorem retOK_sniff_got_chunk {K : SoupMessageIOData → SoupMessageIOData → Prop} (hK : KeepsR K) (c : IOCtx) : RetOK K c (sniff_got_chunk c) := by
  unfold sniff_got_chunk
  split
  · have h := outOK_trans hK.keeps
      (kr_step hK c (sniff_got_chunk_clear c) rfl rfl rfl rfl rfl rfl rfl)
      (outOK_emit_signal hK.keeps (sniff_got_chunk_clear c)
        (.got_chunk (c.io.sniff_data.getD [])))
    split
    · rename_i r hr
      rw [hr] at h
      exact h
    · rename_i c' hc
      rw [hc] at h
      exact retOK_of_step _ _ h _
  · exact retOK_returns hK.keeps _ _

theorem retOK_io_handle_sniffing {K : SoupMessageIOData → SoupMessageIOData → Prop} (hK : KeepsR K) (c : IOCtx) (done_reading : Bool) :
    RetOK K c (io_handle_sniffing c done_reading) := by
  unfold io_handle_sniffing
  split
  · exact retOK_returns hK.keeps _ _
  · have h := outOK_trans hK.keeps (stepOK_sniff_alloc hK c)
      (outOK_sniff_content hK (sniff_alloc c) done_reading)
    split
    · rename_i r hr
      rw [hr] at h
      exact h
    · rename_i c' hc
      rw [hc] at h
      exact retOK_trans hK.keeps h (retOK_sniff_got_chunk hK _)

/-! ### `soup_io_dispatcher_read_body_chunk` -/

theorem outOK_read_body_chunk_deliver {K : SoupMessageIOData → SoupMessageIOData → Prop} (hK : KeepsR K) (c : IOCtx) (buffer : List Byte) :
    OutOK K c (read_body_chunk_deliver c buffer) := by
  unfold read_body_chunk_deliver
  split
  · exact outOK_trans hK.keeps
      (kr_step hK c (sniff_append (read_body_got_chunk c buffer) buffer) rfl rfl rfl rfl rfl
        rfl rfl)
      (outOK_or_return hK.keeps (retOK_io_handle_sniffing hK _ _)
        (fun c' => stepOK_refl hK.keeps c'))
  · exact outOK_trans hK.keeps
      (kr_step hK c (read_body_got_chunk c buffer) rfl rfl rfl rfl rfl rfl rfl)
      (outOK_emit_signal hK.keeps _ _)

theorem outOK_read_body_chunk_got_data {K : SoupMessageIOData → SoupMessageIOData → Prop} (hK : KeepsR K) (c : IOCtx) (data : List Byte) :
    OutOK K c (read_body_chunk_got_data c data) := by
  unfold read_body_chunk_got_data
  have h1 : StepOK K c (read_body_chunk_account c data.length) :=
    kr_step hK _ _ rfl rfl rfl rfl rfl rfl rfl
  split
  · exact h1
  · exact outOK_trans hK.keeps h1 (outOK_read_body_chunk_deliver hK _ _)

theorem retOK_read_would_block {K : SoupMessageIOData → SoupMessageIOData → Prop} (hK : KeepsR K) (c : IOCtx) : RetOK K c (read_would_block c) := by
  unfold read_would_block
  refine retOK_of_step _ _ ?_ _
  exact kr_step hK _ _ rfl rfl rfl rfl rfl rfl rfl

theorem outOK_read_body_chunk_result {K : SoupMessageIOData → SoupMessageIOData → Prop} (hK : KeepsR K) (c : IOCtx) (r : SocketResult) :
    OutOK K c (read_body_chunk_result c r) := by
  have h0 : StepOK K c { c with env := r.env } := kr_step hK _ _ rfl rfl rfl rfl rfl rfl rfl
  unfold read_body_chunk_result
  split
  · exact outOK_trans hK.keeps h0 (outOK_read_body_chunk_got_data hK _ _)
  · split
    · exact h0
    · refine retOK_trans hK.keeps h0 ?_
      unfold read_body_chunk_eof
      split
      · refine retOK_of_step _ _ ?_ _
        exact kr_step hK _ _ rfl rfl rfl rfl rfl rfl rfl
      · exact retOK_fail hK.keeps _ _
    · exact retOK_trans hK.keeps h0 (retOK_fail hK.keeps _ _)
    · exact retOK_trans hK.keeps h0 (retOK_read_would_block hK _)

theorem allocate_buffer_io (bs : Nat) (c : IOCtx) :
    (allocate_buffer bs c).2.io = c.io ∧ (allocate_buffer bs c).2.events = c.events := by
  unfold allocate_buffer
  split
  · split <;> exact ⟨rfl, rfl⟩
  · exact ⟨rfl, rfl⟩

theorem outOK_read_body_chunk_step {K : SoupMessageIOData → SoupMessageIOData → Prop} (hK : KeepsR K) (bs : Nat) (c : IOCtx) :
    OutOK K c (read_body_chunk_step bs c) := by
  unfold read_body_chunk_step
  split
  · have h := allocate_buffer_io bs c
    have h0 : StepOK K c (allocate_buffer bs c).2 :=
      stepOK_same_io hK.keeps _ _ h.1 (by rw [h.2])
    split
    · rename_i c' hc
      rw [hc] at h0
      exact retOK_trans hK.keeps h0 (retOK_pause hK.keeps _)
    · rename_i n c' hc
      rw [hc] at h0
      exact outOK_trans hK.keeps h0 (outOK_read_body_chunk_result hK _ _)
  · exact retOK_returns hK.keeps _ _

theorem retOK_read_body_chunk {K : SoupMessageIOData → SoupMessageIOData → Prop} (hK : KeepsR K) (bs : Nat) (c : IOCtx) (r : IOResult)
    (h : soup_io_dispatcher_read_body_chunk bs c = some r) : RetOK K c r := by
  unfold soup_io_dispatcher_read_body_chunk at h
  simp only [] at h
  have hs := retOK_io_handle_sniffing hK c false
  split at h
  · simp only [Option.some.injEq] at h
    subst h
    exact hs
  · rename_i hret
    have hret' : (io_handle_sniffing c false).ret = true := by simpa using hret
    refine retOK_trans hK.keeps (stepOK_of_ret hs hret')
      (retOK_iterate hK.keeps _ ?_ _ _ _ h)
    intro s x hx
    simp only [Option.some.injEq] at hx
    subst hx
    exact outOK_read_body_chunk_step hK bs s

/-! ### `soup_io_dispatcher_read_metadata` -/

theorem outOK_read_metadata_after {K : SoupMessageIOData → SoupMessageIOData → Prop} (hK : KeepsR K) (to_blank : Bool) (nread : Nat) (c : IOCtx)
    (got_lf : Bool) : OutOK K c (read_metadata_after to_blank nread c got_lf) := by
  unfold read_metadata_after
  split
  · exact retOK_returns hK.keeps _ _
  · exact stepOK_refl hK.keeps _

theorem stepOK_read_metadata_append {K : SoupMessageIOData → SoupMessageIOData → Prop} (hK : KeepsR K) (c : IOCtx) (bytes : List Byte) :
    StepOK K c (read_metadata_append c bytes) :=
  kr_step hK _ _ rfl rfl rfl rfl rfl rfl rfl

theorem outOK_read_metadata_step {K : SoupMessageIOData → SoupMessageIOData → Prop} (hK : KeepsR K) (bs : Nat) (to_blank : Bool) (c : IOCtx) :
    OutOK K c (read_metadata_step bs to_blank c) := by
  unfold read_metadata_step
  simp only []
  have h0 : StepOK K c { c with env := (soup_socket_read_until c.env bs).env } :=
    kr_step hK _ _ rfl rfl rfl rfl rfl rfl rfl
  split
  · exact outOK_trans hK.keeps
      (stepOK_trans hK.keeps h0 (stepOK_read_metadata_append hK _ _))
      (outOK_read_metadata_after hK _ _ _ _)
  · refine outOK_trans hK.keeps h0 ?_
    unfold read_metadata_eof
    split
    · exact outOK_trans hK.keeps (stepOK_read_metadata_append hK _ _)
        (outOK_read_metadata_after hK _ _ _ _)
    · split
      · exact outOK_trans hK.keeps (stepOK_read_metadata_append hK _ _)
          (outOK_read_metadata_after hK _ _ _ _)
      · exact retOK_fail hK.keeps _ _
  · exact retOK_trans hK.keeps h0 (retOK_fail hK.keeps _ _)
  · exact retOK_trans hK.keeps h0 (retOK_read_would_block hK _)

theorem retOK_read_metadata {K : SoupMessageIOData → SoupMessageIOData → Prop} (hK : KeepsR K) (bs : Nat) (c : IOCtx) (to_blank : Bool)
    (r : IOResult) (h : soup_io_dispatcher_read_metadata bs c to_blank = some r) :
    RetOK K c r := by
  unfold soup_io_dispatcher_read_metadata at h
  refine retOK_iterate hK.keeps _ ?_ _ _ _ h
  intro s x hx
  simp only [Option.some.injEq] at hx
  subst hx
  exact outOK_read_metadata_step hK bs to_blank s

/-! ### The cases of `io_data_read` -/

theorem reads_io_body_state (e : SoupEncoding) : Reads (io_body_state e) := by
  unfold io_body_state
  split <;> exact ⟨by simp, by simp⟩

theorem rk_set_read_state (st : SoupMessageIOState) (hst : Reads st) (hd : st ≠ .DONE)
    (io : SoupMessageIOData) (hio : Reads io.read_state) :
    ReaderGoes io (set_read_state st io) ∧ (set_read_state st io).io_error = io.io_error :=
  ⟨rk_goes_on _ _ rfl rfl rfl rfl hio hst hd, rfl⟩

theorem rk_read_got_body_paused (io : SoupMessageIOData) (hio : Reads io.read_state) :
    ReaderGoes io (read_got_body_paused io) ∧
      (read_got_body_paused io).io_error = io.io_error :=
  ⟨rk_goes_on _ _ rfl rfl rfl rfl hio ⟨by simp [read_got_body_paused],
    by simp [read_got_body_paused]⟩ (by simp [read_got_body_paused]), rfl⟩

theorem outOK_read_got_body (c : IOCtx) (hc : Reads c.io.read_state) :
    OutOK ReaderGoes c (read_got_body c) := by
  unfold read_got_body read_got_body_sniffed
  have hs := retOK_io_handle_sniffing sameR_keepsR c true
  have hrs : Reads (io_handle_sniffing c true).ctx.io.read_state := by
    rw [hs.1.2.2.1]; exact hc
  have hs' : RetOK ReaderGoes c (io_handle_sniffing c true) :=
    retOK_sub (fun _ _ h => sameR_sub readerGoes_keepsR h) hs
  split
  · rename_i hret
    have hret' : (io_handle_sniffing c true).ret = false := by simpa using hret
    split
    · exact hs'
    · obtain ⟨k, e, f, t⟩ := hs'
      refine ⟨readerGoes_keeps.trans _ _ _ k (rk_read_got_body_paused _ hrs).1, e, ?_, ?_⟩
      · rcases f with f | f
        · exact Or.inl f
        · exact Or.inr f
      · intro h
        exact absurd (hret'.symm.trans h) (by simp)
  · rename_i hret
    have hret' : (io_handle_sniffing c true).ret = true := by simpa using hret
    exact outOK_trans readerGoes_keeps (stepOK_of_ret hs' hret')
      (rk_update_then _ (rk_set_read_state _ ⟨by simp, by simp⟩ (by simp) _ hrs)
        (outOK_emit_signal readerGoes_keeps _ _))

theorem rk_read_headers_encoding (io : SoupMessageIOData) :
    ReaderGoes io (read_headers_encoding io) ∧
      (read_headers_encoding io).io_error = io.io_error := by
  unfold read_headers_encoding
  simp only []
  split_ifs <;> exact ⟨rk_frame _ _ rfl rfl rfl rfl rfl, rfl⟩

theorem read_headers_encoding_read_state (io : SoupMessageIOData) :
    (read_headers_encoding io).read_state = io.read_state := by
  unfold read_headers_encoding
  simp only []
  split_ifs <;> rfl

theorem io_body_state_ne (e : SoupEncoding) : io_body_state e ≠ .NOT_STARTED :=
  (reads_io_body_state e).1

theorem io_body_state_ne_done (e : SoupEncoding) : io_body_state e ≠ .DONE := by
  unfold io_body_state
  split <;> simp

theorem rk_read_headers_states (io : SoupMessageIOData) (hio : Reads io.read_state) :
    ReaderGoes io (read_headers_states io) ∧
      (read_headers_states io).io_error = io.io_error := by
  unfold read_headers_states
  split
  · split
    · rename_i h
      simp only [Bool.and_eq_true, beq_iff_eq] at h
      refine ⟨⟨⟨rfl, rfl, fun hw => ?_, fun _ => by simp, rfl,
        Or.inr ⟨hio, Or.inr ⟨rfl, h.2⟩⟩⟩, fun e => absurd e (by simp)⟩, rfl⟩
      rw [h.2] at hw
      exact absurd hw (by simp)
    · exact ⟨rk_goes_on _ _ rfl rfl rfl rfl hio ⟨by simp, by simp⟩ (by simp), rfl⟩
  · simp only []
    split
    · rename_i h
      simp only [beq_iff_eq] at h
      refine ⟨⟨⟨rfl, rfl, fun hw => ?_, fun _ => io_body_state_ne _, rfl,
        Or.inr ⟨hio, Or.inl ⟨reads_io_body_state _, Or.inr ⟨h, rfl⟩⟩⟩⟩,
        fun e => absurd e (io_body_state_ne_done _)⟩, rfl⟩
      rw [h] at hw
      exact absurd hw (by simp)
    · exact ⟨rk_goes_on _ _ rfl rfl rfl rfl hio (reads_io_body_state _)
        (io_body_state_ne_done _), rfl⟩

theorem rk_read_headers_store (env : Env) (io : SoupMessageIOData) :
    ReaderGoes io (read_headers_store env io) ∧
      (read_headers_store env io).io_error = io.io_error :=
  ⟨rk_frame _ _ rfl rfl rfl rfl rfl, rfl⟩

theorem rk_read_headers_malformed (io : SoupMessageIOData) (hio : Reads io.read_state) :
    ReaderGoes io (read_headers_malformed io) ∧
      (read_headers_malformed io).io_error = io.io_error :=
  ⟨rk_goes_on _ _ rfl rfl rfl rfl hio ⟨by simp [read_headers_malformed],
    by simp [read_headers_malformed]⟩ (by simp [read_headers_malformed]), rfl⟩

theorem rk_read_chunk_size_parsed (text : List Byte) (io : SoupMessageIOData)
    (hio : Reads io.read_state) :
    ReaderGoes io (read_chunk_size_parsed text io) ∧
      (read_chunk_size_parsed text io).io_error = io.io_error := by
  unfold read_chunk_size_parsed
  split <;> exact ⟨rk_goes_on _ _ rfl rfl rfl rfl hio ⟨by simp, by simp⟩ (by simp), rfl⟩

theorem stepOK_read_chunk_size_line (c : IOCtx) (hc : Reads c.io.read_state) :
    StepOK ReaderGoes c (read_chunk_size_line c) :=
  ⟨(rk_read_chunk_size_parsed _ _ hc).1, (rk_read_chunk_size_parsed _ _ hc).2, rfl⟩

theorem rk_read_chunk_end_read (io : SoupMessageIOData) (hio : Reads io.read_state) :
    ReaderGoes io (read_chunk_end_read io) ∧
      (read_chunk_end_read io).io_error = io.io_error :=
  ⟨rk_goes_on _ _ rfl rfl rfl rfl hio ⟨by simp [read_chunk_end_read],
    by simp [read_chunk_end_read]⟩ (by simp [read_chunk_end_read]), rfl⟩

theorem rk_clear_read_meta_buf (io : SoupMessageIOData) :
    ReaderGoes io (clear_read_meta_buf io) ∧
      (clear_read_meta_buf io).io_error = io.io_error :=
  ⟨rk_frame _ _ rfl rfl rfl rfl rfl, rfl⟩

theorem stepOK_set_status (c : IOCtx) (status : Nat) :
    StepOK ReaderGoes c (soup_message_set_status c status) :=
  kr_step readerGoes_keepsR _ _ rfl rfl rfl rfl rfl rfl (completed_set_status _ _ _)

theorem outOK_read_headers_signal (c : IOCtx) :
    OutOK ReaderGoes c (read_headers_signal c) := by
  unfold read_headers_signal
  split
  · exact outOK_trans readerGoes_keeps
      (stepOK_trans readerGoes_keeps (stepOK_signal readerGoes_keeps c _)
        (kr_step readerGoes_keepsR _ (soup_message_cleanup_response _) rfl rfl rfl rfl rfl rfl
          (completed_msg_signal _ _ _)))
      (outOK_return_if readerGoes_keeps _ _)
  · exact outOK_emit_signal readerGoes_keeps _ _

theorem outOK_read_headers_block (c : IOCtx) (hc : Reads c.io.read_state) :
    OutOK ReaderGoes c (read_headers_block c) := by
  unfold read_headers_block
  split
  · exact stepOK_trans readerGoes_keeps
      (stepOK_trans readerGoes_keeps (rk_update c _ (rk_read_headers_store c.env _))
        (stepOK_set_status _ _))
      (rk_update _ _ (rk_read_headers_malformed _ hc))
  · refine rk_update_then _ (rk_read_headers_store c.env _) ?_
    unfold read_headers_parsed
    refine rk_update_then _ ?_ (outOK_read_headers_signal _)
    have hr : Reads (read_headers_encoding (c.update (read_headers_store c.env)).io).read_state := by
      rw [read_headers_encoding_read_state]
      exact hc
    exact ⟨readerGoes_keeps.trans _ _ _ (rk_read_headers_encoding _).1
        (rk_read_headers_states _ hr).1,
      (rk_read_headers_states _ hr).2.trans (rk_read_headers_encoding _).2⟩

theorem outOK_read_trailers_line (c : IOCtx) (hc : Reads c.io.read_state) :
    OutOK ReaderGoes c (read_trailers_line c) := by
  unfold read_trailers_line
  split
  · exact outOK_read_got_body c hc
  · exact rk_update c _ (rk_clear_read_meta_buf _)

/-- A call of `soup_io_dispatcher_read_metadata`, followed by the rest of the case, which
finds the read state as the call found it. -/
theorem outOK_read_metadata_call (bs : Nat) (c : IOCtx) (to_blank : Bool)
    (k : IOCtx → IOCtx ⊕ IOResult)
    (hk : ∀ c', c'.io.read_state = c.io.read_state → OutOK ReaderGoes c' (k c'))
    (x : IOCtx ⊕ IOResult)
    (hx : with_call (soup_io_dispatcher_read_metadata bs c to_blank) k = some x) :
    OutOK ReaderGoes c x :=
  outOK_with_call_sub readerGoes_keeps (fun _ _ h => sameR_sub readerGoes_keepsR h)
    (fun r hr => retOK_read_metadata sameR_keepsR _ _ _ r hr)
    (fun c' hs => hk c' hs.2.2.1) x hx

theorem outOK_read_body_chunk_call (bs : Nat) (c : IOCtx)
    (k : IOCtx → IOCtx ⊕ IOResult)
    (hk : ∀ c', c'.io.read_state = c.io.read_state → OutOK ReaderGoes c' (k c'))
    (x : IOCtx ⊕ IOResult)
    (hx : with_call (soup_io_dispatcher_read_body_chunk bs c) k = some x) :
    OutOK ReaderGoes c x :=
  outOK_with_call_sub readerGoes_keeps (fun _ _ h => sameR_sub readerGoes_keepsR h)
    (fun r hr => retOK_read_body_chunk sameR_keepsR _ _ r hr)
    (fun c' hs => hk c' hs.2.2.1) x hx

/-- A pass of `io_data_read` from a read state other than `FINISHING`. -/
theorem outOK_io_data_read_step_goes (bs : Nat) (c : IOCtx) (x : IOCtx ⊕ IOResult)
    (hx : io_data_read_step bs c = some x) (hf : c.io.read_state ≠ .FINISHING) :
    OutOK ReaderGoes c x := by
  have hK := readerGoes_keeps
  unfold io_data_read_step at hx
  split at hx
  · simp only [Option.some.injEq] at hx; subst hx; exact retOK_returns hK _ _
  · rename_i hst
    have hr : Reads c.io.read_state := by rw [hst]; exact ⟨by simp, by simp⟩
    exact outOK_read_metadata_call bs c true _
      (fun c' hs => outOK_read_headers_block c' (by rw [hs]; exact hr)) x hx
  · simp only [Option.some.injEq] at hx; subst hx; exact retOK_returns hK _ _
  · rename_i hst
    have hr : Reads c.io.read_state := by rw [hst]; exact ⟨by simp, by simp⟩
    exact outOK_read_body_chunk_call bs c _
      (fun c' hs => outOK_read_got_body c' (by rw [hs]; exact hr)) x hx
  · rename_i hst
    have hr : Reads c.io.read_state := by rw [hst]; exact ⟨by simp, by simp⟩
    exact outOK_read_metadata_call bs c false
      (fun ctx => .inl (read_chunk_size_line ctx))
      (fun c' hs => stepOK_read_chunk_size_line c' (by rw [hs]; exact hr)) x hx
  · rename_i hst
    have hr : Reads c.io.read_state := by rw [hst]; exact ⟨by simp, by simp⟩
    exact outOK_read_body_chunk_call bs c
      (fun ctx => .inl (ctx.update (set_read_state .CHUNK_END)))
      (fun c' hs => rk_update c' _
        (rk_set_read_state _ ⟨by simp, by simp⟩ (by simp) _ (by rw [hs]; exact hr))) x hx
  · rename_i hst
    have hr : Reads c.io.read_state := by rw [hst]; exact ⟨by simp, by simp⟩
    exact outOK_read_metadata_call bs c false
      (fun ctx => .inl (ctx.update read_chunk_end_read))
      (fun c' hs => rk_update c' _ (rk_read_chunk_end_read _ (by rw [hs]; exact hr))) x hx
  · rename_i hst
    have hr : Reads c.io.read_state := by rw [hst]; exact ⟨by simp, by simp⟩
    exact outOK_read_metadata_call bs c false _
      (fun c' hs => outOK_read_trailers_line c' (by rw [hs]; exact hr)) x hx
  · rename_i hst
    exact absurd hst hf
  · simp only [Option.some.injEq] at hx; subst hx; exact retOK_returns hK _ _

theorem outOK_io_data_read_step (bs : Nat) (c : IOCtx) (x : IOCtx ⊕ IOResult)
    (hx : io_data_read_step bs c = some x) : OutOK ReaderKeeps c x := by
  by_cases hf : c.io.read_state = .FINISHING
  · have hr : Reads c.io.read_state := by rw [hf]; exact ⟨by simp, by simp⟩
    unfold io_data_read_step at hx
    rw [hf] at hx
    simp only [Option.some.injEq] at hx; subst hx
    refine retOK_of_step _ _ (stepOK_update c _ ?_ rfl) _
    exact ⟨rfl, rfl, fun h => h, fun _ => by simp [set_read_state], rfl,
      Or.inr ⟨hr, Or.inl ⟨⟨by simp [set_read_state], by simp [set_read_state]⟩, Or.inl rfl⟩⟩⟩
  · exact outOK_sub (fun _ _ h => h.1) (outOK_io_data_read_step_goes bs c x hx hf)

/-- A pass of `io_data_read` that returns FALSE has not left the read state `DONE`. -/
theorem io_data_read_step_false (bs : Nat) (c : IOCtx) (r : IOResult)
    (hx : io_data_read_step bs c = some (.inr r)) (hr : r.ret = false) :
    r.ctx.io.read_state ≠ .DONE := by
  by_cases hf : c.io.read_state = .FINISHING
  · unfold io_data_read_step at hx
    rw [hf] at hx
    simp only [Option.some.injEq, Sum.inr.injEq] at hx; subst hx
    exact absurd hr (by simp [IOCtx.returns])
  · by_cases hd : c.io.read_state = .DONE
    · unfold io_data_read_step at hx
      rw [hd] at hx
      simp only [Option.some.injEq, Sum.inr.injEq] at hx; subst hx
      exact absurd hr (by simp [IOCtx.returns])
    · have h := outOK_io_data_read_step_goes bs c _ hx hf
      exact fun e => hd (h.1.2 e)

/-- `io_data_read` returns FALSE only with a read state other than `DONE`. -/
theorem io_data_read_false (bs fuel : Nat) (c : IOCtx) (r : IOResult)
    (h : io_data_read bs fuel c = some r) (hr : r.ret = false) : r.ctx.io.read_state ≠ .DONE := by
  unfold io_data_read at h
  exact iterate_invariant (io_data_read_step bs) (fun _ => True)
    (fun r => r.ret = false → r.ctx.io.read_state ≠ .DONE) (fun _ _ _ _ => trivial)
    (fun s r _ hs => io_data_read_step_false bs s r hs) _ _ trivial r h hr

/-- What `io_data_read` keeps of the item it is called with. -/
theorem retOK_io_data_read (bs fuel : Nat) (c : IOCtx) (r : IOResult)
    (h : io_data_read bs fuel c = some r) : RetOK ReaderKeeps c r := by
  unfold io_data_read at h
  exact retOK_iterate readerKeeps_keeps _ (outOK_io_data_read_step bs) _ _ _ h

/-- On an item whose reading has not started `io_data_read` returns at once. -/
theorem io_data_read_not_started (bs fuel : Nat) (c : IOCtx) (r : IOResult)
    (hs : c.io.read_state = .NOT_STARTED) (h : io_data_read bs fuel c = some r) :
    r = c.returns false := by
  unfold io_data_read at h
  cases fuel with
  | zero => simp [iterate] at h
  | succ n =>
    rw [iterate] at h
    have : io_data_read_step bs c = some (.inr (c.returns false)) := by
      unfold io_data_read_step
      rw [hs]
    rw [this] at h
    simp only [Option.some.injEq] at h
    exact h.symm

/-! ### `io_data_read` returns TRUE when the reading is done -/

theorem noTrue_read_got_body (c : IOCtx) : NoTrue (read_got_body c) := by
  unfold read_got_body read_got_body_sniffed
  split
  · rename_i hret
    have hret' : (io_handle_sniffing c true).ret = false := by simpa using hret
    split
    · exact noTrue_false _ hret'
    · exact noTrue_false _ hret'
  · exact noTrue_emit_signal _ _

theorem noTrue_read_headers_block (c : IOCtx) : NoTrue (read_headers_block c) := by
  unfold read_headers_block
  split
  · exact noTrue_inl _
  · unfold read_headers_parsed read_headers_signal
    split
    · exact noTrue_return_if _ _
    · exact noTrue_emit_signal _ _

theorem noTrue_read_trailers_line (c : IOCtx) : NoTrue (read_trailers_line c) := by
  unfold read_trailers_line
  split
  · exact noTrue_read_got_body c
  · exact noTrue_inl _

/-- A pass of `io_data_read` that returns TRUE leaves the read state `DONE`. -/
theorem io_data_read_step_true (bs : Nat) (c : IOCtx) (r : IOResult)
    (hx : io_data_read_step bs c = some (.inr r)) (hr : r.ret = true) :
    r.ctx.io.read_state = .DONE := by
  have hno : ∀ x, x = Sum.inr r → NoTrue x → False := by
    intro x hx hn
    have := hn r hx
    rw [hr] at this
    exact absurd this (by simp)
  unfold io_data_read_step at hx
  split at hx
  · simp only [Option.some.injEq, Sum.inr.injEq] at hx; subst hx
    exact absurd hr (by simp [IOCtx.returns])
  · exact (hno _ rfl (noTrue_with_call (fun _ => noTrue_read_headers_block _) hx)).elim
  · simp only [Option.some.injEq, Sum.inr.injEq] at hx; subst hx
    exact absurd hr (by simp [IOCtx.returns])
  · exact (hno _ rfl (noTrue_with_call (fun _ => noTrue_read_got_body _) hx)).elim
  · exact (hno _ rfl (noTrue_with_call (fun _ => noTrue_inl _) hx)).elim
  · exact (hno _ rfl (noTrue_with_call (fun _ => noTrue_inl _) hx)).elim
  · exact (hno _ rfl (noTrue_with_call (fun _ => noTrue_inl _) hx)).elim
  · exact (hno _ rfl (noTrue_with_call (fun _ => noTrue_read_trailers_line _) hx)).elim
  · simp only [Option.some.injEq, Sum.inr.injEq] at hx; subst hx; rfl
  · rename_i hst
    simp only [Option.some.injEq, Sum.inr.injEq] at hx; subst hx; exact hst

/-- `io_data_read` returns TRUE only with the read state `DONE`. -/
theorem io_data_read_true (bs fuel : Nat) (c : IOCtx) (r : IOResult)
    (h : io_data_read bs fuel c = some r) (hr : r.ret = true) : r.ctx.io.read_state = .DONE := by
  unfold io_data_read at h
  exact iterate_invariant (io_data_read_step bs) (fun _ => True)
    (fun r => r.ret = true → r.ctx.io.read_state = .DONE) (fun _ _ _ _ => trivial)
    (fun s r _ hs => io_data_read_step_true bs s r hs) _ _ trivial r h hr

/-! ## The steps keep the invariants -/

theorem head_erase_ne {l : List Nat} (hn : l.Nodup) {a b : Nat} (hb : b ∈ l.erase a)
    (hh : (l.erase a).head? ≠ some b) : l.head? ≠ some b := by
  cases l with
  | nil => simp at hb
  | cons x t =>
    by_cases hx : x = a
    · subst hx
      rw [List.erase_cons_head] at hb
      have hnot : x ∉ t := (List.nodup_cons.mp hn).1
      intro h
      simp only [List.head?_cons, Option.some.injEq] at h
      subst h
      exact hnot hb
    · rw [List.erase_cons_tail (by simpa using hx)] at hh
      simpa using hh

theorem head_append_ne {l : List Nat} {a b : Nat} (hb : b ∈ l)
    (hh : (l ++ [a]).head? ≠ some b) : l.head? ≠ some b := by
  cases l with
  | nil => simp at hb
  | cons x t => simpa using hh

theorem mem_store {v : View} {io' x' : SoupMessageIOData} (h : x' ∈ (v.store io').items) :
    (x' = io' ∧ ∃ x ∈ v.items, x.id = io'.id) ∨ (x' ∈ v.items ∧ x'.id ≠ io'.id) := by
  simp only [View.store, List.mem_map] at h
  obtain ⟨x, hx, hfx⟩ := h
  by_cases hc : x.id = io'.id
  · left
    rw [if_pos (by simpa using hc)] at hfx
    exact ⟨hfx.symm, x, hx, hc⟩
  · right
    rw [if_neg (by simpa using hc)] at hfx
    subst hfx
    exact ⟨hx, hc⟩

theorem store_ids (items : List SoupMessageIOData) (io' : SoupMessageIOData) :
    (items.map (fun x => if x.id == io'.id then io' else x)).map (fun x => x.id) =
      items.map (fun x => x.id) := by
  induction items with
  | nil => rfl
  | cons x t ih =>
    simp only [List.map_cons, List.cons.injEq]
    refine ⟨?_, ih⟩
    by_cases hc : x.id = io'.id
    · rw [if_pos (by simpa using hc)]; exact hc.symm
    · rw [if_neg (by simpa using hc)]

theorem inv_store {v : View} (h : QueueInv v) (io io' : SoupMessageIOData)
    (hmem : io ∈ v.items) (hid : io'.id = io.id) (herr : io'.io_error = false)
    (hw : io.id ∈ v.write → v.write.head? ≠ some io.id → io'.write_state = .NOT_STARTED)
    (hr : io.id ∈ v.read → v.read.head? ≠ some io.id →
      (io'.read_state = .NOT_STARTED ∨ io'.read_state = .HEADERS) ∧ io'.read_meta_buf = [])
    (hm : io'.read_state = .NOT_STARTED → io'.read_meta_buf = [])
    (hpq : io.id ∈ v.paused →
      io'.read_state = .NOT_STARTED ∧ io'.write_state = .NOT_STARTED) :
    QueueInv (v.store io') := by
  have hq : ∀ q, (v.store io').queue q = v.queue q := fun q => by cases q <;> rfl
  refine ⟨fun q => by rw [hq]; exact h.nodup q, h.paused_read, h.paused_write,
    fun q => by rw [hq]; exact h.queue_lt q, ?_, ?_, ?_, ?_, ?_, ?_, ?_, ?_, h.once, ?_,
    h.completed_lt⟩
  · intro q a ha
    rw [hq] at ha
    obtain ⟨x, hx, hxa⟩ := h.linked_live q a ha
    have : a ∈ (v.store io').items.map (fun x => x.id) := by
      show a ∈ (v.items.map _).map _
      rw [store_ids]
      exact List.mem_map.mpr ⟨x, hx, hxa⟩
    obtain ⟨y, hy, hya⟩ := List.mem_map.mp this
    exact ⟨y, hy, hya⟩
  · intro x hx
    rcases mem_store hx with ⟨rfl, _⟩ | ⟨hx', _⟩
    · rw [hid]; exact h.item_lt _ hmem
    · exact h.item_lt _ hx'
  · show ((v.items.map _).map _).Nodup
    rw [store_ids]
    exact h.item_nodup
  · intro x hx
    rcases mem_store hx with ⟨rfl, _⟩ | ⟨hx', _⟩
    · exact herr
    · exact h.no_error _ hx'
  · intro x hx
    rcases mem_store hx with ⟨rfl, _⟩ | ⟨hx', _⟩
    · rw [hid]; exact hw
    · exact h.write_order _ hx'
  · intro x hx
    rcases mem_store hx with ⟨rfl, _⟩ | ⟨hx', _⟩
    · rw [hid]; exact hr
    · exact h.read_order _ hx'
  · intro x hx
    rcases mem_store hx with ⟨rfl, _⟩ | ⟨hx', _⟩
    · exact hm
    · exact h.unstarted _ hx'
  · intro x hx
    rcases mem_store hx with ⟨rfl, _⟩ | ⟨hx', _⟩
    · rw [hid]; exact hpq
    · exact h.paused_unstarted _ hx'
  · intro x hx
    rcases mem_store hx with ⟨rfl, _⟩ | ⟨hx', _⟩
    · rw [hid]; exact h.live _ hmem
    · exact h.live _ hx'

theorem inv_erase {v : View} (h : QueueInv v) (q : QueueSel) (id : Nat) :
    QueueInv (v.erase q id) := by
  have hsub : ∀ (l : List Nat) (a : Nat), a ∈ l.erase id → a ∈ l :=
    fun l a ha => List.mem_of_mem_erase ha
  cases q with
  | read =>
    refine ⟨fun q => ?_, ?_, h.paused_write, fun q => ?_, fun q => ?_, h.item_lt, h.item_nodup,
      h.no_error, h.write_order, ?_, h.unstarted, h.paused_unstarted, h.once, h.live,
      h.completed_lt⟩
    · cases q
      · exact (h.nodup .read).erase id
      · exact h.nodup .write
      · exact h.nodup .paused
    · intro a ha hr
      exact h.paused_read a ha (hsub _ _ hr)
    · cases q
      · intro a ha; exact h.queue_lt .read a (hsub _ _ ha)
      · exact h.queue_lt .write
      · exact h.queue_lt .paused
    · cases q
      · intro a ha; exact h.linked_live .read a (hsub _ _ ha)
      · exact h.linked_live .write
      · exact h.linked_live .paused
    · intro x hx hin hhead
      exact h.read_order x hx (hsub _ _ hin) (head_erase_ne (h.nodup .read) hin hhead)
  | write =>
    refine ⟨fun q => ?_, h.paused_read, ?_, fun q => ?_, fun q => ?_, h.item_lt, h.item_nodup,
      h.no_error, ?_, h.read_order, h.unstarted, h.paused_unstarted, h.once, h.live,
      h.completed_lt⟩
    · cases q
      · exact h.nodup .read
      · exact (h.nodup .write).erase id
      · exact h.nodup .paused
    · intro a ha hr
      exact h.paused_write a ha (hsub _ _ hr)
    · cases q
      · exact h.queue_lt .read
      · intro a ha; exact h.queue_lt .write a (hsub _ _ ha)
      · exact h.queue_lt .paused
    · cases q
      · exact h.linked_live .read
      · intro a ha; exact h.linked_live .write a (hsub _ _ ha)
      · exact h.linked_live .paused
    · intro x hx hin hhead
      exact h.write_order x hx (hsub _ _ hin) (head_erase_ne (h.nodup .write) hin hhead)
  | paused =>
    refine ⟨fun q => ?_, ?_, ?_, fun q => ?_, fun q => ?_, h.item_lt, h.item_nodup, h.no_error,
      h.write_order, h.read_order, h.unstarted, ?_, h.once, h.live, h.completed_lt⟩
    · cases q
      · exact h.nodup .read
      · exact h.nodup .write
      · exact (h.nodup .paused).erase id
    · intro a ha
      exact h.paused_read a (hsub _ _ ha)
    · intro a ha
      exact h.paused_write a (hsub _ _ ha)
    · cases q
      · exact h.queue_lt .read
      · exact h.queue_lt .write
      · intro a ha; exact h.queue_lt .paused a (hsub _ _ ha)
    · cases q
      · exact h.linked_live .read
      · exact h.linked_live .write
      · intro a ha; exact h.linked_live .paused a (hsub _ _ ha)
    · intro x hx hin
      exact h.paused_unstarted x hx (hsub _ _ hin)

theorem nodup_push {l : List Nat} (hn : l.Nodup) {id : Nat} (h : id ∉ l) :
    (l ++ [id]).Nodup := by
  rw [List.nodup_append]
  refine ⟨hn, List.nodup_singleton _, ?_⟩
  intro a ha hb
  simp only [List.mem_singleton] at hb
  subst hb
  exact h ha

theorem inv_push {v : View} (h : QueueInv v) (q : QueueSel) (id : Nat) (hlt : id < v.next)
    (hq : id ∉ v.queue q) (hp : id ∉ v.paused)
    (hpa : q = .paused → id ∉ v.read ∧ id ∉ v.write)
    (hlive : ∃ io ∈ v.items, io.id = id)
    (hns : ∀ io ∈ v.items, io.id = id →
      io.read_state = .NOT_STARTED ∧ io.write_state = .NOT_STARTED) :
    QueueInv (v.push q id) := by
  have hmem : ∀ (l : List Nat) (a : Nat), a ∈ l ++ [id] → a ∈ l ∨ a = id := by
    intro l a ha
    simpa using ha
  cases q with
  | read =>
    refine ⟨fun q => ?_, ?_, h.paused_write, fun q => ?_, fun q => ?_, h.item_lt, h.item_nodup,
      h.no_error, h.write_order, ?_, h.unstarted, h.paused_unstarted, h.once, h.live,
      h.completed_lt⟩
    · cases q
      · exact nodup_push (h.nodup .read) hq
      · exact h.nodup .write
      · exact h.nodup .paused
    · intro a ha hr
      rcases hmem _ _ hr with hr | hr
      · exact h.paused_read a ha hr
      · subst hr; exact hp ha
    · cases q
      · intro a ha
        rcases hmem _ _ ha with ha | ha
        · exact h.queue_lt .read a ha
        · subst ha; exact hlt
      · exact h.queue_lt .write
      · exact h.queue_lt .paused
    · cases q
      · intro a ha
        rcases hmem _ _ ha with ha | ha
        · exact h.linked_live .read a ha
        · subst ha; exact hlive
      · exact h.linked_live .write
      · exact h.linked_live .paused
    · intro x hx hin hhead
      by_cases hxi : x.id = id
      · exact ⟨Or.inl (hns x hx hxi).1, h.unstarted x hx (hns x hx hxi).1⟩
      · rcases hmem _ _ hin with hin | hin
        · exact h.read_order x hx hin (head_append_ne hin hhead)
        · exact absurd hin hxi
  | write =>
    refine ⟨fun q => ?_, h.paused_read, ?_, fun q => ?_, fun q => ?_, h.item_lt, h.item_nodup,
      h.no_error, ?_, h.read_order, h.unstarted, h.paused_unstarted, h.once, h.live,
      h.completed_lt⟩
    · cases q
      · exact h.nodup .read
      · exact nodup_push (h.nodup .write) hq
      · exact h.nodup .paused
    · intro a ha hr
      rcases hmem _ _ hr with hr | hr
      · exact h.paused_write a ha hr
      · subst hr; exact hp ha
    · cases q
      · exact h.queue_lt .read
      · intro a ha
        rcases hmem _ _ ha with ha | ha
        · exact h.queue_lt .write a ha
        · subst ha; exact hlt
      · exact h.queue_lt .paused
    · cases q
      · exact h.linked_live .read
      · intro a ha
        rcases hmem _ _ ha with ha | ha
        · exact h.linked_live .write a ha
        · subst ha; exact hlive
      · exact h.linked_live .paused
    · intro x hx hin hhead
      by_cases hxi : x.id = id
      · exact (hns x hx hxi).2
      · rcases hmem _ _ hin with hin | hin
        · exact h.write_order x hx hin (head_append_ne hin hhead)
        · exact absurd hin hxi
  | paused =>
    refine ⟨fun q => ?_, ?_, ?_, fun q => ?_, fun q => ?_, h.item_lt, h.item_nodup, h.no_error,
      h.write_order, h.read_order, h.unstarted, ?_, h.once, h.live, h.completed_lt⟩
    rotate_left 5
    · intro x hx hin
      rcases hmem _ _ hin with hin | hin
      · exact h.paused_unstarted x hx hin
      · exact hns x hx hin
    · cases q
      · exact h.nodup .read
      · exact h.nodup .write
      · exact nodup_push (h.nodup .paused) hq
    · intro a ha
      rcases hmem _ _ ha with ha | ha
      · exact h.paused_read a ha
      · subst ha; exact (hpa rfl).1
    · intro a ha
      rcases hmem _ _ ha with ha | ha
      · exact h.paused_write a ha
      · subst ha; exact (hpa rfl).2
    · cases q
      · exact h.queue_lt .read
      · exact h.queue_lt .write
      · intro a ha
        rcases hmem _ _ ha with ha | ha
        · exact h.queue_lt .paused a ha
        · subst ha; exact hlt
    · cases q
      · exact h.linked_live .read
      · exact h.linked_live .write
      · intro a ha
        rcases hmem _ _ ha with ha | ha
        · exact h.linked_live .paused a ha
        · subst ha; exact hlive

theorem mem_free {v : View} {id : Nat} {cb : Bool} {x : SoupMessageIOData}
    (h : x ∈ (v.free id cb).items) : x ∈ v.items ∧ x.id ≠ id := by
  simp only [View.free, List.mem_filter, bne_iff_ne, ne_eq] at h
  exact h

theorem inv_free {v : View} (h : QueueInv v) (io : SoupMessageIOData) (hmem : io ∈ v.items)
    (hun : ∀ q, io.id ∉ v.queue q) :
    QueueInv (v.free io.id io.completion_cb) := by
  have hq : ∀ q, (v.free io.id io.completion_cb).queue q = v.queue q :=
    fun q => by cases q <;> rfl
  refine ⟨fun q => by rw [hq]; exact h.nodup q, h.paused_read, h.paused_write,
    fun q => by rw [hq]; exact h.queue_lt q, ?_, ?_, ?_, ?_, ?_, ?_, ?_, ?_, ?_, ?_, ?_⟩
  · intro q a ha
    rw [hq] at ha
    obtain ⟨x, hx, hxa⟩ := h.linked_live q a ha
    refine ⟨x, ?_, hxa⟩
    simp only [View.free, List.mem_filter, bne_iff_ne, ne_eq]
    refine ⟨hx, fun hc => hun q ?_⟩
    rw [← hc, hxa]
    exact ha
  · intro x hx; exact h.item_lt x (mem_free hx).1
  · exact h.item_nodup.sublist (List.Sublist.map _ (List.filter_sublist _))
  · intro x hx; exact h.no_error x (mem_free hx).1
  · intro x hx; exact h.write_order x (mem_free hx).1
  · intro x hx; exact h.read_order x (mem_free hx).1
  · intro x hx; exact h.unstarted x (mem_free hx).1
  · intro x hx; exact h.paused_unstarted x (mem_free hx).1
  · show (v.completed ++ _).Nodup
    split
    · exact nodup_push h.once (h.live io hmem)
    · simpa using h.once
  · intro x hx
    show x.id ∉ v.completed ++ _
    have hx' := mem_free hx
    split
    · simp only [List.mem_append, List.mem_singleton, not_or]
      exact ⟨h.live x hx'.1, hx'.2⟩
    · simpa using h.live x hx'.1
  · intro a ha
    have ha' : a ∈ v.completed ++ (if io.completion_cb then [io.id] else []) := ha
    simp only [List.mem_append] at ha'
    rcases ha' with ha' | ha'
    · exact h.completed_lt a ha'
    · split at ha'
      · simp only [List.mem_singleton] at ha'
        subst ha'
        exact h.item_lt io hmem
      · simp at ha'

theorem inv_alloc {v : View} (h : QueueInv v) (io : SoupMessageIOData) (hid : io.id = v.next)
    (hrs : io.read_state = .NOT_STARTED) (hws : io.write_state = .NOT_STARTED)
    (hmb : io.read_meta_buf = []) (herr : io.io_error = false) :
    QueueInv (v.alloc io) := by
  have hmem : ∀ x, x ∈ (v.alloc io).items → x ∈ v.items ∨ x = io := by
    intro x hx
    simpa [View.alloc] using hx
  have hq : ∀ q, (v.alloc io).queue q = v.queue q := fun q => by cases q <;> rfl
  refine ⟨fun q => by rw [hq]; exact h.nodup q, h.paused_read, h.paused_write,
    fun q => ?_, fun q => ?_, ?_, ?_, ?_, ?_, ?_, ?_, ?_, h.once, ?_, ?_⟩
  · cases q
    · intro a ha; exact Nat.lt_succ_of_lt (h.queue_lt .read a ha)
    · intro a ha; exact Nat.lt_succ_of_lt (h.queue_lt .write a ha)
    · intro a ha; exact Nat.lt_succ_of_lt (h.queue_lt .paused a ha)
  · intro a ha
    rw [hq] at ha
    obtain ⟨x, hx, hxa⟩ := h.linked_live q a ha
    exact ⟨x, by simp only [View.alloc, List.mem_append]; exact Or.inl hx, hxa⟩
  · intro x hx
    show x.id < v.next + 1
    rcases hmem x hx with hx | rfl
    · exact Nat.lt_succ_of_lt (h.item_lt x hx)
    · rw [hid]; exact Nat.lt_succ_self _
  · show ((v.items ++ [io]).map _).Nodup
    rw [List.map_append, List.nodup_append]
    refine ⟨h.item_nodup, by simp, ?_⟩
    intro a ha hb
    simp only [List.map_cons, List.map_nil, List.mem_singleton] at hb
    simp only [List.mem_map] at ha
    obtain ⟨x, hx, rfl⟩ := ha
    have := h.item_lt x hx
    rw [hb, hid] at this
    exact absurd this (Nat.lt_irrefl _)
  · intro x hx
    rcases hmem x hx with hx | rfl
    · exact h.no_error x hx
    · exact herr
  · intro x hx
    rcases hmem x hx with hx | rfl
    · exact h.write_order x hx
    · intro _ _; exact hws
  · intro x hx
    rcases hmem x hx with hx | rfl
    · exact h.read_order x hx
    · intro _ _; exact ⟨Or.inl hrs, hmb⟩
  · intro x hx
    rcases hmem x hx with hx | rfl
    · exact h.unstarted x hx
    · intro _; exact hmb
  · intro x hx
    rcases hmem x hx with hx | rfl
    · exact h.paused_unstarted x hx
    · intro _; exact ⟨hrs, hws⟩
  · intro x hx
    rcases hmem x hx with hx | rfl
    · exact h.live x hx
    · intro hc
      have := h.completed_lt _ hc
      rw [hid] at this
      exact absurd this (Nat.lt_irrefl _)
  · intro a ha
    exact Nat.lt_succ_of_lt (h.completed_lt a ha)

/-- Every single change keeps the invariants of the queues. -/
theorem queueInv_micro {v v' : View} (h : QueueInv v) (s : MicroStep v v') : QueueInv v' := by
  cases s with
  | store io io' hmem hid hcb herr hw hr hm hpq =>
    exact inv_store h io io' hmem hid herr hw hr hm hpq
  | erase q id => exact inv_erase h q id
  | push q id hlt hq hp hpa hlive hns => exact inv_push h q id hlt hq hp hpa hlive hns
  | free io hmem hun => exact inv_free h io hmem hun
  | alloc io hid hrs hws hmb herr => exact inv_alloc h io hid hrs hws hmb herr

theorem queueInv_micros {v v' : View} (h : QueueInv v) (s : Relation.ReflTransGen MicroStep v v') :
    QueueInv v' := by
  induction s with
  | refl => exact h
  | tail _ s ih => exact queueInv_micro ih s

/-! ## What the steps do to the completion callbacks -/

theorem item_eq_of_id_eq {v : View} (h : QueueInv v) {a b : SoupMessageIOData} (ha : a ∈ v.items)
    (hb : b ∈ v.items) (hid : a.id = b.id) : a = b :=
  List.inj_on_of_nodup_map h.item_nodup ha hb hid

theorem eq_of_id_eq {v : View} (h : PipelineInv v) {a b : SoupMessageIOData} (ha : a ∈ v.items)
    (hb : b ∈ v.items) (hid : a.id = b.id) : a = b :=
  item_eq_of_id_eq h.toQueueInv ha hb hid

/-- Every step is made of single changes. -/
theorem astep_micro {v v' : View} (hV : PipelineInv v) (s : AStep v v') :
    Relation.ReflTransGen MicroStep v v' := by
  cases s with
  | store io io' hmem hid hcb herr hw hr hm hpq _ _ _ _ _ =>
    exact Relation.ReflTransGen.single (MicroStep.store v io io' hmem hid hcb herr hw hr hm hpq)
  | unlink_read io _ _ _ => exact Relation.ReflTransGen.single (MicroStep.erase v .read io.id)
  | unlink_write io _ _ _ => exact Relation.ReflTransGen.single (MicroStep.erase v .write io.id)
  | cleanup io hmem =>
    unfold View.cleanup
    have hun : ∀ q, io.id ∉
        (((v.erase .read io.id).erase .write io.id).erase .paused io.id).queue q := by
      intro q hm
      cases q
      · exact ((hV.nodup .read).mem_erase_iff.mp hm).1 rfl
      · exact ((hV.nodup .write).mem_erase_iff.mp hm).1 rfl
      · exact ((hV.nodup .paused).mem_erase_iff.mp hm).1 rfl
    exact (((Relation.ReflTransGen.single (MicroStep.erase v .read io.id)).tail
      (MicroStep.erase _ .write io.id)).tail (MicroStep.erase _ .paused io.id)).tail
      (MicroStep.free _ io hmem hun)
  | pause_move io hmem hrs hws hp =>
    have s3 : MicroStep ((v.erase .read io.id).erase .write io.id)
        (((v.erase .read io.id).erase .write io.id).push .paused io.id) := by
      refine MicroStep.push _ _ _ (hV.item_lt io hmem) hp hp (fun _ => ⟨?_, ?_⟩) ⟨io, hmem, rfl⟩ ?_
      · exact fun hm => ((hV.nodup .read).mem_erase_iff.mp hm).1 rfl
      · exact fun hm => ((hV.nodup .write).mem_erase_iff.mp hm).1 rfl
      · intro x hx hid
        have : x = io := eq_of_id_eq hV hx hmem hid
        rw [this]
        exact ⟨hrs, hws⟩
    exact ((Relation.ReflTransGen.single (MicroStep.erase v .read io.id)).tail
      (MicroStep.erase _ .write io.id)).tail s3
  | unpause_move io hmem hp =>
    have hns : ∀ x ∈ v.items, x.id = io.id →
        x.read_state = .NOT_STARTED ∧ x.write_state = .NOT_STARTED :=
      fun x hx hid => hV.paused_unstarted x hx (hid ▸ hp)
    have hnp : io.id ∉ v.paused.erase io.id :=
      fun hm => ((hV.nodup .paused).mem_erase_iff.mp hm).1 rfl
    have s2 : MicroStep (v.erase .paused io.id) ((v.erase .paused io.id).push .read io.id) :=
      MicroStep.push _ _ _ (hV.item_lt io hmem) (hV.paused_read _ hp) hnp (fun h => by cases h)
        ⟨io, hmem, rfl⟩ hns
    have s3 : MicroStep ((v.erase .paused io.id).push .read io.id)
        (((v.erase .paused io.id).push .read io.id).push .write io.id) :=
      MicroStep.push _ _ _ (hV.item_lt io hmem) (hV.paused_write _ hp) hnp (fun h => by cases h)
        ⟨io, hmem, rfl⟩ hns
    exact ((Relation.ReflTransGen.single (MicroStep.erase v .paused io.id)).tail s2).tail s3
  | new io hid hrs hws hmb herr _ =>
    have hfresh : ∀ q, io.id ∉ v.queue q :=
      fun q hm => Nat.lt_irrefl _ (hid ▸ hV.queue_lt q _ hm)
    have hns : ∀ x ∈ v.items ++ [io], x.id = io.id →
        x.read_state = .NOT_STARTED ∧ x.write_state = .NOT_STARTED := by
      intro x hx hxi
      simp only [List.mem_append, List.mem_singleton] at hx
      rcases hx with hx | rfl
      · have := hV.item_lt x hx
        rw [hxi, hid] at this
        exact absurd this (Nat.lt_irrefl _)
      · exact ⟨hrs, hws⟩
    have hlive : ∃ x ∈ v.items ++ [io], x.id = io.id := ⟨io, by simp, rfl⟩
    have hlt : io.id < v.next + 1 := by rw [hid]; exact Nat.lt_succ_self _
    have s1 : MicroStep v (v.alloc io) := MicroStep.alloc _ _ hid hrs hws hmb herr
    have s2 : MicroStep (v.alloc io) ((v.alloc io).push .read io.id) :=
      MicroStep.push _ _ _ hlt (hfresh .read) (hfresh .paused) (fun h => by cases h) hlive hns
    have s3 : MicroStep ((v.alloc io).push .read io.id)
        (((v.alloc io).push .read io.id).push .write io.id) :=
      MicroStep.push _ _ _ hlt (hfresh .write) (hfresh .paused) (fun h => by cases h) hlive hns
    exact ((Relation.ReflTransGen.single s1).tail s2).tail s3

theorem mem_erase_other {l : List Nat} {a id : Nat} (h : a ≠ id) : a ∈ l.erase id ↔ a ∈ l :=
  List.mem_erase_of_ne h

theorem mem_push_other {l : List Nat} {a id : Nat} (h : a ≠ id) : a ∈ l ++ [id] ↔ a ∈ l := by
  simp [h]

/-- Every step keeps the items within reach. -/
theorem link_step {v v' : View} (hV : PipelineInv v) (s : AStep v v') : LinkInv v' := by
  cases s with
  | store io io' hmem hid hcb herr hw hr hm hpq hc ht hrd hwd hnf =>
    refine ⟨fun x hx => ?_, fun x hx => ?_, fun x hx => ?_, fun x hx => ?_, fun x hx => ?_,
      fun x hx => ?_⟩
    · rcases mem_store hx with ⟨rfl, _⟩ | ⟨hx', _⟩
      · rw [hid]; exact hV.no_orphan io hmem
      · exact hV.no_orphan x hx'
    · rcases mem_store hx with ⟨rfl, _⟩ | ⟨hx', _⟩
      · rw [hid]; exact hrd
      · exact hV.read_done x hx'
    · rcases mem_store hx with ⟨rfl, _⟩ | ⟨hx', _⟩
      · rw [hid]; exact hwd
      · exact hV.write_done x hx'
    · rcases mem_store hx with ⟨rfl, _⟩ | ⟨hx', _⟩
      · exact ht
      · exact hV.turn x hx'
    · rcases mem_store hx with ⟨rfl, _⟩ | ⟨hx', _⟩
      · exact hc
      · exact hV.not_cancelled x hx'
    · rcases mem_store hx with ⟨rfl, _⟩ | ⟨hx', _⟩
      · exact hnf
      · exact hV.not_finished x hx'
  | unlink_read io hmem hdone hother =>
    refine ⟨fun x hx => ?_, fun x hx h1 h2 => ?_, hV.write_done, hV.turn, hV.not_cancelled,
      hV.not_finished⟩
    · by_cases hxi : x.id = io.id
      · exact Or.inr (Or.inl (hxi ▸ hother))
      · rcases hV.no_orphan x hx with h | h | h
        · exact Or.inl ((mem_erase_other hxi).mpr h)
        · exact Or.inr (Or.inl h)
        · exact Or.inr (Or.inr h)
    · by_cases hxi : x.id = io.id
      · rw [eq_of_id_eq hV hx hmem hxi]; exact hdone
      · exact hV.read_done x hx (fun h => h1 ((mem_erase_other hxi).mpr h)) h2
  | unlink_write io hmem hdone hother =>
    refine ⟨fun x hx => ?_, hV.read_done, fun x hx h1 h2 => ?_, hV.turn, hV.not_cancelled,
      hV.not_finished⟩
    · by_cases hxi : x.id = io.id
      · exact Or.inl (hxi ▸ hother)
      · rcases hV.no_orphan x hx with h | h | h
        · exact Or.inl h
        · exact Or.inr (Or.inl ((mem_erase_other hxi).mpr h))
        · exact Or.inr (Or.inr h)
    · by_cases hxi : x.id = io.id
      · rw [eq_of_id_eq hV hx hmem hxi]; exact hdone
      · exact hV.write_done x hx (fun h => h1 ((mem_erase_other hxi).mpr h)) h2
  | cleanup io hmem =>
    have hr : (v.cleanup io).read = v.read.erase io.id := rfl
    have hw : (v.cleanup io).write = v.write.erase io.id := rfl
    have hp : (v.cleanup io).paused = v.paused.erase io.id := rfl
    have hi : ∀ x, x ∈ (v.cleanup io).items → x ∈ v.items ∧ x.id ≠ io.id := by
      intro x hx
      unfold View.cleanup at hx
      exact @mem_free (((v.erase .read io.id).erase .write io.id).erase .paused io.id) io.id
        io.completion_cb x hx
    refine ⟨fun x hx => ?_, fun x hx h1 h2 => ?_, fun x hx h1 h2 => ?_,
      fun x hx => hV.turn x (hi x hx).1, fun x hx => hV.not_cancelled x (hi x hx).1,
      fun x hx => hV.not_finished x (hi x hx).1⟩
    · obtain ⟨hx', hne⟩ := hi x hx
      rw [hr, hw, hp, mem_erase_other hne, mem_erase_other hne, mem_erase_other hne]
      exact hV.no_orphan x hx'
    · obtain ⟨hx', hne⟩ := hi x hx
      rw [hr, mem_erase_other hne] at h1
      rw [hp, mem_erase_other hne] at h2
      exact hV.read_done x hx' h1 h2
    · obtain ⟨hx', hne⟩ := hi x hx
      rw [hw, mem_erase_other hne] at h1
      rw [hp, mem_erase_other hne] at h2
      exact hV.write_done x hx' h1 h2
  | pause_move io hmem hrs hws hp =>
    have hr : (((v.erase .read io.id).erase .write io.id).push .paused io.id).read =
        v.read.erase io.id := rfl
    have hw : (((v.erase .read io.id).erase .write io.id).push .paused io.id).write =
        v.write.erase io.id := rfl
    have hq : (((v.erase .read io.id).erase .write io.id).push .paused io.id).paused =
        v.paused ++ [io.id] := rfl
    refine ⟨fun x hx => ?_, fun x hx h1 h2 => ?_, fun x hx h1 h2 => ?_, hV.turn,
      hV.not_cancelled, hV.not_finished⟩
    · have hx' : x ∈ v.items := hx
      by_cases hxi : x.id = io.id
      · refine Or.inr (Or.inr ?_)
        rw [hq, hxi]
        simp
      · rw [hr, hw, hq, mem_erase_other hxi, mem_erase_other hxi, mem_push_other hxi]
        exact hV.no_orphan x hx'
    · have hx' : x ∈ v.items := hx
      by_cases hxi : x.id = io.id
      · exact absurd (by rw [hq, hxi]; simp) h2
      · rw [hr, mem_erase_other hxi] at h1
        rw [hq, mem_push_other hxi] at h2
        exact hV.read_done x hx' h1 h2
    · have hx' : x ∈ v.items := hx
      by_cases hxi : x.id = io.id
      · exact absurd (by rw [hq, hxi]; simp) h2
      · rw [hw, mem_erase_other hxi] at h1
        rw [hq, mem_push_other hxi] at h2
        exact hV.write_done x hx' h1 h2
  | unpause_move io hmem hp =>
    have hr : (((v.erase .paused io.id).push .read io.id).push .write io.id).read =
        v.read ++ [io.id] := rfl
    have hw : (((v.erase .paused io.id).push .read io.id).push .write io.id).write =
        v.write ++ [io.id] := rfl
    have hq : (((v.erase .paused io.id).push .read io.id).push .write io.id).paused =
        v.paused.erase io.id := rfl
    refine ⟨fun x hx => ?_, fun x hx h1 h2 => ?_, fun x hx h1 h2 => ?_, hV.turn,
      hV.not_cancelled, hV.not_finished⟩
    · have hx' : x ∈ v.items := hx
      by_cases hxi : x.id = io.id
      · refine Or.inl ?_
        rw [hr, hxi]
        simp
      · rw [hr, hw, hq, mem_erase_other hxi, mem_push_other hxi, mem_push_other hxi]
        exact hV.no_orphan x hx'
    · have hx' : x ∈ v.items := hx
      by_cases hxi : x.id = io.id
      · exact absurd (by rw [hr, hxi]; simp) h1
      · rw [hr, mem_push_other hxi] at h1
        rw [hq, mem_erase_other hxi] at h2
        exact hV.read_done x hx' h1 h2
    · have hx' : x ∈ v.items := hx
      by_cases hxi : x.id = io.id
      · exact absurd (by rw [hw, hxi]; simp) h1
      · rw [hw, mem_push_other hxi] at h1
        rw [hq, mem_erase_other hxi] at h2
        exact hV.write_done x hx' h1 h2
  | new io hid hrs hws hmb herr hc =>
    have hr : (((v.alloc io).push .read io.id).push .write io.id).read = v.read ++ [io.id] := rfl
    have hw : (((v.alloc io).push .read io.id).push .write io.id).write =
        v.write ++ [io.id] := rfl
    have hq : (((v.alloc io).push .read io.id).push .write io.id).paused = v.paused := rfl
    have hi : ∀ x, x ∈ (((v.alloc io).push .read io.id).push .write io.id).items →
        (x ∈ v.items ∧ x.id ≠ io.id) ∨ x = io := by
      intro x hx
      have hx' : x ∈ v.items ++ [io] := hx
      simp only [List.mem_append, List.mem_singleton] at hx'
      rcases hx' with hx' | hx'
      · left
        refine ⟨hx', fun e => ?_⟩
        have := hV.item_lt x hx'
        rw [e, hid] at this
        exact Nat.lt_irrefl _ this
      · exact Or.inr hx'
    refine ⟨fun x hx => ?_, fun x hx h1 h2 => ?_, fun x hx h1 h2 => ?_, fun x hx => ?_,
      fun x hx => ?_, fun x hx => ?_⟩
    · rcases hi x hx with ⟨hx', hne⟩ | rfl
      · rw [hr, hw, hq, mem_push_other hne, mem_push_other hne]
        exact hV.no_orphan x hx'
      · refine Or.inl ?_
        rw [hr]
        simp
    · rcases hi x hx with ⟨hx', hne⟩ | rfl
      · rw [hr, mem_push_other hne] at h1
        rw [hq] at h2
        exact hV.read_done x hx' h1 h2
      · exact absurd (by rw [hr]; simp) h1
    · rcases hi x hx with ⟨hx', hne⟩ | rfl
      · rw [hw, mem_push_other hne] at h1
        rw [hq] at h2
        exact hV.write_done x hx' h1 h2
      · exact absurd (by rw [hw]; simp) h1
    · rcases hi x hx with ⟨hx', _⟩ | rfl
      · exact hV.turn x hx'
      · intro hrd _
        exact hrd.1 hrs
    · rcases hi x hx with ⟨hx', _⟩ | rfl
      · exact hV.not_cancelled x hx'
      · exact hc
    · rcases hi x hx with ⟨hx', _⟩ | rfl
      · exact hV.not_finished x hx'
      · simp [is_io_data_finished, hrs]

/-- Every step keeps the invariants. -/
theorem inv_step {v v' : View} (h : PipelineInv v) (s : AStep v v') : PipelineInv v' :=
  ⟨queueInv_micros h.toQueueInv (astep_micro h s), link_step h s⟩

theorem inv_steps {v v' : View} (h : PipelineInv v) (s : Relation.ReflTransGen AStep v v') :
    PipelineInv v' := by
  induction s with
  | refl => exact h
  | tail _ s ih => exact inv_step ih s

theorem leads_refl (v : View) : Leads v v := fun _ => Relation.ReflTransGen.refl

theorem leads_of_eq {v v' : View} (h : v' = v) : Leads v v' := by
  subst h; exact leads_refl _

theorem leads_trans {a b c : View} (h1 : Leads a b) (h2 : Leads b c) : Leads a c :=
  fun h => (h1 h).trans (h2 (inv_steps h (h1 h)))

theorem leads_step {v v' : View} (h : PipelineInv v → AStep v v') : Leads v v' :=
  fun hi => Relation.ReflTransGen.single (h hi)

theorem view_with_trace (d : SoupIODispatcher) (es : List Event) (h : completed es = []) :
    view { d with trace := d.trace ++ es } = view d := by
  simp only [view, completed_append, h, List.append_nil]

theorem view_emit (d : SoupIODispatcher) (e : Event) (h : completed [e] = []) :
    view (emit d e) = view d := view_with_trace d [e] h

theorem view_emit_notify (d : SoupIODispatcher) (p : DispProp) :
    view (emit d (.notify p)) = view d := view_emit d _ rfl

theorem view_start_idle_timer (d : SoupIODispatcher) : view (start_idle_timer d) = view d := by
  unfold start_idle_timer
  split <;> rfl

theorem view_stop_idle_timer (d : SoupIODispatcher) : view (stop_idle_timer d) = view d := by
  unfold stop_idle_timer
  split <;> rfl

theorem view_properties_changed (d : SoupIODispatcher) : view (properties_changed d) = view d := by
  have h1 : view (properties_changed_idle d) = view d := by
    unfold properties_changed_idle
    simp only []
    split
    · rw [view_emit_notify]
      split
      · rw [view_start_idle_timer]; rfl
      · rw [view_stop_idle_timer]; rfl
    · rfl
  have h2 : ∀ d', view (properties_changed_is_queue_full d') = view d' := by
    intro d'
    unfold properties_changed_is_queue_full
    simp only []
    split
    · rw [view_emit_notify]; rfl
    · rfl
  unfold properties_changed
  rw [h2, h1]

theorem view_set_queue (d : SoupIODispatcher) (q : QueueSel) (l : List Nat) :
    view (set_queue d q l) = (view d).set_queue q l := by
  cases q <;> rfl

theorem view_queue (d : SoupIODispatcher) (q : QueueSel) : (view d).queue q = get_queue d q := by
  cases q <;> rfl

theorem view_push_link (d : SoupIODispatcher) (q : QueueSel) (id : Nat) :
    view (push_link d q id) = (view d).push q id := by
  unfold push_link View.push
  rw [view_properties_changed, view_set_queue, view_queue]

theorem view_delete_link (d : SoupIODispatcher) (q : QueueSel) (id : Nat) :
    view (delete_link d q id) = (view d).erase q id := by
  unfold delete_link View.erase
  rw [view_properties_changed, view_set_queue, view_queue]

theorem view_dec_queue_length (d : SoupIODispatcher) (q : QueueSel) :
    view (dec_queue_length d q) = view d := by
  cases q <;> rfl

theorem view_inc_queue_length (d : SoupIODispatcher) (q : QueueSel) :
    view (inc_queue_length d q) = view d := by
  cases q <;> rfl

theorem view_store_io_data (d : SoupIODispatcher) (io : SoupMessageIOData) :
    view (store_io_data d io) = (view d).store io := rfl

theorem view_erase_not_linked (v : View) (q : QueueSel) (id : Nat) (h : id ∉ v.queue q) :
    v.erase q id = v := by
  unfold View.erase
  rw [List.erase_of_not_mem h]
  cases q <;> rfl

theorem view_cleanup_unlink (d : SoupIODispatcher) (q : QueueSel) (id : Nat) :
    view (cleanup_unlink d q id) = (view d).erase q id := by
  unfold cleanup_unlink
  split
  · rw [view_delete_link, view_dec_queue_length]
  · rename_i h
    rw [view_erase_not_linked]
    rw [view_queue]
    intro hm
    apply h
    simpa [linked] using hm

theorem view_cleanup_restart (d : SoupIODispatcher) (io : SoupMessageIOData) :
    view (cleanup_restart d io) = view d := by
  unfold cleanup_restart
  simp only []
  split
  · exact view_emit _ _ rfl
  · rfl

theorem view_cleanup_disconnect (d : SoupIODispatcher) (io : SoupMessageIOData) :
    view (cleanup_disconnect d io) = view d := by
  unfold cleanup_disconnect
  split
  · split
    · exact view_emit _ _ rfl
    · rfl
  · rfl

theorem view_io_data_cleanup (d : SoupIODispatcher) (io : SoupMessageIOData) :
    view (io_data_cleanup d io) = (view d).cleanup io := by
  unfold io_data_cleanup View.cleanup
  simp only []
  have h : ∀ d', view (free_io_data (cleanup_completion d' io) io.id) =
      (view d').free io.id io.completion_cb := by
    intro d'
    unfold cleanup_completion View.free
    split
    · rename_i hc
      simp only [view, free_io_data, emit, completed_append, hc, if_true]
      rfl
    · rename_i hc
      simp only [view, free_io_data, hc, List.append_nil]
  rw [h, view_cleanup_disconnect, view_cleanup_restart, view_cleanup_unlink, view_cleanup_unlink,
    view_cleanup_unlink]

theorem view_set_max_pipelined_requests (d : SoupIODispatcher) (value : Nat) :
    view (soup_io_dispatcher_set_max_pipelined_requests d value) = view d := by
  unfold soup_io_dispatcher_set_max_pipelined_requests
  split
  · rw [view_emit_notify]; rfl
  · rfl

theorem view_set_pipelining_support (d : SoupIODispatcher) (value : Bool) :
    view (soup_io_dispatcher_set_pipelining_support d value) = view d := by
  unfold soup_io_dispatcher_set_pipelining_support
  split
  · simp only []
    rw [view_emit_notify]
    split
    · rw [view_set_max_pipelined_requests]; rfl
    · rfl
  · rfl

theorem view_set_response_block_size (d : SoupIODispatcher) (value : Nat) :
    view (soup_io_dispatcher_set_response_block_size d value) = view d := by
  unfold soup_io_dispatcher_set_response_block_size
  split
  · rw [view_emit_notify]; rfl
  · rfl

theorem view_set_properties (d : SoupIODispatcher) (via_proxy : Bool) (uri : SoupURI)
    (m b : Nat) (ts : Bool) (ac : Option Nat) (it : Nat) :
    view (io_dispatcher_set_properties d via_proxy uri m b ts ac it) = view d := by
  unfold io_dispatcher_set_properties
  simp only []
  have h1 : view (if (d.is_via_proxy && via_proxy) || (!d.is_via_proxy && !via_proxy) then d
      else emit { d with is_via_proxy := !d.is_via_proxy } (.notify .IS_VIA_PROXY)) = view d := by
    split
    · rfl
    · rw [view_emit_notify]; rfl
  rw [← h1]
  generalize (if (d.is_via_proxy && via_proxy) || (!d.is_via_proxy && !via_proxy) then d
      else emit { d with is_via_proxy := !d.is_via_proxy } (.notify .IS_VIA_PROXY)) = d1
  have h2 : view (soup_io_dispatcher_set_response_block_size
      (soup_io_dispatcher_set_max_pipelined_requests { d1 with host := some uri } m) b) =
      view d1 := by
    rw [view_set_response_block_size, view_set_max_pipelined_requests]; rfl
  rw [← h2]
  generalize (soup_io_dispatcher_set_response_block_size
      (soup_io_dispatcher_set_max_pipelined_requests { d1 with host := some uri } m) b) = d2
  split <;> rfl

theorem view_queue_message (d : SoupIODispatcher) (msg : Nat) :
    view (soup_io_dispatcher_queue_message d msg) = view d := rfl

theorem view_idle_timeout (d : SoupIODispatcher) : view (idle_timeout d) = view d := by
  unfold idle_timeout
  exact (view_emit _ .idle_timeout rfl).trans (view_stop_idle_timer d)

theorem view_reset (d : SoupIODispatcher) : view (reset d) = view d := rfl

/-! ## Cleanup -/

theorem cleanup_store (v : View) (io io' : SoupMessageIOData) (hid : io'.id = io.id)
    (hcb : io'.completion_cb = io.completion_cb) : (v.store io').cleanup io' = v.cleanup io := by
  have hf : (v.items.map (fun x => if x.id == io'.id then io' else x)).filter
      (fun x => x.id != io'.id) = v.items.filter (fun x => x.id != io'.id) := by
    induction v.items with
    | nil => rfl
    | cons x t ih =>
      by_cases hc : x.id = io'.id
      · have hc' : (x.id == io'.id) = true := by simpa using hc
        have h1 : (io'.id != io'.id) = false := by simp
        have h2 : (x.id != io'.id) = false := by simp [hc]
        simp only [List.map_cons, hc', if_true]
        rw [List.filter_cons, List.filter_cons]
        simp only [h1, h2, Bool.false_eq_true, if_false]
        exact ih
      · have hc' : (x.id == io'.id) = false := by simpa using hc
        have h2 : (x.id != io'.id) = true := by simpa using hc
        simp only [List.map_cons, hc', Bool.false_eq_true, if_false]
        rw [List.filter_cons, List.filter_cons]
        simp only [h2, if_true]
        rw [ih]
  have e1 : (v.store io').cleanup io' = v.cleanup io' := by
    simp only [View.cleanup, View.free, View.erase, View.set_queue, View.queue, View.store, hf]
  have e2 : v.cleanup io' = v.cleanup io := by
    simp only [View.cleanup, hid, hcb]
  rw [e1, e2]

theorem leads_view_cleanup (v : View) (io : SoupMessageIOData) (hmem : io ∈ v.items) :
    Leads v (v.cleanup io) :=
  leads_step (fun _ => AStep.cleanup v io hmem)

/-- `io_data_cleanup` of a live item, whatever the fields of the copy it is called with. -/
theorem leads_cleanup (d : SoupIODispatcher) (io io' : SoupMessageIOData) (hmem : io ∈ d.items)
    (hid : io'.id = io.id) (hcb : io'.completion_cb = io.completion_cb) :
    Leads (view d) (view (io_data_cleanup d io')) := by
  rw [view_io_data_cleanup]
  have : (view d).cleanup io' = (view d).cleanup io := by
    simp only [View.cleanup, hid, hcb]
  rw [this]
  exact leads_view_cleanup _ io hmem

theorem leads_drain_queue (q : QueueSel) (fuel : Nat) :
    ∀ d : SoupIODispatcher, Leads (view d) (view (drain_queue q fuel d)) := by
  induction fuel with
  | zero => intro d; exact leads_refl _
  | succ n ih =>
    intro d
    rw [drain_queue]
    split
    · exact leads_refl _
    · split
      · rename_i io hio
        exact leads_trans (leads_cleanup d io io (find_io_data_some hio).2 rfl rfl) (ih _)
      · exact leads_refl _

theorem leads_set_socket (d : SoupIODispatcher) (socket : Option Nat) :
    Leads (view d) (view (soup_io_dispatcher_set_socket d socket)) := by
  unfold soup_io_dispatcher_set_socket
  split
  · have h1 : view { set_socket_unbind d with socket := socket } = view d := by
      unfold set_socket_unbind
      split
      · show view (reset (stop_idle_timer d)) = view d
        rw [view_reset, view_stop_idle_timer]
      · rfl
    have h2 : ∀ d', Leads (view d') (view (set_socket_drain d' socket)) := by
      intro d'
      unfold set_socket_drain
      simp only []
      split
      · exact leads_trans (leads_drain_queue .read _ d')
          (leads_trans (leads_drain_queue .write _ _) (leads_drain_queue .paused _ _))
      · exact leads_trans (leads_drain_queue .read _ d') (leads_drain_queue .write _ _)
    have h3 : ∀ d', view (set_socket_bind d') = view d' := by
      intro d'
      unfold set_socket_bind
      rw [view_emit_notify]
      split
      · exact view_start_idle_timer _
      · rfl
    rw [h3, ← h1]
    exact h2 _
  · exact leads_refl _

theorem mem_store_self {v : View} {io io' : SoupMessageIOData} (hmem : io ∈ v.items)
    (hid : io'.id = io.id) : io' ∈ (v.store io').items := by
  simp only [View.store, List.mem_map]
  exact ⟨io, hmem, by rw [if_pos (by simpa using hid.symm)]⟩

theorem store_queue (v : View) (io' : SoupMessageIOData) (q : QueueSel) :
    (v.store io').queue q = v.queue q := by
  cases q <;> rfl

/-- A change of an item that leaves its two states, its metadata buffer, its error flag and
its `cancelled` flag as they are. -/
theorem step_store_flags {v : View} (hv : PipelineInv v) (io io' : SoupMessageIOData)
    (hmem : io ∈ v.items) (hid : io'.id = io.id) (hcb : io'.completion_cb = io.completion_cb)
    (hrs : io'.read_state = io.read_state) (hws : io'.write_state = io.write_state)
    (hmb : io'.read_meta_buf = io.read_meta_buf) (herr : io'.io_error = io.io_error)
    (hc : io'.cancelled = io.cancelled) :
    AStep v (v.store io') := by
  refine AStep.store v io io' hmem hid hcb (herr.trans (hv.no_error io hmem)) ?_ ?_ ?_ ?_
    (hc.trans (hv.not_cancelled io hmem)) ?_ ?_ ?_ ?_
  · intro h1 h2
    rw [hws]; exact hv.write_order io hmem h1 h2
  · intro h1 h2
    rw [hrs, hmb]; exact hv.read_order io hmem h1 h2
  · intro h
    rw [hmb]
    exact hv.unstarted io hmem (hrs ▸ h)
  · intro h
    rw [hrs, hws]
    exact hv.paused_unstarted io hmem h
  · have := hv.turn io hmem
    unfold Turn at this ⊢
    rw [hrs, hws]
    exact this
  · intro h1 h2
    rw [hrs]; exact hv.read_done io hmem h1 h2
  · intro h1 h2
    rw [hws]; exact hv.write_done io hmem h1 h2
  · have := hv.not_finished io hmem
    unfold is_io_data_finished at this ⊢
    rw [hrs, hws]
    exact this

theorem leads_store_flags (v : View) (io io' : SoupMessageIOData)
    (hmem : io ∈ v.items) (hid : io'.id = io.id) (hcb : io'.completion_cb = io.completion_cb)
    (hrs : io'.read_state = io.read_state) (hws : io'.write_state = io.write_state)
    (hmb : io'.read_meta_buf = io.read_meta_buf) (herr : io'.io_error = io.io_error)
    (hc : io'.cancelled = io.cancelled) :
    Leads v (v.store io') :=
  leads_step (fun hv => step_store_flags hv io io' hmem hid hcb hrs hws hmb herr hc)

/-- The item with a given identity, in a view whose items have been stored. -/
theorem item_of_store {v : View} {io' x : SoupMessageIOData} (hx : x ∈ (v.store io').items)
    (hid : x.id = io'.id) : x = io' := by
  rcases mem_store hx with ⟨h, _⟩ | ⟨_, h⟩
  · exact h
  · exact absurd hid h

/-! ## `io_data_new` -/

theorem leads_io_data_new (d : SoupIODispatcher) (msg : SoupMessage) (cb : Bool) :
    Leads (view d) (view (io_data_new d msg cb).1) := by
  have hview : view (io_data_new d msg cb).1 =
      (((view d).alloc (new_io_data d.next_io_data msg cb)).push .read
        (new_io_data d.next_io_data msg cb).id).push .write
          (new_io_data d.next_io_data msg cb).id := by
    unfold io_data_new
    simp only []
    rw [view_push_link, view_inc_queue_length, view_push_link, view_inc_queue_length]
    rfl
  rw [hview]
  exact leads_step (fun _ => AStep.new (view d) (new_io_data d.next_io_data msg cb) rfl rfl rfl
    rfl rfl rfl)

/-! ## `cancel_message` -/

theorem leads_cancel_message (d : SoupIODispatcher) (id : Nat) :
    Leads (view d) (view (cancel_message d id)) := by
  unfold cancel_message
  split
  · exact leads_refl _
  · rename_i io hio
    split
    · exact leads_refl _
    · split
      · exact leads_refl _
      · simp only []
        rw [view_io_data_cleanup, view_store_io_data]
        have := cleanup_store (view d) io { io with cancelled := true } rfl rfl
        rw [this]
        exact leads_view_cleanup _ io (find_io_data_some hio).2

/-! ## `soup_io_dispatcher_pause_io_data` -/

/-- The move of an unstarted item from the active queues to the paused queue. -/
theorem leads_pause_move (v : View) (io : SoupMessageIOData) (hmem : io ∈ v.items)
    (hrs : io.read_state = .NOT_STARTED) (hws : io.write_state = .NOT_STARTED)
    (hp : io.id ∉ v.paused) :
    Leads v (((v.erase .read io.id).erase .write io.id).push .paused io.id) :=
  leads_step (fun _ => AStep.pause_move v io hmem hrs hws hp)

theorem leads_pause_io_data (d : SoupIODispatcher) (id : Nat) :
    Leads (view d) (view (soup_io_dispatcher_pause_io_data d id)) := by
  unfold soup_io_dispatcher_pause_io_data
  split
  · exact leads_refl _
  · rename_i io hio
    obtain ⟨hid, hmem⟩ := find_io_data_some hio
    simp only []
    have hmem1 : ({ io with unpause_source := false } : SoupMessageIOData) ∈
        ((view d).store { io with unpause_source := false }).items :=
      mem_store_self hmem rfl
    have l1 : Leads (view d) ((view d).store { io with unpause_source := false }) :=
      leads_store_flags _ io _ hmem rfl rfl rfl rfl rfl rfl rfl
    have l3 : ∀ d2 : SoupIODispatcher,
        ({ io with unpause_source := false } : SoupMessageIOData) ∈ (view d2).items →
        Leads (view d2)
          (view (store_io_data d2 { io with unpause_source := false, paused := true })) := by
      intro d2 hm
      rw [view_store_io_data]
      exact leads_store_flags _ _ _ hm rfl rfl rfl rfl rfl rfl rfl
    split
    · split
      · rename_i hst hlink
        simp only [Bool.and_eq_true, beq_iff_eq] at hst
        refine leads_trans l1 (leads_trans ?_ (l3 _ ?_))
        · rw [view_push_link, view_inc_queue_length, view_delete_link, view_dec_queue_length,
            view_delete_link, view_dec_queue_length, view_store_io_data]
          have := leads_pause_move ((view d).store { io with unpause_source := false })
            { io with unpause_source := false } hmem1 hst.1 hst.2 (by
              intro hm
              have hl : linked (store_io_data d { io with unpause_source := false })
                  .paused id = true := by
                have : id ∈ get_queue (store_io_data d { io with unpause_source := false })
                    .paused := by rw [← hid]; exact hm
                simpa [linked] using this
              rw [hl] at hlink
              simp at hlink)
          rw [← hid]
          exact this
        · rw [view_push_link, view_inc_queue_length, view_delete_link, view_dec_queue_length,
            view_delete_link, view_dec_queue_length, view_store_io_data]
          exact hmem1
      · exact leads_trans l1 (l3 (store_io_data d { io with unpause_source := false }) hmem1)
    · exact leads_trans l1 (l3 (store_io_data d { io with unpause_source := false }) hmem1)

/-- What a returned I/O function has left of the item it was called with. -/
theorem call_io_func_ok (f : IOFunc) (fuel : Nat) (d : SoupIODispatcher)
    (io : SoupMessageIOData) (env : Env) (r : IOResult)
    (h : call_io_func f fuel d io env = some r) :
    r.ctx.io.id = io.id ∧ r.ctx.io.completion_cb = io.completion_cb ∧
    completed r.ctx.events = [] ∧
    (r.ctx.io.io_error = io.io_error ∨ (r.ret = false ∧ r.control = .none)) ∧
    (r.ret = true → r.control = .none) := by
  cases f with
  | io_data_read =>
    obtain ⟨k, e, c, t⟩ := retOK_io_data_read _ _ _ _ h
    exact ⟨k.1, k.2.1, e, c, t⟩
  | io_data_write =>
    obtain ⟨k, e, c, t⟩ := retOK_io_data_write _ _ _ h
    exact ⟨k.1, k.2.1, e, c, t⟩

/-- An I/O function returns TRUE only when its direction of the item is done. -/
theorem call_io_func_true (f : IOFunc) (fuel : Nat) (d : SoupIODispatcher)
    (io : SoupMessageIOData) (env : Env) (r : IOResult)
    (h : call_io_func f fuel d io env = some r) (hr : r.ret = true) :
    (get_item_state f r.ctx.io).1 = .DONE := by
  cases f with
  | io_data_read => exact io_data_read_true _ _ _ _ h hr
  | io_data_write => exact io_data_write_true _ _ _ h hr

/-- An I/O function returns FALSE only when its direction of the item is not done. -/
theorem call_io_func_false (f : IOFunc) (fuel : Nat) (d : SoupIODispatcher)
    (io : SoupMessageIOData) (env : Env) (r : IOResult)
    (h : call_io_func f fuel d io env = some r) (hr : r.ret = false) :
    is_io_data_finished r.ctx.io = false := by
  cases f with
  | io_data_read =>
    have := io_data_read_false _ _ _ _ h hr
    simp [is_io_data_finished, this]
  | io_data_write =>
    have := io_data_write_false _ _ _ h hr
    simp [is_io_data_finished, this]

/-- The item that an I/O function has returned can be stored when its reading or its writing
is still to be done: the function has been called for the head of its queue. -/
theorem step_store_io {d : SoupIODispatcher} (hV : PipelineInv (view d)) (f : IOFunc)
    (fuel : Nat) (io : SoupMessageIOData) (env : Env) (r : IOResult) (hmem : io ∈ d.items)
    (hhead : (get_queue d f.queue).head? = some io.id)
    (h : call_io_func f fuel d io env = some r) (herr : r.ctx.io.io_error = false)
    (hnf : is_io_data_finished r.ctx.io = false) :
    AStep (view d) ((view d).store r.ctx.io) := by
  have hin : io.id ∈ get_queue d f.queue := List.mem_of_mem_head? hhead
  cases f with
  | io_data_read =>
    have hr := retOK_io_data_read _ _ _ _ h
    obtain ⟨⟨k1, k2, k3, k4, k5, k6⟩, _, _, _⟩ := hr
    refine AStep.store _ io _ hmem k1 k2 herr ?_ ?_ ?_
      (fun hp => absurd hin (hV.paused_read _ hp)) (k5.trans (hV.not_cancelled io hmem))
      (turn_of_readerTurn k6 (hV.turn io hmem)) (fun h1 _ => absurd hin h1) ?_ hnf
    · intro h1 h2
      exact k3 (hV.write_order io hmem h1 h2)
    · intro _ h2
      exact absurd hhead h2
    · intro hs
      by_cases hn : io.read_state = .NOT_STARTED
      · have := io_data_read_not_started _ _ _ _ hn h
        rw [this]
        exact hV.unstarted io hmem hn
      · exact absurd hs (k4 hn)
    · intro h1 h2
      exact readerTurn_of_done k6 (hV.write_done io hmem h1 h2)
  | io_data_write =>
    have hr := retOK_io_data_write _ _ _ h
    obtain ⟨⟨k1, k2, k3, k4, k5, k6⟩, _, _, _⟩ := hr
    refine AStep.store _ io _ hmem k1 k2 herr ?_ ?_ ?_
      (fun hp => absurd hin (hV.paused_write _ hp)) (k5.trans (hV.not_cancelled io hmem))
      (turn_of_writerTurn k6 (hV.turn io hmem)) ?_ (fun h1 _ => absurd hin h1) hnf
    · intro _ h2
      exact absurd hhead h2
    · intro h1 h2
      have := hV.read_order io hmem h1 h2
      refine ⟨?_, k3.trans this.2⟩
      rcases k4 with k4 | k4
      · rw [k4]; exact this.1
      · exact Or.inr k4
    · intro hs
      rcases k4 with k4 | k4
      · exact k3.trans (hV.unstarted io hmem (k4 ▸ hs))
      · rw [k4] at hs
        exact absurd hs (by simp)
    · intro h1 h2
      have hd := hV.read_done io hmem h1 h2
      have hreads : Reads io.read_state := by
        rw [hd]
        exact ⟨by simp, by simp⟩
      exact (writerTurn_of_reads k6 (hV.turn io hmem) hreads).1.trans hd

theorem view_commit_store (d : SoupIODispatcher) (r : IOResult)
    (hev : completed r.ctx.events = []) :
    view { store_io_data d r.ctx.io with
      trace := (store_io_data d r.ctx.io).trace ++ r.ctx.events } = (view d).store r.ctx.io := by
  rw [view_with_trace _ _ hev, view_store_io_data]

theorem leads_commit (d : SoupIODispatcher) (r : IOResult)
    (hev : completed r.ctx.events = [])
    (hs : Leads (view d) ((view d).store r.ctx.io)) : Leads (view d) (view (commit d r)) := by
  unfold commit
  simp only []
  rw [← view_commit_store d r hev] at hs
  split
  · exact hs
  · exact leads_trans hs (leads_pause_io_data _ _)
  · exact leads_trans hs (leads_cancel_message _ _)

theorem view_emit_socket_disconnect (d : SoupIODispatcher) (socket : Nat) :
    view (emit d (.socket_disconnect socket)) = view d := view_emit d _ rfl

theorem delete_link_items (d : SoupIODispatcher) (q : QueueSel) (id : Nat) :
    (delete_link (dec_queue_length d q) q id).items = d.items := by
  rw [(delete_link_spec _ q id).2.1, (dec_queue_length_spec d q).2.1]

theorem erase_erase_self {l : List Nat} (hn : l.Nodup) (a : Nat) :
    (l.erase a).erase a = l.erase a :=
  List.erase_of_not_mem (fun hm => (hn.mem_erase_iff.mp hm).1 rfl)

/-- Cleanup of an item that has just been unlinked from a queue is its cleanup. -/
theorem cleanup_erase (v : View) (hn : ∀ q, (v.queue q).Nodup) (q : QueueSel)
    (io : SoupMessageIOData) : (v.erase q io.id).cleanup io = v.cleanup io := by
  have h1 := erase_erase_self (hn .read) io.id
  have h2 := erase_erase_self (hn .write) io.id
  have h3 := erase_erase_self (hn .paused) io.id
  simp only [View.queue] at h1 h2 h3
  cases q <;>
    simp only [View.cleanup, View.erase, View.set_queue, View.queue, View.free, h1, h2, h3]

theorem commit_none_queue (d : SoupIODispatcher) (r : IOResult) (hc : r.control = .none)
    (q : QueueSel) : get_queue (commit d r) q = get_queue d q := by
  unfold commit
  simp only [hc]
  cases q <;> rfl

/-- The branch of `process_queue` for an I/O function that has returned TRUE and left the
item with both directions done: the item is cleaned up. -/
theorem view_process_queue_done (q : QueueSel) (s : ProcessQueue) (io : SoupMessageIOData)
    (hfin : is_io_data_finished io = true) :
    view (Sum.elim ProcessQueue.io_disp ProcessQueue.io_disp (process_queue_finished q s io)) =
      ((view s.io_disp).erase q io.id).cleanup io := by
  have l2 : view (io_data_cleanup
        { delete_link (dec_queue_length s.io_disp q) q io.id with
          finished_requests :=
            guint_inc (delete_link (dec_queue_length s.io_disp q) q io.id).finished_requests }
        io) = ((view s.io_disp).erase q io.id).cleanup io := by
    rw [view_io_data_cleanup]
    have e : view { delete_link (dec_queue_length s.io_disp q) q io.id with
          finished_requests :=
            guint_inc (delete_link (dec_queue_length s.io_disp q) q io.id).finished_requests } =
        (view s.io_disp).erase q io.id := by
      rw [← view_dec_queue_length s.io_disp q, ← view_delete_link]
      rfl
    rw [e]
  unfold process_queue_finished
  simp only [hfin, if_true]
  split
  · simp only [Sum.elim_inr]
    split
    · rw [view_emit_socket_disconnect, view_set_pipelining_support]
      exact l2
    · rw [view_set_pipelining_support]
      exact l2
  · exact l2

/-- The branch of `process_queue` for an I/O function that has returned TRUE while the other
direction of the item is still to be done: the item leaves the queue of the direction that
is done, and the queue of the other direction holds it. -/
theorem leads_process_queue_finished (f : IOFunc) (s : ProcessQueue)
    (io : SoupMessageIOData) (hmem : io ∈ s.io_disp.items)
    (hq : io.id ∈ get_queue s.io_disp f.queue) (hdone : (get_item_state f io).1 = .DONE)
    (hfin : ¬ is_io_data_finished io = true) :
    Leads (view s.io_disp)
      (view (Sum.elim ProcessQueue.io_disp ProcessQueue.io_disp
        (process_queue_finished f.queue s io))) := by
  have l1 : Leads (view s.io_disp)
      (view (delete_link (dec_queue_length s.io_disp f.queue) f.queue io.id)) := by
    rw [view_delete_link, view_dec_queue_length]
    refine leads_step (fun hV => ?_)
    have hq' : io.id ∈ (view s.io_disp).queue f.queue := by rw [view_queue]; exact hq
    cases f with
    | io_data_read =>
      have hrs : io.read_state = .DONE := hdone
      refine AStep.unlink_read _ io hmem hrs ?_
      by_contra hnw
      have hnp : io.id ∉ (view s.io_disp).paused := fun hp => hV.paused_read _ hp hq'
      have := hV.write_done io hmem hnw hnp
      exact hfin (by simp [is_io_data_finished, hrs, this])
    | io_data_write =>
      have hws : io.write_state = .DONE := hdone
      refine AStep.unlink_write _ io hmem hws ?_
      by_contra hnr
      have hnp : io.id ∉ (view s.io_disp).paused := fun hp => hV.paused_write _ hp hq'
      have := hV.read_done io hmem hnr hnp
      exact hfin (by simp [is_io_data_finished, hws, this])
  unfold process_queue_finished
  simp only [hfin, if_false]
  exact l1

theorem view_io_data_error (d : SoupIODispatcher) (io : SoupMessageIOData) :
    view (io_data_error d io) = (view d).cleanup io := by
  unfold io_data_error
  simp only []
  rw [view_io_data_cleanup]
  have : view (apply_error_policy d io (io_data_error_policy d.finished_requests io)) =
      view d := by
    cases io_data_error_policy d.finished_requests io
    · exact view_emit _ _ rfl
    · exact view_emit _ _ rfl
    · exact view_emit _ _ rfl
    · rfl
  rw [this]

theorem commit_none_items (d : SoupIODispatcher) (r : IOResult) (hc : r.control = .none) :
    (commit d r).items = (store_io_data d r.ctx.io).items := by
  unfold commit
  simp only [hc]

theorem view_commit_none (d : SoupIODispatcher) (r : IOResult) (hc : r.control = .none)
    (hev : completed r.ctx.events = []) : view (commit d r) = (view d).store r.ctx.io := by
  unfold commit
  simp only [hc]
  exact view_commit_store d r hev

/-- One round of the loop of `process_queue`. -/
theorem leads_process_queue_step (f : IOFunc) (fuel : Nat) (s : ProcessQueue)
    (x : ProcessQueue ⊕ ProcessQueue) (h : process_queue_step f fuel s = some x) :
    Leads (view s.io_disp) (view (Sum.elim ProcessQueue.io_disp ProcessQueue.io_disp x)) := by
  unfold process_queue_step at h
  split at h
  · simp only [Option.some.injEq] at h
    subst h
    exact leads_refl _
  · rename_i head tl hq
    split at h
    · exact absurd h (by simp)
    · rename_i io hio
      obtain ⟨hid, hmem⟩ := find_io_data_some hio
      have hhead : (get_queue s.io_disp f.queue).head? = some io.id := by
        rw [hq, hid]; rfl
      split at h
      · simp only [Option.some.injEq] at h
        subst h
        exact leads_refl _
      · split at h
        · exact absurd h (by simp)
        · rename_i r hr
          obtain ⟨k1, k2, kev, kerr, kret⟩ := call_io_func_ok _ _ _ _ _ _ hr
          simp only [] at h
          intro hV
          have hne : io.io_error = false := hV.no_error io hmem
          split at h
          · -- the function has returned TRUE
            rename_i hret
            simp only [Option.some.injEq] at h
            subst h
            have herr : r.ctx.io.io_error = false := by
              rcases kerr with e | e
              · exact e.trans hne
              · rw [hret] at e; exact absurd e.1 (by simp)
            by_cases hfin : is_io_data_finished r.ctx.io = true
            · rw [view_process_queue_done _ _ _ hfin]
              show Relation.ReflTransGen AStep (view s.io_disp)
                (((view (commit s.io_disp r)).erase f.queue r.ctx.io.id).cleanup r.ctx.io)
              rw [view_commit_none _ _ (kret hret) kev,
                cleanup_erase _ (fun q => by rw [store_queue]; exact hV.nodup q),
                cleanup_store _ io _ k1 k2]
              exact leads_view_cleanup _ io hmem hV
            · have hs := step_store_io hV f fuel io s.env r hmem hhead hr herr
                (by simpa using hfin)
              have l1 : Leads (view s.io_disp) (view (commit s.io_disp r)) :=
                leads_commit _ _ kev (leads_step (fun _ => hs))
              have hm' : r.ctx.io ∈ (commit s.io_disp r).items := by
                rw [commit_none_items _ _ (kret hret)]
                exact @mem_store_self (view s.io_disp) io r.ctx.io hmem k1
              have hq' : r.ctx.io.id ∈ get_queue (commit s.io_disp r) f.queue := by
                rw [commit_none_queue _ _ (kret hret), k1]
                exact List.mem_of_mem_head? hhead
              exact leads_trans l1
                (leads_process_queue_finished f
                  { s with io_disp := commit s.io_disp r, env := r.ctx.env } r.ctx.io hm' hq'
                  (call_io_func_true _ _ _ _ _ _ hr hret) hfin) hV
          · -- the function has returned FALSE
            rename_i hret
            simp only [Option.some.injEq] at h
            subst h
            simp only [Sum.elim_inr]
            unfold process_queue_failed
            by_cases herr : r.ctx.io.io_error = true
            · rw [if_pos herr]
              have hc : r.control = .none := by
                rcases kerr with e | e
                · rw [herr, hne] at e; exact absurd e (by simp)
                · exact e.2
              show Relation.ReflTransGen AStep (view s.io_disp)
                (view (io_data_error (commit s.io_disp r) r.ctx.io))
              rw [view_io_data_error, view_commit_none _ _ hc kev, cleanup_store _ io _ k1 k2]
              exact leads_view_cleanup _ io hmem hV
            · rw [if_neg herr]
              have herr' : r.ctx.io.io_error = false := by simpa using herr
              have hs := step_store_io hV f fuel io s.env r hmem hhead hr herr'
                (call_io_func_false _ _ _ _ _ _ hr (by simpa using hret))
              have l1 : Leads (view s.io_disp) (view (commit s.io_disp r)) :=
                leads_commit _ _ kev (leads_step (fun _ => hs))
              split
              · exact l1 hV
              · exact l1 hV

theorem leads_iterate {σ ρ : Type} (step : σ → Option (σ ⊕ ρ)) (V : σ → View) (W : ρ → View)
    (hl : ∀ s s', step s = some (.inl s') → Leads (V s) (V s'))
    (hr : ∀ s r, step s = some (.inr r) → Leads (V s) (W r)) :
    ∀ (n : Nat) (s : σ) (r : ρ), iterate step n s = some r → Leads (V s) (W r) := by
  intro n
  induction n with
  | zero => intro s r h; simp [iterate] at h
  | succ n ih =>
    intro s r h
    rw [iterate] at h
    cases hs : step s with
    | none => rw [hs] at h; simp at h
    | some x =>
      rw [hs] at h
      cases x with
      | inl s' =>
        simp only at h
        exact leads_trans (hl s s' hs) (ih s' r h)
      | inr r' =>
        simp only [Option.some.injEq] at h
        subst h
        exact hr s _ hs

theorem leads_process_queue (f : IOFunc) (fuel : Nat) (d : SoupIODispatcher) (env : Env)
    (x : Bool × SoupIODispatcher × Env) (h : process_queue f fuel d env = some x) :
    Leads (view d) (view x.2.1) := by
  unfold process_queue at h
  split at h
  · simp only [Option.some.injEq] at h
    subst h
    exact leads_refl _
  · simp only [Option.map_eq_some'] at h
    obtain ⟨s, hs, rfl⟩ := h
    exact leads_iterate (process_queue_step f fuel) (fun s => view s.io_disp)
      (fun s => view s.io_disp)
      (fun s _ hh => leads_process_queue_step f fuel s _ hh)
      (fun s _ hh => leads_process_queue_step f fuel s _ hh) _ _ _ hs

theorem leads_process_both_step (first second : IOFunc) (fuel : Nat)
    (s : SoupIODispatcher × Env) (x : SoupIODispatcher × Env ⊕ SoupIODispatcher × Env)
    (h : process_both_step first second fuel s = some x) :
    Leads (view s.1) (view (Sum.elim Prod.fst Prod.fst x)) := by
  unfold process_both_step at h
  split at h
  · exact absurd h (by simp)
  · rename_i ret d env h1
    have l1 := leads_process_queue first fuel s.1 s.2 _ h1
    split at h
    · simp only [Option.some.injEq] at h
      subst h
      exact l1
    · split at h
      · exact absurd h (by simp)
      · rename_i ret' d' env' h2
        have l2 := leads_process_queue second fuel d env _ h2
        split at h <;>
        · simp only [Option.some.injEq] at h
          subst h
          exact leads_trans l1 l2

theorem leads_process_both (first second : IOFunc) (fuel n : Nat)
    (d : SoupIODispatcher) (env : Env) (x : SoupIODispatcher × Env)
    (h : iterate (process_both_step first second fuel) n (d, env) = some x) :
    Leads (view d) (view x.1) :=
  leads_iterate (process_both_step first second fuel) (fun s => view s.1) (fun s => view s.1)
    (fun s _ hh => leads_process_both_step first second fuel s _ hh)
    (fun s _ hh => leads_process_both_step first second fuel s _ hh) n (d, env) x h

theorem leads_process_input_queue (fuel : Nat) (d : SoupIODispatcher) (env : Env)
    (x : SoupIODispatcher × Env)
    (h : soup_io_dispatcher_process_input_queue fuel d env = some x) :
    Leads (view d) (view x.1) :=
  leads_process_both _ _ fuel fuel d env x h

theorem leads_process_output_queue (fuel : Nat) (d : SoupIODispatcher) (env : Env)
    (x : SoupIODispatcher × Env)
    (h : soup_io_dispatcher_process_output_queue fuel d env = some x) :
    Leads (view d) (view x.1) :=
  leads_process_both _ _ fuel fuel d env x h

/-! ## The socket callbacks -/

theorem leads_readable_cb (fuel : Nat) (d : SoupIODispatcher) (env : Env)
    (x : SoupIODispatcher × Env) (h : readable_cb fuel d env = some x) :
    Leads (view d) (view x.1) := by
  unfold readable_cb at h
  split at h
  · simp only [Option.some.injEq] at h; subst h; exact leads_refl _
  · split at h
    · simp only [Option.some.injEq] at h; subst h; exact leads_refl _
    · split at h
      · exact absurd h (by simp)
      · rename_i io hio
        split at h
        · simp only [Option.some.injEq] at h; subst h; exact leads_refl _
        · split at h
          · refine leads_trans ?_ (leads_process_input_queue _ _ _ _ h)
            rw [view_store_io_data]
            exact leads_store_flags _ io _ (find_io_data_some hio).2 rfl rfl rfl rfl rfl rfl rfl
          · simp only [Option.some.injEq] at h; subst h; exact leads_refl _

theorem leads_writable_cb (fuel : Nat) (d : SoupIODispatcher) (env : Env)
    (x : SoupIODispatcher × Env) (h : writable_cb fuel d env = some x) :
    Leads (view d) (view x.1) := by
  unfold writable_cb at h
  split at h
  · simp only [Option.some.injEq] at h; subst h; exact leads_refl _
  · split at h
    · exact absurd h (by simp)
    · rename_i io hio
      split at h
      · simp only [Option.some.injEq] at h; subst h; exact leads_refl _
      · split at h
        · refine leads_trans ?_ (leads_process_output_queue _ _ _ _ h)
          rw [view_store_io_data]
          exact leads_store_flags _ io _ (find_io_data_some hio).2 rfl rfl rfl rfl rfl rfl rfl
        · simp only [Option.some.injEq] at h; subst h; exact leads_refl _

/-! ## `soup_io_dispatcher_process_message` -/

theorem io_data_new_items (d : SoupIODispatcher) (msg : SoupMessage) (cb : Bool) :
    (io_data_new d msg cb).1.items = d.items ++ [new_io_data d.next_io_data msg cb] ∧
    (io_data_new d msg cb).2 = d.next_io_data := by
  refine ⟨?_, rfl⟩
  show (push_link (inc_queue_length (push_link (inc_queue_length
    { d with
      next_io_data := d.next_io_data + 1
      items := d.items ++ [new_io_data d.next_io_data msg cb] } .read) .read d.next_io_data)
    .write) .write d.next_io_data).items = _
  rw [(push_link_spec _ _ _).2.1, (inc_queue_length_spec _ _).2.1, (push_link_spec _ _ _).2.1,
    (inc_queue_length_spec _ _).2.1]

theorem process_message_eq (fuel : Nat) (d : SoupIODispatcher) (msg : SoupMessage)
    (cb : Bool) (env : Env) :
    soup_io_dispatcher_process_message fuel d msg cb env =
      if (soup_io_dispatcher_get_socket d).isNone then some (d, env)
      else soup_io_dispatcher_process_output_queue fuel
        { store_io_data
            (if (io_data_new d msg cb).1.input_msg_queue.contains msg.id then
              { (io_data_new d msg cb).1 with
                input_msg_queue := (io_data_new d msg cb).1.input_msg_queue.erase msg.id
                input_msg_queue_length :=
                  guint_dec (io_data_new d msg cb).1.input_msg_queue_length }
            else (io_data_new d msg cb).1)
            (soup_message_cleanup_response
              { io := new_io_data (io_data_new d msg cb).2 msg cb, env := env
                events := [] }).io with
          trace := (store_io_data
            (if (io_data_new d msg cb).1.input_msg_queue.contains msg.id then
              { (io_data_new d msg cb).1 with
                input_msg_queue := (io_data_new d msg cb).1.input_msg_queue.erase msg.id
                input_msg_queue_length :=
                  guint_dec (io_data_new d msg cb).1.input_msg_queue_length }
            else (io_data_new d msg cb).1)
            (soup_message_cleanup_response
              { io := new_io_data (io_data_new d msg cb).2 msg cb, env := env
                events := [] }).io).trace ++
            (soup_message_cleanup_response
              { io := new_io_data (io_data_new d msg cb).2 msg cb, env := env
                events := [] }).events } env := rfl

theorem leads_process_message (fuel : Nat) (d : SoupIODispatcher) (msg : SoupMessage)
    (cb : Bool) (env : Env) (x : SoupIODispatcher × Env)
    (h : soup_io_dispatcher_process_message fuel d msg cb env = some x) :
    Leads (view d) (view x.1) := by
  rw [process_message_eq] at h
  split at h
  · simp only [Option.some.injEq] at h; subst h; exact leads_refl _
  · refine leads_trans (leads_io_data_new d msg cb) (leads_trans ?_
      (leads_process_output_queue _ _ _ _ h))
    obtain ⟨hitems, hid⟩ := io_data_new_items d msg cb
    have hmem : new_io_data d.next_io_data msg cb ∈ (io_data_new d msg cb).1.items := by
      rw [hitems]; simp
    have hev : completed (soup_message_cleanup_response
        { io := new_io_data (io_data_new d msg cb).2 msg cb, env := env
          events := [] }).events = [] := rfl
    rw [view_with_trace _ _ hev, view_store_io_data]
    have e : view (if (io_data_new d msg cb).1.input_msg_queue.contains msg.id then
          { (io_data_new d msg cb).1 with
            input_msg_queue := (io_data_new d msg cb).1.input_msg_queue.erase msg.id
            input_msg_queue_length :=
              guint_dec (io_data_new d msg cb).1.input_msg_queue_length }
        else (io_data_new d msg cb).1) = view (io_data_new d msg cb).1 := by
      split <;> rfl
    rw [e, hid]
    exact leads_store_flags _ (new_io_data d.next_io_data msg cb) _ hmem rfl rfl rfl rfl rfl rfl rfl

/-! ## Resuming -/

/-- The move of a paused item back to the active queues. -/
theorem leads_unpause_move (v : View) (io : SoupMessageIOData) (hmem : io ∈ v.items)
    (hp : io.id ∈ v.paused) :
    Leads v (((v.erase .paused io.id).push .read io.id).push .write io.id) :=
  leads_step (fun _ => AStep.unpause_move v io hmem hp)

theorem leads_unpause_cb (fuel : Nat) (d : SoupIODispatcher) (id : Nat) (env : Env)
    (x : SoupIODispatcher × Env) (h : unpause_cb fuel d id env = some x) :
    Leads (view d) (view x.1) := by
  unfold unpause_cb at h
  split at h
  · exact absurd h (by simp)
  · rename_i io hio
    obtain ⟨hid, hmem⟩ := find_io_data_some hio
    simp only [] at h
    have hmem1 : ({ io with unpause_source := false, paused := false } : SoupMessageIOData) ∈
        ((view d).store { io with unpause_source := false, paused := false }).items :=
      mem_store_self hmem rfl
    have l1 : Leads (view d)
        ((view d).store { io with unpause_source := false, paused := false }) :=
      leads_store_flags _ io _ hmem rfl rfl rfl rfl rfl rfl rfl
    have l2 : Leads (view d) (view
        (if io.read_state == .NOT_STARTED && io.write_state == .NOT_STARTED then
          if linked (store_io_data d { io with unpause_source := false, paused := false })
              .paused id then
            push_link (inc_queue_length (push_link (inc_queue_length
              (delete_link (dec_queue_length
                (store_io_data d { io with unpause_source := false, paused := false }) .paused)
                .paused id) .read) .read id) .write) .write id
          else store_io_data d { io with unpause_source := false, paused := false }
        else store_io_data d { io with unpause_source := false, paused := false })) := by
      split
      · split
        · rename_i hlink
          refine leads_trans l1 ?_
          rw [view_push_link, view_inc_queue_length, view_push_link, view_inc_queue_length,
            view_delete_link, view_dec_queue_length, view_store_io_data]
          have hp : id ∈ ((view d).store
              { io with unpause_source := false, paused := false }).paused := by
            have : id ∈ get_queue (store_io_data d
                { io with unpause_source := false, paused := false }) .paused := by
              simpa [linked] using hlink
            exact this
          have := leads_unpause_move _ _ hmem1 (by rw [← hid] at hp; exact hp)
          rw [← hid]
          exact this
        · exact l1
      · exact l1
    split at h
    · exact leads_trans l2 (leads_process_output_queue _ _ _ _ h)
    · split at h
      · exact leads_trans l2 (leads_process_input_queue _ _ _ _ h)
      · simp only [Option.some.injEq] at h
        subst h
        exact l2

theorem leads_unpause_message (fuel : Nat) (d : SoupIODispatcher) (id : Nat) (nb : Bool)
    (env : Env) (x : SoupIODispatcher × Env) (h : unpause_message fuel d id nb env = some x) :
    Leads (view d) (view x.1) := by
  unfold unpause_message at h
  split at h
  · simp only [Option.some.injEq] at h; subst h; exact leads_refl _
  · rename_i io hio
    split at h
    · simp only [Option.some.injEq] at h; subst h; exact leads_refl _
    · split at h
      · simp only [Option.some.injEq] at h; subst h; exact leads_refl _
      · split at h
        · split at h
          · simp only [Option.some.injEq] at h
            subst h
            rw [view_store_io_data]
            exact leads_store_flags _ io _ (find_io_data_some hio).2 rfl rfl rfl rfl rfl rfl rfl
          · simp only [Option.some.injEq] at h; subst h; exact leads_refl _
        · exact leads_unpause_cb _ _ _ _ _ h

/-! ## Every call keeps the invariants -/

theorem leads_disp_step (d d' : SoupIODispatcher) (op : DispOp)
    (h : disp_step d op = some d') : Leads (view d) (view d') := by
  cases op with
  | set_socket socket =>
    simp only [disp_step, Option.some.injEq] at h; subst h; exact leads_set_socket d socket
  | set_properties via_proxy uri m b ts ac it =>
    simp only [disp_step, Option.some.injEq] at h; subst h
    exact leads_of_eq (view_set_properties _ _ _ _ _ _ _ _)
  | set_max_pipelined_requests value =>
    simp only [disp_step, Option.some.injEq] at h; subst h
    exact leads_of_eq (view_set_max_pipelined_requests _ _)
  | set_pipelining_support value =>
    simp only [disp_step, Option.some.injEq] at h; subst h
    exact leads_of_eq (view_set_pipelining_support _ _)
  | set_response_block_size value =>
    simp only [disp_step, Option.some.injEq] at h; subst h
    exact leads_of_eq (view_set_response_block_size _ _)
  | queue_message msg =>
    simp only [disp_step, Option.some.injEq] at h; subst h
    exact leads_of_eq (view_queue_message _ _)
  | process_message fuel msg cb env =>
    simp only [disp_step, Option.map_eq_some'] at h
    obtain ⟨x, hx, rfl⟩ := h
    exact leads_process_message _ _ _ _ _ _ hx
  | cancel_message id =>
    simp only [disp_step, Option.some.injEq] at h; subst h; exact leads_cancel_message d id
  | pause_message id =>
    simp only [disp_step, Option.some.injEq] at h; subst h
    exact leads_pause_io_data d id
  | unpause_message fuel id nb env =>
    simp only [disp_step, Option.map_eq_some'] at h
    obtain ⟨x, hx, rfl⟩ := h
    exact leads_unpause_message _ _ _ _ _ _ hx
  | unpause_cb fuel id env =>
    simp only [disp_step, Option.map_eq_some'] at h
    obtain ⟨x, hx, rfl⟩ := h
    exact leads_unpause_cb _ _ _ _ _ hx
  | readable_cb fuel env =>
    simp only [disp_step, Option.map_eq_some'] at h
    obtain ⟨x, hx, rfl⟩ := h
    exact leads_readable_cb _ _ _ _ hx
  | writable_cb fuel env =>
    simp only [disp_step, Option.map_eq_some'] at h
    obtain ⟨x, hx, rfl⟩ := h
    exact leads_writable_cb _ _ _ _ hx
  | idle_timeout =>
    simp only [disp_step, Option.some.injEq] at h; subst h
    exact leads_of_eq (view_idle_timeout _)

theorem inv_init (id : Nat) : PipelineInv (view (soup_io_dispatcher_init id)) := by
  refine ⟨⟨fun q => by cases q <;> exact List.nodup_nil, ?_, ?_, fun q => ?_, fun q => ?_, ?_,
    List.nodup_nil, ?_, ?_, ?_, ?_, ?_, List.nodup_nil, ?_, ?_⟩, ⟨?_, ?_, ?_, ?_, ?_, ?_⟩⟩
  · intro a ha; cases ha
  · intro a ha; cases ha
  · cases q <;> (intro a ha; cases ha)
  · cases q <;> (intro a ha; cases ha)
  all_goals (intro a ha; cases ha)

/-- Every state of a dispatcher satisfies the invariants of the pipeline. -/
theorem reachable_inv {d : SoupIODispatcher} (h : Reachable d) : PipelineInv (view d) := by
  induction h with
  | init id => exact inv_init id
  | step op _ hstep ih => exact inv_steps ih (leads_disp_step _ _ op hstep ih)

theorem sample_two_requests_reachable : Reachable sample_two_requests :=
  Reachable.step (.process_message 4 (sample_msg 8) true sample_env)
    (Reachable.step (.process_message 4 (sample_msg 7) true sample_env_blocked)
      (Reachable.step (.set_socket (some 1)) (Reachable.init 0) rfl) rfl) rfl

theorem sample_two_requests_queues :
    sample_two_requests.read_io_queue = [0, 1] ∧ sample_two_requests.write_io_queue = [0, 1] ∧
    sample_two_requests.paused_io_queue = [] ∧
    find_io_data sample_two_requests 1 = some (new_io_data 1 (sample_msg 8) true) := by
  decide

/-! ## Items and links after the queue operations -/

theorem linked_iff (d : SoupIODispatcher) (q : QueueSel) (id : Nat) :
    linked d q id = true ↔ id ∈ get_queue d q := by
  simp [linked]

theorem linked_false_iff (d : SoupIODispatcher) (q : QueueSel) (id : Nat) :
    linked d q id = false ↔ id ∉ get_queue d q := by
  simp [linked]

theorem find_io_data_congr {d d' : SoupIODispatcher} (h : d'.items = d.items) (id : Nat) :
    find_io_data d' id = find_io_data d id := by
  unfold find_io_data
  rw [h]

theorem find_map_store_self (io' : SoupMessageIOData) :
    ∀ items : List SoupMessageIOData, (∃ x ∈ items, x.id = io'.id) →
      (items.map (fun x => if x.id == io'.id then io' else x)).find?
        (fun x => x.id == io'.id) = some io' := by
  intro items
  induction items with
  | nil => rintro ⟨x, hx, _⟩; cases hx
  | cons y t ih =>
    intro h
    by_cases hy : y.id = io'.id
    · have hy' : (y.id == io'.id) = true := by simpa using hy
      have h1 : (io'.id == io'.id) = true := by simp
      simp only [List.map_cons, hy', if_true]
      rw [List.find?_cons]
      simp only [h1]
    · have hy' : (y.id == io'.id) = false := by simpa using hy
      simp only [List.map_cons, hy', Bool.false_eq_true, if_false]
      rw [List.find?_cons]
      simp only [hy']
      apply ih
      obtain ⟨x, hx, hxi⟩ := h
      rcases List.mem_cons.mp hx with rfl | hx
      · exact absurd hxi hy
      · exact ⟨x, hx, hxi⟩

theorem find_store_self (d : SoupIODispatcher) (io' : SoupMessageIOData)
    (h : ∃ x ∈ d.items, x.id = io'.id) :
    find_io_data (store_io_data d io') io'.id = some io' :=
  find_map_store_self io' d.items h

theorem find_map_store_other (io' : SoupMessageIOData) (id : Nat) (h : id ≠ io'.id) :
    ∀ items : List SoupMessageIOData,
      (items.map (fun x => if x.id == io'.id then io' else x)).find? (fun x => x.id == id) =
        items.find? (fun x => x.id == id) := by
  intro items
  induction items with
  | nil => rfl
  | cons y t ih =>
    by_cases hy : y.id = io'.id
    · have hy' : (y.id == io'.id) = true := by simpa using hy
      have h1 : (io'.id == id) = false := by simpa using fun e => h e.symm
      have h2 : (y.id == id) = false := by rw [hy]; exact h1
      simp only [List.map_cons, hy', if_true]
      rw [List.find?_cons, List.find?_cons]
      simp only [h1, h2]
      exact ih
    · have hy' : (y.id == io'.id) = false := by simpa using hy
      simp only [List.map_cons, hy', Bool.false_eq_true, if_false]
      rw [List.find?_cons, List.find?_cons, ih]

theorem find_store_other (d : SoupIODispatcher) (io' : SoupMessageIOData) (id : Nat)
    (h : id ≠ io'.id) : find_io_data (store_io_data d io') id = find_io_data d id :=
  find_map_store_other io' id h d.items

theorem store_store (d : SoupIODispatcher) (a b : SoupMessageIOData) (h : a.id = b.id) :
    store_io_data (store_io_data d a) b = store_io_data d b := by
  unfold store_io_data
  simp only [List.map_map]
  congr 1
  apply List.map_congr_left
  intro x _
  simp only [Function.comp]
  by_cases hx : x.id = a.id
  · have h1 : (x.id == a.id) = true := by simpa using hx
    have h2 : (a.id == b.id) = true := by simpa using h
    have h3 : (x.id == b.id) = true := by simpa using hx.trans h
    simp only [h1, h2, h3, if_true]
  · have h1 : (x.id == a.id) = false := by simpa using hx
    simp only [h1, Bool.false_eq_true, if_false]

/-- The three queues and the items after the move that `soup_io_dispatcher_pause_io_data`
makes of an item that is not in the paused queue. -/
theorem pause_move_spec (d : SoupIODispatcher) (id : Nat) :
    (push_link (inc_queue_length (delete_link (dec_queue_length
      (delete_link (dec_queue_length d .read) .read id) .write) .write id) .paused)
      .paused id).read_io_queue = d.read_io_queue.erase id ∧
    (push_link (inc_queue_length (delete_link (dec_queue_length
      (delete_link (dec_queue_length d .read) .read id) .write) .write id) .paused)
      .paused id).write_io_queue = d.write_io_queue.erase id ∧
    (push_link (inc_queue_length (delete_link (dec_queue_length
      (delete_link (dec_queue_length d .read) .read id) .write) .write id) .paused)
      .paused id).paused_io_queue = d.paused_io_queue ++ [id] ∧
    (push_link (inc_queue_length (delete_link (dec_queue_length
      (delete_link (dec_queue_length d .read) .read id) .write) .write id) .paused)
      .paused id).items = d.items := by
  have hv : view (push_link (inc_queue_length (delete_link (dec_queue_length
      (delete_link (dec_queue_length d .read) .read id) .write) .write id) .paused)
      .paused id) = (((view d).erase .read id).erase .write id).push .paused id := by
    rw [view_push_link, view_inc_queue_length, view_delete_link, view_dec_queue_length,
      view_delete_link, view_dec_queue_length]
  exact ⟨congrArg View.read hv, congrArg View.write hv, congrArg View.paused hv,
    congrArg View.items hv⟩

/-- The three queues and the items after the move that `unpause_cb` makes of an item of the
paused queue. -/
theorem unpause_move_spec (d : SoupIODispatcher) (id : Nat) :
    (push_link (inc_queue_length (push_link (inc_queue_length
      (delete_link (dec_queue_length d .paused) .paused id) .read) .read id) .write)
      .write id).read_io_queue = d.read_io_queue ++ [id] ∧
    (push_link (inc_queue_length (push_link (inc_queue_length
      (delete_link (dec_queue_length d .paused) .paused id) .read) .read id) .write)
      .write id).write_io_queue = d.write_io_queue ++ [id] ∧
    (push_link (inc_queue_length (push_link (inc_queue_length
      (delete_link (dec_queue_length d .paused) .paused id) .read) .read id) .write)
      .write id).paused_io_queue = d.paused_io_queue.erase id ∧
    (push_link (inc_queue_length (push_link (inc_queue_length
      (delete_link (dec_queue_length d .paused) .paused id) .read) .read id) .write)
      .write id).items = d.items := by
  have hv : view (push_link (inc_queue_length (push_link (inc_queue_length
      (delete_link (dec_queue_length d .paused) .paused id) .read) .read id) .write)
      .write id) = (((view d).erase .paused id).push .read id).push .write id := by
    rw [view_push_link, view_inc_queue_length, view_push_link, view_inc_queue_length,
      view_delete_link, view_dec_queue_length]
  exact ⟨congrArg View.read hv, congrArg View.write hv, congrArg View.paused hv,
    congrArg View.items hv⟩

/-- C17. Pausing and resuming.  In every state of a dispatcher: (1) `pause` of an item whose
read state and write state are both `NOT_STARTED` leaves it linked in the paused queue and in
neither the read queue nor the write queue, with `paused` set (and the pending resume source
cleared); (2) `pause` of an item that has started changes nothing of the dispatcher but these
two fields of the item, so the item stays where it is linked; (3) the resume handler
`unpause_cb`, run for an item of the paused queue, returns, clears `paused`, and appends the
item to the read queue and to the write queue while it unlinks it from the paused queue;
(4) an item linked in the paused queue is linked in neither active queue. -/
theorem pausing_and_resuming (d : SoupIODispatcher) (h : Reachable d) :
    (∀ id io, find_io_data d id = some io → io.read_state = .NOT_STARTED →
      io.write_state = .NOT_STARTED →
      linked (soup_io_dispatcher_pause_io_data d id) .paused id = true ∧
      linked (soup_io_dispatcher_pause_io_data d id) .read id = false ∧
      linked (soup_io_dispatcher_pause_io_data d id) .write id = false ∧
      find_io_data (soup_io_dispatcher_pause_io_data d id) id =
        some { io with unpause_source := false, paused := true }) ∧
    (∀ id io, find_io_data d id = some io →
      (io.read_state ≠ .NOT_STARTED ∨ io.write_state ≠ .NOT_STARTED) →
      soup_io_dispatcher_pause_io_data d id =
        store_io_data d { io with unpause_source := false, paused := true } ∧
      find_io_data (soup_io_dispatcher_pause_io_data d id) id =
        some { io with unpause_source := false, paused := true }) ∧
    (∀ fuel id io env, find_io_data d id = some io → linked d .paused id = true →
      ∃ d', unpause_cb fuel d id env = some (d', env) ∧
        d'.read_io_queue = d.read_io_queue ++ [id] ∧
        d'.write_io_queue = d.write_io_queue ++ [id] ∧
        d'.paused_io_queue = d.paused_io_queue.erase id ∧
        linked d' .paused id = false ∧
        find_io_data d' id = some { io with unpause_source := false, paused := false }) ∧
    (∀ id, linked d .paused id = true →
      linked d .read id = false ∧ linked d .write id = false) := by
  have hV := reachable_inv h
  refine ⟨?_, ?_, ?_, ?_⟩
  · intro id io hfind hrs hws
    obtain ⟨hid, hmem⟩ := find_io_data_some hfind
    subst hid
    have hcond : (io.read_state == .NOT_STARTED && io.write_state == .NOT_STARTED) = true := by
      rw [hrs, hws]; rfl
    unfold soup_io_dispatcher_pause_io_data
    rw [hfind]
    simp only [hcond, if_true]
    by_cases hl : linked (store_io_data d { io with unpause_source := false }) .paused io.id = true
    · simp only [hl, Bool.not_true, Bool.false_eq_true, if_false]
      rw [store_store d { io with unpause_source := false }
        { io with unpause_source := false, paused := true } rfl]
      have hp : io.id ∈ d.paused_io_queue := (linked_iff _ _ _).mp hl
      refine ⟨hl, ?_, ?_, ?_⟩
      · exact (linked_false_iff _ _ _).mpr (hV.paused_read io.id hp)
      · exact (linked_false_iff _ _ _).mpr (hV.paused_write io.id hp)
      · have := find_store_self d { io with unpause_source := false, paused := true }
          ⟨io, hmem, rfl⟩
        exact this
    · have hl' : linked (store_io_data d { io with unpause_source := false }) .paused io.id =
          false := by simpa using hl
      simp only [hl', Bool.not_false, if_true]
      obtain ⟨m1, m2, m3, m4⟩ :=
        pause_move_spec (store_io_data d { io with unpause_source := false }) io.id
      refine ⟨?_, ?_, ?_, ?_⟩
      · apply (linked_iff _ _ _).mpr
        show io.id ∈ (push_link _ _ _).paused_io_queue
        rw [m3]
        simp
      · apply (linked_false_iff _ _ _).mpr
        show io.id ∉ (push_link _ _ _).read_io_queue
        rw [m1]
        exact fun hm => ((hV.nodup .read).mem_erase_iff.mp hm).1 rfl
      · apply (linked_false_iff _ _ _).mpr
        show io.id ∉ (push_link _ _ _).write_io_queue
        rw [m2]
        exact fun hm => ((hV.nodup .write).mem_erase_iff.mp hm).1 rfl
      · have := find_store_self
          (push_link (inc_queue_length (delete_link (dec_queue_length
            (delete_link (dec_queue_length
              (store_io_data d { io with unpause_source := false }) .read) .read io.id) .write)
            .write io.id) .paused) .paused io.id)
          { io with unpause_source := false, paused := true }
          (by
            rw [m4]
            exact ⟨{ io with unpause_source := false },
              @mem_store_self (view d) io { io with unpause_source := false } hmem rfl, rfl⟩)
        exact this
  · intro id io hfind hst
    obtain ⟨hid, hmem⟩ := find_io_data_some hfind
    subst hid
    have hcond : (io.read_state == .NOT_STARTED && io.write_state == .NOT_STARTED) = false := by
      rcases hst with hst | hst
      · have : (io.read_state == .NOT_STARTED) = false := by simpa using hst
        rw [this]; rfl
      · have : (io.write_state == .NOT_STARTED) = false := by simpa using hst
        rw [this, Bool.and_false]
    have e : soup_io_dispatcher_pause_io_data d io.id =
        store_io_data d { io with unpause_source := false, paused := true } := by
      unfold soup_io_dispatcher_pause_io_data
      rw [hfind]
      simp only [hcond, Bool.false_eq_true, if_false]
      exact store_store d { io with unpause_source := false }
        { io with unpause_source := false, paused := true } rfl
    refine ⟨e, ?_⟩
    rw [e]
    exact find_store_self d { io with unpause_source := false, paused := true } ⟨io, hmem, rfl⟩
  · intro fuel id io env hfind hl
    obtain ⟨hid, hmem⟩ := find_io_data_some hfind
    subst hid
    have hp : io.id ∈ d.paused_io_queue := (linked_iff _ _ _).mp hl
    obtain ⟨hrs, hws⟩ := hV.paused_unstarted io hmem hp
    obtain ⟨m1, m2, m3, m4⟩ :=
      unpause_move_spec (store_io_data d { io with unpause_source := false, paused := false }) io.id
    refine ⟨_, ?_, m1, m2, m3, ?_, ?_⟩
    · unfold unpause_cb
      rw [hfind]
      have hl1 : linked (store_io_data d { io with unpause_source := false, paused := false })
          .paused io.id = true := hl
      have hc1 : (io.read_state == .NOT_STARTED && io.write_state == .NOT_STARTED) = true := by
        rw [hrs, hws]; rfl
      have hc2 : SOUP_MESSAGE_IO_STATE_ACTIVE io.write_state = false := by rw [hws]; rfl
      have hc3 : SOUP_MESSAGE_IO_STATE_ACTIVE io.read_state = false := by rw [hrs]; rfl
      simp only [hc1, hc2, hc3, hl1, if_true, Bool.false_eq_true, if_false]
    · apply (linked_false_iff _ _ _).mpr
      show io.id ∉ (push_link _ _ _).paused_io_queue
      rw [m3]
      exact fun hm => ((hV.nodup .paused).mem_erase_iff.mp hm).1 rfl
    · have := find_store_self d { io with unpause_source := false, paused := false }
        ⟨io, hmem, rfl⟩
      rw [find_io_data_congr m4]
      exact this
  · intro id hl
    have hp : id ∈ d.paused_io_queue := (linked_iff _ _ _).mp hl
    exact ⟨(linked_false_iff _ _ _).mpr (hV.paused_read id hp),
      (linked_false_iff _ _ _).mpr (hV.paused_write id hp)⟩

/-- Witness for C17: the second of two requests, which waits unstarted behind the first, is
paused. -/
theorem pausing_and_resuming_witness :
    Reachable sample_two_requests ∧
    find_io_data sample_two_requests 1 = some (new_io_data 1 (sample_msg 8) true) ∧
    linked (soup_io_dispatcher_pause_io_data sample_two_requests 1) .paused 1 = true ∧
    linked (soup_io_dispatcher_pause_io_data sample_two_requests 1) .read 1 = false ∧
    linked (soup_io_dispatcher_pause_io_data sample_two_requests 1) .write 1 = false ∧
    find_io_data (soup_io_dispatcher_pause_io_data sample_two_requests 1) 1 =
      some { new_io_data 1 (sample_msg 8) true with unpause_source := false, paused := true } :=
  ⟨sample_two_requests_reachable, sample_two_requests_queues.2.2.2,
    (pausing_and_resuming sample_two_requests sample_two_requests_reachable).1 1 _
      sample_two_requests_queues.2.2.2 rfl rfl⟩

theorem find_of_linked_live {d : SoupIODispatcher} (hV : PipelineInv (view d)) (q : QueueSel)
    (id : Nat) (hin : id ∈ (view d).queue q) :
    ∃ io, find_io_data d id = some io ∧ io ∈ d.items ∧ io.id = id := by
  have hs : (find_io_data d id).isSome = true :=
    find_io_data_isSome.mpr (hV.linked_live q id hin)
  obtain ⟨io, hio⟩ := Option.isSome_iff_exists.mp hs
  exact ⟨io, hio, (find_io_data_some hio).2, (find_io_data_some hio).1⟩

/-- C3. Pipeline order.  In every state of a dispatcher no item is linked twice into a queue
and every linked item is live; an item of the write queue that is not its head has the write
state `NOT_STARTED`; an item of the read queue that is not its head has the read state
`NOT_STARTED` or `HEADERS` and an empty metadata buffer; and `io_data_new` appends the new
item, which is linked nowhere before, at the tail of the read queue and of the write queue. -/
theorem pipeline_order (d : SoupIODispatcher) (h : Reachable d) :
    (∀ q, (get_queue d q).Nodup) ∧
    (∀ id ∈ d.write_io_queue, d.write_io_queue.head? ≠ some id →
      ∃ io, find_io_data d id = some io ∧ io.write_state = .NOT_STARTED) ∧
    (∀ id ∈ d.read_io_queue, d.read_io_queue.head? ≠ some id →
      ∃ io, find_io_data d id = some io ∧
        (io.read_state = .NOT_STARTED ∨ io.read_state = .HEADERS) ∧ io.read_meta_buf = []) ∧
    (∀ msg completion_cb,
      (io_data_new d msg completion_cb).1.read_io_queue = d.read_io_queue ++ [d.next_io_data] ∧
      (io_data_new d msg completion_cb).1.write_io_queue =
        d.write_io_queue ++ [d.next_io_data] ∧
      (io_data_new d msg completion_cb).2 = d.next_io_data ∧
      d.next_io_data ∉ d.read_io_queue ∧ d.next_io_data ∉ d.write_io_queue) := by
  have hV := reachable_inv h
  refine ⟨fun q => ?_, ?_, ?_, ?_⟩
  · rw [← view_queue]; exact hV.nodup q
  · intro id hin hhead
    obtain ⟨io, hfind, hmem, hid⟩ := find_of_linked_live hV .write id hin
    subst hid
    exact ⟨io, hfind, hV.write_order io hmem hin hhead⟩
  · intro id hin hhead
    obtain ⟨io, hfind, hmem, hid⟩ := find_of_linked_live hV .read id hin
    subst hid
    exact ⟨io, hfind, hV.read_order io hmem hin hhead⟩
  · intro msg cb
    have hv : view (io_data_new d msg cb).1 =
        (((view d).alloc (new_io_data d.next_io_data msg cb)).push .read d.next_io_data).push
          .write d.next_io_data := by
      unfold io_data_new
      simp only []
      rw [view_push_link, view_inc_queue_length, view_push_link, view_inc_queue_length]
      rfl
    exact ⟨congrArg View.read hv, congrArg View.write hv, rfl,
      fun hm => Nat.lt_irrefl _ (hV.queue_lt .read _ hm),
      fun hm => Nat.lt_irrefl _ (hV.queue_lt .write _ hm)⟩

/-- Witness for C3: of two requests the first is being written and the second, behind it in
the write queue, is unstarted. -/
theorem pipeline_order_witness :
    Reachable sample_two_requests ∧ sample_two_requests.write_io_queue = [0, 1] ∧
    (∃ io, find_io_data sample_two_requests 0 = some io ∧ io.write_state = .HEADERS) ∧
    ∃ io, find_io_data sample_two_requests 1 = some io ∧ io.write_state = .NOT_STARTED :=
  ⟨sample_two_requests_reachable, sample_two_requests_queues.2.1,
    ⟨_, rfl, rfl⟩,
    (pipeline_order sample_two_requests sample_two_requests_reachable).2.1 1 (by decide)
      (by decide)⟩

/-! ## Completion -/

/-- A request that the socket takes and whose response arrives at once is completed within
`soup_io_dispatcher_process_message`: its item is freed and its completion callback has run
once. -/
theorem sample_done_completed :
    disp_step sample_bound (.process_message 6 (sample_msg 7) true sample_env_reply) =
      some sample_done ∧
    sample_done.items = [] ∧ sample_done.read_io_queue = [] ∧
    sample_done.write_io_queue = [] ∧ completed sample_done.trace = [0] :=
  ⟨rfl, by decide, by decide, by decide, by decide⟩

/-! ## An item that waits for `100 Continue` and gets a header block that does not parse -/

end Soup
